import Mathlib

/-!
# Channel dispatch operations of telepathy-mission-control

A shallow embedding of `src/mcd-dispatch-operation.c`.  The private structure
of a dispatch operation (CDO) is a Lean structure, every C function that
mutates it is a function on `World`, the CDO together with the objects it
talks to: the client registry, the handler map, the `McdChannel` objects and
the D-Bus traffic it produces.  Asynchronous replies, D-Bus method calls and
channel aborts are `Event`s; `step` dispatches one event to the C entry point
that the main loop would call for it.

The last sections embed the commit entry points of
`mission-control-plugins/account-storage.c` and, of `src/mcd-dispatcher.c`,
the filter chains and the state machine that walks a channel through its
chain.

Conventions.
* `g_return_if_fail` and `g_return_val_if_fail` return early when their
  condition is false (the default build); `g_critical` and `g_warning` only
  log.
* A failed `g_assert` aborts the process: it sets `World.crashed`, and nothing
  runs after it.  So does reading a field through a `NULL` pointer.
* C strings are `String`; a nullable pointer is an `Option`.
-/

namespace MC

/-! ## Data model -/

/-- The error codes that the dispatch operation produces or inspects. -/
inductive ErrorCode
  | TP_ERROR_NOT_YOURS
  | TP_ERROR_INVALID_ARGUMENT
  | TP_ERROR_CANCELLED
  | MC_CHANNEL_REQUEST_GENERIC_ERROR
  | other (code : Nat)
  deriving DecidableEq, Repr

/-- A `GError`: a code and a message. -/
structure GError where
  code : ErrorCode
  message : String
  deriving DecidableEq, Repr

/-- Modelled from the spec: the dispatch status of a channel, "one of:
undispatched, dispatching, handler-invoked, dispatched, aborted" (the enum
`McdChannelStatus` is declared in `mcd-channel.h`, which is not part of the
sources at hand). -/
inductive McdChannelStatus
  | UNDISPATCHED
  | DISPATCHING
  | HANDLER_INVOKED
  | DISPATCHED
  | ABORTED
  deriving DecidableEq, Repr

/-- The immutable properties of a channel, a map from names to values. -/
abbrev ChannelProperties := List (String × String)

/-- Modelled from the spec: a `McdChannel`, the "passive record of one
channel's identity, immutable properties, error state, and lifecycle status"
(`mcd-channel.c` is not part of the sources at hand).  `tp_chan` is the
underlying `TpChannel`, identified by its object path; it is `none` once the
channel has lost its `TpChannel`. -/
structure McdChannel where
  tp_chan : Option String
  immutable_properties : Option ChannelProperties
  status : McdChannelStatus
  error : Option GError
  undispatchable : Bool
  satisfied_requests : List String
  deriving DecidableEq, Repr

/-- Modelled from the spec: one endpoint of the client registry, with its
roles, its filters, its "bypass approval" flag and the unique name of the
connection that owns its well-known name, if known (`mcd-client.c` is not part
of the sources at hand).  A filter is kept as the predicate it decides on the
immutable properties of a channel. -/
structure McdClientProxy where
  bus_name : String
  unique_name : Option String
  is_observer : Bool
  is_approver : Bool
  bypass_approval : Bool
  observer_filters : ChannelProperties → Bool
  approver_filters : ChannelProperties → Bool

/-- The fields of `struct _McdDispatchOperationPrivate`.  Channels are
referred to by their address (a `Nat`); `failed_handlers` is the set of keys
of the hash table, the empty list standing for the `NULL` table as well. -/
structure McdDispatchOperationPrivate where
  unique_name : String
  object_path : String
  possible_handlers : Option (List String)
  needs_approval : Bool
  failed_handlers : List String
  wants_to_finish : Bool
  handler : Option String
  handle_with_time : Int
  claimer : Option String
  claim_context : Option Nat
  account : Option String
  connection : Option String
  channels : List Nat
  lost_channels : List Nat
  approved : Bool
  awaiting_approval : Bool
  invoked_early_clients : Bool
  observers_pending : Nat
  ado_pending : Nat
  channels_handled : Bool
  cancelled : Bool
  observe_only : Bool
  deriving DecidableEq, Repr

/-- What the dispatch operation sends over D-Bus: the two signals of the
interface, the three calls to clients, and the replies to `HandleWith` and
`Claim` (a method invocation context is a `Nat`). -/
inductive Effect
  | finished
  | channel_lost (object_path : String) (error : GError)
  | observe_channels (client : String) (account_path connection_path : String)
      (channels : List Nat) (dispatch_operation_path : String)
      (satisfied_requests : List String)
  | add_dispatch_operation (client : String) (channels : List Nat)
      (dispatch_operation : String)
  | handle_channels (client : String) (account_path : String)
      (channels : List Nat) (handle_with_time : Int)
  | return_error (context : Nat) (error : ErrorCode)
  | return_from_handle_with (context : Nat)
  | return_from_claim (context : Nat)
  deriving DecidableEq, Repr

/-- The dispatch operation and its surroundings: the registry of clients, the
handler map (channel path, unique name of the handler; newest entry first),
the `McdChannel` objects by address, everything sent over D-Bus so far in
chronological order, and whether a failed `g_assert` has aborted the
process. -/
structure World where
  priv : McdDispatchOperationPrivate
  client_registry : List McdClientProxy
  handler_map : List (String × String)
  chan : Nat → McdChannel
  log : List Effect
  crashed : Bool

/-- Whatever can happen to a dispatch operation: the in-process entry points,
the replies of clients, the two D-Bus methods, the abort of a channel, and the
two changes of the surroundings that the code has to cope with (clients
appearing and vanishing, a channel object being changed by its owner). -/
inductive Event
  | run_clients
  | observe_channels_reply (error : Bool)
  | add_dispatch_operation_reply (error : Bool)
  | handle_channels_reply (client : McdClientProxy) (error : Bool)
  | handle_with (handler_name : Option String) (context : Nat) (now : Int)
  | claim (sender : String) (context : Nat)
  | approve
  | channel_aborted (channel : Nat)
  | registry_changed (clients : List McdClientProxy)
  | channel_changed (channel : Nat) (c : McdChannel)

/-! ## Constants and external helpers -/

def MCD_CLIENT_BASE_NAME : String := "org.freedesktop.Telepathy.Client."

def MCD_CLIENT_BASE_NAME_LEN : Nat := MCD_CLIENT_BASE_NAME.length

/-- The constant of telepathy-glib with which the bus name of a handler is
rebuilt; it is the same string as `MCD_CLIENT_BASE_NAME`. -/
def TP_CLIENT_BUS_NAME_BASE : String := "org.freedesktop.Telepathy.Client."

/-- Modelled from the spec: the "implementation-chosen base" of the object
paths of dispatch operations (the macro is defined in a header that is not
part of the sources at hand). -/
def MC_DISPATCH_OPERATION_DBUS_OBJECT_BASE : String :=
  "/org/freedesktop/Telepathy/DispatchOperation/"

/-- The glib function: does `str` start with `pfx`? -/
def g_str_has_prefix (str pfx : String) : Bool :=
  pfx.data.isPrefixOf str.data

/-- The C expression `handler_name + n`: the string without its first `n`
characters. -/
def str_offset (s : String) (n : Nat) : String := String.mk (s.data.drop n)

def emit (w : World) (e : Effect) : World :=
  { w with log := w.log ++ [e] }

def mcd_channel_get_object_path (c : McdChannel) : Option String := c.tp_chan

def mcd_channel_get_tp_channel (c : McdChannel) : Option String := c.tp_chan

def mcd_channel_get_error (c : McdChannel) : Option GError := c.error

def _mcd_channel_get_immutable_properties (c : McdChannel) :
    Option ChannelProperties :=
  c.immutable_properties

def _mcd_channel_get_satisfied_requests (c : McdChannel) : List String :=
  c.satisfied_requests

/-- Modelled from the spec: "set its status to dispatched" and the like; the
function of `mcd-channel.c` stores the new status in the channel. -/
def _mcd_channel_set_status (w : World) (channel : Nat)
    (status : McdChannelStatus) : World :=
  { w with
    chan := Function.update w.chan channel { (w.chan channel) with status := status } }

/-- Modelled from the spec: the error state of a channel; the function of
`mcd-channel.c` stores the error in the channel. -/
def mcd_channel_take_error (w : World) (channel : Nat) (e : GError) : World :=
  { w with
    chan := Function.update w.chan channel { (w.chan channel) with error := some e } }

/-- Modelled from the spec: "each channel is marked undispatchable"; the
function of `mcd-channel.c` asks for the channel to be closed, and the abort
of the channel that follows reaches the dispatch operation later, as an
event of its own. -/
def _mcd_channel_undispatchable (w : World) (channel : Nat) : World :=
  { w with
    chan := Function.update w.chan channel { (w.chan channel) with undispatchable := true } }

/-- Modelled from the spec: "record (channel → endpoint unique name) in the
handler map" (`mcd-handler-map.c` is not part of the sources at hand). -/
def _mcd_handler_map_set_channel_handled (m : List (String × String))
    (tp_channel unique_name : String) : List (String × String) :=
  (tp_channel, unique_name) :: m

/-- The handler recorded for a channel path, if any. -/
def handler_map_lookup (m : List (String × String)) (path : String) :
    Option String :=
  (m.find? (fun e => e.1 == path)).map Prod.snd

/-- Modelled from the spec: the registry "resolves well-known names to
proxies"; the lookup returns the registered client of that bus name. -/
def _mcd_client_registry_lookup (registry : List McdClientProxy)
    (bus_name : String) : Option McdClientProxy :=
  registry.find? (fun c => c.bus_name == bus_name)

/-- Modelled from the spec: whether the immutable properties of a channel
"match the endpoint's filter predicate". -/
def _mcd_client_match_filters (properties : ChannelProperties)
    (filters : ChannelProperties → Bool) : Bool :=
  filters properties

/-! ## The dispatch operation -/

def mcd_dispatch_operation_may_finish (p : McdDispatchOperationPrivate) :
    Bool :=
  p.observers_pending == 0 && p.ado_pending == 0

def _mcd_dispatch_operation_is_approved (p : McdDispatchOperationPrivate) :
    Bool :=
  p.approved || !p.needs_approval

def _mcd_dispatch_operation_get_connection_path (w : World) : String :=
  match w.priv.connection with
  | none => "/"
  | some path => path

def _mcd_dispatch_operation_get_account_path (w : World) : String :=
  match w.priv.account with
  | none => "/"
  | some path => path

def _mcd_dispatch_operation_get_path (w : World) : String :=
  w.priv.object_path

def _mcd_dispatch_operation_needs_approval (w : World) : Bool :=
  w.priv.needs_approval

def _mcd_dispatch_operation_inc_observers_pending (w : World) : World :=
  if w.priv.wants_to_finish then w
  else { w with priv := { w.priv with
          observers_pending := w.priv.observers_pending + 1 } }

def _mcd_dispatch_operation_inc_ado_pending (w : World) : World :=
  if w.priv.wants_to_finish then w
  else { w with priv := { w.priv with ado_pending := w.priv.ado_pending + 1 } }

/-- The unique name is never `NULL` at the two call sites, so the assertion
on it holds by typing. -/
def mcd_dispatch_operation_set_channel_handled_by (w : World) (channel : Nat)
    (unique_name : String) : World :=
  match mcd_channel_get_tp_channel (w.chan channel) with
  | none => w
  | some tp_channel =>
    let w1 := _mcd_channel_set_status w channel McdChannelStatus.DISPATCHED
    { w1 with
      handler_map :=
        _mcd_handler_map_set_channel_handled w1.handler_map tp_channel
          unique_name }

def mcd_dispatch_operation_handle_channels (w : World)
    (handler : McdClientProxy) : World :=
  let account_path := _mcd_dispatch_operation_get_account_path w
  let w1 := w.priv.channels.foldl
    (fun w0 c => _mcd_channel_set_status w0 c McdChannelStatus.HANDLER_INVOKED) w
  emit w1 (Effect.handle_channels handler.bus_name account_path
    w1.priv.channels w1.priv.handle_with_time)

def _mcd_dispatch_operation_set_handler_failed (w : World)
    (bus_name : String) : World :=
  { w with priv := { w.priv with
      failed_handlers := bus_name :: w.priv.failed_handlers } }

def _mcd_dispatch_operation_get_handler_failed (w : World)
    (bus_name : String) : Bool :=
  decide (bus_name ∈ w.priv.failed_handlers)

/-- The loop of `_mcd_dispatch_operation_run_handlers` over
`possible_handlers`: the first name that is registered and has not failed. -/
def run_handlers_loop (w : World) : List String → Option McdClientProxy
  | [] => none
  | name :: iter =>
    match _mcd_client_registry_lookup w.client_registry name with
    | some handler =>
      if !_mcd_dispatch_operation_get_handler_failed w name then some handler
      else run_handlers_loop w iter
    | none => run_handlers_loop w iter

/-- The end of `_mcd_dispatch_operation_run_handlers`: no handler is left. -/
def run_handlers_give_up (w : World) : World :=
  w.priv.channels.foldl
    (fun w0 channel =>
      _mcd_channel_undispatchable
        (mcd_channel_take_error w0 channel
          { code := ErrorCode.MC_CHANNEL_REQUEST_GENERIC_ERROR,
            message := "Handler no longer available" })
        channel) w

/-- The part of `_mcd_dispatch_operation_run_handlers` after the handler
chosen by the approver. -/
def run_handlers_possible (w : World) : World :=
  match run_handlers_loop w (w.priv.possible_handlers.getD []) with
  | some handler => mcd_dispatch_operation_handle_channels w handler
  | none => run_handlers_give_up w

def _mcd_dispatch_operation_run_handlers (w : World) : World :=
  match w.priv.handler with
  | none => run_handlers_possible w
  | some h =>
    if h = "" then run_handlers_possible w
    else
      let bus_name := TP_CLIENT_BUS_NAME_BASE ++ h
      match _mcd_client_registry_lookup w.client_registry bus_name with
      | some handler =>
        if !_mcd_dispatch_operation_get_handler_failed w bus_name then
          mcd_dispatch_operation_handle_channels w handler
        else run_handlers_possible w
      | none => run_handlers_possible w

def _mcd_dispatch_operation_check_client_locks (w : World) : World :=
  if w.priv.invoked_early_clients && w.priv.ado_pending == 0 &&
      w.priv.observers_pending == 0 &&
      _mcd_dispatch_operation_is_approved w.priv then
    if !w.priv.channels_handled && !w.priv.observe_only then
      _mcd_dispatch_operation_run_handlers
        { w with priv := { w.priv with channels_handled := true } }
    else w
  else w

def _mcd_dispatch_operation_set_approved (w : World) : World :=
  _mcd_dispatch_operation_check_client_locks
    { w with priv := { w.priv with approved := true } }

/-- In `mcd_dispatch_operation_actually_finish`: "Nothing left to
dispatch". -/
def actually_finish_nothing_left (w : World) : World :=
  if w.priv.channels = [] then
    { w with priv := { w.priv with channels_handled := true } }
  else w

/-- In `mcd_dispatch_operation_actually_finish`: the block that gives the
channels to the claimer, with its assertion. -/
def actually_finish_claimer (w : World) : World :=
  match w.priv.claimer with
  | none => w
  | some claimer =>
    let w1 := w.priv.channels.foldl
      (fun w0 channel =>
        mcd_dispatch_operation_set_channel_handled_by w0 channel claimer) w
    if w1.priv.channels_handled then { w1 with crashed := true }
    else { w1 with priv := { w1.priv with channels_handled := true } }

/-- In `mcd_dispatch_operation_actually_finish`: the end of the wait for
approval. -/
def actually_finish_approval (w : World) : World :=
  if w.priv.awaiting_approval then
    _mcd_dispatch_operation_set_approved
      { w with priv := { w.priv with awaiting_approval := false } }
  else w

/-- In `mcd_dispatch_operation_actually_finish`: the reply to `Claim`. -/
def actually_finish_reply (w : World) : World :=
  match w.priv.claim_context with
  | none => w
  | some context =>
    { emit w (Effect.return_from_claim context) with
      priv := { w.priv with claim_context := none } }

def mcd_dispatch_operation_actually_finish (w : World) : World :=
  let w1 := actually_finish_claimer
    (actually_finish_nothing_left (emit w Effect.finished))
  if w1.crashed then w1
  else actually_finish_reply (actually_finish_approval w1)

def _mcd_dispatch_operation_finish (w : World) : World :=
  if w.priv.wants_to_finish then w
  else
    let w1 := { w with priv := { w.priv with wants_to_finish := true } }
    if mcd_dispatch_operation_may_finish w1.priv then
      mcd_dispatch_operation_actually_finish w1
    else w1

/-- The emission of `ChannelLost` for a channel that has an object path, in
`_mcd_dispatch_operation_lose_channel` and in
`_mcd_dispatch_operation_check_finished`: the message of the channel's error
is read, whether or not there is an error. -/
def emit_channel_lost (w : World) (channel : Nat) (object_path : String) :
    World :=
  match mcd_channel_get_error (w.chan channel) with
  | none => { w with crashed := true }
  | some error => emit w (Effect.channel_lost object_path error)

/-- The body of the loop of `_mcd_dispatch_operation_check_finished`, for one
lost channel. -/
def check_finished_lost_channel (w : World) (channel : Nat) : World :=
  if w.crashed then w
  else
    match mcd_channel_get_object_path (w.chan channel) with
    | none => w
    | some object_path => emit_channel_lost w channel object_path

/-- In `_mcd_dispatch_operation_check_finished`: the lost channels are put
into chronological order and stolen from the object, and `ChannelLost` is
emitted for each of them. -/
def check_finished_lost_channels (w : World) : World :=
  w.priv.lost_channels.reverse.foldl check_finished_lost_channel
    { w with priv := { w.priv with lost_channels := [] } }

def _mcd_dispatch_operation_check_finished (w : World) : World :=
  if mcd_dispatch_operation_may_finish w.priv then
    let w1 := check_finished_lost_channels w
    if w1.crashed then w1
    else if w1.priv.wants_to_finish then
      mcd_dispatch_operation_actually_finish w1
    else w1
  else w

def _mcd_dispatch_operation_dec_observers_pending (w : World) : World :=
  if w.priv.observers_pending > 0 then
    let w1 := { w with priv := { w.priv with
      observers_pending := w.priv.observers_pending - 1 } }
    let w2 := _mcd_dispatch_operation_check_finished w1
    if w2.crashed then w2
    else _mcd_dispatch_operation_check_client_locks w2
  else w

def _mcd_dispatch_operation_dec_ado_pending (w : World) : World :=
  if w.priv.ado_pending > 0 then
    let w1 := { w with priv := { w.priv with
      ado_pending := w.priv.ado_pending - 1 } }
    let w2 := _mcd_dispatch_operation_check_finished w1
    if w2.crashed then w2
    else
      let w3 :=
        if w2.priv.ado_pending == 0 && !w2.priv.awaiting_approval then
          { w2 with priv := { w2.priv with approved := true } }
        else w2
      _mcd_dispatch_operation_check_client_locks w3
  else w

/-- The validation behind `HandleWith`; `valid_bus_name` stands for
`tp_dbus_check_valid_bus_name (_, TP_DBUS_NAME_TYPE_WELL_KNOWN, NULL)` of
telepathy-glib. -/
def mcd_dispatch_operation_check_handle_with (valid_bus_name : String → Bool)
    (p : McdDispatchOperationPrivate) (handler_name : Option String) :
    Except ErrorCode Unit :=
  if p.wants_to_finish then Except.error ErrorCode.TP_ERROR_NOT_YOURS
  else
    match handler_name with
    | none => Except.ok ()
    | some name =>
      if name = "" then Except.ok ()
      else if
        (! g_str_has_prefix name MCD_CLIENT_BASE_NAME) || !valid_bus_name name
      then Except.error ErrorCode.TP_ERROR_INVALID_ARGUMENT
      else Except.ok ()

def dispatch_operation_handle_with (valid_bus_name : String → Bool)
    (w : World) (handler_name : Option String) (context : Nat) (now : Int) :
    World :=
  match mcd_dispatch_operation_check_handle_with valid_bus_name w.priv
      handler_name with
  | Except.error e => emit w (Effect.return_error context e)
  | Except.ok _ =>
    let w1 := { w with priv := { w.priv with handle_with_time := now } }
    let w2 :=
      match handler_name with
      | none => w1
      | some name =>
        if name = "" then w1
        else { w1 with priv := { w1.priv with
                handler := some (str_offset name MCD_CLIENT_BASE_NAME_LEN) } }
    let w3 := _mcd_dispatch_operation_finish w2
    if w3.crashed then w3
    else emit w3 (Effect.return_from_handle_with context)

def dispatch_operation_claim (w : World) (sender : String) (context : Nat) :
    World :=
  if w.priv.wants_to_finish then
    emit w (Effect.return_error context ErrorCode.TP_ERROR_NOT_YOURS)
  else if w.priv.claimer.isSome || w.priv.claim_context.isSome then
    { w with crashed := true }
  else
    _mcd_dispatch_operation_finish
      { w with priv := { w.priv with
          claimer := some sender, claim_context := some context } }

def _mcd_dispatch_operation_approve (valid_bus_name : String → Bool)
    (w : World) : World :=
  if w.priv.ado_pending > 0 || w.priv.awaiting_approval then
    match mcd_dispatch_operation_check_handle_with valid_bus_name w.priv
        none with
    | Except.error _ => w
    | Except.ok _ => _mcd_dispatch_operation_finish w
  else _mcd_dispatch_operation_set_approved w

/-- In `_mcd_dispatch_operation_lose_channel`: what is said about the
channel that has just been removed from `channels`. -/
def lose_channel_signal (w : World) (channel : Nat) : World :=
  match mcd_channel_get_object_path (w.chan channel) with
  | none => w
  | some object_path =>
    if !mcd_dispatch_operation_may_finish w.priv then
      { w with priv := { w.priv with
          lost_channels := channel :: w.priv.lost_channels } }
    else emit_channel_lost w channel object_path

def _mcd_dispatch_operation_lose_channel (w : World) (channel : Nat) : World :=
  if channel ∈ w.priv.channels then
    let w1 := lose_channel_signal
      { w with priv := { w.priv with
          channels := w.priv.channels.erase channel } }
      channel
    if w1.crashed then w1
    else if w1.priv.channels = [] then _mcd_dispatch_operation_finish w1
    else w1
  else w

def mcd_dispatch_operation_channel_aborted_cb (w : World) (channel : Nat) :
    World :=
  let w1 :=
    match mcd_channel_get_error (w.chan channel) with
    | none => w
    | some error =>
      if error.code = ErrorCode.TP_ERROR_CANCELLED then
        { w with priv := { w.priv with cancelled := true } }
      else w
  _mcd_dispatch_operation_lose_channel w1 channel

/-- The body of the loop of the success branch of
`_mcd_dispatch_operation_handle_channels_cb`, for one channel. -/
def handle_channels_cb_channel (client : McdClientProxy) (w : World)
    (channel : Nat) : World :=
  match client.unique_name with
  | none => _mcd_channel_undispatchable w channel
  | some unique_name =>
    if unique_name = "" then _mcd_channel_undispatchable w channel
    else mcd_dispatch_operation_set_channel_handled_by w channel unique_name

def _mcd_dispatch_operation_handle_channels_cb (w : World)
    (client : McdClientProxy) (error : Bool) : World :=
  if error then
    _mcd_dispatch_operation_run_handlers
      (_mcd_dispatch_operation_set_handler_failed w client.bus_name)
  else
    _mcd_dispatch_operation_finish
      (w.priv.channels.foldl (handle_channels_cb_channel client) w)

def observe_channels_cb (w : World) (_error : Bool) : World :=
  _mcd_dispatch_operation_dec_observers_pending w

def add_dispatch_operation_cb (w : World) (error : Bool) : World :=
  let w1 :=
    if error then w
    else if !w.priv.awaiting_approval then
      { w with priv := { w.priv with awaiting_approval := true } }
    else w
  _mcd_dispatch_operation_dec_ado_pending w1

/-- The set of satisfied requests of the channels, every path once: a path
is added when it is not in the set yet.  (The C code serialises a hash table,
whose order is unspecified; here the order is that of first insertion.) -/
def collect_satisfied_requests (chan : Nat → McdChannel)
    (channels : List Nat) : List String :=
  channels.foldl
    (fun set c =>
      (_mcd_channel_get_satisfied_requests (chan c)).foldl
        (fun set0 r => if r ∈ set0 then set0 else set0 ++ [r]) set) []

/-- The inner loop of `_mcd_dispatch_operation_run_observers`: the channels
that the observer's filters match, each prepended to `observed`; `none` when
the assertion on the immutable properties fails. -/
def run_observers_observed (chan : Nat → McdChannel) (client : McdClientProxy) :
    List Nat → List Nat → Option (List Nat)
  | [], observed => some observed
  | channel :: cl, observed =>
    match _mcd_channel_get_immutable_properties (chan channel) with
    | none => none
    | some properties =>
      if _mcd_client_match_filters properties client.observer_filters then
        run_observers_observed chan client cl (channel :: observed)
      else run_observers_observed chan client cl observed

/-- The body of the loop of `_mcd_dispatch_operation_run_observers`, for one
client of the registry. -/
def run_observers_client (w : World) (client : McdClientProxy) : World :=
  if w.crashed then w
  else if !client.is_observer then w
  else
    match run_observers_observed w.chan client w.priv.channels [] with
    | none => { w with crashed := true }
    | some [] => w
    | some (o :: observed) =>
      let connection_path := _mcd_dispatch_operation_get_connection_path w
      let account_path := _mcd_dispatch_operation_get_account_path w
      let satisfied_requests := collect_satisfied_requests w.chan (o :: observed)
      let dispatch_operation_path :=
        if _mcd_dispatch_operation_needs_approval w then
          _mcd_dispatch_operation_get_path w
        else "/"
      let w1 := _mcd_dispatch_operation_inc_observers_pending w
      emit w1 (Effect.observe_channels client.bus_name account_path
        connection_path (o :: observed) dispatch_operation_path
        satisfied_requests)

def _mcd_dispatch_operation_run_observers (w : World) : World :=
  w.client_registry.foldl run_observers_client w

/-- The inner loop of `_mcd_dispatch_operation_run_approvers`: whether the
approver's filters match a channel; the loop stops at the first match, and
the result is `none` when the assertion on the immutable properties fails
before that. -/
def run_approvers_matched (chan : Nat → McdChannel) (client : McdClientProxy) :
    List Nat → Option Bool
  | [] => some false
  | channel :: cl =>
    match _mcd_channel_get_immutable_properties (chan channel) with
    | none => none
    | some properties =>
      if _mcd_client_match_filters properties client.approver_filters then
        some true
      else run_approvers_matched chan client cl

/-- The body of the loop of `_mcd_dispatch_operation_run_approvers`, for one
client of the registry. -/
def run_approvers_client (w : World) (client : McdClientProxy) : World :=
  if w.crashed then w
  else if !client.is_approver then w
  else
    match run_approvers_matched w.chan client w.priv.channels with
    | none => { w with crashed := true }
    | some false => w
    | some true =>
      let dispatch_operation := _mcd_dispatch_operation_get_path w
      let w1 := _mcd_dispatch_operation_inc_ado_pending w
      emit w1 (Effect.add_dispatch_operation client.bus_name w1.priv.channels
        dispatch_operation)

def _mcd_dispatch_operation_run_approvers (w : World) : World :=
  let w1 := _mcd_dispatch_operation_inc_ado_pending w
  let w2 := w1.client_registry.foldl run_approvers_client w1
  if w2.crashed then w2
  else _mcd_dispatch_operation_dec_ado_pending w2

/-- The loop of `_mcd_dispatch_operation_handlers_can_bypass_approval`. -/
def handlers_can_bypass_approval_loop (registry : List McdClientProxy) :
    List String → Bool
  | [] => false
  | name :: iter =>
    match _mcd_client_registry_lookup registry name with
    | some handler => handler.bypass_approval
    | none => handlers_can_bypass_approval_loop registry iter

def _mcd_dispatch_operation_handlers_can_bypass_approval (w : World) : Bool :=
  handlers_can_bypass_approval_loop w.client_registry
    (w.priv.possible_handlers.getD [])

/-- In `_mcd_dispatch_operation_run_clients`: a handler that bypasses approval
constitutes approval. -/
def run_clients_bypass (w : World) : World :=
  if _mcd_dispatch_operation_handlers_can_bypass_approval w then
    _mcd_dispatch_operation_set_approved w
  else w

/-- In `_mcd_dispatch_operation_run_clients`: the block that starts the
approvers. -/
def run_clients_approvers (w : World) : World :=
  if _mcd_dispatch_operation_needs_approval w then
    let w1 := run_clients_bypass w
    if !_mcd_dispatch_operation_is_approved w1.priv then
      _mcd_dispatch_operation_run_approvers w1
    else w1
  else w

def _mcd_dispatch_operation_run_clients (w : World) : World :=
  let w1 := _mcd_dispatch_operation_run_observers w
  if w1.crashed then w1
  else
    let w2 := run_clients_approvers w1
    if w2.crashed then w2
    else
      _mcd_dispatch_operation_check_client_locks
        { w2 with priv := { w2.priv with invoked_early_clients := true } }

/-! ## Construction -/

/-- The private structure as `g_object_new` leaves it before the construct
properties are set: all zero. -/
def _mcd_dispatch_operation_init : McdDispatchOperationPrivate :=
  { unique_name := "", object_path := "", possible_handlers := none,
    needs_approval := false, failed_handlers := [], wants_to_finish := false,
    handler := none, handle_with_time := 0, claimer := none,
    claim_context := none, account := none, connection := none,
    channels := [], lost_channels := [], approved := false,
    awaiting_approval := false, invoked_early_clients := false,
    observers_pending := 0, ado_pending := 0, channels_handled := false,
    cancelled := false, observe_only := false }

/-- The function `create_object_path`; `cpt` is the static counter, a
`guint`.  The result is the object path, the unique name and the counter
after the call. -/
def create_object_path (cpt : Nat) : String × String × Nat :=
  let unique_name := "do" ++ Nat.repr (cpt % 2 ^ 32)
  (MC_DISPATCH_OPERATION_DBUS_OBJECT_BASE ++ unique_name, unique_name,
    (cpt + 1) % 2 ^ 32)

/-- The constructor of the class, after the construct properties have been
set: `have_client_registry` and `have_handler_map` say whether the two
references are non-`NULL`; `account` and `connection` are those of the first
channel.  The result is `none` when the construction is refused. -/
def mcd_dispatch_operation_constructor (cpt : Nat)
    (have_client_registry have_handler_map : Bool)
    (needs_approval observe_only : Bool) (channels : List Nat)
    (account connection : Option String)
    (possible_handlers : Option (List String)) :
    Option (McdDispatchOperationPrivate × Nat) :=
  if !have_client_registry || !have_handler_map then none
  else if possible_handlers.isNone && !observe_only then none
  else if needs_approval && observe_only then none
  else
    let path := create_object_path cpt
    some ({ _mcd_dispatch_operation_init with
            unique_name := path.2.1, object_path := path.1,
            possible_handlers := possible_handlers,
            needs_approval := needs_approval, observe_only := observe_only,
            channels := channels,
            account := if channels = [] then none else account,
            connection := if channels = [] then none else connection },
          path.2.2)

/-- The function `_mcd_dispatch_operation_new`. -/
def _mcd_dispatch_operation_new (cpt : Nat)
    (have_client_registry have_handler_map : Bool)
    (needs_approval observe_only : Bool) (channels : List Nat)
    (account connection : Option String)
    (possible_handlers : Option (List String)) :
    Option (McdDispatchOperationPrivate × Nat) :=
  if !(possible_handlers.isSome || observe_only) then none
  else if observe_only && needs_approval then none
  else
    mcd_dispatch_operation_constructor cpt have_client_registry
      have_handler_map needs_approval observe_only channels account connection
      possible_handlers

/-- The world right after the construction of a dispatch operation: nothing
has been sent yet. -/
def World.fresh (priv : McdDispatchOperationPrivate)
    (client_registry : List McdClientProxy)
    (handler_map : List (String × String)) (chan : Nat → McdChannel) : World :=
  { priv := priv, client_registry := client_registry,
    handler_map := handler_map, chan := chan, log := [], crashed := false }

/-! ## Events -/

/-- One turn of the main loop: the entry point that the event reaches.
Nothing runs once the process has aborted. -/
def step (valid_bus_name : String → Bool) (w : World) : Event → World
  | Event.run_clients =>
    if w.crashed then w else _mcd_dispatch_operation_run_clients w
  | Event.observe_channels_reply error =>
    if w.crashed then w else observe_channels_cb w error
  | Event.add_dispatch_operation_reply error =>
    if w.crashed then w else add_dispatch_operation_cb w error
  | Event.handle_channels_reply client error =>
    if w.crashed then w
    else _mcd_dispatch_operation_handle_channels_cb w client error
  | Event.handle_with handler_name context now =>
    if w.crashed then w
    else dispatch_operation_handle_with valid_bus_name w handler_name context now
  | Event.claim sender context =>
    if w.crashed then w else dispatch_operation_claim w sender context
  | Event.approve =>
    if w.crashed then w else _mcd_dispatch_operation_approve valid_bus_name w
  | Event.channel_aborted channel =>
    if w.crashed then w else mcd_dispatch_operation_channel_aborted_cb w channel
  | Event.registry_changed clients =>
    if w.crashed then w else { w with client_registry := clients }
  | Event.channel_changed channel c =>
    if w.crashed then w else { w with chan := Function.update w.chan channel c }

/-- A sequence of events, oldest first. -/
def run (valid_bus_name : String → Bool) (w : World) (es : List Event) : World :=
  es.foldl (step valid_bus_name) w

/-- How many times `Finished` occurs in a log. -/
def finished_count (log : List Effect) : Nat := log.count Effect.finished

/-- How many `HandleChannels` calls a log holds for the client `n`. -/
def handle_channels_count (n : String) (log : List Effect) : Nat :=
  log.countP (fun e =>
    match e with
    | Effect.handle_channels client _ _ _ => client == n
    | _ => false)

/-- The private structure without the two latches that the handler stage
writes. -/
def core (p : McdDispatchOperationPrivate) : McdDispatchOperationPrivate :=
  { p with approved := false, channels_handled := false }

/-- `w2` differs from `w1` at most in the channel objects, the handler map,
the log and the latches `approved` and `channels_handled`. -/
structure Frame (w1 w2 : World) : Prop where
  priv_core : core w2.priv = core w1.priv
  registry : w2.client_registry = w1.client_registry
  crashed : w2.crashed = w1.crashed

/-- A frame step that sends nothing. -/
structure Silent (w1 w2 : World) extends Frame w1 w2 : Prop where
  log : w2.log = w1.log

/-- The `HandleChannels` call that `mcd_dispatch_operation_handle_channels`
sends to `handler`. -/
def handle_channels_call (w : World) (handler : McdClientProxy) : Effect :=
  Effect.handle_channels handler.bus_name
    (_mcd_dispatch_operation_get_account_path w) w.priv.channels
    w.priv.handle_with_time

/-- A frame step that sends at most one `HandleChannels` call, to a client
that is registered and has not failed. -/
structure Inner (w1 w2 : World) extends Frame w1 w2 : Prop where
  log : w2.log = w1.log ∨
    ∃ h : McdClientProxy,
      _mcd_client_registry_lookup w1.client_registry h.bus_name = some h ∧
      h.bus_name ∉ w1.priv.failed_handlers ∧
      w2.log = w1.log ++ [handle_channels_call w1 h]

/-- The function `_mcd_dispatch_operation_is_finished`: the operation wants
to finish, and it may. -/
def _mcd_dispatch_operation_is_finished (w : World) : Bool :=
  w.priv.wants_to_finish && mcd_dispatch_operation_may_finish w.priv

/-- `w2` comes from `w1` by emitting `Finished` exactly `k` times, without
touching `wants_to_finish`, the two client locks or the set of failed
handlers, and without calling a failed handler. -/
structure Eff (k : Nat) (w1 w2 : World) : Prop where
  wants_to_finish : w2.priv.wants_to_finish = w1.priv.wants_to_finish
  observers_pending : w2.priv.observers_pending = w1.priv.observers_pending
  ado_pending : w2.priv.ado_pending = w1.priv.ado_pending
  failed_handlers : w2.priv.failed_handlers = w1.priv.failed_handlers
  finished : finished_count w2.log = finished_count w1.log + k
  handle_channels : ∀ n ∈ w1.priv.failed_handlers,
    handle_channels_count n w2.log = handle_channels_count n w1.log

/-- An effect that is neither `Finished` nor a `HandleChannels` call. -/
def Effect.is_minor : Effect → Bool
  | Effect.finished => false
  | Effect.handle_channels _ _ _ _ => false
  | _ => true

/-- What every entry point of the dispatch operation guarantees, from any
state: `wants_to_finish` is a latch; `Finished` is emitted at most once, and
then the operation is finished and was not before; a finished operation stays
finished; a failed handler stays failed and is not called. -/
structure Trans (w1 w2 : World) : Prop where
  wants_to_finish :
    w1.priv.wants_to_finish = true → w2.priv.wants_to_finish = true
  finished : finished_count w2.log = finished_count w1.log ∨
    (finished_count w2.log = finished_count w1.log + 1 ∧
      _mcd_dispatch_operation_is_finished w2 = true ∧
      _mcd_dispatch_operation_is_finished w1 = false)
  stable : _mcd_dispatch_operation_is_finished w1 = true →
    _mcd_dispatch_operation_is_finished w2 = true
  failed : ∀ n ∈ w1.priv.failed_handlers,
    n ∈ w2.priv.failed_handlers ∧
      handle_channels_count n w2.log = handle_channels_count n w1.log

/-! ## The two D-Bus methods -/

/-- What a step from `w1` to `w2` has sent: the part of the log of `w2`
after the log of `w1`. -/
def sent (w1 w2 : World) : List Effect := w2.log.drop w1.log.length

/-- In the reference definition: the name is registered and is not in
`failed_handlers`. -/
def handler_usable (registry : List McdClientProxy)
    (failed_handlers : List String) (name : String) : Bool :=
  registry.any (fun c => c.bus_name == name) &&
    !failed_handlers.contains name

/-- The reference definition of handler selection, after the words of the
specification: if a non-empty chosen handler was recorded by `HandleWith` and
its bus name is registered and not in `failed_handlers`, that handler;
otherwise the first name of `possible_handlers`, in list order, that is
registered and not in `failed_handlers`; none when there is no such name. -/
def select_handler_reference (registry : List McdClientProxy)
    (chosen_handler : Option String) (possible_handlers : List String)
    (failed_handlers : List String) : Option String :=
  match chosen_handler with
  | some h =>
    if h ≠ "" ∧
        handler_usable registry failed_handlers (TP_CLIENT_BUS_NAME_BASE ++ h) =
          true then
      some (TP_CLIENT_BUS_NAME_BASE ++ h)
    else possible_handlers.find? (handler_usable registry failed_handlers)
  | none => possible_handlers.find? (handler_usable registry failed_handlers)

/-! ## Example states -/

/-- An operation that needs approval, with two channels and one possible
handler. -/
def example_priv : McdDispatchOperationPrivate :=
  { _mcd_dispatch_operation_init with
    unique_name := "do0",
    object_path := "/org/freedesktop/Telepathy/DispatchOperation/do0",
    possible_handlers := some ["org.freedesktop.Telepathy.Client.H1"],
    needs_approval := true,
    channels := [1, 2] }

/-- Channel objects that all have a `TpChannel` and immutable properties. -/
def example_chan (n : Nat) : McdChannel :=
  { tp_chan := some (if n = 1 then "/ch1" else "/ch2"),
    immutable_properties := some [],
    status := McdChannelStatus.UNDISPATCHED, error := none,
    undispatchable := false, satisfied_requests := [] }

/-- A handler that is running. -/
def example_handler : McdClientProxy :=
  { bus_name := "org.freedesktop.Telepathy.Client.H1",
    unique_name := some ":1.5", is_observer := false, is_approver := false,
    bypass_approval := false, observer_filters := fun _ => true,
    approver_filters := fun _ => true }

def example_world : World :=
  World.fresh example_priv [example_handler] [] example_chan

/-- The first channel after it has been closed: its error says so. -/
def example_chan_closed : McdChannel :=
  { (example_chan 1) with
    status := McdChannelStatus.ABORTED,
    error := some { code := ErrorCode.other 0, message := "Channel closed" } }

/-- An approver whose filters match every channel. -/
def example_approver : McdClientProxy :=
  { bus_name := "org.freedesktop.Telepathy.Client.A1",
    unique_name := some ":1.6", is_observer := false, is_approver := true,
    bypass_approval := false, observer_filters := fun _ => true,
    approver_filters := fun _ => true }

/-- The operation of `example_world` with the approver registered as well. -/
def example_world_approver : World :=
  World.fresh example_priv [example_handler, example_approver] []
    example_chan

/-- Channel objects of which the first has lost its `TpChannel`. -/
def example_chan_lost (n : Nat) : McdChannel :=
  { tp_chan := if n = 1 then none else some "/ch2",
    immutable_properties := some [],
    status := McdChannelStatus.UNDISPATCHED, error := none,
    undispatchable := false, satisfied_requests := [] }

def example_world_lost : World :=
  World.fresh example_priv [example_handler] [] example_chan_lost

/-- The state of `example_world_lost` after `run_clients`: the handler has
been sent `HandleChannels` and has not replied yet. -/
def example_world_invoked : World :=
  run (fun _ => true) example_world_lost [Event.run_clients]

/-- The operation of `example_world` right after the last client lock has
been released, with `wants_to_finish` set while the lock was held. -/
def example_world_wants_to_finish : World :=
  { example_world with
    priv := { example_priv with wants_to_finish := true } }

/-! ## The counter of object paths -/

/-- The static counter of `create_object_path` after `n` dispatch operations
have been constructed, when it was `cpt` before the first of them. -/
def counter_after (cpt : Nat) : Nat → Nat
  | 0 => cpt
  | n + 1 => (create_object_path (counter_after cpt n)).2.2

/-- The unique name that `create_object_path` gives to the dispatch operation
constructed after `n` others, when the counter was `cpt` at first. -/
def nth_unique_name (cpt n : Nat) : String :=
  (create_object_path (counter_after cpt n)).2.1

/-- The value of a string of decimal digits. -/
def decimal_value (l : List Char) : Nat :=
  l.foldl (fun a c => a * 10 + (c.toNat - 48)) 0

/-! ## What is sent -/

/-- An `AddDispatchOperation` call. -/
def Effect.is_add_dispatch_operation : Effect → Bool
  | Effect.add_dispatch_operation _ _ _ => true
  | _ => false

/-- A `HandleChannels` call, to any client. -/
def Effect.is_handle_channels : Effect → Bool
  | Effect.handle_channels _ _ _ _ => true
  | _ => false

/-- A `ChannelLost` signal. -/
def Effect.is_channel_lost : Effect → Bool
  | Effect.channel_lost _ _ => true
  | _ => false

/-- The step from `w1` to `w2` only adds to the log, and all it adds
satisfies `P`. -/
def Sends (P : Effect → Bool) (w1 w2 : World) : Prop :=
  ∃ l : List Effect, w2.log = w1.log ++ l ∧ ∀ e ∈ l, P e = true

/-- A handler that bypasses approval. -/
def example_bypass_handler : McdClientProxy :=
  { bus_name := "org.freedesktop.Telepathy.Client.H1",
    unique_name := some ":1.5", is_observer := false, is_approver := false,
    bypass_approval := true, observer_filters := fun _ => true,
    approver_filters := fun _ => true }

/-- The operation of `example_world` with the approver and a handler that
bypasses approval. -/
def example_world_bypass : World :=
  World.fresh example_priv [example_approver, example_bypass_handler] []
    example_chan

/-! ## Default-allow approval -/

/-- An approver or observer reply that does not accept the dispatch
operation: any reply of an observer, a failure of an approver. -/
def Event.is_early_failure : Event → Bool
  | Event.observe_channels_reply _ => true
  | Event.add_dispatch_operation_reply error => error
  | _ => false

/-- The state of an operation that needs approval after
`_mcd_dispatch_operation_run_clients` has run its approvers: at least one
`AddDispatchOperation` call is in flight, no approver has accepted, and there
has been no `HandleWith`, no `Claim` and no call of
`_mcd_dispatch_operation_approve`. -/
def awaiting_replies (w : World) : Prop :=
  w.crashed = false ∧ w.priv.invoked_early_clients = true ∧
  w.priv.needs_approval = true ∧ w.priv.observe_only = false ∧
  w.priv.wants_to_finish = false ∧ w.priv.awaiting_approval = false ∧
  w.priv.approved = false ∧ w.priv.channels_handled = false ∧
  w.priv.handler = none ∧ w.priv.lost_channels = [] ∧ 0 < w.priv.ado_pending

/-- The `HandleChannels` call to the first name of `possible_handlers` that is
registered and has not failed; nothing when there is no such name. -/
def first_usable_call (w : World) : List Effect :=
  match (w.priv.possible_handlers.getD []).find?
      (handler_usable w.client_registry w.priv.failed_handlers) with
  | some name =>
    [Effect.handle_channels name (_mcd_dispatch_operation_get_account_path w)
      w.priv.channels w.priv.handle_with_time]
  | none => []

/-- The private structure without the two client locks and the two latches
that the replies of the early clients write. -/
def early_core (p : McdDispatchOperationPrivate) : McdDispatchOperationPrivate :=
  { p with observers_pending := 0, ado_pending := 0, approved := false,
           channels_handled := false }

/-- The state `w2` of an operation that was in the state `w1` before replies
of early clients that did not accept it: it is approved once `ado_pending` is
zero, and the first usable handler has been called once both locks are. -/
structure Early (w1 w2 : World) : Prop where
  core : early_core w2.priv = early_core w1.priv
  registry : w2.client_registry = w1.client_registry
  crashed : w2.crashed = false
  approved : w2.priv.approved = decide (w2.priv.ado_pending = 0)
  handled : w2.priv.channels_handled =
    decide (w2.priv.ado_pending = 0 ∧ w2.priv.observers_pending = 0)
  log : w2.log = w1.log ++
    if w2.priv.ado_pending = 0 ∧ w2.priv.observers_pending = 0 then
      first_usable_call w1
    else []

def Event.is_observe_channels_reply : Event → Bool
  | Event.observe_channels_reply _ => true
  | _ => false

def Event.is_add_dispatch_operation_reply : Event → Bool
  | Event.add_dispatch_operation_reply _ => true
  | _ => false

/-- The operation of `example_world_approver` after `run_clients`: the
approver has been sent `AddDispatchOperation` and has not replied yet. -/
def example_world_awaiting : World :=
  run (fun _ => true) example_world_approver [Event.run_clients]

/-! ## The flow of a step -/

/-- Handler selection can never start again from this state: the operation
only observes, or its channels have been handled. -/
def blocked (w : World) : Prop :=
  w.priv.observe_only = true ∨ w.priv.channels_handled = true

/-- Anything that is sent but a `HandleChannels` call. -/
def no_handle_channels (e : Effect) : Bool := !e.is_handle_channels

/-- The object path that a `ChannelLost` signal carries. -/
def Effect.lost_path : Effect → Option String
  | Effect.channel_lost object_path _ => some object_path
  | _ => none

/-- The object paths of the `ChannelLost` signals of a log, oldest first. -/
def lost_signals (log : List Effect) : List String :=
  log.filterMap Effect.lost_path

/-- The object path of a channel, if it has one. -/
def channel_path (w : World) (c : Nat) : Option String :=
  mcd_channel_get_object_path (w.chan c)

/-- The object paths of the channels whose `ChannelLost` signal has been
deferred, in the order in which the channels were lost. -/
def deferred (w : World) : List String :=
  w.priv.lost_channels.reverse.filterMap (channel_path w)

/-- The `ChannelLost` signals that have been emitted, followed by those that
are still deferred. -/
def lost_view (w : World) : List String := lost_signals w.log ++ deferred w

/-- No `ChannelLost` signal is deferred while no client lock is held. -/
def lost_ready (w : World) : Prop :=
  mcd_dispatch_operation_may_finish w.priv = true → w.priv.lost_channels = []

/-- What a step from `w1` to `w2` does to the channels: it removes the
channels `r` from `channels`, in this order, and each of them that has an
object path gets its `ChannelLost` signal, emitted or deferred, after those
of the channels lost before; the channel objects keep their `TpChannel`. -/
structure Lost (r : List Nat) (w1 w2 : World) : Prop where
  crashed : w1.crashed = true → w2.crashed = true
  tp_chan : ∀ c, (w2.chan c).tp_chan = (w1.chan c).tp_chan
  channels : w2.priv.channels = r.foldl List.erase w1.priv.channels
  ready : w2.crashed = false → lost_ready w1 → lost_ready w2
  view : w2.crashed = false → lost_ready w1 →
    lost_view w2 = lost_view w1 ++ r.filterMap (channel_path w1)

/-- A step from `w1` to `w2` that calls no handler when handler selection is
blocked in `w1`; `observe_only` is constant and `channels_handled` is a
latch, so that a blocked state stays blocked. -/
structure Quiet (w1 w2 : World) : Prop where
  observe_only : w2.priv.observe_only = w1.priv.observe_only
  channels_handled :
    w1.priv.channels_handled = true → w2.priv.channels_handled = true
  calm : blocked w1 → Sends no_handle_channels w1 w2

/-- What every entry point but the failure reply to `HandleChannels`
guarantees. -/
structure Flow (r : List Nat) (w1 w2 : World) : Prop where
  lost : Lost r w1 w2
  quiet : Quiet w1 w2

/-- The channels that an event removes from `channels`: an abort removes
the channel when the channel is there. -/
def Event.removed (w : World) : Event → List Nat
  | Event.channel_aborted c =>
    if w.crashed = false ∧ c ∈ w.priv.channels then [c] else []
  | _ => []

/-- The event leaves every channel object its `TpChannel`. -/
def Event.keeps_paths (w : World) : Event → Prop
  | Event.channel_changed c x => x.tp_chan = (w.chan c).tp_chan
  | _ => True

/-- A failure reply to `HandleChannels`. -/
def Event.is_handler_failure : Event → Bool
  | Event.handle_channels_reply _ error => error
  | _ => false

/-! ## Replies answer calls -/

/-- A reply to `HandleChannels` comes from a client that has been sent a
`HandleChannels` call. -/
def Event.answers_call (w : World) : Event → Prop
  | Event.handle_channels_reply client _ =>
    0 < handle_channels_count client.bus_name w.log
  | _ => True

/-- In the sequence of events `es`, applied from the state `w`, every reply
to `HandleChannels` answers a call. -/
def calls_answered (valid_bus_name : String → Bool) : World → List Event → Prop
  | _, [] => True
  | w, e :: es =>
    e.answers_call w ∧ calls_answered valid_bus_name (step valid_bus_name w e) es

/-- An operation that only observes its two channels, with an observer and a
handler registered. -/
def example_world_observe_only : World :=
  World.fresh
    { example_priv with needs_approval := false, observe_only := true,
                        possible_handlers := none }
    [{ example_handler with is_observer := true }] [] example_chan

/-- The operation of `example_world` once a `Claim` of `:1.7` has been
accepted. -/
def example_world_claimed : World :=
  { example_world with
    priv := { example_priv with
      wants_to_finish := true, claimer := some ":1.7", claim_context := some 7 } }

/-- Anything that is sent but an `AddDispatchOperation` call. -/
def no_add_dispatch_operation (e : Effect) : Bool :=
  !e.is_add_dispatch_operation

/-! ## Waiting for approval -/

/-- An approver has accepted the operation, and nobody has approved it yet:
`awaiting_approval` is set, `approved` is not; and the operation wants to
finish only when it has lost all its channels. -/
def awaits_approval (w : World) : Prop :=
  w.priv.needs_approval = true ∧ w.priv.approved = false ∧
  w.priv.awaiting_approval = true ∧
  (w.priv.wants_to_finish = true → w.priv.channels = [])

/-- The step from `w1` to `w2` calls no handler, and after it the operation
still awaits approval, unless it has finished with its channels counted as
handled or the process has aborted. -/
structure Waits (w1 w2 : World) : Prop where
  state : w2.crashed = true ∨
    (w2.priv.channels_handled = true ∧ w2.priv.wants_to_finish = true) ∨
    awaits_approval w2
  calm : Sends no_handle_channels w1 w2

/-- `HandleWith`, `Claim` and the in-process approval. -/
def Event.is_approval : Event → Bool
  | Event.handle_with _ _ _ => true
  | Event.claim _ _ => true
  | Event.approve => true
  | _ => false

def Event.is_run_clients : Event → Bool
  | Event.run_clients => true
  | _ => false

/-! ## The order of ChannelLost -/

/-- The channels that the events `es`, applied from the state `w`, remove
from `channels`, in the order of their aborts. -/
def aborted (valid_bus_name : String → Bool) : World → List Event → List Nat
  | _, [] => []
  | w, e :: es =>
    e.removed w ++ aborted valid_bus_name (step valid_bus_name w e) es

/-- No event of `es`, applied from the state `w`, takes the `TpChannel` of a
channel object away or gives it another one. -/
def paths_kept (valid_bus_name : String → Bool) : World → List Event → Prop
  | _, [] => True
  | w, e :: es =>
    e.keeps_paths w ∧ paths_kept valid_bus_name (step valid_bus_name w e) es

/-- An observer whose filters match every channel. -/
def example_observer : McdClientProxy :=
  { bus_name := "org.freedesktop.Telepathy.Client.O1",
    unique_name := some ":1.8", is_observer := true, is_approver := false,
    bypass_approval := false, observer_filters := fun _ => true,
    approver_filters := fun _ => true }

/-- The operation of `example_world` with the observer registered as well. -/
def example_world_observer : World :=
  World.fresh example_priv [example_handler, example_observer] []
    example_chan

/-- The second channel after it has been closed. -/
def example_chan_closed2 : McdChannel :=
  { (example_chan 2) with
    status := McdChannelStatus.ABORTED,
    error := some { code := ErrorCode.other 0, message := "Channel closed" } }

/-- Anything that is sent but a `ChannelLost` signal. -/
def no_channel_lost (e : Effect) : Bool := !e.is_channel_lost

/-! ## Account storage plugins

The commit entry points of `mission-control-plugins/account-storage.c`. -/

/-- A call of one of the two commit methods of a storage plugin, with the
account name that `commit_one` is given (`none` is `NULL`). -/
inductive PluginCall
  | commit
  | commit_one (account : Option String)
  deriving DecidableEq, Repr

/-- The two commit methods of `struct _McpAccountStorageIface`.  A method
that the plugin does not implement is the `NULL` pointer, `none`; a method
that it implements is given by the value it returns. -/
structure McpAccountStorageIface where
  commit : Option Bool
  commit_one : Option (Option String → Bool)

/-- The function `mcp_account_storage_commit`: its return value and the calls
that reach the plugin.  The argument is the interface of the storage, `none`
when `MCP_ACCOUNT_STORAGE_GET_IFACE` gives `NULL`. -/
def mcp_account_storage_commit (iface : Option McpAccountStorageIface) :
    Bool × List PluginCall :=
  match iface with
  | none => (false, [])
  | some iface =>
    match iface.commit with
    | none => (false, [])
    | some commit => (commit, [PluginCall.commit])

/-- The function `mcp_account_storage_commit_one`: its return value and the
calls that reach the plugin. -/
def mcp_account_storage_commit_one (iface : Option McpAccountStorageIface)
    (account : Option String) : Bool × List PluginCall :=
  match iface with
  | none => (false, [])
  | some i =>
    match i.commit_one, account with
    | some commit_one, some account =>
      (commit_one (some account), [PluginCall.commit_one (some account)])
    | _, _ => mcp_account_storage_commit (some i)

/-- A storage plugin that implements `commit_one`, always with success, and
not `commit`. -/
def example_storage_iface : McpAccountStorageIface :=
  { commit := none, commit_one := some (fun _ => true) }

/-! ## Filter chains

The filter chains and the state machine of `src/mcd-dispatcher.c`. -/

/-- The structure `McdFilter`: a filter function, referred to by its address,
and its priority (a `guint`). -/
structure McdFilter where
  func : Nat
  priority : Nat
  deriving DecidableEq, Repr

/-- The loop of `chain_add_filter`: the position of the first element, from
position `i` on, whose priority is greater than or equal to `priority`;
`none` is the `NULL` that the loop ends with when there is none. -/
def chain_add_filter_elem (priority : Nat) : List McdFilter → Nat → Option Nat
  | [], _ => none
  | f :: next, i =>
    if f.priority >= priority then some i
    else chain_add_filter_elem priority next (i + 1)

/-- GLib's `g_list_insert_before`: the data goes in front of the element
`sibling` (given by its position), or to the end of the list when `sibling`
is `NULL`. -/
def g_list_insert_before {α : Type} (list : List α) (sibling : Option Nat)
    (data : α) : List α :=
  match sibling with
  | none => list ++ [data]
  | some i => list.take i ++ data :: list.drop i

def chain_add_filter (chain : List McdFilter) (filter : Nat) (priority : Nat) :
    List McdFilter :=
  let filter_data : McdFilter := { func := filter, priority := priority }
  let elem := chain_add_filter_elem priority chain 0
  g_list_insert_before chain elem filter_data

/-- A chain in the order of its priorities, the smallest first. -/
def chain_sorted (chain : List McdFilter) : Prop :=
  chain.Pairwise (fun a b => a.priority ≤ b.priority)

/-- A chain of four filters with the priorities 10, 20, 20 and 30. -/
def example_chain : List McdFilter :=
  [{ func := 1, priority := 10 }, { func := 2, priority := 20 },
   { func := 3, priority := 20 }, { func := 4, priority := 30 }]

/-! ## What the observers are told -/

/-- The channels of the list whose immutable properties match the filters of
the observer, the last one first. -/
def observed_channels (chan : Nat → McdChannel) (client : McdClientProxy)
    (channels : List Nat) : List Nat :=
  (channels.filter (fun c =>
    match _mcd_channel_get_immutable_properties (chan c) with
    | some properties =>
      _mcd_client_match_filters properties client.observer_filters
    | none => false)).reverse

/-- The `ObserveChannels` call that a client of the registry is due in the
state `w`: none for a client that is not an observer, and none for an
observer whose filters match no channel. -/
def observe_channels_call (w : World) (client : McdClientProxy) :
    Option Effect :=
  if client.is_observer = true ∧
      observed_channels w.chan client w.priv.channels ≠ [] then
    some (Effect.observe_channels client.bus_name
      (_mcd_dispatch_operation_get_account_path w)
      (_mcd_dispatch_operation_get_connection_path w)
      (observed_channels w.chan client w.priv.channels)
      (if _mcd_dispatch_operation_needs_approval w then
        _mcd_dispatch_operation_get_path w
      else "/")
      (collect_satisfied_requests w.chan
        (observed_channels w.chan client w.priv.channels)))
  else none

/-- An observer that is only interested in channels to `alice`. -/
def example_observer_alice : McdClientProxy :=
  { example_observer with
    bus_name := "org.freedesktop.Telepathy.Client.O2",
    observer_filters := fun p => p.contains ("TargetID", "alice") }

/-- Three channels: the first and the third are to `alice`. -/
def example_chan_targets (n : Nat) : McdChannel :=
  { (example_chan n) with
    immutable_properties :=
      some [("TargetID", if n = 2 then "bob" else "alice")],
    satisfied_requests := if n = 3 then ["/r1", "/r2"] else ["/r1"] }

/-- An operation on the three channels, with a handler, the observer of
everything and the observer of `alice`. -/
def example_world_targets : World :=
  World.fresh { example_priv with channels := [1, 2, 3] }
    [example_handler, example_observer, example_observer_alice] []
    example_chan_targets

/-! ## The lock check -/

/-- The condition under which `_mcd_dispatch_operation_check_client_locks`
enters handler selection. -/
def client_locks_released (w : World) : Prop :=
  w.priv.invoked_early_clients = true ∧ w.priv.observers_pending = 0 ∧
  w.priv.ado_pending = 0 ∧
  (w.priv.approved = true ∨ w.priv.needs_approval = false) ∧
  w.priv.channels_handled = false ∧ w.priv.observe_only = false

instance (w : World) : Decidable (client_locks_released w) := by
  unfold client_locks_released; infer_instance

/-- The operation of `example_world` once its early clients have been invoked
and it has been approved, before the lock check that follows. -/
def example_world_released : World :=
  { example_world with
    priv := { example_priv with invoked_early_clients := true, approved := true } }

/-! ## The client locks -/

/-- An `ObserveChannels` call. -/
def Effect.is_observe_channels : Effect → Bool
  | Effect.observe_channels _ _ _ _ _ _ => true
  | _ => false

/-- Anything that is sent but a call to an observer or to an approver. -/
def no_early_call (e : Effect) : Bool :=
  !e.is_observe_channels && !e.is_add_dispatch_operation

/-- A step from `w1` to `w2` that leaves the two client locks and the
deferred channels alone, and calls neither an observer nor an approver. -/
structure Held (w1 w2 : World) : Prop where
  observers_pending : w2.priv.observers_pending = w1.priv.observers_pending
  ado_pending : w2.priv.ado_pending = w1.priv.ado_pending
  lost_channels : w2.priv.lost_channels = w1.priv.lost_channels
  calm : Sends no_early_call w1 w2

/-! ## The retry loop of handler selection -/

/-- The bus names that `_mcd_dispatch_operation_run_handlers` considers: that
of the handler chosen by `HandleWith`, when there is one, and those of
`possible_handlers`. -/
def handler_candidates (w : World) : List String :=
  (match w.priv.handler with
    | none => []
    | some h => if h = "" then [] else [TP_CLIENT_BUS_NAME_BASE ++ h]) ++
    w.priv.possible_handlers.getD []

/-- The client that the step from `w0` to `w` has sent a `HandleChannels`
call to, if that is all it has sent. -/
def called_handler (w0 w : World) : Option McdClientProxy :=
  match sent w0 w with
  | [Effect.handle_channels client _ _ _] =>
    _mcd_client_registry_lookup w.client_registry client
  | _ => none

/-- The retry loop between `_mcd_dispatch_operation_run_handlers` and
`_mcd_dispatch_operation_handle_channels_cb` when every reply is a failure.
`w` is the state that handler selection has reached from `w0`; as long as
handler selection has called a handler, that handler replies with an error,
and the callback selects again.  The result is the state in which handler
selection has called nobody; `none` when the fuel runs out before. -/
def retry_loop : Nat → World → World → Option World
  | 0, _, _ => none
  | fuel + 1, w0, w =>
    match called_handler w0 w with
    | none => some w
    | some client =>
      retry_loop fuel w (_mcd_dispatch_operation_handle_channels_cb w client true)

/-- A second handler. -/
def example_handler2 : McdClientProxy :=
  { example_handler with
    bus_name := "org.freedesktop.Telepathy.Client.H2",
    unique_name := some ":1.9" }

/-- The operation of `example_world` with two possible handlers, the first
of them named twice, both registered. -/
def example_world_handlers : World :=
  World.fresh
    { example_priv with
      possible_handlers := some ["org.freedesktop.Telepathy.Client.H1",
        "org.freedesktop.Telepathy.Client.H2",
        "org.freedesktop.Telepathy.Client.H1"] }
    [example_handler, example_handler2] [] example_chan

/-! ## The state machine of the dispatcher

The walk of a channel through its filter chain, `src/mcd-dispatcher.c`. -/

/-- The structure `McdDispatcherContext`: the channel (a channel is referred
to by its address), the filter chain that the channel goes through, and the
index of the next filter, a `guint`. -/
structure McdDispatcherContext where
  channel : Option Nat
  chain : List McdFilter
  next_func_index : Nat
  deriving DecidableEq, Repr

/-- What the state machine does to its surroundings: it calls a filter
function on a context, it asks a channel handler to handle a channel
(`tp_ch_handle_channel_async`), it emits `dispatch-failed` for a channel, it
aborts a channel (`mcd_mission_abort`), and it frees a context. -/
inductive DispatcherEffect
  | filter_called (func : Nat) (context : Nat)
  | handle_channel (bus_name : String) (channel : Option Nat)
  | dispatch_failed (channel : Option Nat)
  | mission_abort (channel : Nat)
  | context_free (context : Nat)
  deriving DecidableEq, Repr

/-- The part of `McdDispatcherPrivate` that the state machine uses, and its
surroundings: the list of pending contexts (a context is referred to by its
address), the contexts by address, the channel handler that
`channel_handler_hash` holds for the type of a channel, and everything done so
far, in chronological order. -/
structure McdDispatcherPrivate where
  state_machine_list : List Nat
  context : Nat → McdDispatcherContext
  channel_handler_hash : Option Nat → Option String
  log : List DispatcherEffect

/-- GLib's `g_list_nth_data`: the data of the element at position `n`, `NULL`
past the end of the list. -/
def g_list_nth_data {α : Type} (list : List α) (n : Nat) : Option α :=
  list[n]?

/-- GLib's `g_slist_remove`: the list without the first element that holds
`data`. -/
def g_slist_remove (list : List Nat) (data : Nat) : List Nat :=
  list.erase data

/-- GLib's `g_slist_prepend`. -/
def g_slist_prepend (list : List Nat) (data : Nat) : List Nat :=
  data :: list

def dispatcher_emit (priv : McdDispatcherPrivate) (e : DispatcherEffect) :
    McdDispatcherPrivate :=
  { priv with log := priv.log ++ [e] }

def _mcd_dispatcher_start_channel_handler (priv : McdDispatcherPrivate)
    (context : Nat) : McdDispatcherPrivate :=
  let channel := (priv.context context).channel
  match priv.channel_handler_hash channel with
  | none => dispatcher_emit priv (DispatcherEffect.dispatch_failed channel)
  | some chandler =>
    dispatcher_emit priv (DispatcherEffect.handle_channel chandler channel)

def mcd_dispatcher_context_free (priv : McdDispatcherPrivate) (context : Nat) :
    McdDispatcherPrivate :=
  dispatcher_emit priv (DispatcherEffect.context_free context)

def _mcd_dispatcher_leave_state_machine (priv : McdDispatcherPrivate)
    (context : Nat) : McdDispatcherPrivate :=
  mcd_dispatcher_context_free
    { priv with
      state_machine_list := g_slist_remove priv.state_machine_list context }
    context

def on_channel_abort_context (priv : McdDispatcherPrivate) (context : Nat) :
    McdDispatcherPrivate :=
  _mcd_dispatcher_leave_state_machine priv context

/-- Modelled from the spec: a channel "emits an abort event", and its holders
have registered "a listener for its abort event" (`mcd-mission.c` is not part
of the sources at hand).  The listener that
`_mcd_dispatcher_enter_state_machine` connects for a context is
`on_channel_abort_context`; it runs when the channel is aborted. -/
def mcd_mission_abort (priv : McdDispatcherPrivate) (channel : Nat)
    (context : Nat) : McdDispatcherPrivate :=
  on_channel_abort_context
    (dispatcher_emit priv (DispatcherEffect.mission_abort channel)) context

def _mcd_dispatcher_drop_channel_handler (priv : McdDispatcherPrivate)
    (context : Nat) : McdDispatcherPrivate :=
  match (priv.context context).channel with
  | none => priv
  | some channel => mcd_mission_abort priv channel context

/-- The function `mcd_dispatcher_context_process`, up to the call of the
filter function: the filter, plugin code, goes on by calling
`mcd_dispatcher_context_process` again, with its verdict. -/
def mcd_dispatcher_context_process (priv : McdDispatcherPrivate)
    (context : Nat) (result : Bool) : McdDispatcherPrivate :=
  if result then
    match g_list_nth_data (priv.context context).chain
        (priv.context context).next_func_index with
    | some filter =>
      dispatcher_emit
        { priv with
          context := Function.update priv.context context
            { (priv.context context) with
              next_func_index :=
                ((priv.context context).next_func_index + 1) % 2 ^ 32 } }
        (DispatcherEffect.filter_called filter.func context)
    | none =>
      let priv1 := _mcd_dispatcher_start_channel_handler priv context
      { priv1 with
        state_machine_list := g_slist_remove priv1.state_machine_list context }
  else
    let priv1 := _mcd_dispatcher_drop_channel_handler priv context
    { priv1 with
      state_machine_list := g_slist_remove priv1.state_machine_list context }

/-- The function `_mcd_dispatcher_enter_state_machine` for a channel whose
type and direction select the chain `chain`; `context` is the address of the
context that the function allocates. -/
def _mcd_dispatcher_enter_state_machine (priv : McdDispatcherPrivate)
    (channel : Nat) (chain : List McdFilter) (context : Nat) :
    McdDispatcherPrivate :=
  let priv1 := { priv with
    context := Function.update priv.context context
      { channel := some channel, chain := chain, next_func_index := 0 } }
  if chain ≠ [] then
    mcd_dispatcher_context_process
      { priv1 with
        state_machine_list := g_slist_prepend priv1.state_machine_list context }
      context true
  else _mcd_dispatcher_start_channel_handler priv1 context

/-- The calls of `mcd_dispatcher_context_process` on a context with the
verdicts `results`, one after the other. -/
def context_process_calls (priv : McdDispatcherPrivate) (context : Nat)
    (results : List Bool) : McdDispatcherPrivate :=
  results.foldl (fun p result => mcd_dispatcher_context_process p context result)
    priv

/-- The filters of the chain that run are called on the context. -/
def filter_calls (chain : List McdFilter) (context : Nat) :
    List DispatcherEffect :=
  chain.map (fun f => DispatcherEffect.filter_called f.func context)

/-- What starting the channel handler does: the handler registered for the
type of the channel is asked to handle it, and `dispatch-failed` is emitted
when there is none. -/
def start_effect (priv : McdDispatcherPrivate) (channel : Option Nat) :
    DispatcherEffect :=
  match priv.channel_handler_hash channel with
  | none => DispatcherEffect.dispatch_failed channel
  | some chandler => DispatcherEffect.handle_channel chandler channel

/-- A dispatcher with a handler for every channel, and the context 7 of the
channel 1, which goes through `example_chain`, on its state machine list. -/
def example_dispatcher : McdDispatcherPrivate :=
  { state_machine_list := [7, 8],
    context := fun _ =>
      { channel := some 1, chain := example_chain, next_func_index := 0 },
    channel_handler_hash := fun _ => some "org.freedesktop.Telepathy.Client.H1",
    log := [] }

/-! ## Client locks and calls in flight -/

/-- The `ObserveChannels` calls of a log. -/
def observe_channels_calls (log : List Effect) : Nat :=
  log.countP Effect.is_observe_channels

/-- The `AddDispatchOperation` calls of a log. -/
def add_dispatch_operation_calls (log : List Effect) : Nat :=
  log.countP Effect.is_add_dispatch_operation

/-- The operation of `example_world` with a handler, an observer and an
approver registered. -/
def example_world_clients : World :=
  World.fresh example_priv [example_handler, example_observer, example_approver]
    [] example_chan

/-- The step from `w1` to `w2` adds as much to each client lock as it sends
calls of the kind that the lock counts. -/
structure Counted (w1 w2 : World) : Prop where
  observers :
    w2.priv.observers_pending + observe_channels_calls w1.log =
      w1.priv.observers_pending + observe_channels_calls w2.log
  approvers :
    w2.priv.ado_pending + add_dispatch_operation_calls w1.log =
      w1.priv.ado_pending + add_dispatch_operation_calls w2.log

/-- In the sequence of events `es`, applied from the state `w` after `ro`
replies of observers and `ra` replies of approvers: every reply of an
observer or of an approver answers a call that is still in flight, and
`_mcd_dispatch_operation_run_clients` runs only while `wants_to_finish` is not
set. -/
def early_calls_answered (valid_bus_name : String → Bool) :
    World → Nat → Nat → List Event → Prop
  | _, _, _, [] => True
  | w, ro, ra, Event.observe_channels_reply error :: es =>
    ro < observe_channels_calls w.log ∧
      early_calls_answered valid_bus_name
        (step valid_bus_name w (Event.observe_channels_reply error))
        (ro + 1) ra es
  | w, ro, ra, Event.add_dispatch_operation_reply error :: es =>
    ra < add_dispatch_operation_calls w.log ∧
      early_calls_answered valid_bus_name
        (step valid_bus_name w (Event.add_dispatch_operation_reply error))
        ro (ra + 1) es
  | w, ro, ra, Event.run_clients :: es =>
    w.priv.wants_to_finish = false ∧
      early_calls_answered valid_bus_name
        (step valid_bus_name w Event.run_clients) ro ra es
  | w, ro, ra, e :: es =>
    early_calls_answered valid_bus_name (step valid_bus_name w e) ro ra es

/-- Each client lock, together with the replies that have arrived (`ro` from
observers, `ra` from approvers), accounts for the calls that have been
sent: the lock is the number of calls in flight. -/
def locks_match (w : World) (ro ra : Nat) : Prop :=
  w.priv.observers_pending + ro = observe_channels_calls w.log ∧
  w.priv.ado_pending + ra = add_dispatch_operation_calls w.log

/-! ## HandleWith and Claim, one after the other -/

theorem Frame.frame_refl (w : World) : Frame w w := ⟨rfl, rfl, rfl⟩

theorem Frame.frame_trans {w1 w2 w3 : World} (h1 : Frame w1 w2) (h2 : Frame w2 w3) :
    Frame w1 w3 :=
  ⟨h2.priv_core.trans h1.priv_core, h2.registry.trans h1.registry,
    h2.crashed.trans h1.crashed⟩

theorem Frame.wants_to_finish {w1 w2 : World} (h : Frame w1 w2) :
    w2.priv.wants_to_finish = w1.priv.wants_to_finish :=
  show (core w2.priv).wants_to_finish = (core w1.priv).wants_to_finish from
    congrArg McdDispatchOperationPrivate.wants_to_finish h.priv_core

theorem Frame.observers_pending {w1 w2 : World} (h : Frame w1 w2) :
    w2.priv.observers_pending = w1.priv.observers_pending :=
  show (core w2.priv).observers_pending = (core w1.priv).observers_pending from
    congrArg McdDispatchOperationPrivate.observers_pending h.priv_core

theorem Frame.ado_pending {w1 w2 : World} (h : Frame w1 w2) :
    w2.priv.ado_pending = w1.priv.ado_pending :=
  show (core w2.priv).ado_pending = (core w1.priv).ado_pending from
    congrArg McdDispatchOperationPrivate.ado_pending h.priv_core

theorem Frame.failed_handlers {w1 w2 : World} (h : Frame w1 w2) :
    w2.priv.failed_handlers = w1.priv.failed_handlers :=
  show (core w2.priv).failed_handlers = (core w1.priv).failed_handlers from
    congrArg McdDispatchOperationPrivate.failed_handlers h.priv_core

theorem Frame.channels {w1 w2 : World} (h : Frame w1 w2) :
    w2.priv.channels = w1.priv.channels :=
  show (core w2.priv).channels = (core w1.priv).channels from
    congrArg McdDispatchOperationPrivate.channels h.priv_core

theorem Frame.claim_context {w1 w2 : World} (h : Frame w1 w2) :
    w2.priv.claim_context = w1.priv.claim_context :=
  show (core w2.priv).claim_context = (core w1.priv).claim_context from
    congrArg McdDispatchOperationPrivate.claim_context h.priv_core

theorem Frame.handle_with_time {w1 w2 : World} (h : Frame w1 w2) :
    w2.priv.handle_with_time = w1.priv.handle_with_time :=
  show (core w2.priv).handle_with_time = (core w1.priv).handle_with_time from
    congrArg McdDispatchOperationPrivate.handle_with_time h.priv_core

theorem Frame.account {w1 w2 : World} (h : Frame w1 w2) :
    w2.priv.account = w1.priv.account :=
  show (core w2.priv).account = (core w1.priv).account from
    congrArg McdDispatchOperationPrivate.account h.priv_core

theorem Silent.silent_refl (w : World) : Silent w w := ⟨Frame.frame_refl w, rfl⟩

theorem Silent.silent_trans {w1 w2 w3 : World} (h1 : Silent w1 w2)
    (h2 : Silent w2 w3) : Silent w1 w3 :=
  ⟨h1.toFrame.frame_trans h2.toFrame, h2.log.trans h1.log⟩

theorem Silent.silent_foldl {β : Type} (f : World → β → World)
    (hf : ∀ w b, Silent w (f w b)) (l : List β) (w : World) :
    Silent w (l.foldl f w) := by
  induction l generalizing w with
  | nil => exact Silent.silent_refl w
  | cons b l ih => exact (hf w b).silent_trans (ih (f w b))

theorem silent_set_status (w : World) (c : Nat) (s : McdChannelStatus) :
    Silent w (_mcd_channel_set_status w c s) := ⟨⟨rfl, rfl, rfl⟩, rfl⟩

theorem silent_take_error (w : World) (c : Nat) (e : GError) :
    Silent w (mcd_channel_take_error w c e) := ⟨⟨rfl, rfl, rfl⟩, rfl⟩

theorem silent_undispatchable (w : World) (c : Nat) :
    Silent w (_mcd_channel_undispatchable w c) := ⟨⟨rfl, rfl, rfl⟩, rfl⟩

theorem silent_set_channel_handled_by (w : World) (c : Nat) (u : String) :
    Silent w (mcd_dispatch_operation_set_channel_handled_by w c u) := by
  unfold mcd_dispatch_operation_set_channel_handled_by
  split
  · exact Silent.silent_refl w
  · exact ⟨⟨rfl, rfl, rfl⟩, rfl⟩

theorem silent_give_up (w : World) : Silent w (run_handlers_give_up w) :=
  Silent.silent_foldl _
    (fun w0 c => (silent_take_error w0 c _).silent_trans (silent_undispatchable _ c))
    _ w

theorem silent_handle_channels_cb_channel (client : McdClientProxy) (w : World)
    (c : Nat) : Silent w (handle_channels_cb_channel client w c) := by
  unfold handle_channels_cb_channel
  split
  · exact silent_undispatchable w c
  · split
    · exact silent_undispatchable w c
    · exact silent_set_channel_handled_by w c _

theorem Frame.handle_channels_call {w1 w2 : World} (h : Frame w1 w2)
    (handler : McdClientProxy) :
    MC.handle_channels_call w2 handler = MC.handle_channels_call w1 handler := by
  simp only [MC.handle_channels_call, _mcd_dispatch_operation_get_account_path,
    h.channels, h.account, h.handle_with_time]

theorem Silent.inner {w1 w2 : World} (h : Silent w1 w2) : Inner w1 w2 :=
  ⟨h.toFrame, Or.inl h.log⟩

theorem Silent.then_inner {w1 w2 w3 : World} (h1 : Silent w1 w2)
    (h2 : Inner w2 w3) : Inner w1 w3 := by
  refine ⟨h1.toFrame.frame_trans h2.toFrame, ?_⟩
  rcases h2.log with h | ⟨h, hl, hf, hlog⟩
  · exact Or.inl (h.trans h1.log)
  · refine Or.inr ⟨h, ?_, ?_, ?_⟩
    · rw [← h1.registry]; exact hl
    · rw [← h1.failed_handlers]; exact hf
    · rw [hlog, h1.log, h1.toFrame.handle_channels_call]

theorem registry_lookup_bus_name {registry : List McdClientProxy}
    {n : String} {h : McdClientProxy}
    (hl : _mcd_client_registry_lookup registry n = some h) : h.bus_name = n := by
  unfold _mcd_client_registry_lookup at hl
  have := List.find?_some hl
  simpa using this

theorem inner_handle_channels (w : World) (n : String) (h : McdClientProxy)
    (hl : _mcd_client_registry_lookup w.client_registry n = some h)
    (hf : _mcd_dispatch_operation_get_handler_failed w n = false) :
    Inner w (mcd_dispatch_operation_handle_channels w h) := by
  have hs := Silent.silent_foldl
    (fun w0 c => _mcd_channel_set_status w0 c McdChannelStatus.HANDLER_INVOKED)
    (fun w0 c => silent_set_status w0 c _) w.priv.channels w
  have hn := registry_lookup_bus_name hl
  unfold mcd_dispatch_operation_handle_channels
  refine ⟨hs.toFrame.frame_trans ⟨rfl, rfl, rfl⟩, Or.inr ⟨h, ?_, ?_, ?_⟩⟩
  · rw [hn]; exact hl
  · rw [hn]
    simpa [_mcd_dispatch_operation_get_handler_failed] using hf
  · simp only [emit, hs.log, handle_channels_call, hs.toFrame.channels,
      hs.toFrame.handle_with_time]

theorem run_handlers_loop_some (w : World) (l : List String)
    (h : McdClientProxy) (hl : run_handlers_loop w l = some h) :
    ∃ n, _mcd_client_registry_lookup w.client_registry n = some h ∧
      _mcd_dispatch_operation_get_handler_failed w n = false := by
  induction l with
  | nil => simp [run_handlers_loop] at hl
  | cons n l ih =>
    unfold run_handlers_loop at hl
    split at hl
    · rename_i handler hlook
      split at hl
      · rename_i hnf
        refine ⟨n, ?_, by simpa using hnf⟩
        rw [hlook]; exact congrArg some (Option.some.inj hl)
      · exact ih hl
    · exact ih hl

theorem inner_run_handlers_possible (w : World) :
    Inner w (run_handlers_possible w) := by
  unfold run_handlers_possible
  split
  · rename_i handler hl
    obtain ⟨n, hn, hf⟩ := run_handlers_loop_some w _ handler hl
    exact inner_handle_channels w n handler hn hf
  · exact (silent_give_up w).inner

theorem inner_run_handlers (w : World) :
    Inner w (_mcd_dispatch_operation_run_handlers w) := by
  unfold _mcd_dispatch_operation_run_handlers
  split
  · exact inner_run_handlers_possible w
  · split
    · exact inner_run_handlers_possible w
    · dsimp only
      split
      · rename_i handler hl
        split
        · rename_i hnf
          exact inner_handle_channels w _ handler hl (by simpa using hnf)
        · exact inner_run_handlers_possible w
      · exact inner_run_handlers_possible w

theorem inner_check_client_locks (w : World) :
    Inner w (_mcd_dispatch_operation_check_client_locks w) := by
  unfold _mcd_dispatch_operation_check_client_locks
  split
  · split
    · refine Silent.then_inner ?_ (inner_run_handlers _)
      exact ⟨⟨rfl, rfl, rfl⟩, rfl⟩
    · exact (Silent.silent_refl w).inner
  · exact (Silent.silent_refl w).inner

theorem inner_set_approved (w : World) :
    Inner w (_mcd_dispatch_operation_set_approved w) := by
  unfold _mcd_dispatch_operation_set_approved
  refine Silent.then_inner ?_ (inner_check_client_locks _)
  exact ⟨⟨rfl, rfl, rfl⟩, rfl⟩

/-! ## What a step does to the finishing state -/

theorem Eff.eff_refl (w : World) : Eff 0 w w :=
  ⟨rfl, rfl, rfl, rfl, rfl, fun _ _ => rfl⟩

theorem Eff.eff_trans {j k : Nat} {w1 w2 w3 : World} (h1 : Eff j w1 w2)
    (h2 : Eff k w2 w3) : Eff (j + k) w1 w3 := by
  refine ⟨h2.wants_to_finish.trans h1.wants_to_finish,
    h2.observers_pending.trans h1.observers_pending,
    h2.ado_pending.trans h1.ado_pending,
    h2.failed_handlers.trans h1.failed_handlers, ?_, ?_⟩
  · rw [h2.finished, h1.finished, Nat.add_assoc]
  · intro n hn
    rw [h2.handle_channels n (h1.failed_handlers ▸ hn), h1.handle_channels n hn]

theorem Eff.then0 {k : Nat} {w1 w2 w3 : World} (h1 : Eff k w1 w2)
    (h2 : Eff 0 w2 w3) : Eff k w1 w3 :=
  h1.eff_trans h2

theorem Eff.after0 {k : Nat} {w1 w2 w3 : World} (h1 : Eff 0 w1 w2)
    (h2 : Eff k w2 w3) : Eff k w1 w3 := by
  have h := h1.eff_trans h2
  rwa [Nat.zero_add] at h

theorem Eff.before {k : Nat} {w1 w2 w3 : World} (h2 : Eff k w2 w3)
    (h1 : Eff 0 w1 w2) : Eff k w1 w3 :=
  h1.after0 h2

/-- A step that leaves the log and the finishing state alone. -/
theorem Eff.eff_of_eq {w1 w2 : World}
    (h1 : w2.priv.wants_to_finish = w1.priv.wants_to_finish)
    (h2 : w2.priv.observers_pending = w1.priv.observers_pending)
    (h3 : w2.priv.ado_pending = w1.priv.ado_pending)
    (h4 : w2.priv.failed_handlers = w1.priv.failed_handlers)
    (h5 : w2.log = w1.log) : Eff 0 w1 w2 :=
  ⟨h1, h2, h3, h4, by rw [h5]; rfl, fun _ _ => by rw [h5]⟩

theorem Eff.is_finished {k : Nat} {w1 w2 : World} (h : Eff k w1 w2) :
    _mcd_dispatch_operation_is_finished w2 =
      _mcd_dispatch_operation_is_finished w1 := by
  simp only [_mcd_dispatch_operation_is_finished,
    mcd_dispatch_operation_may_finish, h.wants_to_finish, h.observers_pending,
    h.ado_pending]

theorem finished_count_append (l1 l2 : List Effect) :
    finished_count (l1 ++ l2) = finished_count l1 + finished_count l2 := by
  simp [finished_count]

theorem handle_channels_count_append (n : String) (l1 l2 : List Effect) :
    handle_channels_count n (l1 ++ l2) =
      handle_channels_count n l1 + handle_channels_count n l2 := by
  simp [handle_channels_count]

theorem finished_count_minor (e : Effect) (he : e.is_minor = true) :
    finished_count [e] = 0 := by
  cases e <;> simp [finished_count, Effect.is_minor] at he ⊢

theorem handle_channels_count_minor (n : String) (e : Effect)
    (he : e.is_minor = true) : handle_channels_count n [e] = 0 := by
  cases e <;> simp [handle_channels_count, Effect.is_minor] at he ⊢

theorem Eff.eff_emit_minor (w : World) (e : Effect) (he : e.is_minor = true) :
    Eff 0 w (emit w e) := by
  refine ⟨rfl, rfl, rfl, rfl, ?_, fun n _ => ?_⟩
  · simp [emit, finished_count_append, finished_count_minor e he]
  · simp [emit, handle_channels_count_append, handle_channels_count_minor n e he]

theorem Eff.emit_finished (w : World) : Eff 1 w (emit w Effect.finished) := by
  refine ⟨rfl, rfl, rfl, rfl, ?_, fun n _ => ?_⟩
  · simp [emit, finished_count]
  · simp [emit, handle_channels_count]

theorem Frame.frame_eff {k : Nat} {w1 w2 : World} (h : Frame w1 w2)
    (hfin : finished_count w2.log = finished_count w1.log + k)
    (hhc : ∀ n ∈ w1.priv.failed_handlers,
      handle_channels_count n w2.log = handle_channels_count n w1.log) :
    Eff k w1 w2 :=
  ⟨h.wants_to_finish, h.observers_pending, h.ado_pending, h.failed_handlers,
    hfin, hhc⟩

theorem Silent.silent_eff {w1 w2 : World} (h : Silent w1 w2) : Eff 0 w1 w2 :=
  h.toFrame.frame_eff (by rw [h.log]; rfl) (fun _ _ => by rw [h.log])

theorem Inner.inner_eff {w1 w2 : World} (h : Inner w1 w2) : Eff 0 w1 w2 := by
  rcases h.log with hl | ⟨c, _, hf, hl⟩
  · exact h.toFrame.frame_eff (by rw [hl]; rfl) (fun _ _ => by rw [hl])
  · refine h.toFrame.frame_eff ?_ ?_
    · rw [hl]
      simp [finished_count, handle_channels_call]
    · intro n hn
      have hne : c.bus_name ≠ n := fun heq => hf (heq ▸ hn)
      rw [hl]
      simp [handle_channels_count, handle_channels_call, hne]

theorem Eff.eff_foldl {β : Type} (f : World → β → World)
    (hf : ∀ w b, Eff 0 w (f w b)) (l : List β) (w : World) :
    Eff 0 w (l.foldl f w) := by
  induction l generalizing w with
  | nil => exact Eff.eff_refl w
  | cons b l ih => exact (hf w b).then0 (ih (f w b))

theorem eff_nothing_left (w : World) :
    Eff 0 w (actually_finish_nothing_left w) := by
  unfold actually_finish_nothing_left
  split
  · exact Eff.eff_of_eq rfl rfl rfl rfl rfl
  · exact Eff.eff_refl w

theorem eff_claimer (w : World) : Eff 0 w (actually_finish_claimer w) := by
  unfold actually_finish_claimer
  split
  · exact Eff.eff_refl w
  · rename_i claimer _
    have h := (Silent.silent_foldl
      (fun w0 channel =>
        mcd_dispatch_operation_set_channel_handled_by w0 channel claimer)
      (fun w0 c => silent_set_channel_handled_by w0 c claimer)
      w.priv.channels w).silent_eff
    dsimp only
    split
    · exact h.then0 (Eff.eff_of_eq rfl rfl rfl rfl rfl)
    · exact h.then0 (Eff.eff_of_eq rfl rfl rfl rfl rfl)

theorem eff_approval (w : World) : Eff 0 w (actually_finish_approval w) := by
  unfold actually_finish_approval
  split
  · have h := (inner_set_approved
      { w with priv := { w.priv with awaiting_approval := false } }).inner_eff
    exact h.before (Eff.eff_of_eq rfl rfl rfl rfl rfl)
  · exact Eff.eff_refl w

theorem eff_reply (w : World) : Eff 0 w (actually_finish_reply w) := by
  unfold actually_finish_reply
  split
  · exact Eff.eff_refl w
  · rename_i context _
    have h := Eff.eff_emit_minor w (Effect.return_from_claim context) rfl
    exact h.then0 (Eff.eff_of_eq rfl rfl rfl rfl rfl)

theorem eff_actually_finish (w : World) :
    Eff 1 w (mcd_dispatch_operation_actually_finish w) := by
  have h1 := ((Eff.emit_finished w).then0 (eff_nothing_left _)).then0
    (eff_claimer _)
  unfold mcd_dispatch_operation_actually_finish
  dsimp only
  split
  · exact h1
  · exact (h1.then0 (eff_approval _)).then0 (eff_reply _)

theorem Trans.trans_refl (w : World) : Trans w w :=
  ⟨id, Or.inl rfl, id, fun _ hn => ⟨hn, rfl⟩⟩

theorem Trans.comp {w1 w2 w3 : World} (h1 : Trans w1 w2) (h2 : Trans w2 w3) :
    Trans w1 w3 := by
  refine ⟨fun h => h2.wants_to_finish (h1.wants_to_finish h), ?_,
    fun h => h2.stable (h1.stable h), ?_⟩
  · rcases h1.finished with e1 | ⟨e1, f2, f1⟩
    · rcases h2.finished with e2 | ⟨e2, f3, f2⟩
      · exact Or.inl (e2.trans e1)
      · refine Or.inr ⟨by rw [e2, e1], f3, ?_⟩
        cases hf : _mcd_dispatch_operation_is_finished w1
        · rfl
        · rw [h1.stable hf] at f2
          exact absurd f2 (by decide)
    · rcases h2.finished with e2 | ⟨_, _, f2a⟩
      · exact Or.inr ⟨by rw [e2, e1], h2.stable f2, f1⟩
      · rw [f2] at f2a
        exact absurd f2a (by decide)
  · intro n hn
    obtain ⟨hn2, c2⟩ := h1.failed n hn
    obtain ⟨hn3, c3⟩ := h2.failed n hn2
    exact ⟨hn3, c3.trans c2⟩

theorem Eff.to_trans {w1 w2 : World} (h : Eff 0 w1 w2) : Trans w1 w2 :=
  ⟨fun hw => by rw [h.wants_to_finish]; exact hw, Or.inl h.finished,
    fun hf => by rw [h.is_finished]; exact hf,
    fun n hn => ⟨by rw [h.failed_handlers]; exact hn, h.handle_channels n hn⟩⟩

theorem Trans.trans_foldl {β : Type} (f : World → β → World)
    (hf : ∀ w b, Trans w (f w b)) (l : List β) (w : World) :
    Trans w (l.foldl f w) := by
  induction l generalizing w with
  | nil => exact Trans.trans_refl w
  | cons b l ih => exact (hf w b).comp (ih (f w b))

/-- A change of the finishing state that sends nothing, followed by a part
that emits `Finished` `k` times. -/
theorem Trans.of_eff {k : Nat} {w w1 w2 : World} (he : Eff k w1 w2)
    (hlog : w1.log = w.log)
    (hfailed : w1.priv.failed_handlers = w.priv.failed_handlers)
    (hm : w.priv.wants_to_finish = true → w1.priv.wants_to_finish = true)
    (hs : _mcd_dispatch_operation_is_finished w = true →
      _mcd_dispatch_operation_is_finished w1 = true)
    (hk : k = 0 ∨ (k = 1 ∧ _mcd_dispatch_operation_is_finished w1 = true ∧
      _mcd_dispatch_operation_is_finished w = false)) : Trans w w2 := by
  refine ⟨fun h => by rw [he.wants_to_finish]; exact hm h, ?_,
    fun h => by rw [he.is_finished]; exact hs h, ?_⟩
  · rcases hk with hk | ⟨hk, f1, f0⟩
    · left
      rw [he.finished, hk, hlog]; rfl
    · right
      exact ⟨by rw [he.finished, hk, hlog], by rw [he.is_finished]; exact f1, f0⟩
  · intro n hn
    have hn1 : n ∈ w1.priv.failed_handlers := by rw [hfailed]; exact hn
    exact ⟨by rw [he.failed_handlers]; exact hn1,
      by rw [he.handle_channels n hn1, hlog]⟩

theorem eff_emit_channel_lost (w : World) (c : Nat) (object_path : String) :
    Eff 0 w (emit_channel_lost w c object_path) := by
  unfold emit_channel_lost
  split
  · exact Eff.eff_of_eq rfl rfl rfl rfl rfl
  · exact Eff.eff_emit_minor w _ rfl

theorem eff_check_finished_lost_channel (w : World) (c : Nat) :
    Eff 0 w (check_finished_lost_channel w c) := by
  unfold check_finished_lost_channel
  split
  · exact Eff.eff_refl w
  · split
    · exact Eff.eff_refl w
    · exact eff_emit_channel_lost w c _

theorem eff_check_finished_lost_channels (w : World) :
    Eff 0 w (check_finished_lost_channels w) :=
  (Eff.eff_foldl check_finished_lost_channel eff_check_finished_lost_channel
    _ _).before (Eff.eff_of_eq rfl rfl rfl rfl rfl)

/-- What `_mcd_dispatch_operation_check_finished` does to the finishing
state: `Finished` is emitted at most once, and only by a finished
operation. -/
theorem eff_check_finished (w : World) :
    ∃ k, Eff k w (_mcd_dispatch_operation_check_finished w) ∧
      (k = 0 ∨ (k = 1 ∧ _mcd_dispatch_operation_is_finished w = true)) := by
  have h1 := eff_check_finished_lost_channels w
  unfold _mcd_dispatch_operation_check_finished
  by_cases hm : mcd_dispatch_operation_may_finish w.priv = true
  · rw [if_pos hm]
    dsimp only
    split
    · exact ⟨0, h1, Or.inl rfl⟩
    · by_cases hw : w.priv.wants_to_finish = true
      · have hf : _mcd_dispatch_operation_is_finished w = true := by
          simp [_mcd_dispatch_operation_is_finished, hw, hm]
        rw [if_pos (by rw [h1.wants_to_finish]; exact hw)]
        exact ⟨1, h1.after0 (eff_actually_finish _), Or.inr ⟨rfl, hf⟩⟩
      · rw [if_neg (by rw [h1.wants_to_finish]; exact hw)]
        exact ⟨0, h1, Or.inl rfl⟩
  · rw [if_neg hm]
    exact ⟨0, Eff.eff_refl w, Or.inl rfl⟩

theorem trans_finish (w : World) : Trans w (_mcd_dispatch_operation_finish w) := by
  unfold _mcd_dispatch_operation_finish
  by_cases hw : w.priv.wants_to_finish = true
  · rw [if_pos hw]; exact Trans.trans_refl w
  · rw [if_neg hw]
    dsimp only
    have hf0 : _mcd_dispatch_operation_is_finished w = false := by
      simp [_mcd_dispatch_operation_is_finished, hw]
    split
    · rename_i hm
      refine Trans.of_eff (eff_actually_finish _) rfl rfl (fun _ => rfl)
        (fun h => by rw [hf0] at h; exact absurd h (by decide))
        (Or.inr ⟨rfl, ?_, hf0⟩)
      simp only [_mcd_dispatch_operation_is_finished, Bool.true_and]
      exact hm
    · exact Trans.of_eff (Eff.eff_refl _) rfl rfl (fun _ => rfl)
        (fun h => by rw [hf0] at h; exact absurd h (by decide)) (Or.inl rfl)

theorem trans_inc_observers_pending (w : World) :
    Trans w (_mcd_dispatch_operation_inc_observers_pending w) := by
  unfold _mcd_dispatch_operation_inc_observers_pending
  by_cases hw : w.priv.wants_to_finish = true
  · rw [if_pos hw]; exact Trans.trans_refl w
  · rw [if_neg hw]
    exact Trans.of_eff (Eff.eff_refl _) rfl rfl (fun h => absurd h hw)
      (fun h => by
        simp [_mcd_dispatch_operation_is_finished, hw] at h) (Or.inl rfl)

theorem trans_inc_ado_pending (w : World) :
    Trans w (_mcd_dispatch_operation_inc_ado_pending w) := by
  unfold _mcd_dispatch_operation_inc_ado_pending
  by_cases hw : w.priv.wants_to_finish = true
  · rw [if_pos hw]; exact Trans.trans_refl w
  · rw [if_neg hw]
    exact Trans.of_eff (Eff.eff_refl _) rfl rfl (fun h => absurd h hw)
      (fun h => by
        simp [_mcd_dispatch_operation_is_finished, hw] at h) (Or.inl rfl)

theorem trans_dec_observers_pending (w : World) :
    Trans w (_mcd_dispatch_operation_dec_observers_pending w) := by
  unfold _mcd_dispatch_operation_dec_observers_pending
  by_cases hp : w.priv.observers_pending > 0
  · rw [if_pos hp]
    dsimp only
    have hf0 : _mcd_dispatch_operation_is_finished w = false := by
      have : w.priv.observers_pending ≠ 0 := Nat.pos_iff_ne_zero.mp hp
      simp [_mcd_dispatch_operation_is_finished,
        mcd_dispatch_operation_may_finish, this]
    obtain ⟨k, h1, hk1⟩ := eff_check_finished
      { w with priv := { w.priv with
          observers_pending := w.priv.observers_pending - 1 } }
    have hk : ∀ {k : Nat} {w1 w2 : World}, Eff k w1 w2 → w1.log = w.log →
        w1.priv.failed_handlers = w.priv.failed_handlers →
        (w.priv.wants_to_finish = true → w1.priv.wants_to_finish = true) →
        (k = 0 ∨ (k = 1 ∧ _mcd_dispatch_operation_is_finished w1 = true)) →
        Trans w w2 := by
      intro k w1 w2 he hl hfl hm hk
      refine Trans.of_eff he hl hfl hm
        (fun h => by rw [hf0] at h; exact absurd h (by decide)) ?_
      rcases hk with hk | ⟨hk, hf1⟩
      · exact Or.inl hk
      · exact Or.inr ⟨hk, hf1, hf0⟩
    split
    · exact hk h1 rfl rfl id hk1
    · exact hk (h1.then0 (inner_check_client_locks _).inner_eff) rfl rfl id hk1
  · rw [if_neg hp]; exact Trans.trans_refl w

theorem trans_dec_ado_pending (w : World) :
    Trans w (_mcd_dispatch_operation_dec_ado_pending w) := by
  unfold _mcd_dispatch_operation_dec_ado_pending
  by_cases hp : w.priv.ado_pending > 0
  · rw [if_pos hp]
    dsimp only
    have hf0 : _mcd_dispatch_operation_is_finished w = false := by
      have : w.priv.ado_pending ≠ 0 := Nat.pos_iff_ne_zero.mp hp
      simp [_mcd_dispatch_operation_is_finished,
        mcd_dispatch_operation_may_finish, this]
    obtain ⟨k, h1, hk1⟩ := eff_check_finished
      { w with priv := { w.priv with ado_pending := w.priv.ado_pending - 1 } }
    have hk : ∀ {k : Nat} {w1 w2 : World}, Eff k w1 w2 → w1.log = w.log →
        w1.priv.failed_handlers = w.priv.failed_handlers →
        (w.priv.wants_to_finish = true → w1.priv.wants_to_finish = true) →
        (k = 0 ∨ (k = 1 ∧ _mcd_dispatch_operation_is_finished w1 = true)) →
        Trans w w2 := by
      intro k w1 w2 he hl hfl hm hk
      refine Trans.of_eff he hl hfl hm
        (fun h => by rw [hf0] at h; exact absurd h (by decide)) ?_
      rcases hk with hk | ⟨hk, hf1⟩
      · exact Or.inl hk
      · exact Or.inr ⟨hk, hf1, hf0⟩
    split
    · exact hk h1 rfl rfl id hk1
    · refine hk (h1.then0 ((inner_check_client_locks _).inner_eff.before ?_)) rfl rfl
        id hk1
      split
      · exact Eff.eff_of_eq rfl rfl rfl rfl rfl
      · exact Eff.eff_refl _
  · rw [if_neg hp]; exact Trans.trans_refl w

theorem Trans.trans_of_eq {w1 w2 : World}
    (h1 : w2.priv.wants_to_finish = w1.priv.wants_to_finish)
    (h2 : w2.priv.observers_pending = w1.priv.observers_pending)
    (h3 : w2.priv.ado_pending = w1.priv.ado_pending)
    (h4 : ∀ n ∈ w1.priv.failed_handlers, n ∈ w2.priv.failed_handlers)
    (h5 : w2.log = w1.log) : Trans w1 w2 := by
  have hf : _mcd_dispatch_operation_is_finished w2 =
      _mcd_dispatch_operation_is_finished w1 := by
    simp only [_mcd_dispatch_operation_is_finished,
      mcd_dispatch_operation_may_finish, h1, h2, h3]
  exact ⟨fun h => by rw [h1]; exact h, Or.inl (by rw [h5]),
    fun h => by rw [hf]; exact h, fun n hn => ⟨h4 n hn, by rw [h5]⟩⟩

theorem Trans.trans_emit_minor (w : World) (e : Effect) (he : e.is_minor = true) :
    Trans w (emit w e) :=
  (Eff.eff_emit_minor w e he).to_trans

theorem trans_handle_with (valid_bus_name : String → Bool) (w : World)
    (handler_name : Option String) (context : Nat) (now : Int) :
    Trans w
      (dispatch_operation_handle_with valid_bus_name w handler_name context
        now) := by
  unfold dispatch_operation_handle_with
  split
  · exact Trans.trans_emit_minor w _ rfl
  · dsimp only
    have h1 : ∀ w1 : World, Trans w w1 →
        Trans w
          (if (_mcd_dispatch_operation_finish w1).crashed = true then
            _mcd_dispatch_operation_finish w1
          else emit (_mcd_dispatch_operation_finish w1)
            (Effect.return_from_handle_with context)) := by
      intro w1 h
      split
      · exact h.comp (trans_finish w1)
      · exact (h.comp (trans_finish w1)).comp (Trans.trans_emit_minor _ _ rfl)
    apply h1
    split
    · exact Trans.trans_of_eq rfl rfl rfl (fun _ h => h) rfl
    · split
      · exact Trans.trans_of_eq rfl rfl rfl (fun _ h => h) rfl
      · exact Trans.trans_of_eq rfl rfl rfl (fun _ h => h) rfl

theorem trans_claim (w : World) (sender : String) (context : Nat) :
    Trans w (dispatch_operation_claim w sender context) := by
  unfold dispatch_operation_claim
  split
  · exact Trans.trans_emit_minor w _ rfl
  · split
    · exact Trans.trans_of_eq rfl rfl rfl (fun _ h => h) rfl
    · refine Trans.comp ?_ (trans_finish _)
      exact Trans.trans_of_eq rfl rfl rfl (fun _ h => h) rfl

theorem trans_approve (valid_bus_name : String → Bool) (w : World) :
    Trans w (_mcd_dispatch_operation_approve valid_bus_name w) := by
  unfold _mcd_dispatch_operation_approve
  split
  · split
    · exact Trans.trans_refl w
    · exact trans_finish w
  · exact (inner_set_approved w).inner_eff.to_trans

theorem trans_lose_channel_signal (w : World) (channel : Nat) :
    Trans w (lose_channel_signal w channel) := by
  unfold lose_channel_signal
  split
  · exact Trans.trans_refl w
  · split
    · exact Trans.trans_of_eq rfl rfl rfl (fun _ h => h) rfl
    · exact (eff_emit_channel_lost w channel _).to_trans

theorem trans_lose_channel (w : World) (channel : Nat) :
    Trans w (_mcd_dispatch_operation_lose_channel w channel) := by
  unfold _mcd_dispatch_operation_lose_channel
  split
  · dsimp only
    have h : Trans w
        (lose_channel_signal
          { w with priv := { w.priv with
              channels := w.priv.channels.erase channel } }
          channel) := by
      refine Trans.comp ?_ (trans_lose_channel_signal _ channel)
      exact Trans.trans_of_eq rfl rfl rfl (fun _ h => h) rfl
    split
    · exact h
    · split
      · exact h.comp (trans_finish _)
      · exact h
  · exact Trans.trans_refl w

theorem trans_channel_aborted_cb (w : World) (channel : Nat) :
    Trans w (mcd_dispatch_operation_channel_aborted_cb w channel) := by
  unfold mcd_dispatch_operation_channel_aborted_cb
  dsimp only
  refine Trans.comp ?_ (trans_lose_channel _ channel)
  split
  · exact Trans.trans_refl w
  · split
    · exact Trans.trans_of_eq rfl rfl rfl (fun _ h => h) rfl
    · exact Trans.trans_refl w

theorem trans_handle_channels_cb (w : World) (client : McdClientProxy)
    (error : Bool) :
    Trans w (_mcd_dispatch_operation_handle_channels_cb w client error) := by
  unfold _mcd_dispatch_operation_handle_channels_cb
  split
  · refine Trans.comp ?_ (inner_run_handlers _).inner_eff.to_trans
    exact Trans.trans_of_eq rfl rfl rfl
      (fun n h => by
        simp only [_mcd_dispatch_operation_set_handler_failed]
        exact List.mem_cons_of_mem _ h) rfl
  · exact (Silent.silent_foldl _ (silent_handle_channels_cb_channel client) _ w).silent_eff.to_trans.comp
      (trans_finish _)

theorem trans_observe_channels_cb (w : World) (error : Bool) :
    Trans w (observe_channels_cb w error) :=
  trans_dec_observers_pending w

theorem trans_add_dispatch_operation_cb (w : World) (error : Bool) :
    Trans w (add_dispatch_operation_cb w error) := by
  unfold add_dispatch_operation_cb
  dsimp only
  refine Trans.comp ?_ (trans_dec_ado_pending _)
  split
  · exact Trans.trans_refl w
  · split
    · exact Trans.trans_of_eq rfl rfl rfl (fun _ h => h) rfl
    · exact Trans.trans_refl w

theorem trans_run_observers_client (w : World) (client : McdClientProxy) :
    Trans w (run_observers_client w client) := by
  unfold run_observers_client
  split
  · exact Trans.trans_refl w
  · split
    · exact Trans.trans_refl w
    · split
      · exact Trans.trans_of_eq rfl rfl rfl (fun _ h => h) rfl
      · exact Trans.trans_refl w
      · dsimp only
        exact (trans_inc_observers_pending w).comp (Trans.trans_emit_minor _ _ rfl)

theorem trans_run_observers (w : World) :
    Trans w (_mcd_dispatch_operation_run_observers w) :=
  Trans.trans_foldl _ trans_run_observers_client _ w

theorem trans_run_approvers_client (w : World) (client : McdClientProxy) :
    Trans w (run_approvers_client w client) := by
  unfold run_approvers_client
  split
  · exact Trans.trans_refl w
  · split
    · exact Trans.trans_refl w
    · split
      · exact Trans.trans_of_eq rfl rfl rfl (fun _ h => h) rfl
      · exact Trans.trans_refl w
      · dsimp only
        exact (trans_inc_ado_pending w).comp (Trans.trans_emit_minor _ _ rfl)

theorem trans_run_approvers (w : World) :
    Trans w (_mcd_dispatch_operation_run_approvers w) := by
  unfold _mcd_dispatch_operation_run_approvers
  dsimp only
  have h := (trans_inc_ado_pending w).comp
    (Trans.trans_foldl _ trans_run_approvers_client
      (_mcd_dispatch_operation_inc_ado_pending w).client_registry
      (_mcd_dispatch_operation_inc_ado_pending w))
  split
  · exact h
  · exact h.comp (trans_dec_ado_pending _)

theorem trans_run_clients_bypass (w : World) : Trans w (run_clients_bypass w) := by
  unfold run_clients_bypass
  split
  · exact (inner_set_approved w).inner_eff.to_trans
  · exact Trans.trans_refl w

theorem trans_run_clients_approvers (w : World) :
    Trans w (run_clients_approvers w) := by
  unfold run_clients_approvers
  split
  · dsimp only
    split
    · exact (trans_run_clients_bypass w).comp (trans_run_approvers _)
    · exact trans_run_clients_bypass w
  · exact Trans.trans_refl w

theorem trans_run_clients (w : World) :
    Trans w (_mcd_dispatch_operation_run_clients w) := by
  unfold _mcd_dispatch_operation_run_clients
  dsimp only
  have h := (trans_run_observers w).comp (trans_run_clients_approvers _)
  split
  · exact trans_run_observers w
  · split
    · exact h
    · refine (h.comp ?_).comp (inner_check_client_locks _).inner_eff.to_trans
      exact Trans.trans_of_eq rfl rfl rfl (fun _ h => h) rfl

theorem trans_step (valid_bus_name : String → Bool) (w : World) (e : Event) :
    Trans w (step valid_bus_name w e) := by
  cases e <;> simp only [step] <;> split <;> try exact Trans.trans_refl w
  · exact trans_run_clients w
  · exact trans_observe_channels_cb w _
  · exact trans_add_dispatch_operation_cb w _
  · exact trans_handle_channels_cb w _ _
  · exact trans_handle_with valid_bus_name w _ _ _
  · exact trans_claim w _ _
  · exact trans_approve valid_bus_name w
  · exact trans_channel_aborted_cb w _
  · exact Trans.trans_of_eq rfl rfl rfl (fun _ h => h) rfl
  · exact Trans.trans_of_eq rfl rfl rfl (fun _ h => h) rfl

theorem trans_run (valid_bus_name : String → Bool) (w : World)
    (es : List Event) : Trans w (run valid_bus_name w es) :=
  Trans.trans_foldl _ (trans_step valid_bus_name) es w

/-! ## Finishing -/

/-- C1: for every sequence of events applied to a dispatch operation that has
sent nothing yet, in particular a freshly constructed one, whatever its
fields, its registry and its channels, the `Finished` signal is emitted at
most once. -/
theorem finished_emitted_at_most_once (valid_bus_name : String → Bool)
    (priv : McdDispatchOperationPrivate) (client_registry : List McdClientProxy)
    (handler_map : List (String × String)) (chan : Nat → McdChannel)
    (es : List Event) :
    finished_count
      (run valid_bus_name (World.fresh priv client_registry handler_map chan)
        es).log ≤ 1 := by
  have h := (trans_run valid_bus_name
    (World.fresh priv client_registry handler_map chan) es).finished
  have h0 : finished_count
      (World.fresh priv client_registry handler_map chan).log = 0 := rfl
  rcases h with h | ⟨h, _, _⟩ <;> omega

/-- C3: `Finished` is emitted only at a moment when `wants_to_finish` is true
and both client locks are zero.  From any state, a call of
`_mcd_dispatch_operation_finish` or of `_mcd_dispatch_operation_check_finished`
that emits `Finished` does so in a state with `wants_to_finish` set and
`observers_pending = 0` and `ado_pending = 0`, neither of the two changes
these three fields after the emission, and the same holds of every event. -/
theorem finished_only_when_may_finish (valid_bus_name : String → Bool)
    (w : World) :
    (finished_count (_mcd_dispatch_operation_finish w).log ≠
        finished_count w.log →
      (_mcd_dispatch_operation_finish w).priv.wants_to_finish = true ∧
      (_mcd_dispatch_operation_finish w).priv.observers_pending = 0 ∧
      (_mcd_dispatch_operation_finish w).priv.ado_pending = 0) ∧
    (finished_count (_mcd_dispatch_operation_check_finished w).log ≠
        finished_count w.log →
      w.priv.wants_to_finish = true ∧ w.priv.observers_pending = 0 ∧
      w.priv.ado_pending = 0 ∧
      (_mcd_dispatch_operation_check_finished w).priv.wants_to_finish = true ∧
      (_mcd_dispatch_operation_check_finished w).priv.observers_pending = 0 ∧
      (_mcd_dispatch_operation_check_finished w).priv.ado_pending = 0) ∧
    ∀ e : Event,
      finished_count (step valid_bus_name w e).log ≠ finished_count w.log →
      (step valid_bus_name w e).priv.wants_to_finish = true ∧
      (step valid_bus_name w e).priv.observers_pending = 0 ∧
      (step valid_bus_name w e).priv.ado_pending = 0 := by
  have key : ∀ w1 w2 : World, Trans w1 w2 →
      finished_count w2.log ≠ finished_count w1.log →
      w2.priv.wants_to_finish = true ∧ w2.priv.observers_pending = 0 ∧
      w2.priv.ado_pending = 0 := by
    intro w1 w2 h hne
    rcases h.finished with h | ⟨_, hf, _⟩
    · exact absurd h hne
    · simpa [_mcd_dispatch_operation_is_finished,
        mcd_dispatch_operation_may_finish] using hf
  refine ⟨key _ _ (trans_finish w), ?_, fun e => key _ _ (trans_step _ w e)⟩
  intro hne
  obtain ⟨k, h, hk⟩ := eff_check_finished w
  rcases hk with hk | ⟨_, hf⟩
  · rw [hk] at h
    exact absurd h.finished hne
  · simp only [_mcd_dispatch_operation_is_finished,
      mcd_dispatch_operation_may_finish, Bool.and_eq_true, beq_iff_eq] at hf
    rw [h.wants_to_finish, h.observers_pending, h.ado_pending]
    exact ⟨hf.1, hf.2.1, hf.2.2, hf.1, hf.2.1, hf.2.2⟩

theorem finished_only_when_may_finish_witness :
    (finished_count (_mcd_dispatch_operation_finish example_world).log ≠
        finished_count example_world.log ∧
      (_mcd_dispatch_operation_finish example_world).priv.wants_to_finish =
        true) ∧
    (finished_count
        (_mcd_dispatch_operation_check_finished
          example_world_wants_to_finish).log ≠
        finished_count example_world_wants_to_finish.log ∧
      example_world_wants_to_finish.priv.wants_to_finish = true) ∧
    (finished_count
        (step (fun _ => true) example_world (Event.handle_with none 7 100)).log ≠
      finished_count example_world.log ∧
    ((step (fun _ => true) example_world
        (Event.handle_with none 7 100)).priv.wants_to_finish = true ∧
      (step (fun _ => true) example_world
        (Event.handle_with none 7 100)).priv.observers_pending = 0 ∧
      (step (fun _ => true) example_world
        (Event.handle_with none 7 100)).priv.ado_pending = 0)) :=
  ⟨⟨by decide,
      ((finished_only_when_may_finish (fun _ => true) example_world).1
        (by decide)).1⟩,
    ⟨by decide,
      ((finished_only_when_may_finish (fun _ => true)
        example_world_wants_to_finish).2.1 (by decide)).1⟩,
    ⟨by decide,
      (finished_only_when_may_finish (fun _ => true) example_world).2.2
        (Event.handle_with none 7 100) (by decide)⟩⟩

/-- C2 (the code at the failing input): an approver has accepted the
operation, `HandleWith` names the handler, `Finished` is emitted and the
handler is called; while the handler has not replied yet, the first channel,
still in `channels`, is closed and aborts, and `ChannelLost` is emitted after
`Finished`. -/
theorem channel_lost_after_finished :
    (run (fun _ => true) example_world_approver
      [Event.run_clients, Event.add_dispatch_operation_reply false,
        Event.handle_with (some "org.freedesktop.Telepathy.Client.H1") 7 100,
        Event.channel_changed 1 example_chan_closed,
        Event.channel_aborted 1]).log =
      [Effect.add_dispatch_operation "org.freedesktop.Telepathy.Client.A1"
          [1, 2] "/org/freedesktop/Telepathy/DispatchOperation/do0",
        Effect.finished,
        Effect.handle_channels "org.freedesktop.Telepathy.Client.H1" "/" [1, 2]
          100,
        Effect.return_from_handle_with 7,
        Effect.channel_lost "/ch1"
          { code := ErrorCode.other 0, message := "Channel closed" }] := by
  decide

/-! ## HandleWith and Claim -/

theorem step_crashed (valid_bus_name : String → Bool) (w : World) (e : Event)
    (h : w.crashed = true) : step valid_bus_name w e = w := by
  cases e <;> simp [step, h]

theorem run_crashed (valid_bus_name : String → Bool) (w : World)
    (es : List Event) (h : w.crashed = true) : run valid_bus_name w es = w := by
  induction es with
  | nil => rfl
  | cons e es ih =>
    show run valid_bus_name (step valid_bus_name w e) es = w
    rw [step_crashed valid_bus_name w e h]; exact ih

theorem finish_wants_to_finish (w : World) :
    (_mcd_dispatch_operation_finish w).priv.wants_to_finish = true := by
  by_cases hw : w.priv.wants_to_finish = true
  · exact (trans_finish w).wants_to_finish hw
  · unfold _mcd_dispatch_operation_finish
    rw [if_neg hw]
    dsimp only
    split
    · rw [(eff_actually_finish _).wants_to_finish]
    · rfl

/-- C5: the validation behind `HandleWith` fails with `NotYours` exactly when
`wants_to_finish` is set, also when the name is bad; otherwise it fails with
`InvalidArgument` exactly when the name is not empty and either lacks the
prefix `org.freedesktop.Telepathy.Client.` or is not a valid well-known bus
name; otherwise, in particular for a `NULL` or empty name, it succeeds. -/
theorem check_handle_with_result (valid_bus_name : String → Bool)
    (p : McdDispatchOperationPrivate) (handler_name : Option String) :
    MCD_CLIENT_BASE_NAME = "org.freedesktop.Telepathy.Client." ∧
    (mcd_dispatch_operation_check_handle_with valid_bus_name p handler_name =
        Except.error ErrorCode.TP_ERROR_NOT_YOURS ↔
      p.wants_to_finish = true) ∧
    (mcd_dispatch_operation_check_handle_with valid_bus_name p handler_name =
        Except.error ErrorCode.TP_ERROR_INVALID_ARGUMENT ↔
      p.wants_to_finish = false ∧
        ∃ name, handler_name = some name ∧ name ≠ "" ∧
          ( g_str_has_prefix name MCD_CLIENT_BASE_NAME = false ∨
            valid_bus_name name = false)) ∧
    (mcd_dispatch_operation_check_handle_with valid_bus_name p handler_name =
        Except.ok () ↔
      p.wants_to_finish = false ∧
        (handler_name = none ∨ handler_name = some "" ∨
          ∃ name, handler_name = some name ∧
            g_str_has_prefix name MCD_CLIENT_BASE_NAME = true ∧
            valid_bus_name name = true)) := by
  refine ⟨rfl, ?_, ?_, ?_⟩
  all_goals
    unfold mcd_dispatch_operation_check_handle_with
    cases hw : p.wants_to_finish
    all_goals cases handler_name with
      | none => simp
      | some name =>
        by_cases hn : name = ""
        · simp [hn]
        · cases hp : g_str_has_prefix name MCD_CLIENT_BASE_NAME <;>
            cases hv : valid_bus_name name <;> simp [hn, hp, hv]

/-- C6: argument errors do not disturb the dispatch operation.  A `HandleWith`
call whose validation fails and a `Claim` call on an operation that wants to
finish change no field of the operation, nor the handler map, the channels or
the registry; the only thing sent is the error reply to the caller, so no
signal is emitted and no client is called. -/
theorem failed_method_call_changes_nothing (valid_bus_name : String → Bool)
    (w : World) :
    (∀ (handler_name : Option String) (context : Nat) (now : Int)
        (error : ErrorCode),
      mcd_dispatch_operation_check_handle_with valid_bus_name w.priv
          handler_name = Except.error error →
      dispatch_operation_handle_with valid_bus_name w handler_name context now =
        { w with log := w.log ++ [Effect.return_error context error] }) ∧
    (∀ (sender : String) (context : Nat),
      w.priv.wants_to_finish = true →
      dispatch_operation_claim w sender context =
        { w with log := w.log ++
            [Effect.return_error context ErrorCode.TP_ERROR_NOT_YOURS] }) := by
  constructor
  · intro handler_name context now error h
    unfold dispatch_operation_handle_with
    rw [h]
    rfl
  · intro sender context h
    unfold dispatch_operation_claim
    rw [if_pos h]
    rfl

theorem failed_method_call_changes_nothing_witness :
    mcd_dispatch_operation_check_handle_with (fun _ => true) example_world.priv
        (some "org.example.NotAClient") =
      Except.error ErrorCode.TP_ERROR_INVALID_ARGUMENT ∧
    dispatch_operation_handle_with (fun _ => true) example_world
        (some "org.example.NotAClient") 7 100 =
      { example_world with
        log := example_world.log ++
          [Effect.return_error 7 ErrorCode.TP_ERROR_INVALID_ARGUMENT] } :=
  ⟨rfl,
    (failed_method_call_changes_nothing (fun _ => true) example_world).1
      (some "org.example.NotAClient") 7 100 ErrorCode.TP_ERROR_INVALID_ARGUMENT
      rfl⟩

/-! ## Handler selection -/

theorem sent_of_log {w1 w2 : World} {l : List Effect}
    (h : w2.log = w1.log ++ l) : sent w1 w2 = l := by
  simp [sent, h]

theorem sent_of_log_eq {w1 w2 : World} (h : w2.log = w1.log) :
    sent w1 w2 = [] := by
  simp [sent, h]

theorem log_handle_channels (w : World) (handler : McdClientProxy) :
    (mcd_dispatch_operation_handle_channels w handler).log =
      w.log ++ [handle_channels_call w handler] := by
  have hs := Silent.silent_foldl
    (fun w0 c => _mcd_channel_set_status w0 c McdChannelStatus.HANDLER_INVOKED)
    (fun w0 c => silent_set_status w0 c _) w.priv.channels w
  simp only [mcd_dispatch_operation_handle_channels, emit, hs.log,
    handle_channels_call, hs.toFrame.channels, hs.toFrame.handle_with_time]

theorem registry_lookup_isSome (registry : List McdClientProxy) (n : String) :
    (_mcd_client_registry_lookup registry n).isSome =
      registry.any (fun c => c.bus_name == n) := by
  unfold _mcd_client_registry_lookup
  induction registry with
  | nil => rfl
  | cons c registry ih =>
    rw [List.find?_cons, List.any_cons]
    cases hc : c.bus_name == n
    · simpa using ih
    · simp

theorem handler_usable_iff (w : World) (n : String) :
    handler_usable w.client_registry w.priv.failed_handlers n =
      ((_mcd_client_registry_lookup w.client_registry n).isSome &&
        !_mcd_dispatch_operation_get_handler_failed w n) := by
  simp [handler_usable, registry_lookup_isSome,
    _mcd_dispatch_operation_get_handler_failed]

theorem run_handlers_loop_bus_name (w : World) (l : List String) :
    (run_handlers_loop w l).map McdClientProxy.bus_name =
      l.find? (handler_usable w.client_registry w.priv.failed_handlers) := by
  induction l with
  | nil => rfl
  | cons n l ih =>
    unfold run_handlers_loop
    rw [List.find?_cons, handler_usable_iff]
    split
    · rename_i handler hl
      have hn := registry_lookup_bus_name hl
      cases hf : _mcd_dispatch_operation_get_handler_failed w n
      · simp [hl, hn]
      · simpa [hl] using ih
    · rename_i hl
      simpa [hl] using ih

theorem sent_run_handlers_possible (w : World) :
    sent w (run_handlers_possible w) =
      match (w.priv.possible_handlers.getD []).find?
          (handler_usable w.client_registry w.priv.failed_handlers) with
      | some name =>
        [Effect.handle_channels name (_mcd_dispatch_operation_get_account_path w)
          w.priv.channels w.priv.handle_with_time]
      | none => [] := by
  rw [← run_handlers_loop_bus_name]
  unfold run_handlers_possible
  split
  · rename_i handler hl
    rw [hl]
    exact sent_of_log (log_handle_channels w handler)
  · rename_i hl
    rw [hl]
    exact sent_of_log_eq (silent_give_up w).log

/-- C7: handler selection is the reference definition.  For every registry,
chosen handler, list of possible handlers and set of failed handlers,
`_mcd_dispatch_operation_run_handlers` sends exactly one `HandleChannels`
call, to the name that the reference definition selects, when it selects one,
and sends nothing when it selects none. -/
theorem run_handlers_is_reference (w : World) :
    sent w (_mcd_dispatch_operation_run_handlers w) =
      match select_handler_reference w.client_registry w.priv.handler
          (w.priv.possible_handlers.getD []) w.priv.failed_handlers with
      | some name =>
        [Effect.handle_channels name (_mcd_dispatch_operation_get_account_path w)
          w.priv.channels w.priv.handle_with_time]
      | none => [] := by
  unfold _mcd_dispatch_operation_run_handlers select_handler_reference
  split
  · rename_i hh
    simp only [hh]
    exact sent_run_handlers_possible w
  · rename_i h hh
    simp only [hh]
    by_cases he : h = ""
    · simp only [he, ne_eq, not_true_eq_false, false_and, if_false, if_true]
      exact sent_run_handlers_possible w
    · rw [if_neg he]
      rw [handler_usable_iff]
      split
      · rename_i handler hl
        have hn := registry_lookup_bus_name hl
        cases hf : _mcd_dispatch_operation_get_handler_failed w
            (TP_CLIENT_BUS_NAME_BASE ++ h)
        · simp only [hl, Option.isSome_some, Bool.not_false, Bool.and_self,
            ne_eq, he, not_false_eq_true, and_self, if_true]
          rw [sent_of_log (log_handle_channels w handler), handle_channels_call,
            hn]
        · simp only [hl, Option.isSome_some, Bool.not_true, Bool.and_false,
            Bool.false_eq_true, and_false, if_false]
          exact sent_run_handlers_possible w
      · rename_i hl
        simp only [hl, Option.isSome_none, Bool.false_and, Bool.false_eq_true,
          and_false, if_false]
        exact sent_run_handlers_possible w

/-- C8: when a `HandleChannels` reply is a failure, the bus name of the
handler is added to `failed_handlers` and handler selection runs again;
and from that reply on, whatever happens next, the handler is sent no
`HandleChannels` call: the number of calls to it in the log stays what it
was when the reply arrived. -/
theorem failed_handler_not_called_again (valid_bus_name : String → Bool)
    (w : World) (client : McdClientProxy) (es : List Event)
    (hw : w.crashed = false) :
    step valid_bus_name w (Event.handle_channels_reply client true) =
        _mcd_dispatch_operation_run_handlers
          (_mcd_dispatch_operation_set_handler_failed w client.bus_name) ∧
      client.bus_name ∈
        (step valid_bus_name w
          (Event.handle_channels_reply client true)).priv.failed_handlers ∧
      client.bus_name ∈
        (run valid_bus_name
          (step valid_bus_name w (Event.handle_channels_reply client true))
          es).priv.failed_handlers ∧
      handle_channels_count client.bus_name
          (run valid_bus_name
            (step valid_bus_name w (Event.handle_channels_reply client true))
            es).log =
        handle_channels_count client.bus_name w.log := by
  have hstep : step valid_bus_name w (Event.handle_channels_reply client true) =
      _mcd_dispatch_operation_run_handlers
        (_mcd_dispatch_operation_set_handler_failed w client.bus_name) := by
    simp [step, hw, _mcd_dispatch_operation_handle_channels_cb]
  have hmem : client.bus_name ∈
      (_mcd_dispatch_operation_set_handler_failed w
        client.bus_name).priv.failed_handlers := by
    simp [_mcd_dispatch_operation_set_handler_failed]
  have h1 := (inner_run_handlers
    (_mcd_dispatch_operation_set_handler_failed w client.bus_name)).inner_eff.to_trans
  have h2 := h1.comp (trans_run valid_bus_name _ es)
  rw [hstep]
  exact ⟨rfl, (h1.failed _ hmem).1, (h2.failed _ hmem).1, (h2.failed _ hmem).2⟩

theorem failed_handler_not_called_again_witness :
    (run (fun _ => true) example_world [Event.run_clients]).crashed = false ∧
      handle_channels_count example_handler.bus_name
          (run (fun _ => true) example_world [Event.run_clients]).log = 1 ∧
      handle_channels_count example_handler.bus_name
          (run (fun _ => true)
            (step (fun _ => true)
              (run (fun _ => true) example_world [Event.run_clients])
              (Event.handle_channels_reply example_handler true))
            [Event.approve, Event.run_clients]).log =
        handle_channels_count example_handler.bus_name
          (run (fun _ => true) example_world [Event.run_clients]).log :=
  ⟨by decide, by decide,
    (failed_handler_not_called_again (fun _ => true)
      (run (fun _ => true) example_world [Event.run_clients])
      example_handler [Event.approve, Event.run_clients] (by decide)).2.2.2⟩

/-! ## The reply to HandleChannels -/

theorem chan_set_channel_handled_by (w : World) (a : Nat) (u : String)
    (c : Nat) :
    (mcd_dispatch_operation_set_channel_handled_by w a u).chan c =
      if c = a ∧ (w.chan a).tp_chan.isSome = true then
        { (w.chan c) with status := McdChannelStatus.DISPATCHED }
      else w.chan c := by
  unfold mcd_dispatch_operation_set_channel_handled_by
    mcd_channel_get_tp_channel
  cases h : (w.chan a).tp_chan with
  | none => simp
  | some p =>
    by_cases hc : c = a
    · subst hc
      simp [_mcd_channel_set_status]
    · simp [_mcd_channel_set_status, hc]

theorem tp_chan_set_channel_handled_by (w : World) (a : Nat) (u : String)
    (c : Nat) :
    ((mcd_dispatch_operation_set_channel_handled_by w a u).chan c).tp_chan =
      (w.chan c).tp_chan := by
  rw [chan_set_channel_handled_by]
  split <;> rfl

theorem tp_chan_foldl_handled_by (u : String) (l : List Nat) (w : World)
    (c : Nat) :
    ((l.foldl
        (fun w0 a => mcd_dispatch_operation_set_channel_handled_by w0 a u)
        w).chan c).tp_chan = (w.chan c).tp_chan := by
  induction l generalizing w with
  | nil => rfl
  | cons a l ih =>
    rw [List.foldl_cons, ih, tp_chan_set_channel_handled_by]

theorem status_foldl_handled_by (u : String) (l : List Nat) (w : World)
    (c : Nat) (h : (w.chan c).status = McdChannelStatus.DISPATCHED) :
    ((l.foldl
        (fun w0 a => mcd_dispatch_operation_set_channel_handled_by w0 a u)
        w).chan c).status = McdChannelStatus.DISPATCHED := by
  induction l generalizing w with
  | nil => exact h
  | cons a l ih =>
    rw [List.foldl_cons]
    apply ih
    rw [chan_set_channel_handled_by]
    split
    · rfl
    · exact h

theorem chan_foldl_handled_by_none (u : String) (l : List Nat) (w : World)
    (c : Nat) (h : (w.chan c).tp_chan = none) :
    (l.foldl
        (fun w0 a => mcd_dispatch_operation_set_channel_handled_by w0 a u)
        w).chan c = w.chan c := by
  induction l generalizing w with
  | nil => rfl
  | cons a l ih =>
    rw [List.foldl_cons, ih]
    · rw [chan_set_channel_handled_by]
      split
      · rename_i hc
        rw [← hc.1, h] at hc
        simp at hc
      · rfl
    · rw [tp_chan_set_channel_handled_by]; exact h

theorem lookup_set_channel_handled_by (w : World) (a : Nat) (u p : String)
    (h : handler_map_lookup w.handler_map p = some u ∨
      (w.chan a).tp_chan = some p) :
    handler_map_lookup
        (mcd_dispatch_operation_set_channel_handled_by w a u).handler_map p =
      some u := by
  unfold mcd_dispatch_operation_set_channel_handled_by
    mcd_channel_get_tp_channel
  cases hq : (w.chan a).tp_chan with
  | none =>
    rcases h with h | h
    · simpa using h
    · rw [hq] at h; cases h
  | some q =>
    by_cases hqp : q = p
    · simp [handler_map_lookup, _mcd_handler_map_set_channel_handled,
        _mcd_channel_set_status, hqp]
    · rcases h with h | h
      · simpa [handler_map_lookup, _mcd_handler_map_set_channel_handled,
          _mcd_channel_set_status, hqp] using h
      · rw [hq] at h
        exact absurd (Option.some.inj h) hqp

theorem lookup_foldl_handled_by_keep (u p : String) (l : List Nat) (w : World)
    (h : handler_map_lookup w.handler_map p = some u) :
    handler_map_lookup
        (l.foldl
          (fun w0 a => mcd_dispatch_operation_set_channel_handled_by w0 a u)
          w).handler_map p = some u := by
  induction l generalizing w with
  | nil => exact h
  | cons a l ih =>
    rw [List.foldl_cons]
    exact ih _ (lookup_set_channel_handled_by w a u p (Or.inl h))

theorem foldl_handled_by (u : String) (l : List Nat) (w : World) (c : Nat)
    (p : String) (hc : c ∈ l) (hp : (w.chan c).tp_chan = some p) :
    ((l.foldl
        (fun w0 a => mcd_dispatch_operation_set_channel_handled_by w0 a u)
        w).chan c).status = McdChannelStatus.DISPATCHED ∧
      handler_map_lookup
        (l.foldl
          (fun w0 a => mcd_dispatch_operation_set_channel_handled_by w0 a u)
          w).handler_map p = some u := by
  induction l generalizing w with
  | nil => cases hc
  | cons a l ih =>
    rw [List.foldl_cons]
    rcases List.mem_cons.mp hc with hca | hcl
    · subst hca
      constructor
      · apply status_foldl_handled_by
        rw [chan_set_channel_handled_by, if_pos ⟨rfl, by rw [hp]; rfl⟩]
      · exact lookup_foldl_handled_by_keep u p l _
          (lookup_set_channel_handled_by w c u p (Or.inr hp))
    · exact ih _ hcl (by rw [tp_chan_set_channel_handled_by]; exact hp)

theorem foldl_undispatchable (l : List Nat) (w : World) :
    (l.foldl _mcd_channel_undispatchable w).handler_map = w.handler_map ∧
      ∀ c, (l.foldl _mcd_channel_undispatchable w).chan c =
        if c ∈ l then { (w.chan c) with undispatchable := true }
        else w.chan c := by
  induction l generalizing w with
  | nil => exact ⟨rfl, fun c => by simp⟩
  | cons a l ih =>
    rw [List.foldl_cons]
    obtain ⟨h1, h2⟩ := ih (_mcd_channel_undispatchable w a)
    refine ⟨h1, fun c => ?_⟩
    rw [h2]
    by_cases hca : c = a
    · subst hca
      by_cases hcl : c ∈ l <;> simp [hcl, _mcd_channel_undispatchable]
    · by_cases hcl : c ∈ l <;> simp [hcl, hca, _mcd_channel_undispatchable]

theorem priv_handle_channels_cb_channel (client : McdClientProxy) (l : List Nat)
    (w : World) :
    (l.foldl (handle_channels_cb_channel client) w).priv = w.priv ∧
      (l.foldl (handle_channels_cb_channel client) w).crashed = w.crashed := by
  induction l generalizing w with
  | nil => exact ⟨rfl, rfl⟩
  | cons a l ih =>
    rw [List.foldl_cons]
    obtain ⟨h1, h2⟩ := ih (handle_channels_cb_channel client w a)
    rw [h1, h2]
    unfold handle_channels_cb_channel
      mcd_dispatch_operation_set_channel_handled_by
    split
    · exact ⟨rfl, rfl⟩
    · split
      · exact ⟨rfl, rfl⟩
      · split <;> exact ⟨rfl, rfl⟩

/-- A lock check on an operation whose channels are handled changes
neither the channels nor the handler map. -/
theorem check_client_locks_handled (w : World)
    (h : w.priv.channels_handled = true) :
    _mcd_dispatch_operation_check_client_locks w = w := by
  unfold _mcd_dispatch_operation_check_client_locks
  simp [h]

theorem nothing_left_facts (w : World) :
    (actually_finish_nothing_left w).chan = w.chan ∧
      (actually_finish_nothing_left w).handler_map = w.handler_map ∧
      (actually_finish_nothing_left w).priv.claimer = w.priv.claimer ∧
      (w.priv.channels_handled = true →
        (actually_finish_nothing_left w).priv.channels_handled = true) := by
  unfold actually_finish_nothing_left
  split
  · exact ⟨rfl, rfl, rfl, fun _ => rfl⟩
  · exact ⟨rfl, rfl, rfl, id⟩

theorem claimer_none (w : World) (h : w.priv.claimer = none) :
    actually_finish_claimer w = w := by
  simp [actually_finish_claimer, h]

theorem approval_handled (w : World) (h : w.priv.channels_handled = true) :
    (actually_finish_approval w).chan = w.chan ∧
      (actually_finish_approval w).handler_map = w.handler_map := by
  unfold actually_finish_approval _mcd_dispatch_operation_set_approved
  split
  · rw [check_client_locks_handled]
    · exact ⟨rfl, rfl⟩
    · exact h
  · exact ⟨rfl, rfl⟩

theorem reply_facts (w : World) :
    (actually_finish_reply w).chan = w.chan ∧
      (actually_finish_reply w).handler_map = w.handler_map := by
  unfold actually_finish_reply
  split <;> exact ⟨rfl, rfl⟩

theorem actually_finish_handled (w : World)
    (h1 : w.priv.channels_handled = true) (h2 : w.priv.claimer = none) :
    (mcd_dispatch_operation_actually_finish w).chan = w.chan ∧
      (mcd_dispatch_operation_actually_finish w).handler_map =
        w.handler_map := by
  obtain ⟨n1, n2, n3, n4⟩ := nothing_left_facts (emit w Effect.finished)
  have e := claimer_none (actually_finish_nothing_left (emit w Effect.finished))
    (by rw [n3]; exact h2)
  obtain ⟨a1, a2⟩ := approval_handled _ (n4 h1)
  obtain ⟨r1, r2⟩ := reply_facts
    (actually_finish_approval
      (actually_finish_nothing_left (emit w Effect.finished)))
  unfold mcd_dispatch_operation_actually_finish
  simp only [e]
  split
  · exact ⟨n1, n2⟩
  · exact ⟨(r1.trans a1).trans n1, (r2.trans a2).trans n2⟩

theorem finish_handled (w : World) (h1 : w.priv.channels_handled = true)
    (h2 : w.priv.claimer = none) :
    (_mcd_dispatch_operation_finish w).chan = w.chan ∧
      (_mcd_dispatch_operation_finish w).handler_map = w.handler_map := by
  unfold _mcd_dispatch_operation_finish
  split
  · exact ⟨rfl, rfl⟩
  · dsimp only
    split
    · exact actually_finish_handled _ h1 h2
    · exact ⟨rfl, rfl⟩

/-- C9, as amended: on a successful `HandleChannels` reply the callback
first goes through `channels` and then finishes the operation, so that
`wants_to_finish` is set afterwards.  When the unique name of the handler is
known and not empty, every channel of `channels` that still has its
`TpChannel` becomes `dispatched` and the handler map records the handler's
unique name for it, and a channel without `TpChannel` is left as it was.  When
the unique name is unknown or empty, every channel of `channels` is marked
undispatchable, its status is kept and the handler map is not changed.
Finishing keeps the channels and the handler map as the loop left them when
the channels count as handled, as they do once `HandleChannels` has been
called, and nobody has claimed them. -/
theorem handle_channels_success (w : World) (client : McdClientProxy) :
    _mcd_dispatch_operation_handle_channels_cb w client false =
        _mcd_dispatch_operation_finish
          (w.priv.channels.foldl (handle_channels_cb_channel client) w) ∧
      (_mcd_dispatch_operation_handle_channels_cb w client
        false).priv.wants_to_finish = true ∧
      (∀ u, client.unique_name = some u → u ≠ "" →
        (∀ c ∈ w.priv.channels, ∀ p, (w.chan c).tp_chan = some p →
          ((w.priv.channels.foldl (handle_channels_cb_channel client)
              w).chan c).status = McdChannelStatus.DISPATCHED ∧
          handler_map_lookup
            (w.priv.channels.foldl (handle_channels_cb_channel client)
              w).handler_map p = some u) ∧
        (∀ c, (w.chan c).tp_chan = none →
          (w.priv.channels.foldl (handle_channels_cb_channel client) w).chan c =
            w.chan c)) ∧
      (client.unique_name = none ∨ client.unique_name = some "" →
        (w.priv.channels.foldl (handle_channels_cb_channel client)
            w).handler_map = w.handler_map ∧
        ∀ c ∈ w.priv.channels,
          (w.priv.channels.foldl (handle_channels_cb_channel client)
              w).chan c =
            { (w.chan c) with undispatchable := true }) ∧
      (w.priv.channels_handled = true → w.priv.claimer = none →
        (_mcd_dispatch_operation_handle_channels_cb w client false).chan =
          (w.priv.channels.foldl (handle_channels_cb_channel client) w).chan ∧
        (_mcd_dispatch_operation_handle_channels_cb w client false).handler_map =
          (w.priv.channels.foldl (handle_channels_cb_channel client)
            w).handler_map) := by
  have hdef : _mcd_dispatch_operation_handle_channels_cb w client false =
      _mcd_dispatch_operation_finish
        (w.priv.channels.foldl (handle_channels_cb_channel client) w) := by
    simp [_mcd_dispatch_operation_handle_channels_cb]
  refine ⟨hdef, ?_, ?_, ?_, ?_⟩
  · rw [hdef]; exact finish_wants_to_finish _
  · intro u hu hne
    have hf : handle_channels_cb_channel client =
        fun w0 a => mcd_dispatch_operation_set_channel_handled_by w0 a u := by
      funext w0 a
      simp [handle_channels_cb_channel, hu, hne]
    rw [hf]
    exact ⟨fun c hc p hp => foldl_handled_by u _ w c p hc hp,
      fun c hc => chan_foldl_handled_by_none u _ w c hc⟩
  · intro hu
    have hf : handle_channels_cb_channel client = _mcd_channel_undispatchable := by
      funext w0 a
      rcases hu with hu | hu <;> simp [handle_channels_cb_channel, hu]
    rw [hf]
    obtain ⟨h1, h2⟩ := foldl_undispatchable w.priv.channels w
    exact ⟨h1, fun c hc => by rw [h2, if_pos hc]⟩
  · intro h1 h2
    rw [hdef]
    obtain ⟨hp, _⟩ := priv_handle_channels_cb_channel client w.priv.channels w
    exact finish_handled _ (by rw [hp]; exact h1) (by rw [hp]; exact h2)

theorem handle_channels_success_witness :
    (example_handler.unique_name = some ":1.5" ∧ ":1.5" ≠ "" ∧
      2 ∈ example_world_invoked.priv.channels ∧
      (example_world_invoked.chan 2).tp_chan = some "/ch2" ∧
      ((example_world_invoked.priv.channels.foldl
            (handle_channels_cb_channel example_handler)
            example_world_invoked).chan 2).status =
          McdChannelStatus.DISPATCHED ∧
      handler_map_lookup
          (example_world_invoked.priv.channels.foldl
            (handle_channels_cb_channel example_handler)
            example_world_invoked).handler_map "/ch2" = some ":1.5") ∧
    (example_world_invoked.priv.channels_handled = true ∧
      example_world_invoked.priv.claimer = none ∧
      (_mcd_dispatch_operation_handle_channels_cb example_world_invoked
          example_handler false).handler_map =
        (example_world_invoked.priv.channels.foldl
          (handle_channels_cb_channel example_handler)
          example_world_invoked).handler_map) :=
  ⟨⟨rfl, by decide, by decide, by decide,
      ((handle_channels_success example_world_invoked example_handler).2.2.1
        ":1.5" rfl (by decide)).1 2 (by decide) "/ch2" (by decide)⟩,
    by decide, by decide,
    ((handle_channels_success example_world_invoked example_handler).2.2.2.2
      (by decide) (by decide)).2⟩

/-- C9 (the claim as stated fails): a handler whose unique name is known
replies to `HandleChannels` with success; the first channel is still in
`channels` but has lost its `TpChannel`; its status does not become
`dispatched` and the handler map gets no entry for it, only the entry of the
second channel. -/
theorem handle_channels_success_without_tp_channel :
    1 ∈ example_world_invoked.priv.channels ∧
      example_handler.unique_name = some ":1.5" ∧
      ((step (fun _ => true) example_world_invoked
          (Event.handle_channels_reply example_handler false)).chan 1).status ≠
        McdChannelStatus.DISPATCHED ∧
      (step (fun _ => true) example_world_invoked
          (Event.handle_channels_reply example_handler false)).handler_map =
        [("/ch2", ":1.5")] ∧
      (step (fun _ => true) example_world_invoked
          (Event.handle_channels_reply example_handler
            false)).priv.wants_to_finish = true := by
  decide

/-! ## No handler left -/

theorem give_up_facts (l : List Nat) (w : World) :
    (l.foldl
        (fun w0 channel =>
          _mcd_channel_undispatchable
            (mcd_channel_take_error w0 channel
              { code := ErrorCode.MC_CHANNEL_REQUEST_GENERIC_ERROR,
                message := "Handler no longer available" })
            channel) w).handler_map = w.handler_map ∧
      ∀ c,
        (l.foldl
          (fun w0 channel =>
            _mcd_channel_undispatchable
              (mcd_channel_take_error w0 channel
                { code := ErrorCode.MC_CHANNEL_REQUEST_GENERIC_ERROR,
                  message := "Handler no longer available" })
              channel) w).chan c =
          if c ∈ l then
            { (w.chan c) with
              error := some
                { code := ErrorCode.MC_CHANNEL_REQUEST_GENERIC_ERROR,
                  message := "Handler no longer available" },
              undispatchable := true }
          else w.chan c := by
  induction l generalizing w with
  | nil => exact ⟨rfl, fun c => by simp⟩
  | cons a l ih =>
    rw [List.foldl_cons]
    obtain ⟨h1, h2⟩ := ih
      (_mcd_channel_undispatchable
        (mcd_channel_take_error w a
          { code := ErrorCode.MC_CHANNEL_REQUEST_GENERIC_ERROR,
            message := "Handler no longer available" })
        a)
    refine ⟨h1, fun c => ?_⟩
    rw [h2]
    by_cases hca : c = a
    · subst hca
      by_cases hcl : c ∈ l <;>
        simp [hcl, _mcd_channel_undispatchable, mcd_channel_take_error]
    · by_cases hcl : c ∈ l <;>
        simp [hcl, hca, _mcd_channel_undispatchable, mcd_channel_take_error]

theorem handler_usable_false (w : World) (n : String)
    (h : ¬ ((∃ c ∈ w.client_registry, c.bus_name = n) ∧
      n ∉ w.priv.failed_handlers)) :
    handler_usable w.client_registry w.priv.failed_handlers n = false := by
  cases hu : handler_usable w.client_registry w.priv.failed_handlers n
  · rfl
  · exfalso
    apply h
    simpa [handler_usable] using hu

/-- C10: all handlers vanished.  When handler selection runs and no name
among the chosen handler and `possible_handlers` is both registered and not
failed, nothing is sent, so no `HandleChannels` call; the handler map and the
private structure are left as they were; and every channel of `channels`
gets the error "Handler no longer available" and is marked undispatchable. -/
theorem run_handlers_no_handler_left (w : World)
    (h : ∀ n : String,
      n ∈ w.priv.possible_handlers.getD [] ∨
        (∃ chosen, w.priv.handler = some chosen ∧ chosen ≠ "" ∧
          n = TP_CLIENT_BUS_NAME_BASE ++ chosen) →
      ¬ ((∃ c ∈ w.client_registry, c.bus_name = n) ∧
        n ∉ w.priv.failed_handlers)) :
    (_mcd_dispatch_operation_run_handlers w).log = w.log ∧
      (_mcd_dispatch_operation_run_handlers w).handler_map = w.handler_map ∧
      (_mcd_dispatch_operation_run_handlers w).priv = w.priv ∧
      ∀ c ∈ w.priv.channels,
        ((_mcd_dispatch_operation_run_handlers w).chan c).error =
            some { code := ErrorCode.MC_CHANNEL_REQUEST_GENERIC_ERROR,
                   message := "Handler no longer available" } ∧
          ((_mcd_dispatch_operation_run_handlers w).chan c).undispatchable =
            true := by
  have hloop : run_handlers_loop w (w.priv.possible_handlers.getD []) = none := by
    have hb := run_handlers_loop_bus_name w (w.priv.possible_handlers.getD [])
    have hn : (w.priv.possible_handlers.getD []).find?
        (handler_usable w.client_registry w.priv.failed_handlers) = none := by
      rw [List.find?_eq_none]
      intro n hn
      rw [handler_usable_false w n (h n (Or.inl hn))]
      decide
    rw [hn] at hb
    cases hr : run_handlers_loop w (w.priv.possible_handlers.getD []) with
    | none => rfl
    | some x => rw [hr] at hb; cases hb
  have hposs : run_handlers_possible w = run_handlers_give_up w := by
    unfold run_handlers_possible
    rw [hloop]
  have hrun : _mcd_dispatch_operation_run_handlers w =
      run_handlers_give_up w := by
    unfold _mcd_dispatch_operation_run_handlers
    split
    · exact hposs
    · rename_i chosen hc
      split
      · exact hposs
      · rename_i hne
        have hu := handler_usable_false w (TP_CLIENT_BUS_NAME_BASE ++ chosen)
          (h _ (Or.inr ⟨chosen, hc, hne, rfl⟩))
        rw [handler_usable_iff] at hu
        dsimp only
        split
        · rename_i handler hl
          rw [hl] at hu
          split
          · rename_i hnf
            rw [hnf] at hu
            simp at hu
          · exact hposs
        · exact hposs
  rw [hrun]
  obtain ⟨g1, g2⟩ := give_up_facts w.priv.channels w
  have hs := silent_give_up w
  refine ⟨hs.log, g1, ?_, fun c hc => ?_⟩
  · have hp : ∀ (l : List Nat) (w0 : World),
        (l.foldl
          (fun w0 channel =>
            _mcd_channel_undispatchable
              (mcd_channel_take_error w0 channel
                { code := ErrorCode.MC_CHANNEL_REQUEST_GENERIC_ERROR,
                  message := "Handler no longer available" })
              channel) w0).priv = w0.priv := by
      intro l
      induction l with
      | nil => intro w0; rfl
      | cons a l ih => intro w0; rw [List.foldl_cons, ih]; rfl
    exact hp _ w
  · have := g2 c
    rw [if_pos hc] at this
    unfold run_handlers_give_up
    rw [this]
    exact ⟨rfl, rfl⟩

theorem run_handlers_no_handler_left_witness :
    (∀ n : String,
      n ∈ (example_world.priv.possible_handlers.getD []) ∨
        (∃ chosen, example_world.priv.handler = some chosen ∧ chosen ≠ "" ∧
          n = TP_CLIENT_BUS_NAME_BASE ++ chosen) →
      ¬ ((∃ c ∈ ({ example_world with client_registry := [] } : World).client_registry,
          c.bus_name = n) ∧
        n ∉ example_world.priv.failed_handlers)) ∧
    ((_mcd_dispatch_operation_run_handlers
        { example_world with client_registry := [] }).log = [] ∧
      ∀ c ∈ example_world.priv.channels,
        ((_mcd_dispatch_operation_run_handlers
            { example_world with client_registry := [] }).chan c).error =
            some { code := ErrorCode.MC_CHANNEL_REQUEST_GENERIC_ERROR,
                   message := "Handler no longer available" } ∧
          ((_mcd_dispatch_operation_run_handlers
            { example_world with client_registry := [] }).chan c).undispatchable =
            true) :=
  have h : ∀ n : String,
      n ∈ (example_world.priv.possible_handlers.getD []) ∨
        (∃ chosen, example_world.priv.handler = some chosen ∧ chosen ≠ "" ∧
          n = TP_CLIENT_BUS_NAME_BASE ++ chosen) →
      ¬ ((∃ c ∈ ({ example_world with client_registry := [] } : World).client_registry,
          c.bus_name = n) ∧
        n ∉ example_world.priv.failed_handlers) := by
    intro n _ hn
    obtain ⟨⟨c, hc, _⟩, _⟩ := hn
    cases hc
  ⟨h,
    (run_handlers_no_handler_left { example_world with client_registry := [] }
      h).1,
    (run_handlers_no_handler_left { example_world with client_registry := [] }
      h).2.2.2⟩
/-! ## Construction -/

theorem constructor_none_iff (cpt : Nat)
    (have_client_registry have_handler_map needs_approval observe_only : Bool)
    (channels : List Nat) (account connection : Option String)
    (possible_handlers : Option (List String)) :
    mcd_dispatch_operation_constructor cpt have_client_registry
        have_handler_map needs_approval observe_only channels account connection
        possible_handlers = none ↔
      (have_client_registry = false ∨ have_handler_map = false ∨
        (possible_handlers = none ∧ observe_only = false) ∨
        (needs_approval = true ∧ observe_only = true)) := by
  cases have_client_registry <;> cases have_handler_map <;>
    cases needs_approval <;> cases observe_only <;>
    cases possible_handlers <;> simp [mcd_dispatch_operation_constructor]

/-- C19, the counterexample: a dispatch operation that is not observe-only is
constructed with a `possible_handlers` array that is not `NULL` but empty. -/
theorem construction_accepts_empty_possible_handlers :
    ∃ p, _mcd_dispatch_operation_new 0 true true false false [1]
        (some "/account") (some "/connection") (some []) = some p ∧
      p.1.observe_only = false ∧ p.1.possible_handlers = some [] :=
  ⟨_, rfl, rfl, rfl⟩

/-- C19, as the code has it: the constructor and `_mcd_dispatch_operation_new`
refuse the construction exactly when the client registry or the handler map
is missing, when `possible_handlers` is `NULL` and `observe_only` is false,
or when `needs_approval` and `observe_only` are both true; an operation that
is constructed has the properties it was given, so it satisfies
not (`needs_approval` and `observe_only`), and `observe_only` or
`possible_handlers` is not `NULL`. -/
theorem construction_validates (cpt : Nat)
    (have_client_registry have_handler_map needs_approval observe_only : Bool)
    (channels : List Nat) (account connection : Option String)
    (possible_handlers : Option (List String)) :
    (_mcd_dispatch_operation_new cpt have_client_registry have_handler_map
        needs_approval observe_only channels account connection
        possible_handlers = none ↔
      (have_client_registry = false ∨ have_handler_map = false ∨
        (possible_handlers = none ∧ observe_only = false) ∨
        (needs_approval = true ∧ observe_only = true))) ∧
    (mcd_dispatch_operation_constructor cpt have_client_registry
        have_handler_map needs_approval observe_only channels account connection
        possible_handlers = none ↔
      (have_client_registry = false ∨ have_handler_map = false ∨
        (possible_handlers = none ∧ observe_only = false) ∨
        (needs_approval = true ∧ observe_only = true))) ∧
    ∀ p, _mcd_dispatch_operation_new cpt have_client_registry have_handler_map
        needs_approval observe_only channels account connection
        possible_handlers = some p →
      p.1.needs_approval = needs_approval ∧ p.1.observe_only = observe_only ∧
      p.1.possible_handlers = possible_handlers ∧
      ¬ (p.1.needs_approval = true ∧ p.1.observe_only = true) ∧
      (p.1.observe_only = true ∨ p.1.possible_handlers ≠ none) := by
  refine ⟨?_, constructor_none_iff _ _ _ _ _ _ _ _ _, ?_⟩
  · cases have_client_registry <;> cases have_handler_map <;>
      cases needs_approval <;> cases observe_only <;>
      cases possible_handlers <;>
      simp [_mcd_dispatch_operation_new, mcd_dispatch_operation_constructor]
  · intro p hp
    cases have_client_registry <;> cases have_handler_map <;>
      cases needs_approval <;> cases observe_only <;>
      cases possible_handlers <;>
      simp [_mcd_dispatch_operation_new, mcd_dispatch_operation_constructor] at hp <;>
      subst hp <;> simp
/-! ## Object paths -/

theorem digitChar_value (m : Nat) (h : m < 10) :
    (Nat.digitChar m).toNat - 48 = m := by
  interval_cases m <;> rfl

theorem toDigitsCore_value (fuel : Nat) : ∀ (n : Nat) (ds : List Char), n < fuel →
    (Nat.toDigitsCore 10 fuel n ds).foldl (fun a c => a * 10 + (c.toNat - 48)) 0 =
      ds.foldl (fun a c => a * 10 + (c.toNat - 48)) n := by
  induction fuel with
  | zero => intro n ds h; omega
  | succ fuel ih =>
    intro n ds h
    unfold Nat.toDigitsCore
    dsimp only
    split
    · rename_i h0
      rw [List.foldl_cons, digitChar_value _ (Nat.mod_lt _ (by decide))]
      have : n < 10 := by
        by_contra hc
        have := Nat.div_pos (Nat.le_of_not_lt hc) (by decide : 0 < 10)
        omega
      rw [Nat.zero_mul, Nat.zero_add, Nat.mod_eq_of_lt this]
    · rename_i h0
      have hlt : n / 10 < fuel := by
        have hn : 0 < n := by
          rcases Nat.eq_zero_or_pos n with h1 | h1
          · exact absurd (by rw [h1]) h0
          · exact h1
        have := Nat.div_lt_self hn (by decide : 1 < 10)
        omega
      rw [ih (n / 10) _ hlt, List.foldl_cons,
        digitChar_value _ (Nat.mod_lt _ (by decide)), Nat.div_add_mod']

theorem decimal_value_repr (n : Nat) : decimal_value (Nat.repr n).data = n := by
  unfold decimal_value Nat.repr Nat.toDigits
  rw [show (Nat.toDigitsCore 10 (n + 1) n []).asString.data =
    Nat.toDigitsCore 10 (n + 1) n [] from rfl]
  rw [toDigitsCore_value (n + 1) n [] (Nat.lt_succ_self n)]
  rfl

theorem repr_injective {m n : Nat} (h : Nat.repr m = Nat.repr n) : m = n := by
  rw [← decimal_value_repr m, ← decimal_value_repr n, h]

theorem string_append_cancel_left {a b c : String} (h : a ++ b = a ++ c) : b = c := by
  have h1 : (a ++ b).data = (a ++ c).data := congrArg String.data h
  rw [String.data_append, String.data_append] at h1
  exact String.ext (List.append_cancel_left h1)

theorem counter_after_succ (cpt n : Nat) :
    counter_after cpt (n + 1) = (cpt + (n + 1)) % 2 ^ 32 := by
  induction n with
  | zero => rfl
  | succ n ih =>
    show (counter_after cpt (n + 1) + 1) % 2 ^ 32 = _
    rw [ih]
    omega

theorem nth_unique_name_eq (cpt n : Nat) :
    nth_unique_name cpt n = "do" ++ Nat.repr ((cpt + n) % 2 ^ 32) := by
  cases n with
  | zero => rfl
  | succ n =>
    show "do" ++ Nat.repr (counter_after cpt (n + 1) % 2 ^ 32) = _
    rw [counter_after_succ, Nat.mod_mod]

/-- C20, the counterexample: the counter is a `guint`, so after 2^32
constructions it is back at its first value, and the dispatch operation
constructed then gets the unique name of the first one. -/
theorem unique_name_repeats :
    nth_unique_name 0 (2 ^ 32) = nth_unique_name 0 0 := by
  rw [nth_unique_name_eq, nth_unique_name_eq]
  have h : (0 + 2 ^ 32) % 2 ^ 32 = (0 + 0) % 2 ^ 32 := by norm_num
  rw [h]

/-- C20, as the code has it: the object path is the fixed base followed by
the unique name, the unique name is "do" followed by the decimal value of the
counter, a 32-bit unsigned number that a construction increments by one
modulo 2^32 and that a refused construction does not touch; and two dispatch
operations constructed fewer than 2^32 constructions apart have distinct
unique names. -/
theorem object_path_of_counter (cpt : Nat) :
    (create_object_path cpt).2.1 = "do" ++ Nat.repr (cpt % 2 ^ 32) ∧
    (create_object_path cpt).1 =
      MC_DISPATCH_OPERATION_DBUS_OBJECT_BASE ++ (create_object_path cpt).2.1 ∧
    (create_object_path cpt).2.2 = (cpt + 1) % 2 ^ 32 ∧
    (∀ (have_client_registry have_handler_map needs_approval observe_only : Bool)
        (channels : List Nat) (account connection : Option String)
        (possible_handlers : Option (List String))
        (p : McdDispatchOperationPrivate × Nat),
      _mcd_dispatch_operation_new cpt have_client_registry have_handler_map
          needs_approval observe_only channels account connection
          possible_handlers = some p →
        p.1.unique_name = (create_object_path cpt).2.1 ∧
        p.1.object_path = (create_object_path cpt).1 ∧
        p.2 = (cpt + 1) % 2 ^ 32) ∧
    ∀ i j : Nat, i < j → j - i < 2 ^ 32 →
      nth_unique_name cpt i ≠ nth_unique_name cpt j := by
  refine ⟨rfl, rfl, rfl, ?_, ?_⟩
  · intro r m na oo channels account connection ph p hp
    cases r <;> cases m <;> cases na <;> cases oo <;> cases ph <;>
      simp [_mcd_dispatch_operation_new, mcd_dispatch_operation_constructor] at hp <;>
      subst hp <;> exact ⟨rfl, rfl, rfl⟩
  · intro i j hij hd he
    rw [nth_unique_name_eq, nth_unique_name_eq] at he
    have := repr_injective (string_append_cancel_left he)
    omega
/-! ## What a step sends -/

theorem Sends.sends_refl (P : Effect → Bool) (w : World) : Sends P w w :=
  ⟨[], by simp, by simp⟩

theorem Sends.sends_trans {P : Effect → Bool} {w1 w2 w3 : World}
    (h1 : Sends P w1 w2) (h2 : Sends P w2 w3) : Sends P w1 w3 := by
  obtain ⟨l1, e1, p1⟩ := h1
  obtain ⟨l2, e2, p2⟩ := h2
  refine ⟨l1 ++ l2, by rw [e2, e1, List.append_assoc], ?_⟩
  intro e he
  rcases List.mem_append.1 he with h | h
  · exact p1 e h
  · exact p2 e h

theorem Sends.sends_of_log {P : Effect → Bool} {w1 w2 : World}
    (h : w2.log = w1.log) : Sends P w1 w2 :=
  ⟨[], by simp [h], by simp⟩

theorem Sends.sends_emit (P : Effect → Bool) (w : World) (e : Effect)
    (he : P e = true) : Sends P w (emit w e) :=
  ⟨[e], rfl, by simpa using he⟩

theorem Sends.sends_foldl {P : Effect → Bool} {β : Type} (f : World → β → World)
    (hf : ∀ w b, Sends P w (f w b)) (l : List β) (w : World) :
    Sends P w (l.foldl f w) := by
  induction l generalizing w with
  | nil => exact Sends.sends_refl P w
  | cons b l ih => exact (hf w b).sends_trans (ih (f w b))

theorem Sends.sent_all {P : Effect → Bool} {w1 w2 : World} (h : Sends P w1 w2) :
    ∀ e ∈ sent w1 w2, P e = true := by
  obtain ⟨l, e1, p1⟩ := h
  rw [sent_of_log e1]
  exact p1

theorem Sends.mono {P Q : Effect → Bool} {w1 w2 : World} (h : Sends P w1 w2)
    (hpq : ∀ e, P e = true → Q e = true) : Sends Q w1 w2 := by
  obtain ⟨l, e1, p1⟩ := h
  exact ⟨l, e1, fun e he => hpq e (p1 e he)⟩

theorem Inner.sends {w1 w2 : World} (h : Inner w1 w2) :
    Sends Effect.is_handle_channels w1 w2 := by
  rcases h.log with hl | ⟨c, _, _, hl⟩
  · exact Sends.sends_of_log hl
  · exact ⟨_, hl, by simp [handle_channels_call, Effect.is_handle_channels]⟩
/-! ## Fatal dispatch failure -/

theorem priv_give_up (w : World) : (run_handlers_give_up w).priv = w.priv := by
  have hp : ∀ (l : List Nat) (w0 : World),
      (l.foldl
        (fun w0 channel =>
          _mcd_channel_undispatchable
            (mcd_channel_take_error w0 channel
              { code := ErrorCode.MC_CHANNEL_REQUEST_GENERIC_ERROR,
                message := "Handler no longer available" })
            channel) w0).priv = w0.priv := by
    intro l
    induction l with
    | nil => intro w0; rfl
    | cons a l ih => intro w0; rw [List.foldl_cons, ih]; rfl
  exact hp _ w

theorem run_handlers_eq_give_up (w : World)
    (h : ∀ n : String,
      n ∈ w.priv.possible_handlers.getD [] ∨
        (∃ chosen, w.priv.handler = some chosen ∧ chosen ≠ "" ∧
          n = TP_CLIENT_BUS_NAME_BASE ++ chosen) →
      ¬ ((∃ c ∈ w.client_registry, c.bus_name = n) ∧
        n ∉ w.priv.failed_handlers)) :
    _mcd_dispatch_operation_run_handlers w = run_handlers_give_up w := by
  have hloop : run_handlers_loop w (w.priv.possible_handlers.getD []) = none := by
    have hb := run_handlers_loop_bus_name w (w.priv.possible_handlers.getD [])
    have hn : (w.priv.possible_handlers.getD []).find?
        (handler_usable w.client_registry w.priv.failed_handlers) = none := by
      rw [List.find?_eq_none]
      intro n hn
      rw [handler_usable_false w n (h n (Or.inl hn))]
      decide
    rw [hn] at hb
    cases hr : run_handlers_loop w (w.priv.possible_handlers.getD []) with
    | none => rfl
    | some x => rw [hr] at hb; cases hb
  have hposs : run_handlers_possible w = run_handlers_give_up w := by
    unfold run_handlers_possible
    rw [hloop]
  unfold _mcd_dispatch_operation_run_handlers
  split
  · exact hposs
  · rename_i chosen hc
    split
    · exact hposs
    · rename_i hne
      have hu := handler_usable_false w (TP_CLIENT_BUS_NAME_BASE ++ chosen)
        (h _ (Or.inr ⟨chosen, hc, hne, rfl⟩))
      rw [handler_usable_iff] at hu
      dsimp only
      split
      · rename_i handler hl
        rw [hl] at hu
        split
        · rename_i hnf
          rw [hnf] at hu
          simp at hu
        · exact hposs
      · exact hposs

theorem lose_channel_signal_now (w : World) (c : Nat)
    (hm : mcd_dispatch_operation_may_finish w.priv = true)
    (he : (w.chan c).error ≠ none) :
    (lose_channel_signal w c).priv = w.priv ∧
      (lose_channel_signal w c).chan = w.chan ∧
      (lose_channel_signal w c).crashed = w.crashed := by
  unfold lose_channel_signal
  split
  · exact ⟨rfl, rfl, rfl⟩
  · rw [hm]
    simp only [Bool.not_true, Bool.false_eq_true, if_false]
    unfold emit_channel_lost
    split
    · rename_i hn
      exact absurd hn he
    · exact ⟨rfl, rfl, rfl⟩

theorem finished_mem_of_count {l1 l2 : List Effect}
    (h : finished_count l2 = finished_count l1 + 1) : Effect.finished ∈ l2 := by
  unfold finished_count at h
  exact List.count_pos_iff.1 (by omega)

theorem finish_now (w : World) (hw : w.priv.wants_to_finish = false)
    (hm : mcd_dispatch_operation_may_finish w.priv = true) :
    (_mcd_dispatch_operation_finish w).priv.wants_to_finish = true ∧
      Effect.finished ∈ (_mcd_dispatch_operation_finish w).log := by
  unfold _mcd_dispatch_operation_finish
  rw [if_neg (by simp [hw])]
  dsimp only
  have hm2 : mcd_dispatch_operation_may_finish
      { w.priv with wants_to_finish := true } = true := hm
  rw [if_pos hm2]
  have he := eff_actually_finish
    { w with priv := { w.priv with wants_to_finish := true } }
  exact ⟨he.wants_to_finish, finished_mem_of_count he.finished⟩

theorem channel_aborted_now (w : World) (c : Nat) (hc : w.crashed = false)
    (ho : w.priv.observers_pending = 0) (ha : w.priv.ado_pending = 0)
    (hw : w.priv.wants_to_finish = false) (hmem : c ∈ w.priv.channels)
    (he : (w.chan c).error ≠ none) :
    (w.priv.channels.erase c = [] →
      (mcd_dispatch_operation_channel_aborted_cb w c).priv.wants_to_finish = true ∧
      Effect.finished ∈ (mcd_dispatch_operation_channel_aborted_cb w c).log) ∧
    (w.priv.channels.erase c ≠ [] →
      (mcd_dispatch_operation_channel_aborted_cb w c).crashed = false ∧
      (mcd_dispatch_operation_channel_aborted_cb w c).priv.observers_pending = 0 ∧
      (mcd_dispatch_operation_channel_aborted_cb w c).priv.ado_pending = 0 ∧
      (mcd_dispatch_operation_channel_aborted_cb w c).priv.wants_to_finish = false ∧
      (mcd_dispatch_operation_channel_aborted_cb w c).priv.channels =
        w.priv.channels.erase c ∧
      (mcd_dispatch_operation_channel_aborted_cb w c).chan = w.chan) := by
  -- the state in which the channel is lost: at most `cancelled` has changed
  obtain ⟨w1, hw1, h1c, h1o, h1a, h1w, h1ch, h1chan⟩ :
      ∃ w1, mcd_dispatch_operation_channel_aborted_cb w c =
          _mcd_dispatch_operation_lose_channel w1 c ∧
        w1.crashed = false ∧ w1.priv.observers_pending = 0 ∧
        w1.priv.ado_pending = 0 ∧ w1.priv.wants_to_finish = false ∧
        w1.priv.channels = w.priv.channels ∧ w1.chan = w.chan := by
    refine ⟨_, rfl, ?_⟩
    split
    · exact ⟨hc, ho, ha, hw, rfl, rfl⟩
    · split
      · exact ⟨hc, ho, ha, hw, rfl, rfl⟩
      · exact ⟨hc, ho, ha, hw, rfl, rfl⟩
  rw [hw1]
  have hmem1 : c ∈ w1.priv.channels := by rw [h1ch]; exact hmem
  have hmay : mcd_dispatch_operation_may_finish
      { w1.priv with channels := w1.priv.channels.erase c } = true := by
    simp [mcd_dispatch_operation_may_finish, h1o, h1a]
  obtain ⟨s1, s2, s3⟩ := lose_channel_signal_now
    { w1 with priv := { w1.priv with channels := w1.priv.channels.erase c } } c
    hmay (by rw [show ({ w1 with priv := { w1.priv with
      channels := w1.priv.channels.erase c } } : World).chan = w.chan from h1chan]
             exact he)
  unfold _mcd_dispatch_operation_lose_channel
  rw [if_pos hmem1]
  dsimp only
  rw [if_neg (by rw [s3]; simp [h1c])]
  constructor
  · intro hnil
    rw [if_pos (by rw [s1]; show w1.priv.channels.erase c = []; rw [h1ch]; exact hnil)]
    exact finish_now _ (by rw [s1]; exact h1w) (by rw [s1]; exact hmay)
  · intro hne
    rw [if_neg (by rw [s1]; show ¬ w1.priv.channels.erase c = []; rw [h1ch]; exact hne)]
    refine ⟨by rw [s3]; exact h1c, by rw [s1]; exact h1o, by rw [s1]; exact h1a,
      by rw [s1]; exact h1w, by rw [s1]; show w1.priv.channels.erase c = _; rw [h1ch],
      by rw [s2]; exact h1chan⟩

theorem aborts_finish (valid_bus_name : String → Bool) :
    ∀ (cs : List Nat) (w : World), w.crashed = false →
      w.priv.observers_pending = 0 → w.priv.ado_pending = 0 →
      w.priv.wants_to_finish = false → cs ≠ [] → cs.Perm w.priv.channels →
      (∀ c ∈ w.priv.channels, (w.chan c).error ≠ none) →
      (run valid_bus_name w (cs.map Event.channel_aborted)).priv.wants_to_finish =
          true ∧
        Effect.finished ∈
          (run valid_bus_name w (cs.map Event.channel_aborted)).log := by
  intro cs
  induction cs with
  | nil => intro w _ _ _ _ h; exact absurd rfl h
  | cons c cs ih =>
    intro w hc ho ha hw _ hperm herr
    have hmem : c ∈ w.priv.channels := hperm.subset (List.mem_cons_self c cs)
    obtain ⟨f1, f2⟩ := channel_aborted_now w c hc ho ha hw hmem (herr c hmem)
    have hp2 : cs.Perm (w.priv.channels.erase c) := by
      have := hperm.erase c
      rwa [List.erase_cons_head] at this
    have hstep : step valid_bus_name w (Event.channel_aborted c) =
        mcd_dispatch_operation_channel_aborted_cb w c := by
      simp [step, hc]
    show (run valid_bus_name (step valid_bus_name w (Event.channel_aborted c))
        (cs.map Event.channel_aborted)).priv.wants_to_finish = true ∧
      Effect.finished ∈ (run valid_bus_name
        (step valid_bus_name w (Event.channel_aborted c))
        (cs.map Event.channel_aborted)).log
    rw [hstep]
    by_cases hnil : w.priv.channels.erase c = []
    · have hcs : cs = [] := by
        rw [hnil] at hp2
        exact List.Perm.eq_nil hp2
      subst hcs
      exact f1 hnil
    · obtain ⟨g1, g2, g3, g4, g5, g6⟩ := f2 hnil
      have hcs : cs ≠ [] := by
        intro h0
        rw [h0] at hp2
        exact hnil (List.Perm.nil_eq hp2).symm
      refine ih _ g1 g2 g3 g4 hcs (by rw [g5]; exact hp2) ?_
      intro d hd
      rw [g6]
      rw [g5] at hd
      exact herr d (List.mem_of_mem_erase hd)

/-- C11: fatal dispatch failure.  When handler selection finds no name among
the chosen handler and `possible_handlers` that is registered and has not
failed, it marks every channel of `channels` undispatchable, which asks for
the channel to be closed, and returns: the private structure, `wants_to_finish`
in particular, is as it was, and nothing has been sent, so the operation has
not finished by this.  It finishes when the marked channels abort: when the
channels have aborted, in any order, `wants_to_finish` is set and `Finished`
has been emitted.  (The client locks are zero, as they are whenever handler
selection runs; an operation that wanted to finish before has emitted
`Finished` already.) -/
theorem dispatch_failure_finishes (valid_bus_name : String → Bool) (w : World)
    (cs : List Nat) (hc : w.crashed = false)
    (h : ∀ n : String,
      n ∈ w.priv.possible_handlers.getD [] ∨
        (∃ chosen, w.priv.handler = some chosen ∧ chosen ≠ "" ∧
          n = TP_CLIENT_BUS_NAME_BASE ++ chosen) →
      ¬ ((∃ c ∈ w.client_registry, c.bus_name = n) ∧
        n ∉ w.priv.failed_handlers))
    (ho : w.priv.observers_pending = 0) (ha : w.priv.ado_pending = 0)
    (hw : w.priv.wants_to_finish = true → Effect.finished ∈ w.log)
    (hne : w.priv.channels ≠ []) (hperm : cs.Perm w.priv.channels) :
    (∀ c ∈ w.priv.channels,
      ((_mcd_dispatch_operation_run_handlers w).chan c).undispatchable = true ∧
      ((_mcd_dispatch_operation_run_handlers w).chan c).error =
        some { code := ErrorCode.MC_CHANNEL_REQUEST_GENERIC_ERROR,
               message := "Handler no longer available" }) ∧
    (_mcd_dispatch_operation_run_handlers w).priv = w.priv ∧
    (_mcd_dispatch_operation_run_handlers w).log = w.log ∧
    (run valid_bus_name (_mcd_dispatch_operation_run_handlers w)
        (cs.map Event.channel_aborted)).priv.wants_to_finish = true ∧
    Effect.finished ∈
      (run valid_bus_name (_mcd_dispatch_operation_run_handlers w)
        (cs.map Event.channel_aborted)).log := by
  rw [run_handlers_eq_give_up w h]
  have hp := priv_give_up w
  have hs := silent_give_up w
  obtain ⟨_, g2⟩ := give_up_facts w.priv.channels w
  have hmark : ∀ c ∈ w.priv.channels,
      ((run_handlers_give_up w).chan c).undispatchable = true ∧
      ((run_handlers_give_up w).chan c).error =
        some { code := ErrorCode.MC_CHANNEL_REQUEST_GENERIC_ERROR,
               message := "Handler no longer available" } := by
    intro c hc
    have := g2 c
    rw [if_pos hc] at this
    unfold run_handlers_give_up
    rw [this]
    exact ⟨rfl, rfl⟩
  have hchan : ∀ c ∈ w.priv.channels,
      ((run_handlers_give_up w).chan c).error ≠ none ∧
        ((run_handlers_give_up w).chan c).undispatchable = true := by
    intro c hc
    obtain ⟨m1, m2⟩ := hmark c hc
    exact ⟨by rw [m2]; simp, m1⟩
  refine ⟨hmark, hp, hs.log, ?_⟩
  cases hwtf : w.priv.wants_to_finish with
  | false =>
    have hcs : cs ≠ [] := by
      intro h0
      rw [h0] at hperm
      exact hne (List.Perm.nil_eq hperm).symm
    exact aborts_finish valid_bus_name cs (run_handlers_give_up w)
      (by rw [hs.crashed]; exact hc) (by rw [hp]; exact ho) (by rw [hp]; exact ha)
      (by rw [hp]; exact hwtf) hcs (by rw [hp]; exact hperm)
      (fun c hc => (hchan c (by rw [hp] at hc; exact hc)).1)
  | true =>
    have ht := trans_run valid_bus_name (run_handlers_give_up w)
      (cs.map Event.channel_aborted)
    have h1 : (run_handlers_give_up w).priv.wants_to_finish = true := by
      rw [hp]; exact hwtf
    refine ⟨ht.wants_to_finish h1, ?_⟩
    have h2 : 0 < finished_count (run_handlers_give_up w).log := by
      rw [hs.log]
      exact List.count_pos_iff.2 (hw hwtf)
    have h3 : 0 < finished_count (run valid_bus_name (run_handlers_give_up w)
        (cs.map Event.channel_aborted)).log := by
      rcases ht.finished with h4 | ⟨h4, _⟩ <;> omega
    exact List.count_pos_iff.1 h3

theorem dispatch_failure_finishes_witness :
    (_mcd_dispatch_operation_run_handlers
        { example_world with client_registry := [] }).priv.wants_to_finish =
      false ∧
    (run (fun _ => true)
        (_mcd_dispatch_operation_run_handlers
          { example_world with client_registry := [] })
        ([2, 1].map Event.channel_aborted)).priv.wants_to_finish = true ∧
    Effect.finished ∈
      (run (fun _ => true)
        (_mcd_dispatch_operation_run_handlers
          { example_world with client_registry := [] })
        ([2, 1].map Event.channel_aborted)).log :=
  ⟨by decide,
    (dispatch_failure_finishes (fun _ => true)
      { example_world with client_registry := [] } [2, 1] rfl
      (by
        intro n _ hn
        obtain ⟨⟨c, hc, _⟩, _⟩ := hn
        cases hc)
      rfl rfl (by decide) (by decide) (by decide)).2.2.2⟩

/-- C11 (counterexample): no handler is registered when the early clients
have run and the operation is approved by default.  Handler selection gives
up and marks both channels undispatchable, and the operation has not
finished: `wants_to_finish` is not set and nothing has been sent, `Finished`
in particular. -/
theorem give_up_does_not_finish :
    (run (fun _ => true) example_world
        [Event.registry_changed [], Event.run_clients]).crashed = false ∧
      (run (fun _ => true) example_world
        [Event.registry_changed [], Event.run_clients]).priv.channels_handled =
        true ∧
      ((run (fun _ => true) example_world
        [Event.registry_changed [], Event.run_clients]).chan 1).undispatchable =
        true ∧
      ((run (fun _ => true) example_world
        [Event.registry_changed [], Event.run_clients]).chan 2).undispatchable =
        true ∧
      (run (fun _ => true) example_world
        [Event.registry_changed [], Event.run_clients]).priv.wants_to_finish =
        false ∧
      (run (fun _ => true) example_world
        [Event.registry_changed [], Event.run_clients]).log = [] := by
  decide
/-! ## Default-allow approval -/

theorem priv_handle_channels (w : World) (handler : McdClientProxy) :
    (mcd_dispatch_operation_handle_channels w handler).priv = w.priv := by
  have hp : ∀ (l : List Nat) (w0 : World),
      (l.foldl
        (fun w0 c => _mcd_channel_set_status w0 c McdChannelStatus.HANDLER_INVOKED)
        w0).priv = w0.priv := by
    intro l
    induction l with
    | nil => intro w0; rfl
    | cons a l ih => intro w0; rw [List.foldl_cons, ih]; rfl
  unfold mcd_dispatch_operation_handle_channels
  exact hp _ w

theorem priv_run_handlers_possible (w : World) :
    (run_handlers_possible w).priv = w.priv := by
  unfold run_handlers_possible
  split
  · exact priv_handle_channels w _
  · exact priv_give_up w

theorem priv_run_handlers (w : World) :
    (_mcd_dispatch_operation_run_handlers w).priv = w.priv := by
  unfold _mcd_dispatch_operation_run_handlers
  split
  · exact priv_run_handlers_possible w
  · split
    · exact priv_run_handlers_possible w
    · dsimp only
      split
      · split
        · exact priv_handle_channels w _
        · exact priv_run_handlers_possible w
      · exact priv_run_handlers_possible w

theorem check_finished_idle (w : World) (hl : w.priv.lost_channels = [])
    (hw : w.priv.wants_to_finish = false) :
    _mcd_dispatch_operation_check_finished w = w := by
  have h1 : check_finished_lost_channels w = w := by
    unfold check_finished_lost_channels
    rw [hl]
    show ({ w with priv := { w.priv with lost_channels := [] } } : World) = w
    rw [← hl]
  unfold _mcd_dispatch_operation_check_finished
  split
  · dsimp only
    rw [h1, hw]
    simp
  · rfl

theorem first_usable_call_congr {w1 w2 : World}
    (hc : early_core w2.priv = early_core w1.priv)
    (hr : w2.client_registry = w1.client_registry) :
    first_usable_call w2 = first_usable_call w1 := by
  have e1 : w2.priv.possible_handlers = w1.priv.possible_handlers :=
    show (early_core w2.priv).possible_handlers = (early_core w1.priv).possible_handlers from
      congrArg McdDispatchOperationPrivate.possible_handlers hc
  have e2 : w2.priv.failed_handlers = w1.priv.failed_handlers :=
    show (early_core w2.priv).failed_handlers = (early_core w1.priv).failed_handlers from
      congrArg McdDispatchOperationPrivate.failed_handlers hc
  have e3 : w2.priv.account = w1.priv.account :=
    show (early_core w2.priv).account = (early_core w1.priv).account from
      congrArg McdDispatchOperationPrivate.account hc
  have e4 : w2.priv.channels = w1.priv.channels :=
    show (early_core w2.priv).channels = (early_core w1.priv).channels from
      congrArg McdDispatchOperationPrivate.channels hc
  have e5 : w2.priv.handle_with_time = w1.priv.handle_with_time :=
    show (early_core w2.priv).handle_with_time = (early_core w1.priv).handle_with_time from
      congrArg McdDispatchOperationPrivate.handle_with_time hc
  simp only [first_usable_call, _mcd_dispatch_operation_get_account_path, e1, e2,
    e3, e4, e5, hr]

/-- The lock check of an operation without a chosen handler: either it does
nothing, or it sets `channels_handled` and calls the first usable handler. -/
theorem check_client_locks_early (w : World) (hh : w.priv.handler = none) :
    (_mcd_dispatch_operation_check_client_locks w).client_registry =
        w.client_registry ∧
      (_mcd_dispatch_operation_check_client_locks w).crashed = w.crashed ∧
      if w.priv.invoked_early_clients = true ∧ w.priv.ado_pending = 0 ∧
          w.priv.observers_pending = 0 ∧
          _mcd_dispatch_operation_is_approved w.priv = true ∧
          w.priv.channels_handled = false ∧ w.priv.observe_only = false then
        (_mcd_dispatch_operation_check_client_locks w).priv =
            { w.priv with channels_handled := true } ∧
          (_mcd_dispatch_operation_check_client_locks w).log =
            w.log ++ first_usable_call w
      else _mcd_dispatch_operation_check_client_locks w = w := by
  have hi := inner_check_client_locks w
  refine ⟨hi.registry, hi.crashed, ?_⟩
  split
  · rename_i hg
    obtain ⟨g1, g2, g3, g4, g5, g6⟩ := hg
    unfold _mcd_dispatch_operation_check_client_locks
    rw [if_pos (by simp [g1, g2, g3, g4]), if_pos (by simp [g5, g6])]
    have hrun : _mcd_dispatch_operation_run_handlers
        { w with priv := { w.priv with channels_handled := true } } =
        run_handlers_possible
          { w with priv := { w.priv with channels_handled := true } } := by
      unfold _mcd_dispatch_operation_run_handlers
      simp only [hh]
    rw [hrun]
    refine ⟨priv_run_handlers_possible _, ?_⟩
    have hs := sent_run_handlers_possible
      { w with priv := { w.priv with channels_handled := true } }
    have hin := (inner_run_handlers_possible
      { w with priv := { w.priv with channels_handled := true } }).sends
    obtain ⟨l, hl, _⟩ := hin
    rw [sent_of_log hl] at hs
    rw [hl, hs]
    rfl
  · rename_i hg
    unfold _mcd_dispatch_operation_check_client_locks
    split
    · rename_i h1
      split
      · rename_i h2
        exfalso
        apply hg
        simp only [Bool.and_eq_true, beq_iff_eq, Bool.not_eq_true'] at h1 h2
        exact ⟨h1.1.1.1, h1.1.1.2, h1.1.2, h1.2, h2.1, h2.2⟩
      · rfl
    · rfl

theorem early_core_facts {w1 w2 : World}
    (hcore : early_core w2.priv = early_core w1.priv)
    (hw : awaiting_replies w1) :
    w2.priv.invoked_early_clients = true ∧ w2.priv.needs_approval = true ∧
      w2.priv.observe_only = false ∧ w2.priv.wants_to_finish = false ∧
      w2.priv.awaiting_approval = false ∧ w2.priv.handler = none ∧
      w2.priv.lost_channels = [] := by
  obtain ⟨_, a1, a2, a3, a4, a5, _, _, a6, a7, _⟩ := hw
  refine ⟨?_, ?_, ?_, ?_, ?_, ?_, ?_⟩
  · rw [← a1]
    exact show (early_core w2.priv).invoked_early_clients =
      (early_core w1.priv).invoked_early_clients from congrArg _ hcore
  · rw [← a2]
    exact show (early_core w2.priv).needs_approval =
      (early_core w1.priv).needs_approval from congrArg _ hcore
  · rw [← a3]
    exact show (early_core w2.priv).observe_only =
      (early_core w1.priv).observe_only from congrArg _ hcore
  · rw [← a4]
    exact show (early_core w2.priv).wants_to_finish =
      (early_core w1.priv).wants_to_finish from congrArg _ hcore
  · rw [← a5]
    exact show (early_core w2.priv).awaiting_approval =
      (early_core w1.priv).awaiting_approval from congrArg _ hcore
  · rw [← a6]
    exact show (early_core w2.priv).handler =
      (early_core w1.priv).handler from congrArg _ hcore
  · rw [← a7]
    exact show (early_core w2.priv).lost_channels =
      (early_core w1.priv).lost_channels from congrArg _ hcore

/-- The lock check at the end of a decrement, before any handler has been
called: the result is an `Early` state. -/
theorem early_check_client_locks {w1 w3 : World} (hw : awaiting_replies w1)
    (hcore : early_core w3.priv = early_core w1.priv)
    (hreg : w3.client_registry = w1.client_registry)
    (hcr : w3.crashed = false)
    (happ : w3.priv.approved = decide (w3.priv.ado_pending = 0))
    (hhandled : w3.priv.channels_handled = false)
    (hlog : w3.log = w1.log) :
    Early w1 (_mcd_dispatch_operation_check_client_locks w3) := by
  obtain ⟨f1, f2, f3, f4, f5, f6, f7⟩ := early_core_facts hcore hw
  obtain ⟨c1, c2, c3⟩ := check_client_locks_early w3 f6
  split at c3
  · rename_i hg
    obtain ⟨_, g2, g3, _, _, _⟩ := hg
    obtain ⟨hp, hl⟩ := c3
    refine ⟨(congrArg early_core hp).trans hcore, c1.trans hreg, c2.trans hcr,
      ?_, ?_, ?_⟩
    · rw [hp]; exact happ
    · rw [hp]
      show true = decide (w3.priv.ado_pending = 0 ∧ w3.priv.observers_pending = 0)
      simp [g2, g3]
    · rw [hl, hp]
      show w3.log ++ first_usable_call w3 = w1.log ++
        if w3.priv.ado_pending = 0 ∧ w3.priv.observers_pending = 0 then
          first_usable_call w1 else []
      rw [if_pos ⟨g2, g3⟩, hlog, first_usable_call_congr hcore hreg]
  · rename_i hg
    rw [c3]
    have hn : ¬ (w3.priv.ado_pending = 0 ∧ w3.priv.observers_pending = 0) := by
      intro hz
      apply hg
      refine ⟨f1, hz.1, hz.2, ?_, hhandled, f3⟩
      simp [_mcd_dispatch_operation_is_approved, happ, hz.1]
    refine ⟨hcore, hreg, hcr, happ, ?_, ?_⟩
    · rw [hhandled]; simp [hn]
    · rw [hlog, if_neg hn, List.append_nil]

theorem check_finished_then (f : World → World) (w : World)
    (hl : w.priv.lost_channels = []) (hw : w.priv.wants_to_finish = false)
    (hc : w.crashed = false) :
    (if (_mcd_dispatch_operation_check_finished w).crashed then
        _mcd_dispatch_operation_check_finished w
      else f (_mcd_dispatch_operation_check_finished w)) = f w := by
  rw [check_finished_idle w hl hw]
  simp [hc]

theorem dec_observers_pending_idle (w : World)
    (hl : w.priv.lost_channels = []) (hw : w.priv.wants_to_finish = false)
    (hc : w.crashed = false) (hpos : w.priv.observers_pending > 0) :
    _mcd_dispatch_operation_dec_observers_pending w =
      _mcd_dispatch_operation_check_client_locks
        { w with priv := { w.priv with
            observers_pending := w.priv.observers_pending - 1 } } := by
  unfold _mcd_dispatch_operation_dec_observers_pending
  rw [if_pos hpos]
  exact check_finished_then _mcd_dispatch_operation_check_client_locks _ hl hw hc

theorem dec_ado_pending_idle (w : World)
    (hl : w.priv.lost_channels = []) (hw : w.priv.wants_to_finish = false)
    (hc : w.crashed = false) (hpos : w.priv.ado_pending > 0) :
    _mcd_dispatch_operation_dec_ado_pending w =
      _mcd_dispatch_operation_check_client_locks
        (if w.priv.ado_pending - 1 == 0 && !w.priv.awaiting_approval then
          { w with priv := { w.priv with
              ado_pending := w.priv.ado_pending - 1, approved := true } }
        else
          { w with priv := { w.priv with
              ado_pending := w.priv.ado_pending - 1 } }) := by
  unfold _mcd_dispatch_operation_dec_ado_pending
  rw [if_pos hpos]
  exact check_finished_then
    (fun w2 => _mcd_dispatch_operation_check_client_locks
      (if w2.priv.ado_pending == 0 && !w2.priv.awaiting_approval then
        { w2 with priv := { w2.priv with approved := true } }
      else w2)) _ hl hw hc

theorem early_observe_channels_cb {w1 w2 : World} (hw : awaiting_replies w1)
    (h : Early w1 w2) (error : Bool) :
    Early w1 (observe_channels_cb w2 error) := by
  obtain ⟨f1, f2, f3, f4, f5, f6, f7⟩ := early_core_facts h.core hw
  unfold observe_channels_cb
  by_cases hpos : w2.priv.observers_pending > 0
  · rw [dec_observers_pending_idle w2 f7 f4 h.crashed hpos]
    have hn : ¬ (w2.priv.ado_pending = 0 ∧ w2.priv.observers_pending = 0) := by
      omega
    refine early_check_client_locks hw h.core h.registry h.crashed h.approved ?_ ?_
    · show w2.priv.channels_handled = false
      rw [h.handled]; simp [hn]
    · show w2.log = w1.log
      rw [h.log, if_neg hn, List.append_nil]
  · unfold _mcd_dispatch_operation_dec_observers_pending
    rw [if_neg hpos]
    exact h

theorem early_add_dispatch_operation_cb {w1 w2 : World}
    (hw : awaiting_replies w1) (h : Early w1 w2) :
    Early w1 (add_dispatch_operation_cb w2 true) := by
  obtain ⟨f1, f2, f3, f4, f5, f6, f7⟩ := early_core_facts h.core hw
  unfold add_dispatch_operation_cb
  simp only [if_true]
  by_cases hpos : w2.priv.ado_pending > 0
  · rw [dec_ado_pending_idle w2 f7 f4 h.crashed hpos]
    have hn : ¬ (w2.priv.ado_pending = 0 ∧ w2.priv.observers_pending = 0) := by
      omega
    have hh : w2.priv.channels_handled = false := by
      rw [h.handled]; simp [hn]
    have hl : w2.log = w1.log := by
      rw [h.log, if_neg hn, List.append_nil]
    have ha : w2.priv.approved = false := by
      rw [h.approved]; simp; omega
    split
    · rename_i hz
      simp only [Bool.and_eq_true, beq_iff_eq, Bool.not_eq_true'] at hz
      refine early_check_client_locks hw h.core h.registry h.crashed ?_ hh hl
      show true = decide (w2.priv.ado_pending - 1 = 0)
      simp [hz.1]
    · rename_i hz
      simp only [Bool.and_eq_true, beq_iff_eq, Bool.not_eq_true', not_and] at hz
      have hz1 : ¬ (w2.priv.ado_pending - 1 = 0) := fun h0 => by
        have := hz h0
        rw [f5] at this
        simp at this
      refine early_check_client_locks hw h.core h.registry h.crashed ?_ hh hl
      show w2.priv.approved = decide (w2.priv.ado_pending - 1 = 0)
      rw [ha]; simp [hz1]
  · unfold _mcd_dispatch_operation_dec_ado_pending
    rw [if_neg hpos]
    exact h

theorem early_run (valid_bus_name : String → Bool) (w1 : World)
    (hw : awaiting_replies w1) (es : List Event)
    (hes : ∀ e ∈ es, e.is_early_failure = true) :
    ∀ w2, Early w1 w2 → Early w1 (run valid_bus_name w2 es) := by
  induction es with
  | nil => intro w2 h; exact h
  | cons e es ih =>
    intro w2 h
    have he := hes e (List.mem_cons_self e es)
    refine ih (fun x hx => hes x (List.mem_cons_of_mem e hx)) _ ?_
    cases e with
    | observe_channels_reply error =>
      have hstep : step valid_bus_name w2 (Event.observe_channels_reply error) =
          observe_channels_cb w2 error := by
        simp [step, h.crashed]
      rw [hstep]
      exact early_observe_channels_cb hw h error
    | add_dispatch_operation_reply error =>
      have : error = true := he
      subst this
      have hstep : step valid_bus_name w2 (Event.add_dispatch_operation_reply true) =
          add_dispatch_operation_cb w2 true := by
        simp [step, h.crashed]
      rw [hstep]
      exact early_add_dispatch_operation_cb hw h
    | _ => simp [Event.is_early_failure] at he

theorem early_step_counters (valid_bus_name : String → Bool) {w1 w2 : World}
    (hw : awaiting_replies w1) (h : Early w1 w2) (e : Event)
    (he : e.is_early_failure = true) :
    (step valid_bus_name w2 e).priv.ado_pending =
        w2.priv.ado_pending - (if e.is_add_dispatch_operation_reply then 1 else 0) ∧
      (step valid_bus_name w2 e).priv.observers_pending =
        w2.priv.observers_pending -
          (if e.is_observe_channels_reply then 1 else 0) := by
  obtain ⟨f1, f2, f3, f4, f5, f6, f7⟩ := early_core_facts h.core hw
  cases e with
  | observe_channels_reply error =>
    have hstep : step valid_bus_name w2 (Event.observe_channels_reply error) =
        _mcd_dispatch_operation_dec_observers_pending w2 := by
      simp [step, h.crashed, observe_channels_cb]
    rw [hstep]
    simp only [Event.is_add_dispatch_operation_reply,
      Event.is_observe_channels_reply]
    by_cases hpos : w2.priv.observers_pending > 0
    · rw [dec_observers_pending_idle w2 f7 f4 h.crashed hpos]
      have hi := inner_check_client_locks
        { w2 with priv := { w2.priv with
            observers_pending := w2.priv.observers_pending - 1 } }
      rw [hi.toFrame.ado_pending, hi.toFrame.observers_pending]
      simp
    · unfold _mcd_dispatch_operation_dec_observers_pending
      rw [if_neg hpos]
      simp
      omega
  | add_dispatch_operation_reply error =>
    have : error = true := he
    subst this
    have hstep : step valid_bus_name w2 (Event.add_dispatch_operation_reply true) =
        _mcd_dispatch_operation_dec_ado_pending w2 := by
      simp [step, h.crashed, add_dispatch_operation_cb]
    rw [hstep]
    simp only [Event.is_add_dispatch_operation_reply,
      Event.is_observe_channels_reply]
    by_cases hpos : w2.priv.ado_pending > 0
    · rw [dec_ado_pending_idle w2 f7 f4 h.crashed hpos]
      have hi := inner_check_client_locks
        (if w2.priv.ado_pending - 1 == 0 && !w2.priv.awaiting_approval then
          { w2 with priv := { w2.priv with
              ado_pending := w2.priv.ado_pending - 1, approved := true } }
        else
          { w2 with priv := { w2.priv with
              ado_pending := w2.priv.ado_pending - 1 } })
      rw [hi.toFrame.ado_pending, hi.toFrame.observers_pending]
      split <;> simp
    · unfold _mcd_dispatch_operation_dec_ado_pending
      rw [if_neg hpos]
      simp
      omega
  | _ => simp [Event.is_early_failure] at he

theorem early_run_counters (valid_bus_name : String → Bool) (w1 : World)
    (hw : awaiting_replies w1) (es : List Event)
    (hes : ∀ e ∈ es, e.is_early_failure = true) :
    ∀ w2, Early w1 w2 →
      (run valid_bus_name w2 es).priv.ado_pending =
          w2.priv.ado_pending - es.countP Event.is_add_dispatch_operation_reply ∧
        (run valid_bus_name w2 es).priv.observers_pending =
          w2.priv.observers_pending -
            es.countP Event.is_observe_channels_reply := by
  induction es with
  | nil => intro w2 _; exact ⟨rfl, rfl⟩
  | cons e es ih =>
    intro w2 h
    have he := hes e (List.mem_cons_self e es)
    have h2 : Early w1 (step valid_bus_name w2 e) :=
      early_run valid_bus_name w1 hw [e]
        (fun x hx => by rw [List.mem_singleton.1 hx]; exact he) w2 h
    obtain ⟨i1, i2⟩ := ih (fun x hx => hes x (List.mem_cons_of_mem e hx)) _ h2
    obtain ⟨s1, s2⟩ := early_step_counters valid_bus_name hw h e he
    show (run valid_bus_name (step valid_bus_name w2 e) es).priv.ado_pending = _ ∧
      (run valid_bus_name (step valid_bus_name w2 e) es).priv.observers_pending = _
    rw [i1, i2, s1, s2, List.countP_cons, List.countP_cons]
    constructor <;> omega

/-- C12: default-allow approval.  An operation that needs approval has run
its approvers, and at least one `AddDispatchOperation` call is in flight;
then replies arrive, those of the approvers all failures, with no
`HandleWith`, no `Claim` and no call of `_mcd_dispatch_operation_approve`.
Every reply that answers a call decrements its lock; `approved` is true
exactly when `ado_pending` has come down to zero; and what has been sent is
nothing as long as one of the two locks is positive, and exactly the
`HandleChannels` call to the first name of `possible_handlers` that is
registered and has not failed once both are zero. -/
theorem default_allow_approval (valid_bus_name : String → Bool) (w : World)
    (es : List Event) (hw : awaiting_replies w)
    (hes : ∀ e ∈ es, e.is_early_failure = true) :
    (run valid_bus_name w es).crashed = false ∧
    (run valid_bus_name w es).priv.ado_pending =
      w.priv.ado_pending - es.countP Event.is_add_dispatch_operation_reply ∧
    (run valid_bus_name w es).priv.observers_pending =
      w.priv.observers_pending - es.countP Event.is_observe_channels_reply ∧
    ((run valid_bus_name w es).priv.approved = true ↔
      (run valid_bus_name w es).priv.ado_pending = 0) ∧
    sent w (run valid_bus_name w es) =
      if (run valid_bus_name w es).priv.ado_pending = 0 ∧
          (run valid_bus_name w es).priv.observers_pending = 0 then
        first_usable_call w
      else [] := by
  have h0 : Early w w := by
    obtain ⟨a0, _, _, _, _, _, a6, a7, _, _, a10⟩ := hw
    have hn : ¬ (w.priv.ado_pending = 0 ∧ w.priv.observers_pending = 0) := by
      omega
    refine ⟨rfl, rfl, a0, ?_, ?_, ?_⟩
    · rw [a6]; simp; omega
    · rw [a7]; simp [hn]
    · rw [if_neg hn, List.append_nil]
  have h := early_run valid_bus_name w hw es hes w h0
  obtain ⟨c1, c2⟩ := early_run_counters valid_bus_name w hw es hes w h0
  refine ⟨h.crashed, c1, c2, ?_, sent_of_log h.log⟩
  rw [h.approved]
  simp

theorem default_allow_approval_witness :
    sent example_world_awaiting
        (run (fun _ => true) example_world_awaiting
          [Event.add_dispatch_operation_reply true]) =
      [Effect.handle_channels "org.freedesktop.Telepathy.Client.H1" "/" [1, 2] 0] ∧
    (run (fun _ => true) example_world_awaiting
      [Event.add_dispatch_operation_reply true]).priv.approved = true := by
  have h := default_allow_approval (fun _ => true) example_world_awaiting
    [Event.add_dispatch_operation_reply true]
    (by unfold awaiting_replies; decide) (by decide)
  refine ⟨?_, by decide⟩
  rw [h.2.2.2.2]
  decide
/-! ## The flow of a step -/

theorem channel_path_congr {w1 w2 : World}
    (h : ∀ c, (w2.chan c).tp_chan = (w1.chan c).tp_chan) :
    channel_path w2 = channel_path w1 := by
  funext c
  exact h c

theorem Lost.lost_refl (w : World) : Lost [] w w :=
  ⟨fun h => h, fun _ => rfl, rfl, fun _ h => h, fun _ _ => by simp⟩

theorem Lost.lost_trans {r1 r2 : List Nat} {w1 w2 w3 : World}
    (h1 : Lost r1 w1 w2) (h2 : Lost r2 w2 w3) : Lost (r1 ++ r2) w1 w3 := by
  have hc2 : w3.crashed = false → w2.crashed = false := by
    intro h3
    cases h : w2.crashed
    · rfl
    · rw [h2.crashed h] at h3; cases h3
  refine ⟨fun h => h2.crashed (h1.crashed h),
    fun c => (h2.tp_chan c).trans (h1.tp_chan c), ?_, ?_, ?_⟩
  · rw [h2.channels, h1.channels, List.foldl_append]
  · intro h3 hr
    exact h2.ready h3 (h1.ready (hc2 h3) hr)
  · intro h3 hr
    rw [h2.view h3 (h1.ready (hc2 h3) hr), h1.view (hc2 h3) hr,
      channel_path_congr h1.tp_chan, List.filterMap_append, List.append_assoc]

theorem blocked_of_quiet {w1 w2 : World} (h : Quiet w1 w2) (hb : blocked w1) :
    blocked w2 := by
  rcases hb with hb | hb
  · exact Or.inl (h.observe_only.trans hb)
  · exact Or.inr (h.channels_handled hb)

theorem Quiet.quiet_refl (w : World) : Quiet w w :=
  ⟨rfl, fun h => h, fun _ => Sends.sends_refl _ w⟩

theorem Quiet.quiet_trans {w1 w2 w3 : World} (h1 : Quiet w1 w2)
    (h2 : Quiet w2 w3) : Quiet w1 w3 :=
  ⟨h2.observe_only.trans h1.observe_only,
    fun h => h2.channels_handled (h1.channels_handled h),
    fun hb => (h1.calm hb).sends_trans (h2.calm (blocked_of_quiet h1 hb))⟩

theorem Flow.flow_refl (w : World) : Flow [] w w :=
  ⟨Lost.lost_refl w, Quiet.quiet_refl w⟩

theorem Flow.flow_trans {r1 r2 : List Nat} {w1 w2 w3 : World}
    (h1 : Flow r1 w1 w2) (h2 : Flow r2 w2 w3) : Flow (r1 ++ r2) w1 w3 :=
  ⟨h1.lost.lost_trans h2.lost, h1.quiet.quiet_trans h2.quiet⟩

theorem Flow.then_flow {r : List Nat} {w1 w2 w3 : World} (h1 : Flow r w1 w2)
    (h2 : Flow [] w2 w3) : Flow r w1 w3 := by
  have h := h1.flow_trans h2
  rwa [List.append_nil] at h

theorem Flow.flow_foldl {β : Type} (f : World → β → World)
    (hf : ∀ w b, Flow [] w (f w b)) (l : List β) (w : World) :
    Flow [] w (l.foldl f w) := by
  induction l generalizing w with
  | nil => exact Flow.flow_refl w
  | cons b l ih => exact (hf w b).then_flow (ih (f w b))

theorem lost_signals_append (l1 l2 : List Effect) :
    lost_signals (l1 ++ l2) = lost_signals l1 ++ lost_signals l2 := by
  simp [lost_signals]

/-- A step that leaves the channels, the lost channels and the client locks
alone and emits no `ChannelLost`. -/
theorem Lost.lost_of_kept {w1 w2 : World}
    (hc : w1.crashed = true → w2.crashed = true)
    (ht : ∀ c, (w2.chan c).tp_chan = (w1.chan c).tp_chan)
    (h1 : w2.priv.channels = w1.priv.channels)
    (h2 : w2.priv.lost_channels = w1.priv.lost_channels)
    (h3 : w2.priv.observers_pending = w1.priv.observers_pending)
    (h4 : w2.priv.ado_pending = w1.priv.ado_pending)
    (h5 : lost_signals w2.log = lost_signals w1.log) : Lost [] w1 w2 := by
  refine ⟨hc, ht, h1, ?_, ?_⟩
  · intro _ hr hm
    rw [h2]
    apply hr
    simpa [mcd_dispatch_operation_may_finish, h3, h4] using hm
  · intro _ _
    simp [lost_view, deferred, h2, h5, channel_path_congr ht]

/-- A step that writes neither `observe_only` nor `channels_handled` (unless
to set it) and sends no `HandleChannels` call. -/
theorem Quiet.of_sends {w1 w2 : World}
    (h1 : w2.priv.observe_only = w1.priv.observe_only)
    (h2 : w1.priv.channels_handled = true → w2.priv.channels_handled = true)
    (h3 : Sends no_handle_channels w1 w2) : Quiet w1 w2 :=
  ⟨h1, h2, fun _ => h3⟩

/-- A step that changes the private structure in fields that no flow
depends on, and the channel objects in fields other than the `TpChannel`. -/
theorem Flow.of_kept {w1 w2 : World}
    (hc : w2.crashed = w1.crashed)
    (ht : ∀ c, (w2.chan c).tp_chan = (w1.chan c).tp_chan)
    (h1 : w2.priv.channels = w1.priv.channels)
    (h2 : w2.priv.lost_channels = w1.priv.lost_channels)
    (h3 : w2.priv.observers_pending = w1.priv.observers_pending)
    (h4 : w2.priv.ado_pending = w1.priv.ado_pending)
    (h5 : w2.priv.observe_only = w1.priv.observe_only)
    (h6 : w1.priv.channels_handled = true → w2.priv.channels_handled = true)
    (h7 : w2.log = w1.log) : Flow [] w1 w2 :=
  ⟨Lost.lost_of_kept (fun h => hc.trans h) ht h1 h2 h3 h4 (by rw [h7]),
    Quiet.of_sends h5 h6 (Sends.sends_of_log h7)⟩

theorem Flow.flow_emit (w : World) (e : Effect)
    (h1 : e.is_handle_channels = false) (h2 : e.lost_path = none) :
    Flow [] w (emit w e) := by
  refine ⟨Lost.lost_of_kept (fun h => h) (fun _ => rfl) rfl rfl rfl rfl ?_,
    Quiet.of_sends rfl (fun h => h)
      (Sends.sends_emit _ w e (by simp [no_handle_channels, h1]))⟩
  simp [emit, lost_signals, List.filterMap_append, h2]

theorem tp_chan_update (w : World) (c : Nat) (x : McdChannel)
    (hx : x.tp_chan = (w.chan c).tp_chan) (d : Nat) :
    (Function.update w.chan c x d).tp_chan = (w.chan d).tp_chan := by
  by_cases h : d = c
  · subst h; simpa using hx
  · simp [Function.update, h]

theorem flow_set_status (w : World) (c : Nat) (s : McdChannelStatus) :
    Flow [] w (_mcd_channel_set_status w c s) :=
  Flow.of_kept rfl (tp_chan_update w c _ rfl) rfl rfl rfl rfl rfl (fun h => h) rfl

theorem flow_take_error (w : World) (c : Nat) (e : GError) :
    Flow [] w (mcd_channel_take_error w c e) :=
  Flow.of_kept rfl (tp_chan_update w c _ rfl) rfl rfl rfl rfl rfl (fun h => h) rfl

theorem flow_undispatchable (w : World) (c : Nat) :
    Flow [] w (_mcd_channel_undispatchable w c) :=
  Flow.of_kept rfl (tp_chan_update w c _ rfl) rfl rfl rfl rfl rfl (fun h => h) rfl

theorem flow_set_channel_handled_by (w : World) (c : Nat) (u : String) :
    Flow [] w (mcd_dispatch_operation_set_channel_handled_by w c u) := by
  unfold mcd_dispatch_operation_set_channel_handled_by
  split
  · exact Flow.flow_refl w
  · exact Flow.of_kept rfl (tp_chan_update w c _ rfl) rfl rfl rfl rfl rfl
      (fun h => h) rfl

theorem flow_handle_channels_cb_channel (client : McdClientProxy) (w : World)
    (c : Nat) : Flow [] w (handle_channels_cb_channel client w c) := by
  unfold handle_channels_cb_channel
  split
  · exact flow_undispatchable w c
  · split
    · exact flow_undispatchable w c
    · exact flow_set_channel_handled_by w c _

theorem tp_chan_handle_channels (w : World) (handler : McdClientProxy) (c : Nat) :
    ((mcd_dispatch_operation_handle_channels w handler).chan c).tp_chan =
      (w.chan c).tp_chan := by
  have h := Flow.flow_foldl
    (fun w0 c => _mcd_channel_set_status w0 c McdChannelStatus.HANDLER_INVOKED)
    (fun w0 c => flow_set_status w0 c _) w.priv.channels w
  exact h.lost.tp_chan c

theorem tp_chan_run_handlers_possible (w : World) (c : Nat) :
    ((run_handlers_possible w).chan c).tp_chan = (w.chan c).tp_chan := by
  unfold run_handlers_possible
  split
  · exact tp_chan_handle_channels w _ c
  · have h := Flow.flow_foldl
      (fun w0 channel =>
        _mcd_channel_undispatchable
          (mcd_channel_take_error w0 channel
            { code := ErrorCode.MC_CHANNEL_REQUEST_GENERIC_ERROR,
              message := "Handler no longer available" })
          channel)
      (fun w0 c => (flow_take_error w0 c _).then_flow (flow_undispatchable _ c))
      w.priv.channels w
    exact h.lost.tp_chan c

theorem tp_chan_run_handlers (w : World) (c : Nat) :
    ((_mcd_dispatch_operation_run_handlers w).chan c).tp_chan =
      (w.chan c).tp_chan := by
  unfold _mcd_dispatch_operation_run_handlers
  split
  · exact tp_chan_run_handlers_possible w c
  · split
    · exact tp_chan_run_handlers_possible w c
    · dsimp only
      split
      · split
        · exact tp_chan_handle_channels w _ c
        · exact tp_chan_run_handlers_possible w c
      · exact tp_chan_run_handlers_possible w c

theorem lost_signals_of_inner {w1 w2 : World} (h : Inner w1 w2) :
    lost_signals w2.log = lost_signals w1.log := by
  rcases h.log with hl | ⟨c, _, _, hl⟩
  · rw [hl]
  · rw [hl, lost_signals_append]
    simp [lost_signals, handle_channels_call, Effect.lost_path]

/-- Handler selection leaves the channels and the client locks alone. -/
theorem lost_run_handlers (w : World) :
    Lost [] w (_mcd_dispatch_operation_run_handlers w) := by
  have hp := priv_run_handlers w
  have hi := inner_run_handlers w
  exact Lost.lost_of_kept (fun h => hi.crashed.trans h) (tp_chan_run_handlers w)
    (by rw [hp]) (by rw [hp]) (by rw [hp]) (by rw [hp]) (lost_signals_of_inner hi)

theorem flow_check_client_locks (w : World) :
    Flow [] w (_mcd_dispatch_operation_check_client_locks w) := by
  unfold _mcd_dispatch_operation_check_client_locks
  split
  · split
    · rename_i h2
      simp only [Bool.and_eq_true, Bool.not_eq_true'] at h2
      have hl := lost_run_handlers
        { w with priv := { w.priv with channels_handled := true } }
      have hp := priv_run_handlers
        { w with priv := { w.priv with channels_handled := true } }
      refine ⟨⟨hl.crashed, hl.tp_chan, hl.channels, ?_, ?_⟩, ⟨?_, ?_, ?_⟩⟩
      · exact fun h3 hr => hl.ready h3 hr
      · exact fun h3 hr => hl.view h3 hr
      · rw [hp]
      · intro _; rw [hp]
      · intro hb
        rcases hb with hb | hb
        · rw [h2.2] at hb; cases hb
        · rw [h2.1] at hb; cases hb
    · exact Flow.flow_refl w
  · exact Flow.flow_refl w

theorem flow_set_approved (w : World) :
    Flow [] w (_mcd_dispatch_operation_set_approved w) := by
  unfold _mcd_dispatch_operation_set_approved
  refine Flow.then_flow ?_ (flow_check_client_locks _)
  exact Flow.of_kept rfl (fun _ => rfl) rfl rfl rfl rfl rfl (fun h => h) rfl

theorem flow_nothing_left (w : World) :
    Flow [] w (actually_finish_nothing_left w) := by
  unfold actually_finish_nothing_left
  split
  · exact Flow.of_kept rfl (fun _ => rfl) rfl rfl rfl rfl rfl (fun _ => rfl) rfl
  · exact Flow.flow_refl w

theorem flow_claimer (w : World) : Flow [] w (actually_finish_claimer w) := by
  unfold actually_finish_claimer
  split
  · exact Flow.flow_refl w
  · rename_i claimer _
    have hs := Flow.flow_foldl
      (fun w0 channel =>
        mcd_dispatch_operation_set_channel_handled_by w0 channel claimer)
      (fun w0 c => flow_set_channel_handled_by w0 c claimer) w.priv.channels w
    dsimp only
    refine hs.then_flow ?_
    split
    · refine ⟨⟨fun _ => rfl, fun _ => rfl, rfl, ?_, ?_⟩,
        Quiet.of_sends rfl (fun h => h) (Sends.sends_of_log rfl)⟩
      · intro h; cases h
      · intro h; cases h
    · exact Flow.of_kept rfl (fun _ => rfl) rfl rfl rfl rfl rfl (fun _ => rfl) rfl

theorem flow_approval (w : World) : Flow [] w (actually_finish_approval w) := by
  unfold actually_finish_approval
  split
  · refine Flow.then_flow ?_ (flow_set_approved _)
    exact Flow.of_kept rfl (fun _ => rfl) rfl rfl rfl rfl rfl (fun h => h) rfl
  · exact Flow.flow_refl w

theorem flow_reply (w : World) : Flow [] w (actually_finish_reply w) := by
  unfold actually_finish_reply
  split
  · exact Flow.flow_refl w
  · rename_i context _
    refine (Flow.flow_emit w (Effect.return_from_claim context) rfl rfl).then_flow ?_
    exact Flow.of_kept rfl (fun _ => rfl) rfl rfl rfl rfl rfl (fun h => h) rfl

theorem flow_actually_finish (w : World) :
    Flow [] w (mcd_dispatch_operation_actually_finish w) := by
  unfold mcd_dispatch_operation_actually_finish
  have h1 : Flow [] w (actually_finish_claimer
      (actually_finish_nothing_left (emit w Effect.finished))) :=
    ((Flow.flow_emit w Effect.finished rfl rfl).then_flow (flow_nothing_left _)).then_flow
      (flow_claimer _)
  dsimp only
  split
  · exact h1
  · exact (h1.then_flow (flow_approval _)).then_flow (flow_reply _)

theorem flow_finish (w : World) : Flow [] w (_mcd_dispatch_operation_finish w) := by
  unfold _mcd_dispatch_operation_finish
  split
  · exact Flow.flow_refl w
  · dsimp only
    have h1 : Flow [] w { w with priv := { w.priv with wants_to_finish := true } } :=
      Flow.of_kept rfl (fun _ => rfl) rfl rfl rfl rfl rfl (fun h => h) rfl
    split
    · exact h1.then_flow (flow_actually_finish _)
    · exact h1

theorem check_finished_lost_channel_facts (s : World) (c : Nat) :
    (check_finished_lost_channel s c).priv = s.priv ∧
      (check_finished_lost_channel s c).chan = s.chan ∧
      (s.crashed = true → (check_finished_lost_channel s c).crashed = true) ∧
      Sends Effect.is_channel_lost s (check_finished_lost_channel s c) ∧
      ((check_finished_lost_channel s c).crashed = false →
        lost_signals (check_finished_lost_channel s c).log =
          lost_signals s.log ++ [c].filterMap (channel_path s)) := by
  unfold check_finished_lost_channel
  split
  · rename_i hc
    exact ⟨rfl, rfl, fun h => h, Sends.sends_refl _ s,
      fun h => by rw [hc] at h; cases h⟩
  · split
    · rename_i hp
      refine ⟨rfl, rfl, fun h => h, Sends.sends_refl _ s, fun _ => ?_⟩
      simp [channel_path, hp]
    · rename_i p hp
      unfold emit_channel_lost
      split
      · exact ⟨rfl, rfl, fun _ => rfl, Sends.sends_of_log rfl,
          fun h => by cases h⟩
      · refine ⟨rfl, rfl, fun h => h, Sends.sends_emit _ s _ rfl, fun _ => ?_⟩
        simp [channel_path, hp, emit, lost_signals, Effect.lost_path]

theorem check_finished_loop_facts (l : List Nat) :
    ∀ s : World,
      (l.foldl check_finished_lost_channel s).priv = s.priv ∧
      (l.foldl check_finished_lost_channel s).chan = s.chan ∧
      (s.crashed = true →
        (l.foldl check_finished_lost_channel s).crashed = true) ∧
      Sends Effect.is_channel_lost s (l.foldl check_finished_lost_channel s) ∧
      ((l.foldl check_finished_lost_channel s).crashed = false →
        lost_signals (l.foldl check_finished_lost_channel s).log =
          lost_signals s.log ++ l.filterMap (channel_path s)) := by
  induction l with
  | nil => intro s; exact ⟨rfl, rfl, fun h => h, Sends.sends_refl _ s, fun _ => by simp⟩
  | cons c l ih =>
    intro s
    obtain ⟨a1, a2, a3, a4, a5⟩ := check_finished_lost_channel_facts s c
    obtain ⟨b1, b2, b3, b4, b5⟩ := ih (check_finished_lost_channel s c)
    rw [List.foldl_cons]
    refine ⟨b1.trans a1, b2.trans a2, fun h => b3 (a3 h), a4.sends_trans b4, ?_⟩
    intro h
    have h1 : (check_finished_lost_channel s c).crashed = false := by
      cases hx : (check_finished_lost_channel s c).crashed
      · rfl
      · rw [b3 hx] at h; cases h
    have hcp : channel_path (check_finished_lost_channel s c) = channel_path s := by
      funext d
      simp only [channel_path, a2]
    rw [b5 h, a5 h1, hcp, List.append_assoc, ← List.filterMap_append]
    rfl

theorem is_channel_lost_no_handle_channels (e : Effect)
    (h : e.is_channel_lost = true) : no_handle_channels e = true := by
  cases e <;> simp [Effect.is_channel_lost, no_handle_channels,
    Effect.is_handle_channels] at h ⊢

/-- The emission of the deferred `ChannelLost` signals. -/
theorem check_finished_lost_channels_facts (w : World) :
    (check_finished_lost_channels w).priv =
        { w.priv with lost_channels := [] } ∧
      (check_finished_lost_channels w).chan = w.chan ∧
      (w.crashed = true → (check_finished_lost_channels w).crashed = true) ∧
      Sends Effect.is_channel_lost w (check_finished_lost_channels w) ∧
      ((check_finished_lost_channels w).crashed = false →
        lost_signals (check_finished_lost_channels w).log = lost_view w) :=
  check_finished_loop_facts w.priv.lost_channels.reverse
    { w with priv := { w.priv with lost_channels := [] } }

/-- What `_mcd_dispatch_operation_check_finished` does, from any state: the
deferred signals are emitted in their order, and none is left when no client
lock is held. -/
theorem check_finished_facts (w : World) :
    Quiet w (_mcd_dispatch_operation_check_finished w) ∧
      (w.crashed = true →
        (_mcd_dispatch_operation_check_finished w).crashed = true) ∧
      (∀ c, ((_mcd_dispatch_operation_check_finished w).chan c).tp_chan =
        (w.chan c).tp_chan) ∧
      (_mcd_dispatch_operation_check_finished w).priv.channels =
        w.priv.channels ∧
      ((_mcd_dispatch_operation_check_finished w).crashed = false →
        lost_ready (_mcd_dispatch_operation_check_finished w) ∧
        lost_view (_mcd_dispatch_operation_check_finished w) = lost_view w) := by
  obtain ⟨a1, a2, a3, a4, a5⟩ := check_finished_lost_channels_facts w
  have hq : Quiet w (check_finished_lost_channels w) :=
    Quiet.of_sends (by rw [a1]) (fun h => by rw [a1]; exact h)
      (a4.mono is_channel_lost_no_handle_channels)
  have hr : lost_ready (check_finished_lost_channels w) := by
    intro _; rw [a1]
  have hv : (check_finished_lost_channels w).crashed = false →
      lost_view (check_finished_lost_channels w) = lost_view w := by
    intro h
    rw [lost_view, a5 h, deferred, a1]
    simp
  unfold _mcd_dispatch_operation_check_finished
  split
  · dsimp only
    split
    · rename_i hc
      exact ⟨hq, a3, fun c => by rw [a2], by rw [a1],
        fun h => by rw [hc] at h; cases h⟩
    · rename_i hc
      have hc1 : (check_finished_lost_channels w).crashed = false := by
        simpa using hc
      split
      · have hf := flow_actually_finish (check_finished_lost_channels w)
        refine ⟨hq.quiet_trans hf.quiet, fun h => hf.lost.crashed (a3 h),
          fun c => (hf.lost.tp_chan c).trans (by rw [a2]),
          hf.lost.channels.trans
            (show (check_finished_lost_channels w).priv.channels = _ by rw [a1]),
          fun h => ?_⟩
        refine ⟨hf.lost.ready h hr, ?_⟩
        rw [hf.lost.view h hr, hv hc1]
        simp
      · exact ⟨hq, a3, fun c => by rw [a2], by rw [a1],
          fun h => ⟨hr, hv h⟩⟩
  · rename_i hm
    refine ⟨Quiet.quiet_refl w, fun h => h, fun _ => rfl, rfl, fun _ => ⟨?_, rfl⟩⟩
    intro h
    exact absurd h hm

/-- A decrement of a client lock followed by
`_mcd_dispatch_operation_check_finished`: `w1` is `w` with one lock
decremented. -/
theorem flow_check_finished_after {w w1 : World} (h1 : w1.log = w.log)
    (h2 : w1.chan = w.chan) (h3 : w1.crashed = w.crashed)
    (h4 : w1.priv.channels = w.priv.channels)
    (h5 : w1.priv.lost_channels = w.priv.lost_channels)
    (h6 : w1.priv.observe_only = w.priv.observe_only)
    (h7 : w1.priv.channels_handled = w.priv.channels_handled) :
    Flow [] w (_mcd_dispatch_operation_check_finished w1) := by
  obtain ⟨q, c1, c2, c3, c4⟩ := check_finished_facts w1
  have hq : Quiet w w1 :=
    Quiet.of_sends h6 (fun h => by rw [h7]; exact h) (Sends.sends_of_log h1)
  have hv : lost_view w1 = lost_view w := by
    simp only [lost_view, deferred, h1, h5]
    rw [show channel_path w1 = channel_path w from by
      funext d; simp only [channel_path, h2]]
  refine ⟨⟨fun h => c1 (h3.trans h), fun c => (c2 c).trans (by rw [h2]),
    c3.trans h4, fun h _ => (c4 h).1, fun h _ => ?_⟩, hq.quiet_trans q⟩
  rw [(c4 h).2, hv]
  simp

theorem flow_inc_observers_pending (w : World) :
    Flow [] w (_mcd_dispatch_operation_inc_observers_pending w) := by
  unfold _mcd_dispatch_operation_inc_observers_pending
  split
  · exact Flow.flow_refl w
  · refine ⟨⟨fun h => h, fun _ => rfl, rfl, ?_, ?_⟩,
      Quiet.of_sends rfl (fun h => h) (Sends.sends_of_log rfl)⟩
    · intro _ _ hm
      simp [mcd_dispatch_operation_may_finish] at hm
    · intro _ _
      exact (List.append_nil (lost_view w)).symm

theorem flow_inc_ado_pending (w : World) :
    Flow [] w (_mcd_dispatch_operation_inc_ado_pending w) := by
  unfold _mcd_dispatch_operation_inc_ado_pending
  split
  · exact Flow.flow_refl w
  · refine ⟨⟨fun h => h, fun _ => rfl, rfl, ?_, ?_⟩,
      Quiet.of_sends rfl (fun h => h) (Sends.sends_of_log rfl)⟩
    · intro _ _ hm
      simp [mcd_dispatch_operation_may_finish] at hm
    · intro _ _
      exact (List.append_nil (lost_view w)).symm

theorem flow_dec_observers_pending (w : World) :
    Flow [] w (_mcd_dispatch_operation_dec_observers_pending w) := by
  unfold _mcd_dispatch_operation_dec_observers_pending
  split
  · dsimp only
    have h1 : Flow [] w (_mcd_dispatch_operation_check_finished
        { w with priv := { w.priv with
            observers_pending := w.priv.observers_pending - 1 } }) :=
      flow_check_finished_after rfl rfl rfl rfl rfl rfl rfl
    split
    · exact h1
    · exact h1.then_flow (flow_check_client_locks _)
  · exact Flow.flow_refl w

theorem flow_dec_ado_pending (w : World) :
    Flow [] w (_mcd_dispatch_operation_dec_ado_pending w) := by
  unfold _mcd_dispatch_operation_dec_ado_pending
  split
  · dsimp only
    have h1 : Flow [] w (_mcd_dispatch_operation_check_finished
        { w with priv := { w.priv with
            ado_pending := w.priv.ado_pending - 1 } }) :=
      flow_check_finished_after rfl rfl rfl rfl rfl rfl rfl
    split
    · exact h1
    · refine (h1.then_flow ?_).then_flow (flow_check_client_locks _)
      split
      · exact Flow.of_kept rfl (fun _ => rfl) rfl rfl rfl rfl rfl (fun h => h) rfl
      · exact Flow.flow_refl _
  · exact Flow.flow_refl w

theorem Flow.after_flow {r : List Nat} {w1 w2 w3 : World} (h1 : Flow [] w1 w2)
    (h2 : Flow r w2 w3) : Flow r w1 w3 := by
  have h := h1.flow_trans h2
  rwa [List.nil_append] at h

theorem Flow.flow_crash (w : World) : Flow [] w { w with crashed := true } :=
  ⟨⟨fun _ => rfl, fun _ => rfl, rfl, (fun h => by cases h), (fun h => by cases h)⟩,
    Quiet.of_sends rfl (fun h => h) (Sends.sends_of_log rfl)⟩

theorem flow_handle_with (valid_bus_name : String → Bool) (w : World)
    (handler_name : Option String) (context : Nat) (now : Int) :
    Flow [] w
      (dispatch_operation_handle_with valid_bus_name w handler_name context
        now) := by
  unfold dispatch_operation_handle_with
  split
  · exact Flow.flow_emit w _ rfl rfl
  · dsimp only
    have h1 : ∀ w1 : World, Flow [] w w1 →
        Flow [] w
          (if (_mcd_dispatch_operation_finish w1).crashed = true then
            _mcd_dispatch_operation_finish w1
          else emit (_mcd_dispatch_operation_finish w1)
            (Effect.return_from_handle_with context)) := by
      intro w1 h
      split
      · exact h.then_flow (flow_finish w1)
      · exact (h.then_flow (flow_finish w1)).then_flow
          (Flow.flow_emit _ (Effect.return_from_handle_with context) rfl rfl)
    apply h1
    split
    · exact Flow.of_kept rfl (fun _ => rfl) rfl rfl rfl rfl rfl (fun h => h) rfl
    · split
      · exact Flow.of_kept rfl (fun _ => rfl) rfl rfl rfl rfl rfl (fun h => h) rfl
      · exact Flow.of_kept rfl (fun _ => rfl) rfl rfl rfl rfl rfl (fun h => h) rfl

theorem flow_claim (w : World) (sender : String) (context : Nat) :
    Flow [] w (dispatch_operation_claim w sender context) := by
  unfold dispatch_operation_claim
  split
  · exact Flow.flow_emit w _ rfl rfl
  · split
    · exact Flow.flow_crash w
    · refine Flow.then_flow ?_ (flow_finish _)
      exact Flow.of_kept rfl (fun _ => rfl) rfl rfl rfl rfl rfl (fun h => h) rfl

theorem flow_approve (valid_bus_name : String → Bool) (w : World) :
    Flow [] w (_mcd_dispatch_operation_approve valid_bus_name w) := by
  unfold _mcd_dispatch_operation_approve
  split
  · split
    · exact Flow.flow_refl w
    · exact flow_finish w
  · exact flow_set_approved w

/-- What is said about a channel that has just been removed from
`channels`. -/
theorem flow_lose_channel_signal (w : World) (c : Nat) :
    Flow [c] w
      (lose_channel_signal
        { w with priv := { w.priv with channels := w.priv.channels.erase c } }
        c) := by
  unfold lose_channel_signal
  split
  · rename_i hp
    refine ⟨⟨fun h => h, fun _ => rfl, rfl, fun _ hr => hr, fun _ _ => ?_⟩,
      Quiet.of_sends rfl (fun h => h) (Sends.sends_of_log rfl)⟩
    have hn : channel_path w c = none := hp
    show lost_view w = lost_view w ++ [c].filterMap (channel_path w)
    simp [hn]
  · rename_i p hp
    have hs : channel_path w c = some p := hp
    split
    · rename_i hm
      refine ⟨⟨fun h => h, fun _ => rfl, rfl, fun _ _ hm2 => ?_, fun _ _ => ?_⟩,
        Quiet.of_sends rfl (fun h => h) (Sends.sends_of_log rfl)⟩
      · rw [show mcd_dispatch_operation_may_finish
          { w.priv with channels := w.priv.channels.erase c } = true from hm2] at hm
        cases hm
      · show lost_signals w.log ++
            (c :: w.priv.lost_channels).reverse.filterMap (channel_path w) =
          lost_view w ++ [c].filterMap (channel_path w)
        simp [lost_view, deferred, hs, List.filterMap_append]
    · rename_i hm
      unfold emit_channel_lost
      split
      · exact ⟨⟨fun _ => rfl, fun _ => rfl, rfl, (fun h => by cases h),
          (fun h => by cases h)⟩,
          Quiet.of_sends rfl (fun h => h) (Sends.sends_of_log rfl)⟩
      · rename_i error _
        refine ⟨⟨fun h => h, fun _ => rfl, rfl, fun _ hr => hr, fun _ hr => ?_⟩,
          Quiet.of_sends rfl (fun h => h)
            (Sends.sends_emit _ _ (Effect.channel_lost p error) rfl)⟩
        have hm1 : mcd_dispatch_operation_may_finish w.priv = true := by
          simpa using hm
        have hl : w.priv.lost_channels = [] := hr hm1
        show lost_signals (w.log ++ [Effect.channel_lost p error]) ++ deferred w =
          lost_view w ++ [c].filterMap (channel_path w)
        simp [lost_view, deferred, hl, hs, lost_signals, Effect.lost_path]

theorem flow_lose_channel (w : World) (c : Nat) :
    Flow (if c ∈ w.priv.channels then [c] else []) w
      (_mcd_dispatch_operation_lose_channel w c) := by
  unfold _mcd_dispatch_operation_lose_channel
  by_cases hmem : c ∈ w.priv.channels
  · rw [if_pos hmem, if_pos hmem]
    dsimp only
    have h := flow_lose_channel_signal w c
    split
    · exact h
    · split
      · exact h.then_flow (flow_finish _)
      · exact h
  · rw [if_neg hmem, if_neg hmem]
    exact Flow.flow_refl w

theorem flow_channel_aborted_cb (w : World) (c : Nat) :
    Flow (if c ∈ w.priv.channels then [c] else []) w
      (mcd_dispatch_operation_channel_aborted_cb w c) := by
  have key : ∀ w1 : World, Flow [] w w1 → w1.priv.channels = w.priv.channels →
      Flow (if c ∈ w.priv.channels then [c] else []) w
        (_mcd_dispatch_operation_lose_channel w1 c) := by
    intro w1 h hch
    have h2 := Flow.after_flow h (flow_lose_channel w1 c)
    rwa [hch] at h2
  unfold mcd_dispatch_operation_channel_aborted_cb
  dsimp only
  apply key
  · split
    · exact Flow.flow_refl w
    · split
      · exact Flow.of_kept rfl (fun _ => rfl) rfl rfl rfl rfl rfl (fun h => h) rfl
      · exact Flow.flow_refl w
  · split
    · rfl
    · split <;> rfl

theorem flow_handle_channels_success (w : World) (client : McdClientProxy) :
    Flow [] w (_mcd_dispatch_operation_handle_channels_cb w client false) := by
  unfold _mcd_dispatch_operation_handle_channels_cb
  simp only [Bool.false_eq_true, if_false]
  exact (Flow.flow_foldl _ (flow_handle_channels_cb_channel client) _ w).then_flow
    (flow_finish _)

theorem lost_handle_channels_cb (w : World) (client : McdClientProxy)
    (error : Bool) :
    Lost [] w (_mcd_dispatch_operation_handle_channels_cb w client error) := by
  cases error
  · exact (flow_handle_channels_success w client).lost
  · unfold _mcd_dispatch_operation_handle_channels_cb
    simp only [if_true]
    have h1 : Lost [] w
        (_mcd_dispatch_operation_set_handler_failed w client.bus_name) :=
      Lost.lost_of_kept (fun h => h) (fun _ => rfl) rfl rfl rfl rfl rfl
    have h := h1.lost_trans (lost_run_handlers
      (_mcd_dispatch_operation_set_handler_failed w client.bus_name))
    rwa [List.append_nil] at h

theorem flow_observe_channels_cb (w : World) (error : Bool) :
    Flow [] w (observe_channels_cb w error) :=
  flow_dec_observers_pending w

theorem flow_add_dispatch_operation_cb (w : World) (error : Bool) :
    Flow [] w (add_dispatch_operation_cb w error) := by
  unfold add_dispatch_operation_cb
  dsimp only
  refine Flow.then_flow ?_ (flow_dec_ado_pending _)
  split
  · exact Flow.flow_refl w
  · split
    · exact Flow.of_kept rfl (fun _ => rfl) rfl rfl rfl rfl rfl (fun h => h) rfl
    · exact Flow.flow_refl w

theorem flow_run_observers_client (w : World) (client : McdClientProxy) :
    Flow [] w (run_observers_client w client) := by
  unfold run_observers_client
  split
  · exact Flow.flow_refl w
  · split
    · exact Flow.flow_refl w
    · split
      · exact Flow.flow_crash w
      · exact Flow.flow_refl w
      · dsimp only
        exact (flow_inc_observers_pending w).then_flow
          (Flow.flow_emit _ _ rfl rfl)

theorem flow_run_observers (w : World) :
    Flow [] w (_mcd_dispatch_operation_run_observers w) :=
  Flow.flow_foldl _ flow_run_observers_client _ w

theorem flow_run_approvers_client (w : World) (client : McdClientProxy) :
    Flow [] w (run_approvers_client w client) := by
  unfold run_approvers_client
  split
  · exact Flow.flow_refl w
  · split
    · exact Flow.flow_refl w
    · split
      · exact Flow.flow_crash w
      · exact Flow.flow_refl w
      · dsimp only
        exact (flow_inc_ado_pending w).then_flow (Flow.flow_emit _ _ rfl rfl)

theorem flow_run_approvers (w : World) :
    Flow [] w (_mcd_dispatch_operation_run_approvers w) := by
  unfold _mcd_dispatch_operation_run_approvers
  dsimp only
  have h := (flow_inc_ado_pending w).then_flow
    (Flow.flow_foldl _ flow_run_approvers_client
      (_mcd_dispatch_operation_inc_ado_pending w).client_registry
      (_mcd_dispatch_operation_inc_ado_pending w))
  split
  · exact h
  · exact h.then_flow (flow_dec_ado_pending _)

theorem flow_run_clients_bypass (w : World) : Flow [] w (run_clients_bypass w) := by
  unfold run_clients_bypass
  split
  · exact flow_set_approved w
  · exact Flow.flow_refl w

theorem flow_run_clients_approvers (w : World) :
    Flow [] w (run_clients_approvers w) := by
  unfold run_clients_approvers
  split
  · dsimp only
    split
    · exact (flow_run_clients_bypass w).then_flow (flow_run_approvers _)
    · exact flow_run_clients_bypass w
  · exact Flow.flow_refl w

theorem flow_run_clients (w : World) :
    Flow [] w (_mcd_dispatch_operation_run_clients w) := by
  unfold _mcd_dispatch_operation_run_clients
  dsimp only
  have h := (flow_run_observers w).then_flow (flow_run_clients_approvers _)
  split
  · exact flow_run_observers w
  · split
    · exact h
    · refine (h.then_flow ?_).then_flow (flow_check_client_locks _)
      exact Flow.of_kept rfl (fun _ => rfl) rfl rfl rfl rfl rfl (fun h => h) rfl

theorem quiet_step (valid_bus_name : String → Bool) (w : World) (e : Event)
    (he : e.is_handler_failure = false) :
    Quiet w (step valid_bus_name w e) := by
  cases e <;> simp only [step] <;> split <;> try exact Quiet.quiet_refl w
  · exact (flow_run_clients w).quiet
  · exact (flow_observe_channels_cb w _).quiet
  · exact (flow_add_dispatch_operation_cb w _).quiet
  · rename_i client error _
    have : error = false := he
    subst this
    exact (flow_handle_channels_success w client).quiet
  · exact (flow_handle_with valid_bus_name w _ _ _).quiet
  · exact (flow_claim w _ _).quiet
  · exact (flow_approve valid_bus_name w).quiet
  · exact (flow_channel_aborted_cb w _).quiet
  · exact Quiet.of_sends rfl (fun h => h) (Sends.sends_of_log rfl)
  · exact Quiet.of_sends rfl (fun h => h) (Sends.sends_of_log rfl)

theorem lost_step (valid_bus_name : String → Bool) (w : World) (e : Event)
    (he : e.keeps_paths w) :
    Lost (e.removed w) w (step valid_bus_name w e) := by
  cases e with
  | run_clients =>
    simp only [step, Event.removed]; split
    · exact Lost.lost_refl w
    · exact (flow_run_clients w).lost
  | observe_channels_reply error =>
    simp only [step, Event.removed]; split
    · exact Lost.lost_refl w
    · exact (flow_observe_channels_cb w _).lost
  | add_dispatch_operation_reply error =>
    simp only [step, Event.removed]; split
    · exact Lost.lost_refl w
    · exact (flow_add_dispatch_operation_cb w _).lost
  | handle_channels_reply client error =>
    simp only [step, Event.removed]; split
    · exact Lost.lost_refl w
    · exact lost_handle_channels_cb w client error
  | handle_with handler_name context now =>
    simp only [step, Event.removed]; split
    · exact Lost.lost_refl w
    · exact (flow_handle_with valid_bus_name w _ _ _).lost
  | claim sender context =>
    simp only [step, Event.removed]; split
    · exact Lost.lost_refl w
    · exact (flow_claim w _ _).lost
  | approve =>
    simp only [step, Event.removed]; split
    · exact Lost.lost_refl w
    · exact (flow_approve valid_bus_name w).lost
  | channel_aborted c =>
    simp only [step, Event.removed]
    by_cases hc : w.crashed = true
    · rw [if_pos hc, if_neg (by simp [hc])]
      exact Lost.lost_refl w
    · have hc1 : w.crashed = false := by simpa using hc
      rw [if_neg hc]
      have h := (flow_channel_aborted_cb w c).lost
      by_cases hm : c ∈ w.priv.channels
      · rw [if_pos ⟨hc1, hm⟩]; rwa [if_pos hm] at h
      · rw [if_neg (fun h => hm h.2)]; rwa [if_neg hm] at h
  | registry_changed clients =>
    simp only [step, Event.removed]; split
    · exact Lost.lost_refl w
    · exact Lost.lost_of_kept (fun h => h) (fun _ => rfl) rfl rfl rfl rfl rfl
  | channel_changed c x =>
    simp only [step, Event.removed]; split
    · exact Lost.lost_refl w
    · exact Lost.lost_of_kept (fun h => h) (tp_chan_update w c x he) rfl rfl rfl rfl rfl
/-! ## Operations that only observe -/

theorem quiet_run (valid_bus_name : String → Bool) (es : List Event)
    (hes : ∀ e ∈ es, e.is_handler_failure = false) :
    ∀ w, Quiet w (run valid_bus_name w es) := by
  induction es with
  | nil => intro w; exact Quiet.quiet_refl w
  | cons e es ih =>
    intro w
    exact (quiet_step valid_bus_name w e (hes e (List.mem_cons_self e es))).quiet_trans
      (ih (fun x hx => hes x (List.mem_cons_of_mem e hx)) _)

theorem handle_channels_count_zero (n : String) (log : List Effect)
    (h : ∀ e ∈ log, e.is_handle_channels = false) :
    handle_channels_count n log = 0 := by
  unfold handle_channels_count
  rw [List.countP_eq_zero]
  intro e he
  have := h e he
  cases e <;> simp [Effect.is_handle_channels] at this ⊢

theorem observe_only_run (valid_bus_name : String → Bool) (es : List Event) :
    ∀ w : World, w.priv.observe_only = true →
      (∀ e ∈ w.log, e.is_handle_channels = false) →
      calls_answered valid_bus_name w es →
      ∀ e ∈ (run valid_bus_name w es).log, e.is_handle_channels = false := by
  induction es with
  | nil => intro w _ hl _; exact hl
  | cons e es ih =>
    intro w ho hl hc
    obtain ⟨hc1, hc2⟩ := hc
    have hf : e.is_handler_failure = false := by
      cases e with
      | handle_channels_reply client error =>
        have h0 := handle_channels_count_zero client.bus_name w.log hl
        have : 0 < handle_channels_count client.bus_name w.log := hc1
        omega
      | _ => rfl
    have hq := quiet_step valid_bus_name w e hf
    obtain ⟨l, h1, h2⟩ := hq.calm (Or.inl ho)
    refine ih _ (hq.observe_only.trans ho) ?_ hc2
    intro x hx
    rw [h1] at hx
    rcases List.mem_append.1 hx with hx | hx
    · exact hl x hx
    · simpa [no_handle_channels] using h2 x hx

/-- C18: a dispatch operation constructed with `observe_only` true never
issues a `HandleChannels` call, for every sequence of events in which a reply
to `HandleChannels` answers a call. -/
theorem observe_only_never_handles (valid_bus_name : String → Bool)
    (cpt : Nat) (have_client_registry have_handler_map needs_approval : Bool)
    (channels : List Nat) (account connection : Option String)
    (possible_handlers : Option (List String))
    (p : McdDispatchOperationPrivate × Nat)
    (client_registry : List McdClientProxy) (handler_map : List (String × String))
    (chan : Nat → McdChannel) (es : List Event)
    (hp : _mcd_dispatch_operation_new cpt have_client_registry have_handler_map
      needs_approval true channels account connection possible_handlers = some p)
    (ha : calls_answered valid_bus_name
      (World.fresh p.1 client_registry handler_map chan) es) :
    ∀ e ∈ (run valid_bus_name
        (World.fresh p.1 client_registry handler_map chan) es).log,
      e.is_handle_channels = false := by
  have ho : p.1.observe_only = true := by
    cases have_client_registry <;> cases have_handler_map <;>
      cases needs_approval <;> cases possible_handlers <;>
      simp [_mcd_dispatch_operation_new, mcd_dispatch_operation_constructor] at hp <;>
      subst hp <;> rfl
  exact observe_only_run valid_bus_name es _ ho (fun e he => by cases he) ha

theorem observe_only_never_handles_witness :
    (run (fun _ => true) example_world_observe_only
        [Event.run_clients, Event.observe_channels_reply false,
          Event.approve]).log.countP Effect.is_handle_channels = 0 :=
  List.countP_eq_zero.2 (fun e he => by
    simp [observe_only_never_handles (fun _ => true) 0 true true false [1, 2]
      none none none
      ({ example_priv with needs_approval := false, observe_only := true,
                           possible_handlers := none }, 1)
      [{ example_handler with is_observer := true }] [] example_chan
      [Event.run_clients, Event.observe_channels_reply false, Event.approve]
      rfl ⟨trivial, trivial, trivial, trivial⟩ e he])

/-! ## Claim -/

theorem priv_foldl_handled_by (u : String) (l : List Nat) (w : World) :
    (l.foldl (fun w0 a => mcd_dispatch_operation_set_channel_handled_by w0 a u)
      w).priv = w.priv := by
  induction l generalizing w with
  | nil => rfl
  | cons a l ih =>
    rw [List.foldl_cons, ih]
    unfold mcd_dispatch_operation_set_channel_handled_by
    split <;> rfl

theorem approval_handled_facts (w : World) (h : w.priv.channels_handled = true) :
    (actually_finish_approval w).log = w.log ∧
      (actually_finish_approval w).crashed = w.crashed ∧
      (actually_finish_approval w).priv.claim_context = w.priv.claim_context ∧
      (actually_finish_approval w).priv.channels_handled = true := by
  unfold actually_finish_approval _mcd_dispatch_operation_set_approved
  split
  · rw [check_client_locks_handled]
    · exact ⟨rfl, rfl, rfl, h⟩
    · exact h
  · exact ⟨rfl, rfl, rfl, h⟩

/-- The finish step of an operation that has been claimed, with channels
left and not handled yet. -/
theorem actually_finish_claimed (w : World) (claimer : String) (context : Nat)
    (hcr : w.crashed = false) (hc : w.priv.claimer = some claimer)
    (hx : w.priv.claim_context = some context) (hne : w.priv.channels ≠ [])
    (hh : w.priv.channels_handled = false) :
    (mcd_dispatch_operation_actually_finish w).chan =
        (w.priv.channels.foldl
          (fun w0 a => mcd_dispatch_operation_set_channel_handled_by w0 a claimer)
          w).chan ∧
      (mcd_dispatch_operation_actually_finish w).handler_map =
        (w.priv.channels.foldl
          (fun w0 a => mcd_dispatch_operation_set_channel_handled_by w0 a claimer)
          w).handler_map ∧
      (mcd_dispatch_operation_actually_finish w).priv.channels_handled = true ∧
      (mcd_dispatch_operation_actually_finish w).priv.claim_context = none ∧
      (mcd_dispatch_operation_actually_finish w).crashed = false ∧
      (mcd_dispatch_operation_actually_finish w).log =
        w.log ++ [Effect.finished, Effect.return_from_claim context] := by
  have hN : actually_finish_nothing_left (emit w Effect.finished) =
      emit w Effect.finished := by
    unfold actually_finish_nothing_left
    rw [if_neg (show ¬ (emit w Effect.finished).priv.channels = [] from hne)]
  have hp := priv_foldl_handled_by claimer w.priv.channels (emit w Effect.finished)
  have hs := Silent.silent_foldl
    (fun w0 a => mcd_dispatch_operation_set_channel_handled_by w0 a claimer)
    (fun w0 c => silent_set_channel_handled_by w0 c claimer) w.priv.channels
    (emit w Effect.finished)
  have hC : actually_finish_claimer (emit w Effect.finished) =
      { (w.priv.channels.foldl
          (fun w0 a => mcd_dispatch_operation_set_channel_handled_by w0 a claimer)
          (emit w Effect.finished)) with
        priv := { w.priv with channels_handled := true } } := by
    unfold actually_finish_claimer
    simp only [show (emit w Effect.finished).priv.claimer = some claimer from hc]
    have hch : (List.foldl
        (fun w0 a => mcd_dispatch_operation_set_channel_handled_by w0 a claimer)
        (emit w Effect.finished)
        (emit w Effect.finished).priv.channels).priv.channels_handled = false := by
      rw [priv_foldl_handled_by]; exact hh
    rw [if_neg (by rw [hch]; simp)]
    rw [priv_foldl_handled_by]
    rfl
  -- the channel objects and the handler map do not depend on the log
  have hlog : ∀ (l : List Nat) (w0 : World) (e : Effect),
      (l.foldl
        (fun w0 a => mcd_dispatch_operation_set_channel_handled_by w0 a claimer)
        (emit w0 e)).chan =
        (l.foldl
          (fun w0 a => mcd_dispatch_operation_set_channel_handled_by w0 a claimer)
          w0).chan ∧
      (l.foldl
        (fun w0 a => mcd_dispatch_operation_set_channel_handled_by w0 a claimer)
        (emit w0 e)).handler_map =
        (l.foldl
          (fun w0 a => mcd_dispatch_operation_set_channel_handled_by w0 a claimer)
          w0).handler_map := by
    intro l
    induction l with
    | nil => intro w0 e; exact ⟨rfl, rfl⟩
    | cons a l ih =>
      intro w0 e
      rw [List.foldl_cons, List.foldl_cons]
      have : mcd_dispatch_operation_set_channel_handled_by (emit w0 e) a claimer =
          emit (mcd_dispatch_operation_set_channel_handled_by w0 a claimer) e := by
        unfold mcd_dispatch_operation_set_channel_handled_by emit
        dsimp only
        generalize mcd_channel_get_tp_channel (w0.chan a) = t
        cases t <;> rfl
      rw [this]
      exact ih _ e
  obtain ⟨l1, l2⟩ := hlog w.priv.channels w Effect.finished
  unfold mcd_dispatch_operation_actually_finish
  rw [hN, hC]
  dsimp only
  rw [if_neg (by rw [hs.crashed]; simp [emit, hcr])]
  obtain ⟨a1, a2, a3, a4⟩ := approval_handled_facts
    { (w.priv.channels.foldl
        (fun w0 a => mcd_dispatch_operation_set_channel_handled_by w0 a claimer)
        (emit w Effect.finished)) with
      priv := { w.priv with channels_handled := true } } rfl
  obtain ⟨b1, b2⟩ := approval_handled
    { (w.priv.channels.foldl
        (fun w0 a => mcd_dispatch_operation_set_channel_handled_by w0 a claimer)
        (emit w Effect.finished)) with
      priv := { w.priv with channels_handled := true } } rfl
  have hctx : (actually_finish_approval
      { (w.priv.channels.foldl
          (fun w0 a => mcd_dispatch_operation_set_channel_handled_by w0 a claimer)
          (emit w Effect.finished)) with
        priv := { w.priv with channels_handled := true } }).priv.claim_context =
      some context := a3.trans hx
  have hR : ∀ A : World, A.priv.claim_context = some context →
      actually_finish_reply A =
        { emit A (Effect.return_from_claim context) with
          priv := { A.priv with claim_context := none } } := by
    intro A hA
    unfold actually_finish_reply
    simp only [hA]
  rw [hR _ hctx]
  refine ⟨b1.trans l1, b2.trans l2, a4, rfl, ?_, ?_⟩
  · show (actually_finish_approval _).crashed = false
    rw [a2]
    show (List.foldl _ (emit w Effect.finished) w.priv.channels).crashed = false
    rw [hs.crashed]
    exact hcr
  · show (actually_finish_approval _).log ++ [Effect.return_from_claim context] = _
    rw [a1]
    show (List.foldl _ (emit w Effect.finished) w.priv.channels).log ++ _ = _
    rw [hs.log]
    simp [emit]

/-- C15, the counterexample: the first of the two channels has lost its
`TpChannel`; a `Claim` is accepted and the finish step runs at once, the
claimer gets its reply, and the first channel, still in `channels`, is
neither set to dispatched nor recorded in the handler map. -/
theorem claim_finish_without_tp_channel :
    (run (fun _ => true) example_world_lost [Event.claim ":1.7" 7]).crashed =
        false ∧
      Effect.return_from_claim 7 ∈
        (run (fun _ => true) example_world_lost [Event.claim ":1.7" 7]).log ∧
      1 ∈ (run (fun _ => true) example_world_lost
        [Event.claim ":1.7" 7]).priv.channels ∧
      ((run (fun _ => true) example_world_lost
        [Event.claim ":1.7" 7]).chan 1).status = McdChannelStatus.UNDISPATCHED ∧
      (run (fun _ => true) example_world_lost
        [Event.claim ":1.7" 7]).handler_map = [("/ch2", ":1.7")] := by
  decide

/-- C15, as the code has it: when the finish step runs for an operation that
has been claimed, with the `Claim` reply pending, channels left in `channels`
and `channels_handled` not set, then every channel of `channels` that still
has its `TpChannel` is recorded in the handler map under the unique name of
the claimer and set to dispatched, a channel without `TpChannel` is left as
it was, `channels_handled` is set, `Finished` is emitted and the `Claim`
reply is completed, and no `HandleChannels` call is issued, neither by the
finish step nor by anything that happens later, short of a failure reply to
a `HandleChannels` call. -/
theorem claim_finish (valid_bus_name : String → Bool) (w : World)
    (claimer : String) (context : Nat)
    (hcr : w.crashed = false) (hc : w.priv.claimer = some claimer)
    (hx : w.priv.claim_context = some context) (hne : w.priv.channels ≠ [])
    (hh : w.priv.channels_handled = false) :
    (∀ c ∈ w.priv.channels, ∀ p, (w.chan c).tp_chan = some p →
      ((mcd_dispatch_operation_actually_finish w).chan c).status =
          McdChannelStatus.DISPATCHED ∧
        handler_map_lookup
          (mcd_dispatch_operation_actually_finish w).handler_map p =
            some claimer) ∧
    (∀ c, (w.chan c).tp_chan = none →
      (mcd_dispatch_operation_actually_finish w).chan c = w.chan c) ∧
    (mcd_dispatch_operation_actually_finish w).priv.channels_handled = true ∧
    (mcd_dispatch_operation_actually_finish w).priv.claim_context = none ∧
    (mcd_dispatch_operation_actually_finish w).crashed = false ∧
    sent w (mcd_dispatch_operation_actually_finish w) =
      [Effect.finished, Effect.return_from_claim context] ∧
    ∀ es : List Event, (∀ e ∈ es, e.is_handler_failure = false) →
      ∀ e ∈ sent (mcd_dispatch_operation_actually_finish w)
          (run valid_bus_name (mcd_dispatch_operation_actually_finish w) es),
        e.is_handle_channels = false := by
  obtain ⟨f1, f2, f3, f4, f5, f6⟩ :=
    actually_finish_claimed w claimer context hcr hc hx hne hh
  refine ⟨?_, ?_, f3, f4, f5, sent_of_log f6, ?_⟩
  · intro c hc p hp
    rw [f1, f2]
    exact foldl_handled_by claimer _ w c p hc hp
  · intro c hc
    rw [f1]
    exact chan_foldl_handled_by_none claimer _ w c hc
  · intro es hes e he
    have hq := quiet_run valid_bus_name es hes
      (mcd_dispatch_operation_actually_finish w)
    have := (hq.calm (Or.inr f3)).sent_all e he
    simpa [no_handle_channels] using this

theorem claim_finish_witness :
    ((mcd_dispatch_operation_actually_finish example_world_claimed).chan 1).status =
        McdChannelStatus.DISPATCHED ∧
      handler_map_lookup
        (mcd_dispatch_operation_actually_finish example_world_claimed).handler_map
        "/ch1" = some ":1.7" ∧
      sent example_world_claimed
          (mcd_dispatch_operation_actually_finish example_world_claimed) =
        [Effect.finished, Effect.return_from_claim 7] :=
  have h := claim_finish (fun _ => true) example_world_claimed ":1.7" 7 rfl rfl
    rfl (by decide) rfl
  ⟨(h.1 1 (by decide) "/ch1" rfl).1, (h.1 1 (by decide) "/ch1" rfl).2,
    h.2.2.2.2.2.1⟩
/-! ## Early bypass -/

theorem handlers_can_bypass_approval_loop_eq (registry : List McdClientProxy)
    (l : List String) :
    handlers_can_bypass_approval_loop registry l =
      match l.find? (fun n => (_mcd_client_registry_lookup registry n).isSome) with
      | some n =>
        match _mcd_client_registry_lookup registry n with
        | some handler => handler.bypass_approval
        | none => false
      | none => false := by
  induction l with
  | nil => rfl
  | cons n l ih =>
    unfold handlers_can_bypass_approval_loop
    rw [List.find?_cons]
    cases hl : _mcd_client_registry_lookup registry n with
    | none => simpa using ih
    | some handler => simp [hl]

theorem run_observers_client_facts (w : World) (client : McdClientProxy) :
    (run_observers_client w client).client_registry = w.client_registry ∧
      (∃ n, (run_observers_client w client).priv =
        { w.priv with observers_pending := n }) ∧
      Sends no_add_dispatch_operation w (run_observers_client w client) := by
  have hid : ∃ n, w.priv = { w.priv with observers_pending := n } :=
    ⟨w.priv.observers_pending, rfl⟩
  unfold run_observers_client
  split
  · exact ⟨rfl, hid, Sends.sends_refl _ w⟩
  · split
    · exact ⟨rfl, hid, Sends.sends_refl _ w⟩
    · split
      · exact ⟨rfl, hid, Sends.sends_of_log rfl⟩
      · exact ⟨rfl, hid, Sends.sends_refl _ w⟩
      · dsimp only
        unfold _mcd_dispatch_operation_inc_observers_pending
        split
        · exact ⟨rfl, hid, Sends.sends_emit _ w _ rfl⟩
        · exact ⟨rfl, ⟨_, rfl⟩, ⟨_, rfl, by simp [no_add_dispatch_operation,
            Effect.is_add_dispatch_operation]⟩⟩

theorem run_observers_loop_facts (l : List McdClientProxy) (w : World) :
    (l.foldl run_observers_client w).client_registry = w.client_registry ∧
      (∃ n, (l.foldl run_observers_client w).priv =
        { w.priv with observers_pending := n }) ∧
      Sends no_add_dispatch_operation w (l.foldl run_observers_client w) := by
  induction l generalizing w with
  | nil => exact ⟨rfl, ⟨w.priv.observers_pending, rfl⟩, Sends.sends_refl _ w⟩
  | cons c l ih =>
    rw [List.foldl_cons]
    obtain ⟨a1, ⟨n, a2⟩, a3⟩ := run_observers_client_facts w c
    obtain ⟨b1, ⟨m, b2⟩, b3⟩ := ih (run_observers_client w c)
    refine ⟨b1.trans a1, ⟨m, ?_⟩, a3.sends_trans b3⟩
    rw [b2, a2]

theorem run_observers_facts (w : World) :
    (_mcd_dispatch_operation_run_observers w).client_registry =
        w.client_registry ∧
      (∃ n, (_mcd_dispatch_operation_run_observers w).priv =
        { w.priv with observers_pending := n }) ∧
      Sends no_add_dispatch_operation w
        (_mcd_dispatch_operation_run_observers w) :=
  run_observers_loop_facts w.client_registry w

theorem approved_check_client_locks (w : World) :
    (_mcd_dispatch_operation_check_client_locks w).priv.approved =
      w.priv.approved := by
  unfold _mcd_dispatch_operation_check_client_locks
  split
  · split
    · rw [priv_run_handlers]
    · rfl
  · rfl

theorem is_handle_channels_no_add_dispatch_operation (e : Effect)
    (h : e.is_handle_channels = true) : no_add_dispatch_operation e = true := by
  cases e <;> simp [Effect.is_handle_channels, no_add_dispatch_operation,
    Effect.is_add_dispatch_operation] at h ⊢

/-- C14: early bypass.  `_mcd_dispatch_operation_handlers_can_bypass_approval`
returns the bypass-approval flag of the first name of `possible_handlers` that
is registered, and false when none is; and when it returns true for an
operation that needs approval, `_mcd_dispatch_operation_run_clients` sends no
`AddDispatchOperation` call and, unless an assertion aborts the process, leaves
`approved` true. -/
theorem early_bypass (w : World) :
    _mcd_dispatch_operation_handlers_can_bypass_approval w =
      (match (w.priv.possible_handlers.getD []).find?
          (fun n => (_mcd_client_registry_lookup w.client_registry n).isSome) with
        | some n =>
          match _mcd_client_registry_lookup w.client_registry n with
          | some handler => handler.bypass_approval
          | none => false
        | none => false) ∧
    (w.priv.needs_approval = true →
      _mcd_dispatch_operation_handlers_can_bypass_approval w = true →
      (∀ e ∈ sent w (_mcd_dispatch_operation_run_clients w),
        e.is_add_dispatch_operation = false) ∧
      ((_mcd_dispatch_operation_run_clients w).crashed = false →
        (_mcd_dispatch_operation_run_clients w).priv.approved = true)) := by
  refine ⟨handlers_can_bypass_approval_loop_eq _ _, fun hn hb => ?_⟩
  obtain ⟨o1, ⟨n, o2⟩, o3⟩ := run_observers_facts w
  have hn1 : _mcd_dispatch_operation_needs_approval
      (_mcd_dispatch_operation_run_observers w) = true := by
    unfold _mcd_dispatch_operation_needs_approval
    rw [o2]; exact hn
  have hb1 : _mcd_dispatch_operation_handlers_can_bypass_approval
      (_mcd_dispatch_operation_run_observers w) = true := by
    unfold _mcd_dispatch_operation_handlers_can_bypass_approval at hb ⊢
    rw [o1, o2]; exact hb
  have hsa : (_mcd_dispatch_operation_set_approved
      (_mcd_dispatch_operation_run_observers w)).priv.approved = true := by
    unfold _mcd_dispatch_operation_set_approved
    rw [approved_check_client_locks]
  have happ : run_clients_approvers (_mcd_dispatch_operation_run_observers w) =
      _mcd_dispatch_operation_set_approved
        (_mcd_dispatch_operation_run_observers w) := by
    unfold run_clients_approvers run_clients_bypass
    rw [if_pos hn1, if_pos hb1]
    dsimp only
    rw [if_neg]
    simp [_mcd_dispatch_operation_is_approved, hsa]
  have hs2 : Sends no_add_dispatch_operation
      (_mcd_dispatch_operation_run_observers w)
      (_mcd_dispatch_operation_set_approved
        (_mcd_dispatch_operation_run_observers w)) :=
    (inner_set_approved _).sends.mono is_handle_channels_no_add_dispatch_operation
  unfold _mcd_dispatch_operation_run_clients
  dsimp only
  rw [happ]
  split
  · rename_i hc
    exact ⟨fun e he => by simpa [no_add_dispatch_operation] using o3.sent_all e he,
      fun h => by rw [hc] at h; cases h⟩
  · split
    · rename_i hc
      exact ⟨fun e he => by
          simpa [no_add_dispatch_operation] using (o3.sends_trans hs2).sent_all e he,
        fun h => by rw [hc] at h; cases h⟩
    · have hs3 := (inner_check_client_locks
        { (_mcd_dispatch_operation_set_approved
            (_mcd_dispatch_operation_run_observers w)) with
          priv := { (_mcd_dispatch_operation_set_approved
            (_mcd_dispatch_operation_run_observers w)).priv with
              invoked_early_clients := true } }).sends.mono
        is_handle_channels_no_add_dispatch_operation
      have hs4 : Sends no_add_dispatch_operation w
          (_mcd_dispatch_operation_check_client_locks
            { (_mcd_dispatch_operation_set_approved
                (_mcd_dispatch_operation_run_observers w)) with
              priv := { (_mcd_dispatch_operation_set_approved
                (_mcd_dispatch_operation_run_observers w)).priv with
                  invoked_early_clients := true } }) :=
        (o3.sends_trans hs2).sends_trans
          (Sends.sends_trans (Sends.sends_of_log rfl) hs3)
      refine ⟨fun e he => by
          simpa [no_add_dispatch_operation] using hs4.sent_all e he, fun _ => ?_⟩
      rw [approved_check_client_locks]
      exact hsa

theorem early_bypass_witness :
    (∀ e ∈ sent example_world_bypass
        (_mcd_dispatch_operation_run_clients example_world_bypass),
      e.is_add_dispatch_operation = false) ∧
    (_mcd_dispatch_operation_run_clients example_world_bypass).priv.approved =
      true :=
  ⟨((early_bypass example_world_bypass).2 rfl (by decide)).1,
    ((early_bypass example_world_bypass).2 rfl (by decide)).2 (by decide)⟩
/-! ## Waiting for approval -/

theorem Waits.of_awaits {w : World} (h : awaits_approval w) : Waits w w :=
  ⟨Or.inr (Or.inr h), Sends.sends_refl _ w⟩

theorem Waits.waits_trans {w1 w2 w3 : World} (h1 : Sends no_handle_channels w1 w2)
    (h2 : Waits w2 w3) : Waits w1 w3 :=
  ⟨h2.state, h1.sends_trans h2.calm⟩

theorem Waits.of_log {w1 w2 w3 : World} (h2 : Waits w2 w3)
    (hl : w2.log = w1.log) : Waits w1 w3 :=
  Waits.waits_trans (Sends.sends_of_log hl) h2

/-- From a state whose channels count as handled, a step that is quiet and
keeps `wants_to_finish`. -/
theorem Waits.of_handled {w1 w2 : World} (hq : Quiet w1 w2)
    (hw : w1.priv.wants_to_finish = true → w2.priv.wants_to_finish = true)
    (h : w1.priv.channels_handled = true ∧ w1.priv.wants_to_finish = true) :
    Waits w1 w2 :=
  ⟨Or.inr (Or.inl ⟨hq.channels_handled h.1, hw h.2⟩), hq.calm (Or.inr h.1)⟩

/-- The next stage `g` of an entry point, run unless the process has
aborted. -/
theorem Waits.guarded {w1 w2 : World} (g : World → World) (h1 : Waits w1 w2)
    (hq : Quiet w2 (g w2))
    (hw : w2.priv.wants_to_finish = true → (g w2).priv.wants_to_finish = true)
    (ha : awaits_approval w2 → Waits w2 (g w2)) :
    Waits w1 (if w2.crashed = true then w2 else g w2) := by
  split
  · exact h1
  · rename_i hc
    rcases h1.state with h | h | h
    · exact absurd h hc
    · exact Waits.waits_trans h1.calm (Waits.of_handled hq hw h)
    · exact Waits.waits_trans h1.calm (ha h)

theorem check_client_locks_awaits (w : World) (h : awaits_approval w) :
    _mcd_dispatch_operation_check_client_locks w = w := by
  unfold _mcd_dispatch_operation_check_client_locks
  rw [if_neg]
  simp [_mcd_dispatch_operation_is_approved, h.1, h.2.1]

/-- The finish step of an operation that has no channel left. -/
theorem actually_finish_nothing_left_facts (w : World)
    (h : w.priv.channels = []) :
    (mcd_dispatch_operation_actually_finish w).priv.channels_handled = true ∧
      Sends no_handle_channels w (mcd_dispatch_operation_actually_finish w) := by
  have hN : actually_finish_nothing_left (emit w Effect.finished) =
      { emit w Effect.finished with
        priv := { w.priv with channels_handled := true } } := by
    unfold actually_finish_nothing_left
    rw [if_pos (show (emit w Effect.finished).priv.channels = [] from h)]
    rfl
  have hs : Sends no_handle_channels w
      { emit w Effect.finished with
        priv := { w.priv with channels_handled := true } } :=
    ⟨[Effect.finished], rfl, by simp [no_handle_channels, Effect.is_handle_channels]⟩
  have hq1 := (flow_claimer
    { emit w Effect.finished with
      priv := { w.priv with channels_handled := true } }).quiet
  unfold mcd_dispatch_operation_actually_finish
  rw [hN]
  dsimp only
  split
  · exact ⟨hq1.channels_handled rfl, hs.sends_trans (hq1.calm (Or.inr rfl))⟩
  · have hq2 := hq1.quiet_trans
      ((flow_approval _).quiet.quiet_trans (flow_reply _).quiet)
    exact ⟨hq2.channels_handled rfl, hs.sends_trans (hq2.calm (Or.inr rfl))⟩

theorem waits_actually_finish (w : World) (h : awaits_approval w)
    (hw : w.priv.wants_to_finish = true) :
    Waits w (mcd_dispatch_operation_actually_finish w) := by
  obtain ⟨a1, a2⟩ := actually_finish_nothing_left_facts w (h.2.2.2 hw)
  exact ⟨Or.inr (Or.inl ⟨a1, (eff_actually_finish w).wants_to_finish.trans hw⟩), a2⟩

theorem waits_finish (w : World) (h : awaits_approval w)
    (hch : w.priv.channels = []) : Waits w (_mcd_dispatch_operation_finish w) := by
  unfold _mcd_dispatch_operation_finish
  split
  · exact Waits.of_awaits h
  · dsimp only
    have h1 : awaits_approval
        { w with priv := { w.priv with wants_to_finish := true } } :=
      ⟨h.1, h.2.1, h.2.2.1, fun _ => hch⟩
    split
    · exact (waits_actually_finish
        { w with priv := { w.priv with wants_to_finish := true } } h1 rfl).of_log
          rfl
    · exact ⟨Or.inr (Or.inr h1), Sends.sends_of_log rfl⟩

theorem waits_check_finished (w : World) (h : awaits_approval w) :
    Waits w (_mcd_dispatch_operation_check_finished w) := by
  obtain ⟨a1, a2, a3, a4, a5⟩ := check_finished_lost_channels_facts w
  have hs : Sends no_handle_channels w (check_finished_lost_channels w) :=
    a4.mono is_channel_lost_no_handle_channels
  have h1 : awaits_approval (check_finished_lost_channels w) := by
    unfold awaits_approval
    rw [a1]
    exact h
  unfold _mcd_dispatch_operation_check_finished
  split
  · dsimp only
    split
    · rename_i hc
      exact ⟨Or.inl hc, hs⟩
    · split
      · rename_i hw
        exact Waits.waits_trans hs (waits_actually_finish _ h1 hw)
      · exact ⟨Or.inr (Or.inr h1), hs⟩
  · exact Waits.of_awaits h

theorem wants_to_finish_check_client_locks (w : World) :
    (_mcd_dispatch_operation_check_client_locks w).priv.wants_to_finish =
      w.priv.wants_to_finish :=
  (inner_check_client_locks w).toFrame.wants_to_finish

theorem waits_check_client_locks_after {w1 w2 : World} (h1 : Waits w1 w2) :
    Waits w1
      (if w2.crashed = true then w2
        else _mcd_dispatch_operation_check_client_locks w2) :=
  Waits.guarded _mcd_dispatch_operation_check_client_locks h1
    (flow_check_client_locks w2).quiet
    (fun h => (wants_to_finish_check_client_locks w2).trans h)
    (fun h => by rw [check_client_locks_awaits w2 h]; exact Waits.of_awaits h)

theorem waits_dec_observers_pending (w : World) (h : awaits_approval w) :
    Waits w (_mcd_dispatch_operation_dec_observers_pending w) := by
  unfold _mcd_dispatch_operation_dec_observers_pending
  split
  · dsimp only
    have h1 : Waits w (_mcd_dispatch_operation_check_finished
        { w with priv := { w.priv with
            observers_pending := w.priv.observers_pending - 1 } }) :=
      (waits_check_finished
        { w with priv := { w.priv with
            observers_pending := w.priv.observers_pending - 1 } } h).of_log rfl
    exact waits_check_client_locks_after h1
  · exact Waits.of_awaits h

theorem waits_dec_ado_pending (w : World) (h : awaits_approval w) :
    Waits w (_mcd_dispatch_operation_dec_ado_pending w) := by
  unfold _mcd_dispatch_operation_dec_ado_pending
  split
  · dsimp only
    have h1 : Waits w (_mcd_dispatch_operation_check_finished
        { w with priv := { w.priv with
            ado_pending := w.priv.ado_pending - 1 } }) :=
      (waits_check_finished
        { w with priv := { w.priv with
            ado_pending := w.priv.ado_pending - 1 } } h).of_log rfl
    refine Waits.guarded
      (fun w2 => _mcd_dispatch_operation_check_client_locks
        (if w2.priv.ado_pending == 0 && !w2.priv.awaiting_approval then
          { w2 with priv := { w2.priv with approved := true } }
        else w2)) h1 ?_ ?_ ?_
    · refine Quiet.quiet_trans ?_ (flow_check_client_locks _).quiet
      split
      · exact Quiet.of_sends rfl (fun h => h) (Sends.sends_of_log rfl)
      · exact Quiet.quiet_refl _
    · intro hw
      dsimp only
      rw [wants_to_finish_check_client_locks]
      split
      · exact hw
      · exact hw
    · intro ha
      dsimp only
      rw [if_neg (by simp [ha.2.2.1])]
      rw [check_client_locks_awaits _ ha]
      exact Waits.of_awaits ha
  · exact Waits.of_awaits h

theorem waits_add_dispatch_operation_cb (w : World) (error : Bool)
    (h : awaits_approval w) : Waits w (add_dispatch_operation_cb w error) := by
  unfold add_dispatch_operation_cb
  dsimp only
  have h1 : (if error = true then w
      else if (!w.priv.awaiting_approval) = true then
        { w with priv := { w.priv with awaiting_approval := true } }
      else w) = w := by
    split
    · rfl
    · rw [if_neg (by simp [h.2.2.1])]
  rw [h1]
  exact waits_dec_ado_pending w h

theorem waits_lose_channel (w : World) (c : Nat) (h : awaits_approval w) :
    Waits w (_mcd_dispatch_operation_lose_channel w c) := by
  unfold _mcd_dispatch_operation_lose_channel
  split
  · dsimp only
    have hq := (flow_lose_channel_signal w c).quiet
    have hs : Sends no_handle_channels w
        (lose_channel_signal
          { w with priv := { w.priv with
              channels := w.priv.channels.erase c } } c) := by
      unfold lose_channel_signal
      split
      · exact Sends.sends_of_log rfl
      · split
        · exact Sends.sends_of_log rfl
        · unfold emit_channel_lost
          split
          · exact Sends.sends_of_log rfl
          · exact Sends.sends_emit _ _ _ rfl
    have hp : ∃ l, (lose_channel_signal
        { w with priv := { w.priv with
            channels := w.priv.channels.erase c } } c).priv =
        { w.priv with channels := w.priv.channels.erase c,
                      lost_channels := l } := by
      unfold lose_channel_signal
      split
      · exact ⟨w.priv.lost_channels, rfl⟩
      · split
        · exact ⟨_, rfl⟩
        · unfold emit_channel_lost
          split
          · exact ⟨w.priv.lost_channels, rfl⟩
          · exact ⟨w.priv.lost_channels, rfl⟩
    obtain ⟨l, hp⟩ := hp
    split
    · rename_i hc
      exact ⟨Or.inl hc, hs⟩
    · split
      · rename_i hnil
        refine Waits.waits_trans hs (waits_finish _ ?_ hnil)
        unfold awaits_approval
        rw [hp]
        refine ⟨h.1, h.2.1, h.2.2.1, fun _ => ?_⟩
        rw [hp] at hnil
        exact hnil
      · rename_i hnil
        refine ⟨Or.inr (Or.inr ?_), hs⟩
        unfold awaits_approval
        rw [hp]
        refine ⟨h.1, h.2.1, h.2.2.1, fun hw => ?_⟩
        rw [hp] at hnil
        have := h.2.2.2 hw
        exfalso
        apply hnil
        show w.priv.channels.erase c = []
        rw [this]
        rfl
  · exact Waits.of_awaits h

theorem waits_channel_aborted_cb (w : World) (c : Nat) (h : awaits_approval w) :
    Waits w (mcd_dispatch_operation_channel_aborted_cb w c) := by
  unfold mcd_dispatch_operation_channel_aborted_cb
  dsimp only
  split
  · exact waits_lose_channel w c h
  · split
    · exact (waits_lose_channel
        { w with priv := { w.priv with cancelled := true } } c h).of_log rfl
    · exact waits_lose_channel w c h

theorem wants_to_finish_dec_ado_pending (w : World) :
    (_mcd_dispatch_operation_dec_ado_pending w).priv.wants_to_finish =
      w.priv.wants_to_finish := by
  unfold _mcd_dispatch_operation_dec_ado_pending
  split
  · dsimp only
    obtain ⟨k, he, _⟩ := eff_check_finished
      { w with priv := { w.priv with ado_pending := w.priv.ado_pending - 1 } }
    split
    · exact he.wants_to_finish
    · rw [wants_to_finish_check_client_locks]
      split
      · exact he.wants_to_finish
      · exact he.wants_to_finish
  · rfl

theorem waits_step (valid_bus_name : String → Bool) (w : World) (e : Event)
    (hl : ∀ x ∈ w.log, x.is_handle_channels = false)
    (hs : w.crashed = true ∨
      (w.priv.channels_handled = true ∧ w.priv.wants_to_finish = true) ∨
      awaits_approval w)
    (h1 : e.is_approval = false) (h2 : e.is_run_clients = false)
    (h3 : e.answers_call w) :
    Waits w (step valid_bus_name w e) := by
  have hf : e.is_handler_failure = false := by
    cases e with
    | handle_channels_reply client error =>
      have h0 := handle_channels_count_zero client.bus_name w.log hl
      have : 0 < handle_channels_count client.bus_name w.log := h3
      omega
    | _ => rfl
  rcases hs with hc | hh | ha
  · rw [step_crashed valid_bus_name w e hc]
    exact ⟨Or.inl hc, Sends.sends_refl _ w⟩
  · exact Waits.of_handled (quiet_step valid_bus_name w e hf)
      (trans_step valid_bus_name w e).wants_to_finish hh
  · by_cases hc : w.crashed = true
    · rw [step_crashed valid_bus_name w e hc]
      exact ⟨Or.inl hc, Sends.sends_refl _ w⟩
    · cases e with
      | run_clients => cases h2
      | observe_channels_reply error =>
        simp only [step, if_neg hc]
        exact waits_dec_observers_pending w ha
      | add_dispatch_operation_reply error =>
        simp only [step, if_neg hc]
        exact waits_add_dispatch_operation_cb w error ha
      | handle_channels_reply client error =>
        have h0 := handle_channels_count_zero client.bus_name w.log hl
        have : 0 < handle_channels_count client.bus_name w.log := h3
        omega
      | handle_with handler_name context now => cases h1
      | claim sender context => cases h1
      | approve => cases h1
      | channel_aborted c =>
        simp only [step, if_neg hc]
        exact waits_channel_aborted_cb w c ha
      | registry_changed clients =>
        simp only [step, if_neg hc]
        exact ⟨Or.inr (Or.inr ha), Sends.sends_of_log rfl⟩
      | channel_changed c x =>
        simp only [step, if_neg hc]
        exact ⟨Or.inr (Or.inr ha), Sends.sends_of_log rfl⟩

theorem waits_run (valid_bus_name : String → Bool) (es : List Event) :
    ∀ w : World, (∀ x ∈ w.log, x.is_handle_channels = false) →
      (w.crashed = true ∨
        (w.priv.channels_handled = true ∧ w.priv.wants_to_finish = true) ∨
        awaits_approval w) →
      (∀ e ∈ es, e.is_approval = false ∧ e.is_run_clients = false) →
      calls_answered valid_bus_name w es →
      (∀ x ∈ (run valid_bus_name w es).log, x.is_handle_channels = false) ∧
      ((run valid_bus_name w es).crashed = true ∨
        ((run valid_bus_name w es).priv.channels_handled = true ∧
          (run valid_bus_name w es).priv.wants_to_finish = true) ∨
        awaits_approval (run valid_bus_name w es)) := by
  induction es with
  | nil => intro w hl hs _ _; exact ⟨hl, hs⟩
  | cons e es ih =>
    intro w hl hs hes hc
    obtain ⟨hc1, hc2⟩ := hc
    obtain ⟨h1, h2⟩ := hes e (List.mem_cons_self e es)
    have hw := waits_step valid_bus_name w e hl hs h1 h2 hc1
    obtain ⟨l, e1, e2⟩ := hw.calm
    refine ih _ ?_ hw.state (fun x hx => hes x (List.mem_cons_of_mem e hx)) hc2
    intro x hx
    rw [e1] at hx
    rcases List.mem_append.1 hx with hx | hx
    · exact hl x hx
    · simpa [no_handle_channels] using e2 x hx

/-- C13: when the reply of an approver to `AddDispatchOperation` is a
success while the operation needs approval and has not been approved,
`awaiting_approval` becomes true and `approved` stays false, also when
this reply brings `ado_pending` to zero; and from then on, as long as there is
no `HandleWith`, no `Claim` and no call of `_mcd_dispatch_operation_approve`
(the early clients have been run, and a reply to `HandleChannels` answers a
call), no `HandleChannels` call is issued, whatever else happens, and the
operation stays unapproved and awaiting approval until it loses all its
channels and finishes. -/
theorem accepted_operation_waits (valid_bus_name : String → Bool) (w : World)
    (es : List Event) (hc : w.crashed = false)
    (hn : w.priv.needs_approval = true) (ha : w.priv.approved = false)
    (hw : w.priv.wants_to_finish = false)
    (hl : ∀ x ∈ w.log, x.is_handle_channels = false)
    (hes : ∀ e ∈ es, e.is_approval = false ∧ e.is_run_clients = false)
    (hans : calls_answered valid_bus_name
      (step valid_bus_name w (Event.add_dispatch_operation_reply false)) es) :
    ((step valid_bus_name w
        (Event.add_dispatch_operation_reply false)).crashed = false →
      (step valid_bus_name w
        (Event.add_dispatch_operation_reply false)).priv.awaiting_approval =
          true ∧
      (step valid_bus_name w
        (Event.add_dispatch_operation_reply false)).priv.approved = false) ∧
    (∀ x ∈ (run valid_bus_name
        (step valid_bus_name w (Event.add_dispatch_operation_reply false))
        es).log, x.is_handle_channels = false) ∧
    ((run valid_bus_name
        (step valid_bus_name w (Event.add_dispatch_operation_reply false))
        es).crashed = false →
      (run valid_bus_name
        (step valid_bus_name w (Event.add_dispatch_operation_reply false))
        es).priv.wants_to_finish = false →
      (run valid_bus_name
        (step valid_bus_name w (Event.add_dispatch_operation_reply false))
        es).priv.approved = false ∧
      (run valid_bus_name
        (step valid_bus_name w (Event.add_dispatch_operation_reply false))
        es).priv.awaiting_approval = true) := by
  -- the state in which the lock is released: `awaiting_approval` is set
  obtain ⟨w0, hstep, h0, hlog0, hw0⟩ :
      ∃ w0, step valid_bus_name w (Event.add_dispatch_operation_reply false) =
          _mcd_dispatch_operation_dec_ado_pending w0 ∧
        awaits_approval w0 ∧ w0.log = w.log ∧
        w0.priv.wants_to_finish = false := by
    by_cases haw : w.priv.awaiting_approval = true
    · refine ⟨w, ?_, ⟨hn, ha, haw, fun h => by rw [hw] at h; cases h⟩, rfl, hw⟩
      simp [step, hc, add_dispatch_operation_cb, haw]
    · refine ⟨{ w with priv := { w.priv with awaiting_approval := true } }, ?_,
        ⟨hn, ha, rfl, fun h => by rw [show w.priv.wants_to_finish = true from h]
                                    at hw; cases hw⟩, rfl, hw⟩
      simp [step, hc, add_dispatch_operation_cb, haw]
  have hwaits := (waits_dec_ado_pending w0 h0).of_log hlog0
  rw [← hstep] at hwaits
  have hwtf : (step valid_bus_name w
      (Event.add_dispatch_operation_reply false)).priv.wants_to_finish = false := by
    rw [hstep, wants_to_finish_dec_ado_pending, hw0]
  have hl1 : ∀ x ∈ (step valid_bus_name w
      (Event.add_dispatch_operation_reply false)).log,
      x.is_handle_channels = false := by
    obtain ⟨l, e1, e2⟩ := hwaits.calm
    intro x hx
    rw [e1] at hx
    rcases List.mem_append.1 hx with hx | hx
    · exact hl x hx
    · simpa [no_handle_channels] using e2 x hx
  obtain ⟨r1, r2⟩ := waits_run valid_bus_name es _ hl1 hwaits.state hes hans
  refine ⟨fun hcr => ?_, r1, fun hcr hwf => ?_⟩
  · rcases hwaits.state with h | h | h
    · rw [hcr] at h; cases h
    · rw [hwtf] at h; cases h.2
    · exact ⟨h.2.2.1, h.2.1⟩
  · rcases r2 with h | h | h
    · rw [hcr] at h; cases h
    · rw [hwf] at h; cases h.2
    · exact ⟨h.2.1, h.2.2.1⟩

theorem accepted_operation_waits_witness :
    (∀ x ∈ (run (fun _ => true)
        (step (fun _ => true) example_world_awaiting
          (Event.add_dispatch_operation_reply false))
        [Event.observe_channels_reply false,
          Event.channel_changed 1 example_chan_closed,
          Event.channel_aborted 1]).log, x.is_handle_channels = false) ∧
    (run (fun _ => true)
        (step (fun _ => true) example_world_awaiting
          (Event.add_dispatch_operation_reply false))
        [Event.observe_channels_reply false,
          Event.channel_changed 1 example_chan_closed,
          Event.channel_aborted 1]).priv.ado_pending = 0 :=
  ⟨(accepted_operation_waits (fun _ => true) example_world_awaiting
      [Event.observe_channels_reply false,
        Event.channel_changed 1 example_chan_closed, Event.channel_aborted 1]
      (by decide) (by decide) (by decide) (by decide) (by decide) (by decide)
      ⟨trivial, trivial, trivial, trivial⟩).2.1,
    by decide⟩
/-! ## The order of ChannelLost -/

theorem lost_run (valid_bus_name : String → Bool) (es : List Event) :
    ∀ w : World, paths_kept valid_bus_name w es →
      Lost (aborted valid_bus_name w es) w (run valid_bus_name w es) := by
  induction es with
  | nil => intro w _; exact Lost.lost_refl w
  | cons e es ih =>
    intro w hk
    exact (lost_step valid_bus_name w e hk.1).lost_trans (ih _ hk.2)

theorem removed_perm (w : World) (e : Event) :
    w.priv.channels.Perm
      (e.removed w ++ (e.removed w).foldl List.erase w.priv.channels) := by
  cases e with
  | channel_aborted c =>
    simp only [Event.removed]
    split
    · rename_i h
      exact List.perm_cons_erase h.2
    · exact List.Perm.refl _
  | _ => exact List.Perm.refl _

theorem aborted_perm (valid_bus_name : String → Bool) (es : List Event) :
    ∀ w : World, paths_kept valid_bus_name w es →
      w.priv.channels.Perm
        (aborted valid_bus_name w es ++
          (run valid_bus_name w es).priv.channels) := by
  induction es with
  | nil => intro w _; exact List.Perm.refl _
  | cons e es ih =>
    intro w hk
    have h1 := removed_perm w e
    have h2 := ih (step valid_bus_name w e) hk.2
    rw [(lost_step valid_bus_name w e hk.1).channels] at h2
    show w.priv.channels.Perm
      ((e.removed w ++ aborted valid_bus_name (step valid_bus_name w e) es) ++
        (run valid_bus_name (step valid_bus_name w e) es).priv.channels)
    rw [List.append_assoc]
    exact h1.trans (List.Perm.append_left _ h2)

theorem is_handle_channels_no_channel_lost (e : Effect)
    (h : e.is_handle_channels = true) : no_channel_lost e = true := by
  cases e <;> simp [Effect.is_handle_channels, no_channel_lost,
    Effect.is_channel_lost] at h ⊢

theorem sends_no_channel_lost_actually_finish (w : World) :
    Sends no_channel_lost w (mcd_dispatch_operation_actually_finish w) := by
  have h1 : Sends no_channel_lost w (emit w Effect.finished) :=
    Sends.sends_emit _ w _ rfl
  have h2 : Sends no_channel_lost (emit w Effect.finished)
      (actually_finish_nothing_left (emit w Effect.finished)) := by
    unfold actually_finish_nothing_left
    split
    · exact Sends.sends_of_log rfl
    · exact Sends.sends_refl _ _
  have h3 : ∀ x : World, Sends no_channel_lost x (actually_finish_claimer x) := by
    intro x
    unfold actually_finish_claimer
    split
    · exact Sends.sends_refl _ _
    · rename_i claimer _
      have hs := Silent.silent_foldl
        (fun w0 channel =>
          mcd_dispatch_operation_set_channel_handled_by w0 channel claimer)
        (fun w0 c => silent_set_channel_handled_by w0 c claimer) x.priv.channels x
      dsimp only
      split
      · exact Sends.sends_of_log hs.log
      · exact Sends.sends_of_log hs.log
  have h4 : ∀ x : World, Sends no_channel_lost x (actually_finish_approval x) := by
    intro x
    unfold actually_finish_approval
    split
    · exact Sends.sends_trans (Sends.sends_of_log rfl)
        ((inner_set_approved _).sends.mono is_handle_channels_no_channel_lost)
    · exact Sends.sends_refl _ _
  have h5 : ∀ x : World, Sends no_channel_lost x (actually_finish_reply x) := by
    intro x
    unfold actually_finish_reply
    split
    · exact Sends.sends_refl _ _
    · rename_i context _
      exact ⟨[Effect.return_from_claim context], rfl,
        by simp [no_channel_lost, Effect.is_channel_lost]⟩
  unfold mcd_dispatch_operation_actually_finish
  dsimp only
  split
  · exact (h1.sends_trans h2).sends_trans (h3 _)
  · exact (((h1.sends_trans h2).sends_trans (h3 _)).sends_trans (h4 _)).sends_trans
      (h5 _)

/-- What `_mcd_dispatch_operation_check_finished` sends when no client lock is
held: first the deferred `ChannelLost` signals, oldest first, then whatever
the finish step sends, which is no `ChannelLost`. -/
theorem check_finished_drains (w : World)
    (hm : mcd_dispatch_operation_may_finish w.priv = true)
    (hc : (_mcd_dispatch_operation_check_finished w).crashed = false) :
    ∃ l1 l2, (_mcd_dispatch_operation_check_finished w).log = w.log ++ l1 ++ l2 ∧
      (∀ e ∈ l1, e.is_channel_lost = true) ∧ lost_signals l1 = deferred w ∧
      (∀ e ∈ l2, no_channel_lost e = true) ∧
      (_mcd_dispatch_operation_check_finished w).priv.lost_channels = [] := by
  obtain ⟨a1, a2, a3, ⟨l1, a4, a4p⟩, a5⟩ := check_finished_lost_channels_facts w
  have hsig : (check_finished_lost_channels w).crashed = false →
      lost_signals l1 = deferred w := by
    intro h
    have := a5 h
    rw [a4, lost_signals_append, lost_view] at this
    exact List.append_cancel_left this
  have hlost : (check_finished_lost_channels w).priv.lost_channels = [] := by
    rw [a1]
  unfold _mcd_dispatch_operation_check_finished at hc ⊢
  rw [if_pos hm] at hc ⊢
  dsimp only at hc ⊢
  by_cases hcr : (check_finished_lost_channels w).crashed = true
  · rw [if_pos hcr] at hc
    rw [hcr] at hc; cases hc
  · have hcr1 : (check_finished_lost_channels w).crashed = false := by
      simpa using hcr
    rw [if_neg hcr] at hc ⊢
    split
    · rename_i hw
      rw [if_pos hw] at hc
      obtain ⟨l2, b1, b2⟩ := sends_no_channel_lost_actually_finish
        (check_finished_lost_channels w)
      refine ⟨l1, l2, by rw [b1, a4], a4p, hsig hcr1, b2, ?_⟩
      have he := eff_actually_finish (check_finished_lost_channels w)
      have hr := (flow_actually_finish (check_finished_lost_channels w)).lost.ready
        hc (fun _ => hlost)
      apply hr
      have hmr : mcd_dispatch_operation_may_finish
          (check_finished_lost_channels w).priv = true := by
        rw [a1]; exact hm
      simpa [mcd_dispatch_operation_may_finish, he.observers_pending,
        he.ado_pending] using hmr
    · exact ⟨l1, [], by rw [a4, List.append_nil], a4p, hsig hcr1, by simp, hlost⟩

theorem finish_locked (w : World)
    (hm : mcd_dispatch_operation_may_finish w.priv = false) :
    (_mcd_dispatch_operation_finish w).log = w.log ∧
      (_mcd_dispatch_operation_finish w).priv.lost_channels =
        w.priv.lost_channels ∧
      (_mcd_dispatch_operation_finish w).priv.channels = w.priv.channels ∧
      (_mcd_dispatch_operation_finish w).crashed = w.crashed := by
  unfold _mcd_dispatch_operation_finish
  split
  · exact ⟨rfl, rfl, rfl, rfl⟩
  · dsimp only
    rw [if_neg]
    · exact ⟨rfl, rfl, rfl, rfl⟩
    · rw [show mcd_dispatch_operation_may_finish
        { w.priv with wants_to_finish := true } = false from hm]
      simp

/-- A channel with an object path that is lost while a client lock is
held. -/
theorem lose_channel_deferred (w : World) (c : Nat) (p : String)
    (hmem : c ∈ w.priv.channels) (hp : channel_path w c = some p)
    (hm : mcd_dispatch_operation_may_finish w.priv = false) :
    (_mcd_dispatch_operation_lose_channel w c).log = w.log ∧
      (_mcd_dispatch_operation_lose_channel w c).priv.lost_channels =
        c :: w.priv.lost_channels ∧
      (_mcd_dispatch_operation_lose_channel w c).priv.channels =
        w.priv.channels.erase c ∧
      (_mcd_dispatch_operation_lose_channel w c).crashed = w.crashed := by
  have hsig : lose_channel_signal
      { w with priv := { w.priv with channels := w.priv.channels.erase c } } c =
      { w with priv := { w.priv with
          channels := w.priv.channels.erase c,
          lost_channels := c :: w.priv.lost_channels } } := by
    unfold lose_channel_signal
    simp only [show mcd_channel_get_object_path (w.chan c) = some p from hp]
    rw [if_pos]
    rw [show mcd_dispatch_operation_may_finish
      { w.priv with channels := w.priv.channels.erase c } = false from hm]
    rfl
  unfold _mcd_dispatch_operation_lose_channel
  rw [if_pos hmem]
  dsimp only
  rw [hsig]
  split
  · exact ⟨rfl, rfl, rfl, rfl⟩
  · split
    · exact finish_locked
        { w with priv := { w.priv with
            channels := w.priv.channels.erase c,
            lost_channels := c :: w.priv.lost_channels } } hm
    · exact ⟨rfl, rfl, rfl, rfl⟩

theorem Frame.lost_channels {w1 w2 : World} (h : Frame w1 w2) :
    w2.priv.lost_channels = w1.priv.lost_channels :=
  show (core w2.priv).lost_channels = (core w1.priv).lost_channels from
    congrArg McdDispatchOperationPrivate.lost_channels h.priv_core

/-- The lock check after `_mcd_dispatch_operation_check_finished` has drained
the lost channels. -/
theorem drains_then_check_client_locks (w0 w1 w3 : World)
    (hlog : w1.log = w0.log) (hdef : deferred w1 = deferred w0)
    (hm : mcd_dispatch_operation_may_finish w1.priv = true)
    (h3log : w3.log = (_mcd_dispatch_operation_check_finished w1).log)
    (h3lost : w3.priv.lost_channels =
      (_mcd_dispatch_operation_check_finished w1).priv.lost_channels)
    (hc : (if (_mcd_dispatch_operation_check_finished w1).crashed = true then
        _mcd_dispatch_operation_check_finished w1
      else _mcd_dispatch_operation_check_client_locks w3).crashed = false) :
    ∃ l1 l2,
      (if (_mcd_dispatch_operation_check_finished w1).crashed = true then
        _mcd_dispatch_operation_check_finished w1
      else _mcd_dispatch_operation_check_client_locks w3).log =
        w0.log ++ l1 ++ l2 ∧
      (∀ e ∈ l1, e.is_channel_lost = true) ∧ lost_signals l1 = deferred w0 ∧
      (∀ e ∈ l2, no_channel_lost e = true) ∧
      (if (_mcd_dispatch_operation_check_finished w1).crashed = true then
        _mcd_dispatch_operation_check_finished w1
      else _mcd_dispatch_operation_check_client_locks w3).priv.lost_channels =
        [] := by
  by_cases hcr : (_mcd_dispatch_operation_check_finished w1).crashed = true
  · rw [if_pos hcr] at hc
    rw [hcr] at hc; cases hc
  · have hcr1 : (_mcd_dispatch_operation_check_finished w1).crashed = false := by
      simpa using hcr
    rw [if_neg hcr]
    obtain ⟨l1, l2, d1, d2, d3, d4, d5⟩ := check_finished_drains w1 hm hcr1
    have hi := inner_check_client_locks w3
    obtain ⟨l3, e1, e2⟩ := hi.sends.mono is_handle_channels_no_channel_lost
    refine ⟨l1, l2 ++ l3, ?_, d2, by rw [d3, hdef], ?_, ?_⟩
    · rw [e1, h3log, d1, hlog]
      simp only [List.append_assoc]
    · intro e he
      rcases List.mem_append.1 he with h | h
      · exact d4 e h
      · exact e2 e h
    · rw [hi.toFrame.lost_channels, h3lost, d5]

theorem dec_observers_pending_drains (w : World)
    (h1 : w.priv.observers_pending = 1) (h0 : w.priv.ado_pending = 0)
    (hc : (_mcd_dispatch_operation_dec_observers_pending w).crashed = false) :
    ∃ l1 l2,
      (_mcd_dispatch_operation_dec_observers_pending w).log =
        w.log ++ l1 ++ l2 ∧
      (∀ e ∈ l1, e.is_channel_lost = true) ∧ lost_signals l1 = deferred w ∧
      (∀ e ∈ l2, no_channel_lost e = true) ∧
      (_mcd_dispatch_operation_dec_observers_pending w).priv.lost_channels =
        [] := by
  unfold _mcd_dispatch_operation_dec_observers_pending at hc ⊢
  rw [if_pos (by omega)] at hc ⊢
  exact drains_then_check_client_locks w
    { w with priv := { w.priv with
        observers_pending := w.priv.observers_pending - 1 } }
    (_mcd_dispatch_operation_check_finished
      { w with priv := { w.priv with
          observers_pending := w.priv.observers_pending - 1 } })
    rfl rfl (by simp [mcd_dispatch_operation_may_finish, h1, h0]) rfl rfl hc

theorem dec_ado_pending_drains (w : World)
    (h1 : w.priv.ado_pending = 1) (h0 : w.priv.observers_pending = 0)
    (hc : (_mcd_dispatch_operation_dec_ado_pending w).crashed = false) :
    ∃ l1 l2,
      (_mcd_dispatch_operation_dec_ado_pending w).log = w.log ++ l1 ++ l2 ∧
      (∀ e ∈ l1, e.is_channel_lost = true) ∧ lost_signals l1 = deferred w ∧
      (∀ e ∈ l2, no_channel_lost e = true) ∧
      (_mcd_dispatch_operation_dec_ado_pending w).priv.lost_channels = [] := by
  unfold _mcd_dispatch_operation_dec_ado_pending at hc ⊢
  rw [if_pos (by omega)] at hc ⊢
  refine drains_then_check_client_locks w
    { w with priv := { w.priv with ado_pending := w.priv.ado_pending - 1 } }
    _ rfl rfl (by simp [mcd_dispatch_operation_may_finish, h1, h0]) ?_ ?_ hc
  · split <;> rfl
  · split <;> rfl

/-- The abort of a channel with an object path while a client lock is
held. -/
theorem channel_aborted_deferred (w : World) (c : Nat) (p : String)
    (hmem : c ∈ w.priv.channels) (hp : channel_path w c = some p)
    (hm : mcd_dispatch_operation_may_finish w.priv = false) :
    (mcd_dispatch_operation_channel_aborted_cb w c).log = w.log ∧
      (mcd_dispatch_operation_channel_aborted_cb w c).priv.lost_channels =
        c :: w.priv.lost_channels ∧
      (mcd_dispatch_operation_channel_aborted_cb w c).priv.channels =
        w.priv.channels.erase c ∧
      (mcd_dispatch_operation_channel_aborted_cb w c).crashed = w.crashed := by
  unfold mcd_dispatch_operation_channel_aborted_cb
  dsimp only
  split
  · exact lose_channel_deferred w c p hmem hp hm
  · split
    · exact lose_channel_deferred
        { w with priv := { w.priv with cancelled := true } } c p hmem hp hm
    · exact lose_channel_deferred w c p hmem hp hm

/-- C16, the counterexample: while the lock of the observer is held, the
first channel loses its `TpChannel`, and with it its object path, and then
aborts; it is removed from `channels` without being pushed onto
`lost_channels`, and no `ChannelLost` is emitted for it, neither then nor when
the observer has replied. -/
theorem channel_without_path_not_deferred :
    (run (fun _ => true) example_world_observer
      [Event.run_clients]).priv.observers_pending = 1 ∧
    1 ∈ (run (fun _ => true) example_world_observer
      [Event.run_clients]).priv.channels ∧
    (run (fun _ => true) example_world_observer
      [Event.run_clients, Event.channel_changed 1 (example_chan_lost 1),
        Event.channel_aborted 1]).priv.channels = [2] ∧
    (run (fun _ => true) example_world_observer
      [Event.run_clients, Event.channel_changed 1 (example_chan_lost 1),
        Event.channel_aborted 1]).priv.lost_channels = [] ∧
    (run (fun _ => true) example_world_observer
      [Event.run_clients, Event.channel_changed 1 (example_chan_lost 1),
        Event.channel_aborted 1,
        Event.observe_channels_reply false]).crashed = false ∧
    lost_signals (run (fun _ => true) example_world_observer
      [Event.run_clients, Event.channel_changed 1 (example_chan_lost 1),
        Event.channel_aborted 1,
        Event.observe_channels_reply false]).log = [] := by
  decide

/-- C16, as the code has it.  The `ChannelLost` signals that have been
emitted, followed by those that are deferred, carry the object paths of the
channels that have aborted, in the order of the aborts; a channel without
object path gets no signal.  A channel with an object path that aborts while a
client lock is held gets no `ChannelLost` at that moment and is pushed onto
`lost_channels`.  And when a decrement releases the last client lock, what it
sends starts with the deferred `ChannelLost` signals, oldest abort first, and
no `ChannelLost` follows them, so that they come before any `Finished` of
that decrement; `lost_channels` is empty afterwards. -/
theorem channel_lost_in_order (valid_bus_name : String → Bool) :
    (∀ (w : World) (es : List Event), lost_ready w →
      paths_kept valid_bus_name w es →
      (run valid_bus_name w es).crashed = false →
      lost_signals (run valid_bus_name w es).log ++
          deferred (run valid_bus_name w es) =
        lost_signals w.log ++ deferred w ++
          (aborted valid_bus_name w es).filterMap (channel_path w)) ∧
    (∀ (w : World) (c : Nat) (p : String), w.crashed = false →
      c ∈ w.priv.channels → channel_path w c = some p →
      mcd_dispatch_operation_may_finish w.priv = false →
      sent w (step valid_bus_name w (Event.channel_aborted c)) = [] ∧
      (step valid_bus_name w (Event.channel_aborted c)).priv.lost_channels =
        c :: w.priv.lost_channels) ∧
    (∀ w : World,
      (w.priv.observers_pending = 1 ∧ w.priv.ado_pending = 0 →
        (_mcd_dispatch_operation_dec_observers_pending w).crashed = false →
        ∃ l1 l2,
          sent w (_mcd_dispatch_operation_dec_observers_pending w) = l1 ++ l2 ∧
          (∀ e ∈ l1, e.is_channel_lost = true) ∧
          lost_signals l1 = deferred w ∧
          (∀ e ∈ l2, e.is_channel_lost = false) ∧
          (_mcd_dispatch_operation_dec_observers_pending w).priv.lost_channels =
            []) ∧
      (w.priv.ado_pending = 1 ∧ w.priv.observers_pending = 0 →
        (_mcd_dispatch_operation_dec_ado_pending w).crashed = false →
        ∃ l1 l2,
          sent w (_mcd_dispatch_operation_dec_ado_pending w) = l1 ++ l2 ∧
          (∀ e ∈ l1, e.is_channel_lost = true) ∧
          lost_signals l1 = deferred w ∧
          (∀ e ∈ l2, e.is_channel_lost = false) ∧
          (_mcd_dispatch_operation_dec_ado_pending w).priv.lost_channels =
            [])) := by
  refine ⟨fun w es hr hk hc => ?_, fun w c p hc hmem hp hm => ?_, fun w => ⟨?_, ?_⟩⟩
  · exact (lost_run valid_bus_name es w hk).view hc hr
  · have hstep : step valid_bus_name w (Event.channel_aborted c) =
        mcd_dispatch_operation_channel_aborted_cb w c := by
      simp [step, hc]
    obtain ⟨d1, d2, _, _⟩ := channel_aborted_deferred w c p hmem hp hm
    rw [hstep]
    exact ⟨sent_of_log_eq d1, d2⟩
  · intro h hc
    obtain ⟨l1, l2, d1, d2, d3, d4, d5⟩ :=
      dec_observers_pending_drains w h.1 h.2 hc
    refine ⟨l1, l2, sent_of_log (by rw [d1, List.append_assoc]), d2, d3, ?_, d5⟩
    intro e he
    simpa [no_channel_lost] using d4 e he
  · intro h hc
    obtain ⟨l1, l2, d1, d2, d3, d4, d5⟩ := dec_ado_pending_drains w h.1 h.2 hc
    refine ⟨l1, l2, sent_of_log (by rw [d1, List.append_assoc]), d2, d3, ?_, d5⟩
    intro e he
    simpa [no_channel_lost] using d4 e he

theorem channel_lost_in_order_witness :
    lost_signals (run (fun _ => true) example_world_observer
        [Event.run_clients, Event.channel_changed 1 example_chan_closed,
          Event.channel_aborted 1, Event.channel_changed 2 example_chan_closed2,
          Event.channel_aborted 2, Event.observe_channels_reply false]).log ++
      deferred (run (fun _ => true) example_world_observer
        [Event.run_clients, Event.channel_changed 1 example_chan_closed,
          Event.channel_aborted 1, Event.channel_changed 2 example_chan_closed2,
          Event.channel_aborted 2, Event.observe_channels_reply false]) =
    lost_signals example_world_observer.log ++ deferred example_world_observer ++
      (aborted (fun _ => true) example_world_observer
        [Event.run_clients, Event.channel_changed 1 example_chan_closed,
          Event.channel_aborted 1, Event.channel_changed 2 example_chan_closed2,
          Event.channel_aborted 2,
          Event.observe_channels_reply false]).filterMap
        (channel_path example_world_observer) :=
  (channel_lost_in_order (fun _ => true)).1 example_world_observer
    [Event.run_clients, Event.channel_changed 1 example_chan_closed,
      Event.channel_aborted 1, Event.channel_changed 2 example_chan_closed2,
      Event.channel_aborted 2, Event.observe_channels_reply false]
    (fun _ => rfl) ⟨trivial, rfl, trivial, rfl, trivial, trivial, trivial⟩
    (by decide)

/-! ## Every lost channel is accounted for -/

/-- C17, the counterexample: the two channels are distinct and have object
paths; the first aborts while the lock of the observer is held.  In the state
that follows it is no longer in `channels`, and no `ChannelLost` has been
emitted for it: it waits in `lost_channels`. -/
theorem lost_channel_awaits_signal :
    (example_world_observer.priv.channels.filterMap
      (channel_path example_world_observer)) = ["/ch1", "/ch2"] ∧
    (run (fun _ => true) example_world_observer
      [Event.run_clients, Event.channel_changed 1 example_chan_closed,
        Event.channel_aborted 1]).crashed = false ∧
    1 ∉ (run (fun _ => true) example_world_observer
      [Event.run_clients, Event.channel_changed 1 example_chan_closed,
        Event.channel_aborted 1]).priv.channels ∧
    lost_signals (run (fun _ => true) example_world_observer
      [Event.run_clients, Event.channel_changed 1 example_chan_closed,
        Event.channel_aborted 1]).log = [] ∧
    (run (fun _ => true) example_world_observer
      [Event.run_clients, Event.channel_changed 1 example_chan_closed,
        Event.channel_aborted 1]).priv.lost_channels = [1] := by
  decide

/-- C17, as the code has it: from a state in which no `ChannelLost` has been
emitted or deferred, and as long as the channel objects keep their
`TpChannel` and the process is running, the object paths of the
`ChannelLost` signals emitted so far, of the channels that wait in
`lost_channels` and of the channels still in `channels` are, together, the
object paths of the channels that were in `channels` at first.  So when these
paths are pairwise distinct, no path is the subject of two `ChannelLost`
signals, and every channel that was in `channels` and has an object path is
in exactly one of three conditions: still in `channels`, waiting in
`lost_channels`, or the subject of exactly one `ChannelLost` signal. -/
theorem channels_accounted_for (valid_bus_name : String → Bool) (w : World)
    (es : List Event) (hlog : lost_signals w.log = [])
    (hlost : w.priv.lost_channels = [])
    (hk : paths_kept valid_bus_name w es)
    (hc : (run valid_bus_name w es).crashed = false) :
    (lost_signals (run valid_bus_name w es).log ++
        deferred (run valid_bus_name w es) ++
        (run valid_bus_name w es).priv.channels.filterMap (channel_path w)).Perm
      (w.priv.channels.filterMap (channel_path w)) ∧
    ((w.priv.channels.filterMap (channel_path w)).Nodup →
      (lost_signals (run valid_bus_name w es).log).Nodup ∧
      ∀ c ∈ w.priv.channels, ∀ p, channel_path w c = some p →
        (lost_signals (run valid_bus_name w es).log).count p +
          (deferred (run valid_bus_name w es)).count p +
          ((run valid_bus_name w es).priv.channels.filterMap
            (channel_path w)).count p = 1) := by
  have hl := lost_run valid_bus_name es w hk
  have hv := hl.view hc (fun _ => hlost)
  have hw : lost_view w = [] := by
    simp [lost_view, deferred, hlog, hlost]
  rw [hw, List.nil_append] at hv
  have hp := (aborted_perm valid_bus_name es w hk).filterMap (channel_path w)
  rw [List.filterMap_append] at hp
  have hperm : (lost_signals (run valid_bus_name w es).log ++
      deferred (run valid_bus_name w es) ++
      (run valid_bus_name w es).priv.channels.filterMap (channel_path w)).Perm
      (w.priv.channels.filterMap (channel_path w)) := by
    have : lost_signals (run valid_bus_name w es).log ++
        deferred (run valid_bus_name w es) =
        (aborted valid_bus_name w es).filterMap (channel_path w) := hv
    rw [this]
    exact hp.symm
  refine ⟨hperm, fun hnd => ?_⟩
  have hnd2 := hperm.nodup_iff.2 hnd
  refine ⟨?_, fun c hc p hcp => ?_⟩
  · exact (List.nodup_append.1 (List.nodup_append.1 hnd2).1).1
  · have hmem : p ∈ w.priv.channels.filterMap (channel_path w) :=
      List.mem_filterMap.2 ⟨c, hc, hcp⟩
    have h1 := List.count_eq_one_of_mem hnd hmem
    rw [← hperm.count_eq, List.count_append, List.count_append] at h1
    exact h1

theorem channels_accounted_for_witness :
    (lost_signals (run (fun _ => true) example_world_observer
        [Event.run_clients, Event.channel_changed 1 example_chan_closed,
          Event.channel_aborted 1]).log).count "/ch1" +
      (deferred (run (fun _ => true) example_world_observer
        [Event.run_clients, Event.channel_changed 1 example_chan_closed,
          Event.channel_aborted 1])).count "/ch1" +
      ((run (fun _ => true) example_world_observer
        [Event.run_clients, Event.channel_changed 1 example_chan_closed,
          Event.channel_aborted 1]).priv.channels.filterMap
        (channel_path example_world_observer)).count "/ch1" = 1 :=
  ((channels_accounted_for (fun _ => true) example_world_observer
    [Event.run_clients, Event.channel_changed 1 example_chan_closed,
      Event.channel_aborted 1]
    rfl rfl ⟨trivial, rfl, trivial, trivial⟩ (by decide)).2 (by decide)).2
    1 (by decide) "/ch1" rfl

/-! ## Account storage plugins -/

/-- C21: for a storage plugin that implements `commit_one` but not `commit`,
`mcp_account_storage_commit` returns `FALSE` and calls no method of the
plugin, whatever `commit_one` would return, and so does
`mcp_account_storage_commit_one` for the account name `NULL`; neither
function ever calls `commit_one` with the account name `NULL`.  The
documentation of `mcp_account_storage_commit` promises that call. -/
theorem commit_never_calls_commit_one :
    (∀ commit_one : Option String → Bool,
      mcp_account_storage_commit
          (some { commit := none, commit_one := some commit_one }) =
        (false, []) ∧
      mcp_account_storage_commit_one
          (some { commit := none, commit_one := some commit_one }) none =
        (false, [])) ∧
    mcp_account_storage_commit (some example_storage_iface) = (false, []) ∧
    ∀ (iface : Option McpAccountStorageIface) (account : Option String),
      PluginCall.commit_one none ∉ (mcp_account_storage_commit iface).2 ∧
      PluginCall.commit_one none ∉
        (mcp_account_storage_commit_one iface account).2 := by
  refine ⟨fun _ => ⟨rfl, rfl⟩, rfl, ?_⟩
  have h1 : ∀ iface : Option McpAccountStorageIface,
      PluginCall.commit_one none ∉ (mcp_account_storage_commit iface).2 := by
    intro iface
    unfold mcp_account_storage_commit
    split
    · simp
    · split <;> simp
  intro iface account
  refine ⟨h1 iface, ?_⟩
  unfold mcp_account_storage_commit_one
  split
  · simp
  · split
    · simp
    · exact h1 _

/-! ## Filter chains -/

theorem chain_add_filter_elem_spec (filter priority : Nat) :
    ∀ (chain : List McdFilter) (i : Nat),
      g_list_insert_before chain
          ((chain_add_filter_elem priority chain i).map (fun k => k - i))
          { func := filter, priority := priority } =
        chain.takeWhile (fun f => decide (f.priority < priority)) ++
          { func := filter, priority := priority } ::
            chain.dropWhile (fun f => decide (f.priority < priority)) ∧
      ∀ k, chain_add_filter_elem priority chain i = some k → i ≤ k := by
  intro chain
  induction chain with
  | nil => intro i; simp [chain_add_filter_elem, g_list_insert_before]
  | cons f next ih =>
    intro i
    unfold chain_add_filter_elem
    by_cases h : f.priority ≥ priority
    · have h2 : ¬ f.priority < priority := Nat.not_lt.mpr h
      simp [h, h2, g_list_insert_before]
    · have h2 : f.priority < priority := Nat.lt_of_not_ge h
      obtain ⟨ih1, ih2⟩ := ih (i + 1)
      simp only [h, if_false]
      refine ⟨?_, fun k hk => Nat.le_of_succ_le (ih2 k hk)⟩
      cases hr : chain_add_filter_elem priority next (i + 1) with
      | none =>
        rw [hr] at ih1
        simp only [Option.map_none', g_list_insert_before] at ih1 ⊢
        simp [h2, ← ih1]
      | some k =>
        rw [hr] at ih1
        have hk := ih2 k hr
        simp only [Option.map_some', g_list_insert_before] at ih1 ⊢
        have : k - i = (k - (i + 1)) + 1 := by omega
        rw [this]
        simp [h2, ← ih1]

theorem chain_add_filter_eq (chain : List McdFilter) (filter priority : Nat) :
    chain_add_filter chain filter priority =
      chain.takeWhile (fun f => decide (f.priority < priority)) ++
        { func := filter, priority := priority } ::
          chain.dropWhile (fun f => decide (f.priority < priority)) := by
  have h := (chain_add_filter_elem_spec filter priority chain 0).1
  unfold chain_add_filter
  dsimp only
  rw [← h]
  congr 1
  cases chain_add_filter_elem priority chain 0 <;> simp

/-- C29: `chain_add_filter` keeps a chain sorted by priority.  The chain is
split where the loop stops: every filter of the first part has a priority
below the new one, the second part is empty or starts with a filter whose
priority is at least the new one, and the new filter goes between the two
parts; so the result has one element more and holds the old filters in their
old order.  For a sorted chain the result is sorted. -/
theorem chain_add_filter_sorted (chain : List McdFilter) (filter priority : Nat)
    (h : chain_sorted chain) :
    chain_sorted (chain_add_filter chain filter priority) ∧
      (chain_add_filter chain filter priority).length = chain.length + 1 ∧
      ∃ before after : List McdFilter,
        chain = before ++ after ∧
        chain_add_filter chain filter priority =
          before ++ { func := filter, priority := priority } :: after ∧
        (∀ f ∈ before, f.priority < priority) ∧
        (∀ f, after.head? = some f → priority ≤ f.priority) := by
  have he := chain_add_filter_eq chain filter priority
  have hsplit : chain =
      chain.takeWhile (fun f => decide (f.priority < priority)) ++
        chain.dropWhile (fun f => decide (f.priority < priority)) :=
    (List.takeWhile_append_dropWhile _ chain).symm
  have h1 : ∀ f ∈ chain.takeWhile (fun f => decide (f.priority < priority)),
      f.priority < priority := by
    intro f hf
    simpa using List.mem_takeWhile_imp hf
  have h2 : ∀ f,
      (chain.dropWhile (fun f => decide (f.priority < priority))).head? = some f →
        priority ≤ f.priority := by
    intro f hf
    have := List.head?_dropWhile_not (fun f : McdFilter => decide (f.priority < priority)) chain
    rw [hf] at this
    simpa using this
  refine ⟨?_, ?_, _, _, hsplit, he, h1, h2⟩
  · rw [he]
    unfold chain_sorted at h ⊢
    rw [hsplit] at h
    rw [List.pairwise_append] at h ⊢
    obtain ⟨ha, hb, hab⟩ := h
    refine ⟨ha, ?_, ?_⟩
    · rw [List.pairwise_cons]
      refine ⟨?_, hb⟩
      intro b hb2
      cases hd : chain.dropWhile (fun f => decide (f.priority < priority)) with
      | nil => rw [hd] at hb2; cases hb2
      | cons x rest =>
        rw [hd] at hb2 hb
        have hx : priority ≤ x.priority := h2 x (by rw [hd]; rfl)
        rcases List.mem_cons.1 hb2 with rfl | hm
        · exact hx
        · exact Nat.le_trans hx ((List.pairwise_cons.1 hb).1 b hm)
    · intro a ha2 b hb2
      rcases List.mem_cons.1 hb2 with rfl | hm
      · exact Nat.le_of_lt (h1 a ha2)
      · exact hab a ha2 b hm
  · rw [he]
    conv_rhs => rw [hsplit]
    simp only [List.length_append, List.length_cons]
    omega

theorem chain_add_filter_sorted_witness :
    chain_sorted example_chain ∧
      chain_add_filter example_chain 5 20 =
        [{ func := 1, priority := 10 }, { func := 5, priority := 20 },
         { func := 2, priority := 20 }, { func := 3, priority := 20 },
         { func := 4, priority := 30 }] ∧
      chain_sorted (chain_add_filter example_chain 5 20) :=
  ⟨by unfold chain_sorted example_chain; decide, by decide,
    (chain_add_filter_sorted example_chain 5 20
      (by unfold chain_sorted example_chain; decide)).1⟩

/-! ## The satisfied requests of the observed channels -/

theorem insert_requests_facts (reqs : List String) :
    ∀ set : List String, set.Nodup →
      (reqs.foldl (fun set0 r => if r ∈ set0 then set0 else set0 ++ [r])
        set).Nodup ∧
      ∀ path,
        path ∈ reqs.foldl (fun set0 r => if r ∈ set0 then set0 else set0 ++ [r])
          set ↔ path ∈ set ∨ path ∈ reqs := by
  induction reqs with
  | nil => intro set h; simpa using h
  | cons r reqs ih =>
    intro set h
    rw [List.foldl_cons]
    by_cases hr : r ∈ set
    · rw [if_pos hr]
      obtain ⟨h1, h2⟩ := ih set h
      refine ⟨h1, fun path => ?_⟩
      rw [h2 path, List.mem_cons]
      constructor
      · rintro (a | a)
        · exact Or.inl a
        · exact Or.inr (Or.inr a)
      · rintro (a | a | a)
        · exact Or.inl a
        · exact Or.inl (a ▸ hr)
        · exact Or.inr a
    · rw [if_neg hr]
      have hn : (set ++ [r]).Nodup := by
        rw [List.nodup_append]
        refine ⟨h, List.nodup_singleton r, ?_⟩
        intro a ha hb
        rw [List.mem_singleton] at hb
        exact hr (hb ▸ ha)
      obtain ⟨h1, h2⟩ := ih (set ++ [r]) hn
      refine ⟨h1, fun path => ?_⟩
      rw [h2 path, List.mem_append, List.mem_singleton, List.mem_cons]
      tauto

theorem collect_requests_facts (chan : Nat → McdChannel) (channels : List Nat) :
    ∀ set : List String, set.Nodup →
      (channels.foldl
        (fun set c =>
          (_mcd_channel_get_satisfied_requests (chan c)).foldl
            (fun set0 r => if r ∈ set0 then set0 else set0 ++ [r]) set)
        set).Nodup ∧
      ∀ path,
        path ∈ channels.foldl
          (fun set c =>
            (_mcd_channel_get_satisfied_requests (chan c)).foldl
              (fun set0 r => if r ∈ set0 then set0 else set0 ++ [r]) set)
          set ↔
        path ∈ set ∨
          ∃ c ∈ channels, path ∈ _mcd_channel_get_satisfied_requests (chan c) := by
  induction channels with
  | nil => intro set h; simpa using h
  | cons c channels ih =>
    intro set h
    rw [List.foldl_cons]
    obtain ⟨a1, a2⟩ :=
      insert_requests_facts (_mcd_channel_get_satisfied_requests (chan c)) set h
    obtain ⟨b1, b2⟩ := ih _ a1
    refine ⟨b1, fun path => ?_⟩
    rw [b2 path, a2 path]
    constructor
    · rintro ((a | a) | ⟨x, hx, a⟩)
      · exact Or.inl a
      · exact Or.inr ⟨c, List.mem_cons_self c channels, a⟩
      · exact Or.inr ⟨x, List.mem_cons_of_mem c hx, a⟩
    · rintro (a | ⟨x, hx, a⟩)
      · exact Or.inl (Or.inl a)
      · rcases List.mem_cons.1 hx with rfl | hx
        · exact Or.inl (Or.inr a)
        · exact Or.inr ⟨x, hx, a⟩

/-- C24: for every list of channels, the array that
`collect_satisfied_requests` returns has no two equal entries, and a path is
in it if and only if it is a satisfied request of one of the channels; so
each satisfied request of each channel is in it exactly once. -/
theorem collect_satisfied_requests_union (chan : Nat → McdChannel)
    (channels : List Nat) :
    (collect_satisfied_requests chan channels).Nodup ∧
      (∀ path,
        path ∈ collect_satisfied_requests chan channels ↔
          ∃ c ∈ channels, path ∈ _mcd_channel_get_satisfied_requests (chan c)) ∧
      ∀ c ∈ channels, ∀ path ∈ _mcd_channel_get_satisfied_requests (chan c),
        (collect_satisfied_requests chan channels).count path = 1 := by
  obtain ⟨h1, h2⟩ := collect_requests_facts chan channels [] List.nodup_nil
  have h3 : ∀ path,
      path ∈ collect_satisfied_requests chan channels ↔
        ∃ c ∈ channels, path ∈ _mcd_channel_get_satisfied_requests (chan c) := by
    intro path
    unfold collect_satisfied_requests
    rw [h2 path]
    simp
  refine ⟨h1, h3, fun c hc path hp => ?_⟩
  exact List.count_eq_one_of_mem h1 ((h3 path).2 ⟨c, hc, hp⟩)

/-! ## What the observers are told -/

theorem run_observers_observed_eq (chan : Nat → McdChannel)
    (client : McdClientProxy) :
    ∀ (cl observed : List Nat),
      (∀ c ∈ cl, (_mcd_channel_get_immutable_properties (chan c)).isSome) →
      run_observers_observed chan client cl observed =
        some (observed_channels chan client cl ++ observed) := by
  intro cl
  induction cl with
  | nil => intro observed _; simp [run_observers_observed, observed_channels]
  | cons channel cl ih =>
    intro observed h
    have hc := h channel (List.mem_cons_self channel cl)
    have hcl : ∀ c ∈ cl,
        (_mcd_channel_get_immutable_properties (chan c)).isSome :=
      fun c hx => h c (List.mem_cons_of_mem channel hx)
    unfold run_observers_observed
    cases hp : _mcd_channel_get_immutable_properties (chan channel) with
    | none => rw [hp] at hc; cases hc
    | some properties =>
      dsimp only
      by_cases hm :
          _mcd_client_match_filters properties client.observer_filters = true
      · rw [if_pos hm, ih _ hcl]
        simp [observed_channels, List.filter_cons, hp, hm]
      · rw [if_neg hm, ih _ hcl]
        simp [observed_channels, List.filter_cons, hp, hm]

theorem observe_channels_call_congr (w1 w2 : World) (client : McdClientProxy)
    (n : Nat) (hp : w2.priv = { w1.priv with observers_pending := n })
    (hc : w2.chan = w1.chan) :
    observe_channels_call w2 client = observe_channels_call w1 client := by
  unfold observe_channels_call _mcd_dispatch_operation_get_account_path
    _mcd_dispatch_operation_get_connection_path
    _mcd_dispatch_operation_needs_approval _mcd_dispatch_operation_get_path
  rw [hp, hc]

theorem run_observers_client_call (w : World) (client : McdClientProxy)
    (hw : w.crashed = false)
    (h : ∀ c ∈ w.priv.channels,
      (_mcd_channel_get_immutable_properties (w.chan c)).isSome) :
    (run_observers_client w client).crashed = false ∧
      (run_observers_client w client).chan = w.chan ∧
      (run_observers_client w client).client_registry = w.client_registry ∧
      (∃ n, (run_observers_client w client).priv =
        { w.priv with observers_pending := n }) ∧
      (run_observers_client w client).log =
        w.log ++ (observe_channels_call w client).toList := by
  have hid : ∃ n, w.priv = { w.priv with observers_pending := n } :=
    ⟨w.priv.observers_pending, rfl⟩
  have ho := run_observers_observed_eq w.chan client w.priv.channels [] h
  rw [List.append_nil] at ho
  unfold run_observers_client observe_channels_call
  rw [hw, ho]
  by_cases hobs : client.is_observer = true
  · cases hl : observed_channels w.chan client w.priv.channels with
    | nil => simp [hobs, hw, hid]
    | cons o observed =>
      simp only [hobs, Bool.false_eq_true, if_false, Bool.not_true, ne_eq,
        reduceCtorEq, not_false_eq_true, and_self, if_true, Option.toList]
      unfold _mcd_dispatch_operation_inc_observers_pending
      split
      · exact ⟨hw, rfl, rfl, hid, rfl⟩
      · exact ⟨hw, rfl, rfl, ⟨_, rfl⟩, rfl⟩
  · have hobs2 : client.is_observer = false := by
      cases hx : client.is_observer
      · rfl
      · exact absurd hx hobs
    simp [hobs2, hw, hid]

theorem run_observers_loop_calls (l : List McdClientProxy) :
    ∀ w : World, w.crashed = false →
      (∀ c ∈ w.priv.channels,
        (_mcd_channel_get_immutable_properties (w.chan c)).isSome) →
      (l.foldl run_observers_client w).crashed = false ∧
        (l.foldl run_observers_client w).log =
          w.log ++ l.filterMap (observe_channels_call w) := by
  induction l with
  | nil => intro w hw _; exact ⟨hw, by simp⟩
  | cons client l ih =>
    intro w hw h
    obtain ⟨a1, a2, _, ⟨n, a4⟩, a5⟩ := run_observers_client_call w client hw h
    have h2 : ∀ c ∈ (run_observers_client w client).priv.channels,
        (_mcd_channel_get_immutable_properties
          ((run_observers_client w client).chan c)).isSome := by
      rw [a4, a2]; exact h
    obtain ⟨b1, b2⟩ := ih (run_observers_client w client) a1 h2
    rw [List.foldl_cons]
    refine ⟨b1, ?_⟩
    rw [b2, a5, List.append_assoc]
    congr 1
    have hcongr : ∀ x, observe_channels_call (run_observers_client w client) x =
        observe_channels_call w x :=
      fun x => observe_channels_call_congr w _ x n a4 a2
    rw [List.filterMap_cons]
    rw [List.filterMap_congr (fun x _ => hcongr x)]
    cases observe_channels_call w client <;> rfl

/-- C30: when every channel of the operation has its immutable properties
(the function asserts it), `_mcd_dispatch_operation_run_observers` runs to
its end and sends, for the clients of the registry in turn, exactly the calls
of `observe_channels_call`: an observer gets one `ObserveChannels` call, with
the channels of `channels` that its filters match, in the reverse of their
order in `channels`; a client that is not an observer and an observer whose
filters match no channel get no call. -/
theorem run_observers_passes_matching_channels (w : World)
    (hw : w.crashed = false)
    (h : ∀ c ∈ w.priv.channels,
      (_mcd_channel_get_immutable_properties (w.chan c)).isSome) :
    (_mcd_dispatch_operation_run_observers w).crashed = false ∧
      (_mcd_dispatch_operation_run_observers w).log =
        w.log ++ w.client_registry.filterMap (observe_channels_call w) :=
  run_observers_loop_calls w.client_registry w hw h

theorem run_observers_passes_matching_channels_witness :
    example_world_targets.crashed = false ∧
      (∀ c ∈ example_world_targets.priv.channels,
        (_mcd_channel_get_immutable_properties
          (example_world_targets.chan c)).isSome) ∧
      (_mcd_dispatch_operation_run_observers example_world_targets).log =
        [Effect.observe_channels "org.freedesktop.Telepathy.Client.O1" "/" "/"
           [3, 2, 1] "/org/freedesktop/Telepathy/DispatchOperation/do0"
           ["/r1", "/r2"],
         Effect.observe_channels "org.freedesktop.Telepathy.Client.O2" "/" "/"
           [3, 1] "/org/freedesktop/Telepathy/DispatchOperation/do0"
           ["/r1", "/r2"]] :=
  ⟨rfl, by decide,
    ((run_observers_passes_matching_channels example_world_targets rfl
      (by decide)).2).trans (by decide)⟩

/-! ## The lock check -/

theorem channels_handled_step (valid_bus_name : String → Bool) (w : World)
    (e : Event) (h : w.priv.channels_handled = true) :
    (step valid_bus_name w e).priv.channels_handled = true := by
  cases he : e.is_handler_failure with
  | false => exact (quiet_step valid_bus_name w e he).channels_handled h
  | true =>
    cases e with
    | handle_channels_reply client error =>
      have : error = true := he
      subst this
      simp only [step]
      split
      · exact h
      · unfold _mcd_dispatch_operation_handle_channels_cb
        rw [if_pos rfl, priv_run_handlers]
        exact h
    | _ => cases he

theorem channels_handled_run (valid_bus_name : String → Bool)
    (es : List Event) :
    ∀ w : World, w.priv.channels_handled = true →
      (run valid_bus_name w es).priv.channels_handled = true := by
  induction es with
  | nil => intro w h; exact h
  | cons e es ih =>
    intro w h
    exact ih _ (channels_handled_step valid_bus_name w e h)

/-- C22: `_mcd_dispatch_operation_check_client_locks` enters handler
selection, with `channels_handled` set, if and only if the early clients
have been invoked, both client locks are zero, the operation is approved or
needs no approval, its channels are not handled and it does not only
observe; otherwise it changes nothing.  When it enters, `channels_handled`
is set on return, and it stays set in every state that any sequence of
events leads to, so that every later lock check changes nothing: handler
selection is entered by the lock check at most once. -/
theorem check_client_locks_enters_once (valid_bus_name : String → Bool)
    (w : World) (es : List Event) :
    (_mcd_dispatch_operation_check_client_locks w =
        if client_locks_released w then
          _mcd_dispatch_operation_run_handlers
            { w with priv := { w.priv with channels_handled := true } }
        else w) ∧
      (client_locks_released w →
        (_mcd_dispatch_operation_check_client_locks w).priv.channels_handled =
            true ∧
          (run valid_bus_name (_mcd_dispatch_operation_check_client_locks w)
            es).priv.channels_handled = true ∧
          ¬ client_locks_released
            (run valid_bus_name (_mcd_dispatch_operation_check_client_locks w)
              es) ∧
          _mcd_dispatch_operation_check_client_locks
              (run valid_bus_name (_mcd_dispatch_operation_check_client_locks w)
                es) =
            run valid_bus_name (_mcd_dispatch_operation_check_client_locks w)
              es) := by
  have h1 : _mcd_dispatch_operation_check_client_locks w =
      if client_locks_released w then
        _mcd_dispatch_operation_run_handlers
          { w with priv := { w.priv with channels_handled := true } }
      else w := by
    unfold _mcd_dispatch_operation_check_client_locks client_locks_released
      _mcd_dispatch_operation_is_approved
    by_cases a : w.priv.invoked_early_clients = true <;>
    by_cases b : w.priv.observers_pending = 0 <;>
    by_cases c : w.priv.ado_pending = 0 <;>
    by_cases d : w.priv.approved = true <;>
    by_cases e : w.priv.needs_approval = false <;>
    by_cases f : w.priv.channels_handled = false <;>
    by_cases g : w.priv.observe_only = false <;>
    simp [a, b, c, d, e, f, g]
  refine ⟨h1, fun hr => ?_⟩
  have h2 : (_mcd_dispatch_operation_check_client_locks w).priv.channels_handled =
      true := by
    rw [h1, if_pos hr, priv_run_handlers]
  have h3 := channels_handled_run valid_bus_name es _ h2
  refine ⟨h2, h3, ?_, check_client_locks_handled _ h3⟩
  intro hn
  rw [hn.2.2.2.2.1] at h3
  cases h3

theorem check_client_locks_enters_once_witness :
    client_locks_released example_world_released ∧
      (_mcd_dispatch_operation_check_client_locks example_world_released).log =
        [Effect.handle_channels "org.freedesktop.Telepathy.Client.H1" "/"
          [1, 2] 0] ∧
      _mcd_dispatch_operation_check_client_locks
          (run (fun _ => true)
            (_mcd_dispatch_operation_check_client_locks example_world_released)
            [Event.approve, Event.run_clients]) =
        run (fun _ => true)
          (_mcd_dispatch_operation_check_client_locks example_world_released)
          [Event.approve, Event.run_clients] :=
  ⟨by unfold client_locks_released; decide, by decide,
    ((check_client_locks_enters_once (fun _ => true) example_world_released
      [Event.approve, Event.run_clients]).2
        (by unfold client_locks_released; decide)).2.2.2⟩

/-! ## The assertion of the claimer branch -/

/-- C26 (the code at the failing inputs): the assertion
`g_assert (!channels_handled)` of the claimer branch fails in two reachable
states.  In the first, no approver is registered, so that the operation is
approved by default and its handler is called; a `Claim` that arrives before
the handler has replied is accepted, the finish step runs with the claimer
recorded and `channels_handled` set, and the process aborts.  In the second,
a `Claim` is accepted while an approver has not replied yet, both channels
close, and the reply of the approver releases the lock: the finish step finds
no channel left, sets `channels_handled`, and the assertion that follows
fails. -/
theorem claimer_assertion_fails :
    ((run (fun _ => true) example_world [Event.run_clients]).crashed = false ∧
      (run (fun _ => true) example_world
        [Event.run_clients]).priv.channels_handled = true ∧
      (run (fun _ => true) example_world
        [Event.run_clients]).priv.wants_to_finish = false ∧
      (run (fun _ => true) example_world
        [Event.run_clients, Event.claim ":1.7" 7]).priv.claimer = some ":1.7" ∧
      (run (fun _ => true) example_world
        [Event.run_clients, Event.claim ":1.7" 7]).crashed = true) ∧
    ((run (fun _ => true) example_world_approver
        [Event.run_clients, Event.claim ":1.7" 7,
          Event.channel_changed 1 example_chan_closed, Event.channel_aborted 1,
          Event.channel_changed 2 example_chan_closed2,
          Event.channel_aborted 2]).crashed = false ∧
      (run (fun _ => true) example_world_approver
        [Event.run_clients, Event.claim ":1.7" 7,
          Event.channel_changed 1 example_chan_closed, Event.channel_aborted 1,
          Event.channel_changed 2 example_chan_closed2,
          Event.channel_aborted 2]).priv.channels_handled = false ∧
      (run (fun _ => true) example_world_approver
        [Event.run_clients, Event.claim ":1.7" 7,
          Event.channel_changed 1 example_chan_closed, Event.channel_aborted 1,
          Event.channel_changed 2 example_chan_closed2,
          Event.channel_aborted 2]).priv.channels = [] ∧
      (run (fun _ => true) example_world_approver
        [Event.run_clients, Event.claim ":1.7" 7,
          Event.channel_changed 1 example_chan_closed, Event.channel_aborted 1,
          Event.channel_changed 2 example_chan_closed2,
          Event.channel_aborted 2,
          Event.add_dispatch_operation_reply false]).crashed = true) := by
  decide

/-! ## The client locks -/

theorem Held.held_refl (w : World) : Held w w :=
  ⟨rfl, rfl, rfl, Sends.sends_refl _ w⟩

theorem Held.held_trans {w1 w2 w3 : World} (h1 : Held w1 w2) (h2 : Held w2 w3) :
    Held w1 w3 :=
  ⟨h2.observers_pending.trans h1.observers_pending,
    h2.ado_pending.trans h1.ado_pending,
    h2.lost_channels.trans h1.lost_channels, h1.calm.sends_trans h2.calm⟩

theorem Held.held_foldl {β : Type} (f : World → β → World)
    (hf : ∀ w b, Held w (f w b)) (l : List β) (w : World) :
    Held w (l.foldl f w) := by
  induction l generalizing w with
  | nil => exact Held.held_refl w
  | cons b l ih => exact (hf w b).held_trans (ih (f w b))

theorem Held.held_of_kept {w1 w2 : World}
    (h1 : w2.priv.observers_pending = w1.priv.observers_pending)
    (h2 : w2.priv.ado_pending = w1.priv.ado_pending)
    (h3 : w2.priv.lost_channels = w1.priv.lost_channels)
    (h4 : w2.log = w1.log) : Held w1 w2 :=
  ⟨h1, h2, h3, Sends.sends_of_log h4⟩

theorem Held.held_emit (w : World) (e : Effect) (h : no_early_call e = true) :
    Held w (emit w e) :=
  ⟨rfl, rfl, rfl, Sends.sends_emit _ w e h⟩

theorem Held.ready {w1 w2 : World} (h : Held w1 w2) (hr : lost_ready w1) :
    lost_ready w2 := by
  unfold lost_ready mcd_dispatch_operation_may_finish at hr ⊢
  rw [h.observers_pending, h.ado_pending, h.lost_channels]
  exact hr

theorem Inner.inner_held {w1 w2 : World} (h : Inner w1 w2) : Held w1 w2 :=
  ⟨h.toFrame.observers_pending, h.toFrame.ado_pending, h.toFrame.lost_channels,
    h.sends.mono (fun e he => by
      cases e <;> simp_all [no_early_call, Effect.is_handle_channels,
        Effect.is_observe_channels, Effect.is_add_dispatch_operation])⟩

theorem Silent.silent_held {w1 w2 : World} (h : Silent w1 w2) : Held w1 w2 :=
  h.inner.inner_held

theorem held_nothing_left (w : World) :
    Held w (actually_finish_nothing_left w) := by
  unfold actually_finish_nothing_left
  split
  · exact Held.held_of_kept rfl rfl rfl rfl
  · exact Held.held_refl w

theorem held_claimer (w : World) : Held w (actually_finish_claimer w) := by
  unfold actually_finish_claimer
  split
  · exact Held.held_refl w
  · rename_i claimer _
    have hs := Held.held_foldl
      (fun w0 channel =>
        mcd_dispatch_operation_set_channel_handled_by w0 channel claimer)
      (fun w0 c => (silent_set_channel_handled_by w0 c claimer).silent_held)
      w.priv.channels w
    dsimp only
    refine hs.held_trans ?_
    split
    · exact Held.held_of_kept rfl rfl rfl rfl
    · exact Held.held_of_kept rfl rfl rfl rfl

theorem held_approval (w : World) : Held w (actually_finish_approval w) := by
  unfold actually_finish_approval
  split
  · refine Held.held_trans ?_ (inner_set_approved _).inner_held
    exact Held.held_of_kept rfl rfl rfl rfl
  · exact Held.held_refl w

theorem held_reply (w : World) : Held w (actually_finish_reply w) := by
  unfold actually_finish_reply
  split
  · exact Held.held_refl w
  · rename_i context _
    refine (Held.held_emit w (Effect.return_from_claim context) rfl).held_trans ?_
    exact Held.held_of_kept rfl rfl rfl rfl

theorem held_actually_finish (w : World) :
    Held w (mcd_dispatch_operation_actually_finish w) := by
  unfold mcd_dispatch_operation_actually_finish
  have h1 : Held w (actually_finish_claimer
      (actually_finish_nothing_left (emit w Effect.finished))) :=
    ((Held.held_emit w Effect.finished rfl).held_trans (held_nothing_left _)).held_trans
      (held_claimer _)
  dsimp only
  split
  · exact h1
  · exact (h1.held_trans (held_approval _)).held_trans (held_reply _)

theorem held_finish (w : World) : Held w (_mcd_dispatch_operation_finish w) := by
  unfold _mcd_dispatch_operation_finish
  split
  · exact Held.held_refl w
  · dsimp only
    have h1 : Held w { w with priv := { w.priv with wants_to_finish := true } } :=
      Held.held_of_kept rfl rfl rfl rfl
    split
    · exact h1.held_trans (held_actually_finish _)
    · exact h1

theorem held_emit_channel_lost (w : World) (channel : Nat) (path : String) :
    Held w (emit_channel_lost w channel path) := by
  unfold emit_channel_lost
  split
  · exact Held.held_of_kept rfl rfl rfl rfl
  · exact Held.held_emit w _ rfl

theorem held_check_finished_lost_channel (w : World) (channel : Nat) :
    Held w (check_finished_lost_channel w channel) := by
  unfold check_finished_lost_channel
  split
  · exact Held.held_refl w
  · split
    · exact Held.held_refl w
    · exact held_emit_channel_lost w channel _

/-- What `_mcd_dispatch_operation_check_finished` does to the client locks:
it leaves the two counters alone, calls no observer and no approver, and
leaves no deferred channel when no lock is held. -/
theorem check_finished_locks (w : World) :
    (_mcd_dispatch_operation_check_finished w).priv.observers_pending =
        w.priv.observers_pending ∧
      (_mcd_dispatch_operation_check_finished w).priv.ado_pending =
        w.priv.ado_pending ∧
      Sends no_early_call w (_mcd_dispatch_operation_check_finished w) ∧
      lost_ready (_mcd_dispatch_operation_check_finished w) := by
  unfold _mcd_dispatch_operation_check_finished
  split
  · rename_i hm
    have h1 : Held { w with priv := { w.priv with lost_channels := [] } }
        (check_finished_lost_channels w) :=
      Held.held_foldl _ held_check_finished_lost_channel _ _
    have hl : (check_finished_lost_channels w).priv.lost_channels = [] :=
      h1.lost_channels
    have hs : Sends no_early_call w (check_finished_lost_channels w) :=
      Sends.sends_trans (Sends.sends_of_log rfl) h1.calm
    dsimp only
    split
    · exact ⟨h1.observers_pending, h1.ado_pending, hs, fun _ => hl⟩
    · split
      · have h2 := held_actually_finish (check_finished_lost_channels w)
        exact ⟨h2.observers_pending.trans h1.observers_pending,
          h2.ado_pending.trans h1.ado_pending, hs.sends_trans h2.calm,
          fun _ => h2.lost_channels.trans hl⟩
      · exact ⟨h1.observers_pending, h1.ado_pending, hs, fun _ => hl⟩
  · rename_i hm
    exact ⟨rfl, rfl, Sends.sends_refl _ w, fun h => absurd h hm⟩

theorem ready_dec_observers_pending (w : World) (h : lost_ready w) :
    lost_ready (_mcd_dispatch_operation_dec_observers_pending w) := by
  unfold _mcd_dispatch_operation_dec_observers_pending
  split
  · dsimp only
    have h1 := (check_finished_locks { w with priv := { w.priv with
      observers_pending := w.priv.observers_pending - 1 } }).2.2.2
    split
    · exact h1
    · exact (inner_check_client_locks _).inner_held.ready h1
  · exact h

theorem ready_dec_ado_pending (w : World) (h : lost_ready w) :
    lost_ready (_mcd_dispatch_operation_dec_ado_pending w) := by
  unfold _mcd_dispatch_operation_dec_ado_pending
  split
  · dsimp only
    have h1 := (check_finished_locks { w with priv := { w.priv with
      ado_pending := w.priv.ado_pending - 1 } }).2.2.2
    split
    · exact h1
    · refine (inner_check_client_locks _).inner_held.ready ?_
      split
      · exact (Held.held_of_kept rfl rfl rfl rfl).ready h1
      · exact h1
  · exact h

theorem ready_lose_channel_signal (w : World) (channel : Nat)
    (h : lost_ready w) : lost_ready (lose_channel_signal w channel) := by
  unfold lose_channel_signal
  split
  · exact h
  · split
    · rename_i hm
      intro hm2
      rw [show mcd_dispatch_operation_may_finish
          ({ w with priv := { w.priv with
              lost_channels := channel :: w.priv.lost_channels } } : World).priv =
            mcd_dispatch_operation_may_finish w.priv from rfl] at hm2
      rw [hm2] at hm
      cases hm
    · exact (held_emit_channel_lost w channel _).ready h

theorem ready_lose_channel (w : World) (channel : Nat) (h : lost_ready w) :
    lost_ready (_mcd_dispatch_operation_lose_channel w channel) := by
  unfold _mcd_dispatch_operation_lose_channel
  split
  · dsimp only
    have h1 : lost_ready (lose_channel_signal
        { w with priv := { w.priv with
            channels := w.priv.channels.erase channel } } channel) :=
      ready_lose_channel_signal _ channel h
    split
    · exact h1
    · split
      · exact (held_finish _).ready h1
      · exact h1
  · exact h

theorem ready_channel_aborted_cb (w : World) (channel : Nat)
    (h : lost_ready w) :
    lost_ready (mcd_dispatch_operation_channel_aborted_cb w channel) := by
  unfold mcd_dispatch_operation_channel_aborted_cb
  refine ready_lose_channel _ channel ?_
  split
  · exact h
  · split
    · exact h
    · exact h

theorem held_handle_channels_cb (w : World) (client : McdClientProxy)
    (error : Bool) :
    Held w (_mcd_dispatch_operation_handle_channels_cb w client error) := by
  unfold _mcd_dispatch_operation_handle_channels_cb
  split
  · refine Held.held_trans ?_ (inner_run_handlers _).inner_held
    exact Held.held_of_kept rfl rfl rfl rfl
  · exact (Held.held_foldl _
      (fun w0 c => (silent_handle_channels_cb_channel client w0 c).silent_held) _ w).held_trans
      (held_finish _)

theorem held_handle_with (valid_bus_name : String → Bool) (w : World)
    (handler_name : Option String) (context : Nat) (now : Int) :
    Held w (dispatch_operation_handle_with valid_bus_name w handler_name context
      now) := by
  unfold dispatch_operation_handle_with
  split
  · exact Held.held_emit w _ rfl
  · dsimp only
    have h1 : ∀ w1 : World, Held w w1 →
        Held w
          (if (_mcd_dispatch_operation_finish w1).crashed = true then
            _mcd_dispatch_operation_finish w1
          else emit (_mcd_dispatch_operation_finish w1)
            (Effect.return_from_handle_with context)) := by
      intro w1 h
      split
      · exact h.held_trans (held_finish w1)
      · exact (h.held_trans (held_finish w1)).held_trans
          (Held.held_emit _ (Effect.return_from_handle_with context) rfl)
    apply h1
    split
    · exact Held.held_of_kept rfl rfl rfl rfl
    · split
      · exact Held.held_of_kept rfl rfl rfl rfl
      · exact Held.held_of_kept rfl rfl rfl rfl

theorem held_claim (w : World) (sender : String) (context : Nat) :
    Held w (dispatch_operation_claim w sender context) := by
  unfold dispatch_operation_claim
  split
  · exact Held.held_emit w _ rfl
  · split
    · exact Held.held_of_kept rfl rfl rfl rfl
    · refine Held.held_trans ?_ (held_finish _)
      exact Held.held_of_kept rfl rfl rfl rfl

theorem held_approve (valid_bus_name : String → Bool) (w : World) :
    Held w (_mcd_dispatch_operation_approve valid_bus_name w) := by
  unfold _mcd_dispatch_operation_approve
  split
  · split
    · exact Held.held_refl w
    · exact held_finish w
  · exact (inner_set_approved w).inner_held

theorem ready_inc_observers_pending (w : World) :
    lost_ready (_mcd_dispatch_operation_inc_observers_pending w) ∨
      _mcd_dispatch_operation_inc_observers_pending w = w := by
  unfold _mcd_dispatch_operation_inc_observers_pending
  split
  · exact Or.inr rfl
  · refine Or.inl (fun hm => ?_)
    simp [mcd_dispatch_operation_may_finish] at hm

theorem ready_run_observers_client (w : World) (client : McdClientProxy)
    (h : lost_ready w) : lost_ready (run_observers_client w client) := by
  unfold run_observers_client
  split
  · exact h
  · split
    · exact h
    · split
      · exact h
      · exact h
      · dsimp only
        refine (Held.held_of_kept rfl rfl rfl rfl :
          Held (_mcd_dispatch_operation_inc_observers_pending w) _).ready ?_
        rcases ready_inc_observers_pending w with h1 | h1
        · exact h1
        · rw [h1]; exact h

theorem ready_foldl {β : Type} (f : World → β → World)
    (hf : ∀ w b, lost_ready w → lost_ready (f w b)) (l : List β) :
    ∀ w : World, lost_ready w → lost_ready (l.foldl f w) := by
  induction l with
  | nil => intro w h; exact h
  | cons b l ih => intro w h; exact ih _ (hf w b h)

theorem ready_run_approvers_client (w : World) (client : McdClientProxy)
    (h : lost_ready w) : lost_ready (run_approvers_client w client) := by
  unfold run_approvers_client
  split
  · exact h
  · split
    · exact h
    · split
      · exact h
      · exact h
      · dsimp only
        refine (Held.held_of_kept rfl rfl rfl rfl :
          Held (_mcd_dispatch_operation_inc_ado_pending w) _).ready ?_
        unfold _mcd_dispatch_operation_inc_ado_pending
        split
        · exact h
        · intro hm
          simp [mcd_dispatch_operation_may_finish] at hm

theorem ready_run_approvers (w : World) (h : lost_ready w) :
    lost_ready (_mcd_dispatch_operation_run_approvers w) := by
  unfold _mcd_dispatch_operation_run_approvers
  dsimp only
  have h1 : lost_ready (_mcd_dispatch_operation_inc_ado_pending w) := by
    unfold _mcd_dispatch_operation_inc_ado_pending
    split
    · exact h
    · intro hm
      simp [mcd_dispatch_operation_may_finish] at hm
  have h2 := ready_foldl _ ready_run_approvers_client
    (_mcd_dispatch_operation_inc_ado_pending w).client_registry _ h1
  split
  · exact h2
  · exact ready_dec_ado_pending _ h2

theorem ready_run_clients (w : World) (h : lost_ready w) :
    lost_ready (_mcd_dispatch_operation_run_clients w) := by
  unfold _mcd_dispatch_operation_run_clients
  dsimp only
  have h1 : lost_ready (_mcd_dispatch_operation_run_observers w) :=
    ready_foldl _ ready_run_observers_client _ _ h
  have h2 : lost_ready
      (run_clients_approvers (_mcd_dispatch_operation_run_observers w)) := by
    unfold run_clients_approvers
    have hb : ∀ x : World, lost_ready x → lost_ready (run_clients_bypass x) := by
      intro x hx
      unfold run_clients_bypass
      split
      · exact (inner_set_approved x).inner_held.ready hx
      · exact hx
    split
    · dsimp only
      split
      · exact ready_run_approvers _ (hb _ h1)
      · exact hb _ h1
    · exact h1
  split
  · exact h1
  · split
    · exact h2
    · refine (inner_check_client_locks _).inner_held.ready ?_
      exact (Held.held_of_kept rfl rfl rfl rfl :
        Held (run_clients_approvers (_mcd_dispatch_operation_run_observers w))
          _).ready h2

theorem ready_step (valid_bus_name : String → Bool) (w : World) (e : Event)
    (h : lost_ready w) : lost_ready (step valid_bus_name w e) := by
  cases e <;> simp only [step] <;> split <;> try exact h
  · exact ready_run_clients w h
  · exact ready_dec_observers_pending w h
  · unfold add_dispatch_operation_cb
    refine ready_dec_ado_pending _ ?_
    dsimp only
    split
    · exact h
    · split
      · exact h
      · exact h
  · exact (held_handle_channels_cb w _ _).ready h
  · exact (held_handle_with valid_bus_name w _ _ _).ready h
  · exact (held_claim w _ _).ready h
  · exact (held_approve valid_bus_name w).ready h
  · exact ready_channel_aborted_cb w _ h

/-- C27: in every state that a sequence of events leads to, from a state
without deferred channels (a freshly constructed operation, in particular),
`lost_channels` is empty whenever `observers_pending` and `ado_pending` are
both zero. -/
theorem lost_channels_empty_when_unlocked (valid_bus_name : String → Bool)
    (w : World) (es : List Event) (h : w.priv.lost_channels = [])
    (ho : (run valid_bus_name w es).priv.observers_pending = 0)
    (ha : (run valid_bus_name w es).priv.ado_pending = 0) :
    (run valid_bus_name w es).priv.lost_channels = [] := by
  have hr : ∀ (es : List Event) (w : World), lost_ready w →
      lost_ready (run valid_bus_name w es) := by
    intro es
    induction es with
    | nil => intro w hw; exact hw
    | cons e es ih => intro w hw; exact ih _ (ready_step valid_bus_name w e hw)
  exact hr es w (fun _ => h)
    (by simp [mcd_dispatch_operation_may_finish, ho, ha])

theorem lost_channels_empty_when_unlocked_witness :
    example_world_approver.priv.lost_channels = [] ∧
      (run (fun _ => true) example_world_approver
        [Event.run_clients, Event.channel_changed 1 example_chan_closed,
          Event.channel_aborted 1]).priv.ado_pending = 1 ∧
      (run (fun _ => true) example_world_approver
        [Event.run_clients, Event.channel_changed 1 example_chan_closed,
          Event.channel_aborted 1]).priv.lost_channels = [1] ∧
      (run (fun _ => true) example_world_approver
        [Event.run_clients, Event.channel_changed 1 example_chan_closed,
          Event.channel_aborted 1,
          Event.add_dispatch_operation_reply true]).priv.ado_pending = 0 ∧
      (run (fun _ => true) example_world_approver
        [Event.run_clients, Event.channel_changed 1 example_chan_closed,
          Event.channel_aborted 1,
          Event.add_dispatch_operation_reply true]).priv.lost_channels = [] :=
  ⟨rfl, by decide, by decide, by decide,
    lost_channels_empty_when_unlocked (fun _ => true) example_world_approver
      [Event.run_clients, Event.channel_changed 1 example_chan_closed,
        Event.channel_aborted 1, Event.add_dispatch_operation_reply true]
      rfl (by decide) (by decide)⟩

/-! ## The retry loop of handler selection -/

theorem run_handlers_loop_mem (w : World) (l : List String)
    (h : McdClientProxy) (hl : run_handlers_loop w l = some h) :
    h.bus_name ∈ l ∧
      _mcd_client_registry_lookup w.client_registry h.bus_name = some h ∧
      h.bus_name ∉ w.priv.failed_handlers := by
  induction l with
  | nil => simp [run_handlers_loop] at hl
  | cons name iter ih =>
    unfold run_handlers_loop at hl
    split at hl
    · rename_i handler hlook
      split at hl
      · rename_i hf
        have he : handler = h := Option.some.inj hl
        subst he
        have hn := registry_lookup_bus_name hlook
        refine ⟨by rw [hn]; exact List.mem_cons_self _ _, by rw [hn]; exact hlook, ?_⟩
        rw [hn]
        simpa [_mcd_dispatch_operation_get_handler_failed] using hf
      · obtain ⟨a, b, c⟩ := ih hl
        exact ⟨List.mem_cons_of_mem _ a, b, c⟩
    · obtain ⟨a, b, c⟩ := ih hl
      exact ⟨List.mem_cons_of_mem _ a, b, c⟩

theorem run_handlers_possible_cases (w : World) :
    (∃ h : McdClientProxy,
      h.bus_name ∈ w.priv.possible_handlers.getD [] ∧
      _mcd_client_registry_lookup w.client_registry h.bus_name = some h ∧
      h.bus_name ∉ w.priv.failed_handlers ∧
      run_handlers_possible w = mcd_dispatch_operation_handle_channels w h) ∨
    run_handlers_possible w = run_handlers_give_up w := by
  unfold run_handlers_possible
  cases hl : run_handlers_loop w (w.priv.possible_handlers.getD []) with
  | none => exact Or.inr rfl
  | some h =>
    obtain ⟨a, b, c⟩ := run_handlers_loop_mem w _ h hl
    exact Or.inl ⟨h, a, b, c, rfl⟩

/-- Handler selection either calls a registered candidate that has not
failed, or gives up. -/
theorem run_handlers_cases (w : World) :
    (∃ h : McdClientProxy,
      h.bus_name ∈ handler_candidates w ∧
      _mcd_client_registry_lookup w.client_registry h.bus_name = some h ∧
      h.bus_name ∉ w.priv.failed_handlers ∧
      _mcd_dispatch_operation_run_handlers w =
        mcd_dispatch_operation_handle_channels w h) ∨
    _mcd_dispatch_operation_run_handlers w = run_handlers_give_up w := by
  have hp : (∃ h : McdClientProxy,
      h.bus_name ∈ handler_candidates w ∧
      _mcd_client_registry_lookup w.client_registry h.bus_name = some h ∧
      h.bus_name ∉ w.priv.failed_handlers ∧
      run_handlers_possible w = mcd_dispatch_operation_handle_channels w h) ∨
      run_handlers_possible w = run_handlers_give_up w := by
    rcases run_handlers_possible_cases w with ⟨h, a, b, c, d⟩ | h
    · exact Or.inl ⟨h, List.mem_append_right _ a, b, c, d⟩
    · exact Or.inr h
  unfold _mcd_dispatch_operation_run_handlers
  split
  · exact hp
  · rename_i chosen hh
    split
    · exact hp
    · rename_i hne
      dsimp only
      split
      · rename_i handler hlook
        split
        · rename_i hf
          have hn := registry_lookup_bus_name hlook
          refine Or.inl ⟨handler, ?_, by rw [hn]; exact hlook, ?_, rfl⟩
          · rw [hn]
            unfold handler_candidates
            rw [hh]
            simp [hne]
          · rw [hn]
            simpa [_mcd_dispatch_operation_get_handler_failed] using hf
        · exact hp
      · exact hp

theorem retry_loop_congr (fuel : Nat) (a b w : World) (h : a.log = b.log) :
    retry_loop fuel a w = retry_loop fuel b w := by
  cases fuel with
  | zero => rfl
  | succ fuel =>
    unfold retry_loop called_handler sent
    rw [h]

theorem filter_length_le {α : Type} (p q : α → Bool)
    (hpq : ∀ a, q a = true → p a = true) (l : List α) :
    (l.filter q).length ≤ (l.filter p).length := by
  induction l with
  | nil => exact Nat.le_refl _
  | cons a l ih =>
    rw [List.filter_cons, List.filter_cons]
    cases hq : q a with
    | false =>
      cases hp : p a with
      | false => simpa using ih
      | true => simp only [if_true, Bool.false_eq_true, if_false, List.length_cons]; omega
    | true =>
      rw [hpq a hq]
      simp only [if_true, List.length_cons]
      omega

theorem filter_length_lt {α : Type} (p q : α → Bool)
    (hpq : ∀ a, q a = true → p a = true) (x : α) (hp : p x = true)
    (hq : q x = false) :
    ∀ l : List α, x ∈ l → (l.filter q).length < (l.filter p).length := by
  intro l
  induction l with
  | nil => intro h; cases h
  | cons a l ih =>
    intro hx
    rw [List.filter_cons, List.filter_cons]
    rcases List.mem_cons.1 hx with h | h
    · subst h
      have := filter_length_le p q hpq l
      rw [hp, hq]
      simp only [if_true, Bool.false_eq_true, if_false, List.length_cons]
      omega
    · have := ih h
      cases hqa : q a with
      | false =>
        cases hpa : p a with
        | false => simpa using this
        | true =>
          simp only [if_true, Bool.false_eq_true, if_false, List.length_cons]
          omega
      | true =>
        rw [hpq a hqa]
        simp only [if_true, List.length_cons]
        omega

theorem retry_loop_give_up (w : World) (fuel : Nat) (hfuel : 0 < fuel)
    (hg : _mcd_dispatch_operation_run_handlers w = run_handlers_give_up w) :
    retry_loop fuel w (_mcd_dispatch_operation_run_handlers w) =
        some (run_handlers_give_up w) ∧
      (run_handlers_give_up w).log = w.log ∧
      ∀ c ∈ w.priv.channels,
        ((run_handlers_give_up w).chan c).undispatchable = true ∧
        ((run_handlers_give_up w).chan c).error =
          some { code := ErrorCode.MC_CHANNEL_REQUEST_GENERIC_ERROR,
                 message := "Handler no longer available" } := by
  have hlog := (silent_give_up w).log
  refine ⟨?_, hlog, ?_⟩
  · cases fuel with
    | zero => cases hfuel
    | succ fuel =>
      rw [hg]
      unfold retry_loop called_handler
      rw [sent_of_log_eq hlog]
  · intro c hc
    have h2 := (give_up_facts w.priv.channels w).2 c
    unfold run_handlers_give_up
    rw [h2, if_pos hc]
    exact ⟨rfl, rfl⟩

theorem retry_loop_call (w : World) (fuel : Nat) (h : McdClientProxy)
    (hl : _mcd_client_registry_lookup w.client_registry h.bus_name = some h)
    (hr : _mcd_dispatch_operation_run_handlers w =
      mcd_dispatch_operation_handle_channels w h) :
    retry_loop (fuel + 1) w (_mcd_dispatch_operation_run_handlers w) =
      retry_loop fuel
        (_mcd_dispatch_operation_set_handler_failed
          (mcd_dispatch_operation_handle_channels w h) h.bus_name)
        (_mcd_dispatch_operation_run_handlers
          (_mcd_dispatch_operation_set_handler_failed
            (mcd_dispatch_operation_handle_channels w h) h.bus_name)) := by
  have hlog := log_handle_channels w h
  have hreg : (mcd_dispatch_operation_handle_channels w h).client_registry =
      w.client_registry := by
    have := (inner_run_handlers w).registry
    rw [hr] at this
    exact this
  rw [hr]
  have hc : called_handler w (mcd_dispatch_operation_handle_channels w h) =
      some h := by
    unfold called_handler
    rw [sent_of_log hlog]
    simp only [handle_channels_call]
    rw [hreg, hl]
  conv_lhs => unfold retry_loop
  rw [hc]
  simp only
  unfold _mcd_dispatch_operation_handle_channels_cb
  rw [if_pos rfl]
  exact retry_loop_congr fuel _ _ _ rfl

/-- The retry loop, by induction on the number of candidates that have not
failed yet. -/
theorem retry_loop_facts (m : Nat) :
    ∀ (w : World) (fuel : Nat),
      ((handler_candidates w).dedup.filter
        (fun n => decide (n ∉ w.priv.failed_handlers))).length ≤ m →
      m < fuel →
      ∃ (w2 : World) (names : List String),
        retry_loop fuel w (_mcd_dispatch_operation_run_handlers w) = some w2 ∧
        names.Nodup ∧
        (∀ n ∈ names, n ∈ handler_candidates w ∧ n ∉ w.priv.failed_handlers) ∧
        w2.log = w.log ++ names.map (fun n =>
          Effect.handle_channels n (_mcd_dispatch_operation_get_account_path w)
            w.priv.channels w.priv.handle_with_time) ∧
        ∀ c ∈ w.priv.channels,
          (w2.chan c).undispatchable = true ∧
          (w2.chan c).error =
            some { code := ErrorCode.MC_CHANNEL_REQUEST_GENERIC_ERROR,
                   message := "Handler no longer available" } := by
  have hstep : ∀ (w : World) (h : McdClientProxy),
      h.bus_name ∈ handler_candidates w → h.bus_name ∉ w.priv.failed_handlers →
      handler_candidates (_mcd_dispatch_operation_set_handler_failed
          (mcd_dispatch_operation_handle_channels w h) h.bus_name) =
        handler_candidates w ∧
      ((handler_candidates w).dedup.filter
          (fun n => decide (n ∉ (_mcd_dispatch_operation_set_handler_failed
            (mcd_dispatch_operation_handle_channels w h)
            h.bus_name).priv.failed_handlers))).length <
        ((handler_candidates w).dedup.filter
          (fun n => decide (n ∉ w.priv.failed_handlers))).length := by
    intro w h hc hf
    have hp := priv_handle_channels w h
    refine ⟨?_, ?_⟩
    · unfold handler_candidates _mcd_dispatch_operation_set_handler_failed
      simp only [hp]
    · apply filter_length_lt
      · intro a ha
        simp only [_mcd_dispatch_operation_set_handler_failed, hp,
          List.mem_cons, not_or, decide_eq_true_eq] at ha ⊢
        exact ha.2
      · simpa using hf
      · simp [_mcd_dispatch_operation_set_handler_failed]
      · exact List.mem_dedup.2 hc
  induction m with
  | zero =>
    intro w fuel hm hfuel
    rcases run_handlers_cases w with ⟨h, hc, hl, hf, hr⟩ | hg
    · have := (hstep w h hc hf).2
      omega
    · obtain ⟨a, b, c⟩ := retry_loop_give_up w fuel hfuel hg
      exact ⟨_, [], a, List.nodup_nil, (fun n hn => by cases hn), (by simpa using b), c⟩
  | succ m ih =>
    intro w fuel hm hfuel
    rcases run_handlers_cases w with ⟨h, hc, hl, hf, hr⟩ | hg
    · obtain ⟨hcand, hlt⟩ := hstep w h hc hf
      cases fuel with
      | zero => cases hfuel
      | succ fuel =>
        have hp := priv_handle_channels w h
        obtain ⟨w2, names, a, b, c, d, e⟩ := ih
          (_mcd_dispatch_operation_set_handler_failed
            (mcd_dispatch_operation_handle_channels w h) h.bus_name) fuel
          (by rw [hcand]; omega) (by omega)
        refine ⟨w2, h.bus_name :: names, ?_, ?_, ?_, ?_, ?_⟩
        · rw [retry_loop_call w fuel h hl hr]; exact a
        · refine List.nodup_cons.2 ⟨fun hn => ?_, b⟩
          have := (c _ hn).2
          simp [_mcd_dispatch_operation_set_handler_failed] at this
        · intro n hn
          rcases List.mem_cons.1 hn with rfl | hn
          · exact ⟨hc, hf⟩
          · obtain ⟨c1, c2⟩ := c n hn
            rw [hcand] at c1
            refine ⟨c1, fun hx => c2 ?_⟩
            simp only [_mcd_dispatch_operation_set_handler_failed, hp]
            exact List.mem_cons_of_mem _ hx
        · rw [d]
          simp only [_mcd_dispatch_operation_set_handler_failed,
            _mcd_dispatch_operation_get_account_path, hp,
            log_handle_channels w h, handle_channels_call, List.map_cons,
            List.append_assoc, List.singleton_append]
        · intro x hx
          exact e x (by
            simp only [_mcd_dispatch_operation_set_handler_failed, hp]
            exact hx)
    · obtain ⟨a, b, c⟩ := retry_loop_give_up w fuel (by omega) hg
      exact ⟨_, [], a, List.nodup_nil, (fun n hn => by cases hn), (by simpa using b), c⟩

/-- C28: when every reply to `HandleChannels` is a failure, the retry loop
between `_mcd_dispatch_operation_run_handlers` and
`_mcd_dispatch_operation_handle_channels_cb` terminates, from any state in
which handler selection is entered: with more fuel than there are distinct
names among the chosen handler and `possible_handlers`, the loop reaches a
state in which every channel of `channels` has the error "Handler no longer
available" and is marked undispatchable.  On the way it has sent
`HandleChannels` calls and nothing else, to pairwise distinct names, each of
them a candidate that had not failed before; so there are at most as many
calls as distinct names. -/
theorem retry_loop_terminates (w : World) (fuel : Nat)
    (hfuel : (handler_candidates w).dedup.length < fuel) :
    ∃ (w2 : World) (names : List String),
      retry_loop fuel w (_mcd_dispatch_operation_run_handlers w) = some w2 ∧
      names.Nodup ∧
      (∀ n ∈ names, n ∈ handler_candidates w ∧ n ∉ w.priv.failed_handlers) ∧
      names.length ≤ (handler_candidates w).dedup.length ∧
      w2.log = w.log ++ names.map (fun n =>
        Effect.handle_channels n (_mcd_dispatch_operation_get_account_path w)
          w.priv.channels w.priv.handle_with_time) ∧
      ∀ c ∈ w.priv.channels,
        (w2.chan c).undispatchable = true ∧
        (w2.chan c).error =
          some { code := ErrorCode.MC_CHANNEL_REQUEST_GENERIC_ERROR,
                 message := "Handler no longer available" } := by
  obtain ⟨w2, names, a, b, c, d, e⟩ :=
    retry_loop_facts (handler_candidates w).dedup.length w fuel
      (List.length_filter_le _ _) hfuel
  refine ⟨w2, names, a, b, c, ?_, d, e⟩
  have hsub : names ⊆ (handler_candidates w).dedup :=
    fun n hn => List.mem_dedup.2 (c n hn).1
  exact (List.subperm_of_subset b hsub).length_le

theorem retry_loop_terminates_witness :
    (handler_candidates example_world_handlers).dedup.length < 3 ∧
      (∃ w2 : World,
        retry_loop 3 example_world_handlers
            (_mcd_dispatch_operation_run_handlers example_world_handlers) =
          some w2 ∧
        w2.log =
          [Effect.handle_channels "org.freedesktop.Telepathy.Client.H1" "/"
             [1, 2] 0,
           Effect.handle_channels "org.freedesktop.Telepathy.Client.H2" "/"
             [1, 2] 0] ∧
        (w2.chan 1).undispatchable = true) ∧
      ∃ (w2 : World) (names : List String),
        retry_loop 3 example_world_handlers
            (_mcd_dispatch_operation_run_handlers example_world_handlers) =
          some w2 ∧
        names.Nodup ∧
        ∀ c ∈ example_world_handlers.priv.channels,
          (w2.chan c).undispatchable = true :=
  ⟨by decide, ⟨_, rfl, by decide, by decide⟩,
    (retry_loop_terminates example_world_handlers 3 (by decide)).imp
      (fun _ h => h.imp (fun _ h2 =>
        ⟨h2.1, h2.2.1, fun c hc => (h2.2.2.2.2.2 c hc).1⟩))⟩

/-! ## The state machine of the dispatcher -/

theorem context_process_filter (priv : McdDispatcherPrivate) (context : Nat)
    (filter : McdFilter)
    (hf : (priv.context context).chain[(priv.context context).next_func_index]? =
      some filter)
    (hlen : (priv.context context).chain.length < 2 ^ 32) :
    mcd_dispatcher_context_process priv context true =
      { priv with
        context := Function.update priv.context context
          { (priv.context context) with
            next_func_index := (priv.context context).next_func_index + 1 },
        log := priv.log ++ [DispatcherEffect.filter_called filter.func context] } := by
  have hi : (priv.context context).next_func_index <
      (priv.context context).chain.length := by
    rcases Nat.lt_or_ge (priv.context context).next_func_index
      (priv.context context).chain.length with h | h
    · exact h
    · rw [List.getElem?_eq_none h] at hf; cases hf
  unfold mcd_dispatcher_context_process g_list_nth_data
  rw [if_pos rfl, hf]
  simp only [dispatcher_emit]
  rw [Nat.mod_eq_of_lt (by omega)]

theorem context_process_calls_filters (context : Nat) (k : Nat) :
    ∀ priv : McdDispatcherPrivate,
      (priv.context context).next_func_index + k ≤
        (priv.context context).chain.length →
      (priv.context context).chain.length < 2 ^ 32 →
      context_process_calls priv context (List.replicate k true) =
        { priv with
          context := Function.update priv.context context
            { (priv.context context) with
              next_func_index := (priv.context context).next_func_index + k },
          log := priv.log ++
            filter_calls
              (((priv.context context).chain.drop
                (priv.context context).next_func_index).take k) context } := by
  induction k with
  | zero =>
    intro priv _ _
    simp [context_process_calls, filter_calls]
  | succ k ih =>
    intro priv hk hlen
    have hi : (priv.context context).next_func_index <
        (priv.context context).chain.length := by omega
    obtain ⟨filter, hf⟩ : ∃ filter,
        (priv.context context).chain[(priv.context context).next_func_index]? =
          some filter :=
      ⟨_, List.getElem?_eq_getElem hi⟩
    have h1 := context_process_filter priv context filter hf hlen
    show context_process_calls
      (mcd_dispatcher_context_process priv context true) context
      (List.replicate k true) = _
    rw [h1, ih]
    · simp only [Function.update_same, Function.update_idem]
      have hd : List.take (k + 1)
          (List.drop (priv.context context).next_func_index
            (priv.context context).chain) =
          filter :: List.take k
            (List.drop ((priv.context context).next_func_index + 1)
              (priv.context context).chain) := by
        rw [List.drop_eq_getElem_cons hi, List.take_succ_cons]
        congr 1
        rw [List.getElem?_eq_getElem hi] at hf
        exact Option.some.inj hf
      rw [hd]
      simp only [filter_calls, List.map_cons, List.append_assoc,
        List.singleton_append, Nat.add_assoc, Nat.add_comm 1 k]
    · simp only [Function.update_same]; omega
    · simp only [Function.update_same]; exact hlen

theorem context_process_calls_append (priv : McdDispatcherPrivate)
    (context : Nat) (l : List Bool) (result : Bool) :
    context_process_calls priv context (l ++ [result]) =
      mcd_dispatcher_context_process (context_process_calls priv context l)
        context result := by
  simp [context_process_calls, List.foldl_append]

/-- C25: a context with the chain `chain` (shorter than `2^32`, the range of
`next_func_index`), at its start.  After `k` calls of
`mcd_dispatcher_context_process` with `TRUE`, `k` at most the length of the
chain, the first `k` filters of the chain have been called, in chain order and
nothing else has been done, `next_func_index` is `k`, and the state machine
list is as it was.  One more call with `TRUE` after all filters starts the
channel handler (for the empty chain this is the first call) and removes the
context from the state machine list.  A call with `FALSE` after `k` calls
with `TRUE` aborts the channel, which frees the context, starts no
handler, and the context is removed from the state machine list. -/
theorem context_process_walks_chain (priv : McdDispatcherPrivate)
    (context channel : Nat) (chain : List McdFilter) (k : Nat)
    (hctx : priv.context context =
      { channel := some channel, chain := chain, next_func_index := 0 })
    (hlen : chain.length < 2 ^ 32) (hk : k ≤ chain.length)
    (hnd : priv.state_machine_list.Nodup) :
    ((context_process_calls priv context (List.replicate k true)).log =
        priv.log ++ filter_calls (chain.take k) context ∧
      ((context_process_calls priv context
        (List.replicate k true)).context context).next_func_index = k ∧
      (context_process_calls priv context
        (List.replicate k true)).state_machine_list =
          priv.state_machine_list) ∧
    ((context_process_calls priv context
        (List.replicate chain.length true ++ [true])).log =
        priv.log ++ filter_calls chain context ++
          [start_effect priv (some channel)] ∧
      (context_process_calls priv context
        (List.replicate chain.length true ++ [true])).state_machine_list =
          priv.state_machine_list.erase context ∧
      context ∉ (context_process_calls priv context
        (List.replicate chain.length true ++ [true])).state_machine_list) ∧
    ((context_process_calls priv context
        (List.replicate k true ++ [false])).log =
        priv.log ++ filter_calls (chain.take k) context ++
          [DispatcherEffect.mission_abort channel,
            DispatcherEffect.context_free context] ∧
      (context_process_calls priv context
        (List.replicate k true ++ [false])).state_machine_list =
          priv.state_machine_list.erase context ∧
      context ∉ (context_process_calls priv context
        (List.replicate k true ++ [false])).state_machine_list) := by
  have hcalls : ∀ j, j ≤ chain.length →
      context_process_calls priv context (List.replicate j true) =
        { priv with
          context := Function.update priv.context context
            { channel := some channel, chain := chain, next_func_index := j },
          log := priv.log ++ filter_calls (chain.take j) context } := by
    intro j hj
    have h := context_process_calls_filters context j priv
      (by rw [hctx]; simpa using hj) (by rw [hctx]; exact hlen)
    rw [h, hctx]
    simp
  have hmem : context ∉ priv.state_machine_list.erase context :=
    fun h => ((List.Nodup.mem_erase_iff hnd).1 h).1 rfl
  refine ⟨?_, ?_, ?_⟩
  · rw [hcalls k hk]
    simp
  · rw [context_process_calls_append, hcalls chain.length (Nat.le_refl _)]
    have hp : mcd_dispatcher_context_process
        { priv with
          context := Function.update priv.context context
            { channel := some channel, chain := chain,
              next_func_index := chain.length },
          log := priv.log ++ filter_calls (chain.take chain.length) context }
        context true =
        { priv with
          context := Function.update priv.context context
            { channel := some channel, chain := chain,
              next_func_index := chain.length },
          log := priv.log ++ filter_calls chain context ++
            [start_effect priv (some channel)],
          state_machine_list := priv.state_machine_list.erase context } := by
      unfold mcd_dispatcher_context_process g_list_nth_data
        _mcd_dispatcher_start_channel_handler start_effect g_slist_remove
      simp only [Function.update_same, if_true, List.take_length]
      rw [List.getElem?_eq_none (Nat.le_refl _)]
      simp only [dispatcher_emit]
      cases priv.channel_handler_hash (some channel) <;> rfl
    rw [hp]
    exact ⟨rfl, rfl, hmem⟩
  · rw [context_process_calls_append, hcalls k hk]
    have hp : mcd_dispatcher_context_process
        { priv with
          context := Function.update priv.context context
            { channel := some channel, chain := chain, next_func_index := k },
          log := priv.log ++ filter_calls (chain.take k) context }
        context false =
        { priv with
          context := Function.update priv.context context
            { channel := some channel, chain := chain, next_func_index := k },
          log := priv.log ++ filter_calls (chain.take k) context ++
            [DispatcherEffect.mission_abort channel,
              DispatcherEffect.context_free context],
          state_machine_list :=
            (priv.state_machine_list.erase context).erase context } := by
      unfold mcd_dispatcher_context_process _mcd_dispatcher_drop_channel_handler
        mcd_mission_abort on_channel_abort_context
        _mcd_dispatcher_leave_state_machine mcd_dispatcher_context_free
        g_slist_remove
      simp [dispatcher_emit]
    rw [hp]
    refine ⟨rfl, ?_, ?_⟩
    · exact List.erase_of_not_mem hmem
    · show context ∉ (priv.state_machine_list.erase context).erase context
      rw [List.erase_of_not_mem hmem]
      exact hmem

theorem context_process_walks_chain_witness :
    example_dispatcher.context 7 =
        { channel := some 1, chain := example_chain, next_func_index := 0 } ∧
      (context_process_calls example_dispatcher 7 [true, true]).log =
        [DispatcherEffect.filter_called 1 7,
          DispatcherEffect.filter_called 2 7] ∧
      (context_process_calls example_dispatcher 7
        [true, true, true, true, true]).log =
        [DispatcherEffect.filter_called 1 7, DispatcherEffect.filter_called 2 7,
          DispatcherEffect.filter_called 3 7, DispatcherEffect.filter_called 4 7,
          DispatcherEffect.handle_channel "org.freedesktop.Telepathy.Client.H1"
            (some 1)] ∧
      (context_process_calls example_dispatcher 7
        [true, true, false]).state_machine_list = [8] ∧
      (context_process_calls example_dispatcher 7
        (List.replicate 2 true ++ [false])).log =
        example_dispatcher.log ++ filter_calls (example_chain.take 2) 7 ++
          [DispatcherEffect.mission_abort 1, DispatcherEffect.context_free 7] :=
  ⟨rfl, by decide, by decide, by decide,
    (context_process_walks_chain example_dispatcher 7 1 example_chain 2 rfl
      (by decide) (by decide) (by decide)).2.2.1⟩

/-- With an empty chain `_mcd_dispatcher_enter_state_machine` starts the
channel handler itself: the context is not put on the state machine list and
`mcd_dispatcher_context_process` is not called.  With a chain it puts the
context on the list and makes the first call. -/
theorem enter_state_machine_cases (priv : McdDispatcherPrivate)
    (channel : Nat) (chain : List McdFilter) (context : Nat) :
    (chain = [] →
      (_mcd_dispatcher_enter_state_machine priv channel chain context).log =
          priv.log ++ [start_effect priv (some channel)] ∧
        (_mcd_dispatcher_enter_state_machine priv channel chain
          context).state_machine_list = priv.state_machine_list) ∧
    (chain ≠ [] →
      _mcd_dispatcher_enter_state_machine priv channel chain context =
        mcd_dispatcher_context_process
          { priv with
            context := Function.update priv.context context
              { channel := some channel, chain := chain, next_func_index := 0 },
            state_machine_list := context :: priv.state_machine_list }
          context true) := by
  refine ⟨fun h => ?_, fun h => ?_⟩
  · subst h
    unfold _mcd_dispatcher_enter_state_machine
      _mcd_dispatcher_start_channel_handler start_effect
    simp only [ne_eq, not_true_eq_false, if_false, Function.update_same]
    cases priv.channel_handler_hash (some channel) <;> exact ⟨rfl, rfl⟩
  · unfold _mcd_dispatcher_enter_state_machine g_slist_prepend
    simp only [ne_eq, h, not_false_eq_true, if_true]

/-! ## Client locks and calls in flight -/

/-- C23 (the code at the failing input): a `Claim` is accepted before
`_mcd_dispatch_operation_run_clients` runs, so that `wants_to_finish` is set.
`_mcd_dispatch_operation_run_clients` then calls the observer and the
approver, and the two increments return early at
`g_return_if_fail (!wants_to_finish)`: one `ObserveChannels` call and one
`AddDispatchOperation` call are in flight while both counters are zero.
When the two replies arrive the decrements return early as well, at their
guard on a counter that is zero. -/
theorem calls_after_wants_to_finish_not_counted :
    ((run (fun _ => true) example_world_clients
        [Event.claim ":1.7" 7]).priv.wants_to_finish = true ∧
      (run (fun _ => true) example_world_clients
        [Event.claim ":1.7" 7, Event.run_clients]).crashed = false ∧
      (run (fun _ => true) example_world_clients
        [Event.claim ":1.7" 7, Event.run_clients]).log =
        [Effect.finished, Effect.return_from_claim 7,
          Effect.observe_channels "org.freedesktop.Telepathy.Client.O1" "/" "/"
            [2, 1] "/org/freedesktop/Telepathy/DispatchOperation/do0" [],
          Effect.add_dispatch_operation "org.freedesktop.Telepathy.Client.A1"
            [1, 2] "/org/freedesktop/Telepathy/DispatchOperation/do0"] ∧
      (run (fun _ => true) example_world_clients
        [Event.claim ":1.7" 7, Event.run_clients]).priv.observers_pending = 0 ∧
      (run (fun _ => true) example_world_clients
        [Event.claim ":1.7" 7, Event.run_clients]).priv.ado_pending = 0) ∧
    (observe_channels_calls
        (run (fun _ => true) example_world_clients
          [Event.claim ":1.7" 7, Event.run_clients]).log = 1 ∧
      add_dispatch_operation_calls
        (run (fun _ => true) example_world_clients
          [Event.claim ":1.7" 7, Event.run_clients]).log = 1) ∧
    (step (fun _ => true)
        (run (fun _ => true) example_world_clients
          [Event.claim ":1.7" 7, Event.run_clients])
        (Event.observe_channels_reply false) =
      run (fun _ => true) example_world_clients
        [Event.claim ":1.7" 7, Event.run_clients]) ∧
    (run (fun _ => true) example_world_clients
      [Event.claim ":1.7" 7, Event.run_clients,
        Event.add_dispatch_operation_reply true]).priv.ado_pending = 0 := by
  refine ⟨by decide, by decide, ?_, by decide⟩
  rfl

theorem calls_of_sends {w1 w2 : World} (h : Sends no_early_call w1 w2) :
    observe_channels_calls w2.log = observe_channels_calls w1.log ∧
      add_dispatch_operation_calls w2.log =
        add_dispatch_operation_calls w1.log := by
  obtain ⟨l, hl, hp⟩ := h
  have h1 : l.countP Effect.is_observe_channels = 0 := by
    rw [List.countP_eq_zero]
    intro e he
    have := hp e he
    simp only [no_early_call, Bool.and_eq_true, Bool.not_eq_true'] at this
    simp [this.1]
  have h2 : l.countP Effect.is_add_dispatch_operation = 0 := by
    rw [List.countP_eq_zero]
    intro e he
    have := hp e he
    simp only [no_early_call, Bool.and_eq_true, Bool.not_eq_true'] at this
    simp [this.2]
  unfold observe_channels_calls add_dispatch_operation_calls
  rw [hl, List.countP_append, List.countP_append, h1, h2]
  exact ⟨rfl, rfl⟩

theorem Counted.counted_refl (w : World) : Counted w w := ⟨rfl, rfl⟩

theorem Counted.counted_trans {w1 w2 w3 : World} (h1 : Counted w1 w2)
    (h2 : Counted w2 w3) : Counted w1 w3 := by
  obtain ⟨a1, a2⟩ := h1
  obtain ⟨b1, b2⟩ := h2
  exact ⟨by omega, by omega⟩

theorem Counted.of_idle {w1 w2 : World}
    (h1 : w2.priv.observers_pending = w1.priv.observers_pending)
    (h2 : w2.priv.ado_pending = w1.priv.ado_pending)
    (h3 : Sends no_early_call w1 w2) : Counted w1 w2 := by
  obtain ⟨c1, c2⟩ := calls_of_sends h3
  exact ⟨by rw [h1, c1], by rw [h2, c2]⟩

theorem Held.counted {w1 w2 : World} (h : Held w1 w2) : Counted w1 w2 :=
  Counted.of_idle h.observers_pending h.ado_pending h.calm

theorem dec_observers_pending_counts (w : World)
    (h : 0 < w.priv.observers_pending) :
    (_mcd_dispatch_operation_dec_observers_pending w).priv.observers_pending + 1 =
        w.priv.observers_pending ∧
      (_mcd_dispatch_operation_dec_observers_pending w).priv.ado_pending =
        w.priv.ado_pending ∧
      Sends no_early_call w (_mcd_dispatch_operation_dec_observers_pending w) := by
  unfold _mcd_dispatch_operation_dec_observers_pending
  rw [if_pos h]
  dsimp only
  obtain ⟨a1, a2, a3, _⟩ := check_finished_locks { w with priv := { w.priv with
    observers_pending := w.priv.observers_pending - 1 } }
  have a3b : Sends no_early_call w (_mcd_dispatch_operation_check_finished
      { w with priv := { w.priv with
        observers_pending := w.priv.observers_pending - 1 } }) :=
    Sends.sends_trans (Sends.sends_of_log rfl) a3
  have a1b : (_mcd_dispatch_operation_check_finished
      { w with priv := { w.priv with
        observers_pending := w.priv.observers_pending - 1 } }).priv.observers_pending
        + 1 = w.priv.observers_pending := by
    rw [a1]; show w.priv.observers_pending - 1 + 1 = _; omega
  split
  · exact ⟨a1b, a2, a3b⟩
  · have hh := (inner_check_client_locks (_mcd_dispatch_operation_check_finished
      { w with priv := { w.priv with
        observers_pending := w.priv.observers_pending - 1 } })).inner_held
    exact ⟨by rw [hh.observers_pending]; exact a1b, hh.ado_pending.trans a2,
      a3b.sends_trans hh.calm⟩

theorem dec_ado_pending_counts (w : World) (h : 0 < w.priv.ado_pending) :
    (_mcd_dispatch_operation_dec_ado_pending w).priv.ado_pending + 1 =
        w.priv.ado_pending ∧
      (_mcd_dispatch_operation_dec_ado_pending w).priv.observers_pending =
        w.priv.observers_pending ∧
      Sends no_early_call w (_mcd_dispatch_operation_dec_ado_pending w) := by
  unfold _mcd_dispatch_operation_dec_ado_pending
  rw [if_pos h]
  dsimp only
  obtain ⟨a1, a2, a3, _⟩ := check_finished_locks { w with priv := { w.priv with
    ado_pending := w.priv.ado_pending - 1 } }
  have a3b : Sends no_early_call w (_mcd_dispatch_operation_check_finished
      { w with priv := { w.priv with
        ado_pending := w.priv.ado_pending - 1 } }) :=
    Sends.sends_trans (Sends.sends_of_log rfl) a3
  have a2b : (_mcd_dispatch_operation_check_finished
      { w with priv := { w.priv with
        ado_pending := w.priv.ado_pending - 1 } }).priv.ado_pending
        + 1 = w.priv.ado_pending := by
    rw [a2]; show w.priv.ado_pending - 1 + 1 = _; omega
  split
  · exact ⟨a2b, a1, a3b⟩
  · have key : ∀ x : World, Held (_mcd_dispatch_operation_check_finished
        { w with priv := { w.priv with
          ado_pending := w.priv.ado_pending - 1 } }) x →
        x.priv.ado_pending + 1 = w.priv.ado_pending ∧
          x.priv.observers_pending = w.priv.observers_pending ∧
          Sends no_early_call w x := fun x hx =>
      ⟨by rw [hx.ado_pending]; exact a2b, hx.observers_pending.trans a1,
        a3b.sends_trans hx.calm⟩
    apply key
    refine Held.held_trans ?_ (inner_check_client_locks _).inner_held
    split
    · exact Held.held_of_kept rfl rfl rfl rfl
    · exact Held.held_refl _

theorem counted_lose_channel (w : World) (channel : Nat) :
    Counted w (_mcd_dispatch_operation_lose_channel w channel) := by
  have hs : ∀ x : World, Counted x (lose_channel_signal x channel) := by
    intro x
    unfold lose_channel_signal
    split
    · exact Counted.counted_refl x
    · split
      · exact Counted.of_idle rfl rfl (Sends.sends_of_log rfl)
      · exact (held_emit_channel_lost x channel _).counted
  unfold _mcd_dispatch_operation_lose_channel
  split
  · dsimp only
    have h1 : Counted w (lose_channel_signal
        { w with priv := { w.priv with
            channels := w.priv.channels.erase channel } } channel) :=
      (Counted.of_idle rfl rfl (Sends.sends_of_log rfl) :
        Counted w { w with priv := { w.priv with
            channels := w.priv.channels.erase channel } }).counted_trans
        (hs _)
    split
    · exact h1
    · split
      · exact h1.counted_trans (held_finish _).counted
      · exact h1
  · exact Counted.counted_refl w

theorem counted_channel_aborted_cb (w : World) (channel : Nat) :
    Counted w (mcd_dispatch_operation_channel_aborted_cb w channel) := by
  unfold mcd_dispatch_operation_channel_aborted_cb
  refine Counted.counted_trans ?_ (counted_lose_channel _ channel)
  split
  · exact Counted.counted_refl w
  · split
    · exact Counted.of_idle rfl rfl (Sends.sends_of_log rfl)
    · exact Counted.counted_refl w

/-- What a loop over the registry keeps while `wants_to_finish` is not set. -/
theorem counted_foldl (f : World → McdClientProxy → World)
    (hf : ∀ w c, w.priv.wants_to_finish = false →
      (f w c).priv.wants_to_finish = false ∧ Counted w (f w c) ∧
        w.priv.ado_pending ≤ (f w c).priv.ado_pending)
    (l : List McdClientProxy) :
    ∀ w : World, w.priv.wants_to_finish = false →
      (l.foldl f w).priv.wants_to_finish = false ∧ Counted w (l.foldl f w) ∧
        w.priv.ado_pending ≤ (l.foldl f w).priv.ado_pending := by
  induction l with
  | nil => intro w h; exact ⟨h, Counted.counted_refl w, Nat.le_refl _⟩
  | cons c l ih =>
    intro w h
    obtain ⟨a1, a2, a3⟩ := hf w c h
    obtain ⟨b1, b2, b3⟩ := ih (f w c) a1
    exact ⟨b1, a2.counted_trans b2, Nat.le_trans a3 b3⟩

theorem counted_run_observers_client (w : World) (client : McdClientProxy)
    (h : w.priv.wants_to_finish = false) :
    (run_observers_client w client).priv.wants_to_finish = false ∧
      Counted w (run_observers_client w client) ∧
      w.priv.ado_pending ≤ (run_observers_client w client).priv.ado_pending := by
  have hid : w.priv.wants_to_finish = false ∧ Counted w w ∧
      w.priv.ado_pending ≤ w.priv.ado_pending :=
    ⟨h, Counted.counted_refl w, Nat.le_refl _⟩
  unfold run_observers_client
  split
  · exact hid
  · split
    · exact hid
    · split
      · exact ⟨h, Counted.of_idle rfl rfl (Sends.sends_of_log rfl), Nat.le_refl _⟩
      · exact hid
      · dsimp only
        unfold _mcd_dispatch_operation_inc_observers_pending
        rw [if_neg (by simp [h])]
        refine ⟨h, ⟨?_, ?_⟩, Nat.le_refl _⟩
        · simp [emit, observe_channels_calls, List.countP_append,
            Effect.is_observe_channels]
          omega
        · simp [emit, add_dispatch_operation_calls, List.countP_append,
            Effect.is_add_dispatch_operation]

theorem counted_run_approvers_client (w : World) (client : McdClientProxy)
    (h : w.priv.wants_to_finish = false) :
    (run_approvers_client w client).priv.wants_to_finish = false ∧
      Counted w (run_approvers_client w client) ∧
      w.priv.ado_pending ≤ (run_approvers_client w client).priv.ado_pending := by
  have hid : w.priv.wants_to_finish = false ∧ Counted w w ∧
      w.priv.ado_pending ≤ w.priv.ado_pending :=
    ⟨h, Counted.counted_refl w, Nat.le_refl _⟩
  unfold run_approvers_client
  split
  · exact hid
  · split
    · exact hid
    · split
      · exact ⟨h, Counted.of_idle rfl rfl (Sends.sends_of_log rfl), Nat.le_refl _⟩
      · exact hid
      · dsimp only
        unfold _mcd_dispatch_operation_inc_ado_pending
        rw [if_neg (by simp [h])]
        refine ⟨h, ⟨?_, ?_⟩, Nat.le_succ _⟩
        · simp [emit, observe_channels_calls, List.countP_append,
            Effect.is_observe_channels]
        · simp [emit, add_dispatch_operation_calls, List.countP_append,
            Effect.is_add_dispatch_operation]
          omega

theorem counted_run_approvers (w : World) (h : w.priv.wants_to_finish = false)
    (hc : (_mcd_dispatch_operation_run_approvers w).crashed = false) :
    Counted w (_mcd_dispatch_operation_run_approvers w) := by
  unfold _mcd_dispatch_operation_run_approvers at hc ⊢
  dsimp only at hc ⊢
  have h0 : _mcd_dispatch_operation_inc_ado_pending w =
      { w with priv := { w.priv with ado_pending := w.priv.ado_pending + 1 } } := by
    unfold _mcd_dispatch_operation_inc_ado_pending
    rw [if_neg (by simp [h])]
  rw [h0] at hc ⊢
  dsimp only at hc ⊢
  have hfold := counted_foldl run_approvers_client
    counted_run_approvers_client w.client_registry
    { w with priv := { w.priv with ado_pending := w.priv.ado_pending + 1 } } h
  generalize (w.client_registry.foldl run_approvers_client
    { w with priv := { w.priv with ado_pending := w.priv.ado_pending + 1 } }) = X
    at hc hfold ⊢
  obtain ⟨_, ⟨d1, d2⟩, a3⟩ := hfold
  change X.priv.observers_pending + observe_channels_calls w.log =
    w.priv.observers_pending + observe_channels_calls X.log at d1
  change X.priv.ado_pending + add_dispatch_operation_calls w.log =
    w.priv.ado_pending + 1 + add_dispatch_operation_calls X.log at d2
  change w.priv.ado_pending + 1 ≤ X.priv.ado_pending at a3
  split
  · rename_i hcr
    rw [if_pos hcr] at hc
    rw [hcr] at hc
    cases hc
  · obtain ⟨b1, b2, b3⟩ := dec_ado_pending_counts X (by omega)
    obtain ⟨c1, c2⟩ := calls_of_sends b3
    refine ⟨?_, ?_⟩
    · rw [b2, c1]; exact d1
    · rw [c2]; omega

theorem counted_run_clients (w : World) (h : w.priv.wants_to_finish = false)
    (hc : (_mcd_dispatch_operation_run_clients w).crashed = false) :
    Counted w (_mcd_dispatch_operation_run_clients w) := by
  unfold _mcd_dispatch_operation_run_clients at hc ⊢
  dsimp only at hc ⊢
  obtain ⟨a1, a2, _⟩ := counted_foldl run_observers_client
    counted_run_observers_client w.client_registry w h
  have a1 : (_mcd_dispatch_operation_run_observers w).priv.wants_to_finish =
      false := a1
  have a2 : Counted w (_mcd_dispatch_operation_run_observers w) := a2
  split
  · exact a2
  · rename_i h1
    rw [if_neg h1] at hc
    have hb : Held (_mcd_dispatch_operation_run_observers w)
        (run_clients_bypass (_mcd_dispatch_operation_run_observers w)) ∧
        (run_clients_bypass
          (_mcd_dispatch_operation_run_observers w)).priv.wants_to_finish =
            false := by
      unfold run_clients_bypass
      split
      · exact ⟨(inner_set_approved _).inner_held,
          (inner_set_approved _).toFrame.wants_to_finish.trans a1⟩
      · exact ⟨Held.held_refl _, a1⟩
    have h2 : (run_clients_approvers
          (_mcd_dispatch_operation_run_observers w)).crashed = false →
        Counted w
          (run_clients_approvers (_mcd_dispatch_operation_run_observers w)) := by
      intro hcr
      unfold run_clients_approvers at hcr ⊢
      split
      · rename_i hn
        rw [if_pos hn] at hcr
        dsimp only at hcr ⊢
        split
        · rename_i hna
          rw [if_pos hna] at hcr
          exact (a2.counted_trans hb.1.counted).counted_trans
            (counted_run_approvers _ hb.2 hcr)
        · exact a2.counted_trans hb.1.counted
      · exact a2
    split
    · rename_i h3
      rw [if_pos h3] at hc
      rw [h3] at hc
      cases hc
    · rename_i h3
      have h3b : (run_clients_approvers
          (_mcd_dispatch_operation_run_observers w)).crashed = false := by
        cases hx : (run_clients_approvers
          (_mcd_dispatch_operation_run_observers w)).crashed
        · rfl
        · exact absurd hx h3
      refine ((h2 h3b).counted_trans ?_).counted_trans
        (inner_check_client_locks _).inner_held.counted
      exact Counted.of_idle rfl rfl (Sends.sends_of_log rfl)

theorem Counted.keeps {w1 w2 : World} (h : Counted w1 w2) {ro ra : Nat}
    (hm : locks_match w1 ro ra) : locks_match w2 ro ra := by
  obtain ⟨a1, a2⟩ := h
  obtain ⟨b1, b2⟩ := hm
  exact ⟨by omega, by omega⟩

theorem locks_match_step (valid_bus_name : String → Bool) (w : World)
    (e : Event) (es : List Event) (ro ra : Nat) (hm : locks_match w ro ra)
    (ha : early_calls_answered valid_bus_name w ro ra (e :: es))
    (hc : (step valid_bus_name w e).crashed = false) :
    locks_match (step valid_bus_name w e)
        (ro + [e].countP Event.is_observe_channels_reply)
        (ra + [e].countP Event.is_add_dispatch_operation_reply) ∧
      early_calls_answered valid_bus_name (step valid_bus_name w e)
        (ro + [e].countP Event.is_observe_channels_reply)
        (ra + [e].countP Event.is_add_dispatch_operation_reply) es := by
  have hw : w.crashed = false := by
    cases hx : w.crashed
    · rfl
    · rw [step_crashed valid_bus_name w e hx, hx] at hc; cases hc
  cases e with
  | run_clients =>
    obtain ⟨h1, h2⟩ : w.priv.wants_to_finish = false ∧
        early_calls_answered valid_bus_name
          (step valid_bus_name w Event.run_clients) ro ra es := ha
    refine ⟨?_, h2⟩
    simp only [step, hw, Bool.false_eq_true, if_false] at hc ⊢
    exact (counted_run_clients w h1 hc).keeps hm
  | observe_channels_reply error =>
    obtain ⟨h1, h2⟩ : ro < observe_channels_calls w.log ∧
        early_calls_answered valid_bus_name
          (step valid_bus_name w (Event.observe_channels_reply error))
          (ro + 1) ra es := ha
    refine ⟨?_, h2⟩
    simp only [step, hw, Bool.false_eq_true, if_false, observe_channels_cb]
    obtain ⟨m1, m2⟩ := hm
    obtain ⟨a1, a2, a3⟩ := dec_observers_pending_counts w (by omega)
    obtain ⟨c1, c2⟩ := calls_of_sends a3
    refine ⟨?_, ?_⟩
    · rw [c1]
      simp only [List.countP_cons, List.countP_nil,
        Event.is_observe_channels_reply, if_true, Nat.zero_add]
      omega
    · rw [c2, a2]
      simpa [Event.is_add_dispatch_operation_reply] using m2
  | add_dispatch_operation_reply error =>
    obtain ⟨h1, h2⟩ : ra < add_dispatch_operation_calls w.log ∧
        early_calls_answered valid_bus_name
          (step valid_bus_name w (Event.add_dispatch_operation_reply error))
          ro (ra + 1) es := ha
    refine ⟨?_, h2⟩
    simp only [step, hw, Bool.false_eq_true, if_false, add_dispatch_operation_cb]
    obtain ⟨m1, m2⟩ := hm
    have key : ∀ x : World, x.priv.ado_pending = w.priv.ado_pending →
        x.priv.observers_pending = w.priv.observers_pending → x.log = w.log →
        locks_match (_mcd_dispatch_operation_dec_ado_pending x)
          (ro + [Event.add_dispatch_operation_reply error].countP
            Event.is_observe_channels_reply)
          (ra + [Event.add_dispatch_operation_reply error].countP
            Event.is_add_dispatch_operation_reply) := by
      intro x x1 x2 x3
      obtain ⟨a1, a2, a3⟩ := dec_ado_pending_counts x (by omega)
      obtain ⟨c1, c2⟩ := calls_of_sends a3
      refine ⟨?_, ?_⟩
      · rw [c1, a2, x2, x3]
        simpa [Event.is_observe_channels_reply] using m1
      · rw [c2, x3]
        simp only [List.countP_cons, List.countP_nil,
          Event.is_add_dispatch_operation_reply, if_true, Nat.zero_add]
        omega
    apply key
    · split
      · rfl
      · split <;> rfl
    · split
      · rfl
      · split <;> rfl
    · split
      · rfl
      · split <;> rfl
  | handle_channels_reply client error =>
    refine ⟨?_, ha⟩
    simp only [step, hw, Bool.false_eq_true, if_false]
    exact (held_handle_channels_cb w client error).counted.keeps hm
  | handle_with handler_name context now =>
    refine ⟨?_, ha⟩
    simp only [step, hw, Bool.false_eq_true, if_false]
    exact (held_handle_with valid_bus_name w _ _ _).counted.keeps hm
  | claim sender context =>
    refine ⟨?_, ha⟩
    simp only [step, hw, Bool.false_eq_true, if_false]
    exact (held_claim w _ _).counted.keeps hm
  | approve =>
    refine ⟨?_, ha⟩
    simp only [step, hw, Bool.false_eq_true, if_false]
    exact (held_approve valid_bus_name w).counted.keeps hm
  | channel_aborted channel =>
    refine ⟨?_, ha⟩
    simp only [step, hw, Bool.false_eq_true, if_false]
    exact (counted_channel_aborted_cb w channel).keeps hm
  | registry_changed clients =>
    refine ⟨?_, ha⟩
    simp only [step, hw, Bool.false_eq_true, if_false]
    exact hm
  | channel_changed channel c =>
    refine ⟨?_, ha⟩
    simp only [step, hw, Bool.false_eq_true, if_false]
    exact hm

/-- The client locks are matched to the calls in flight, as long as
`_mcd_dispatch_operation_run_clients` runs before `wants_to_finish` is set:
in every state that the events lead to without an abort of the process,
`observers_pending` is the number of `ObserveChannels` calls sent minus the
number of replies to them, and `ado_pending` is the number of
`AddDispatchOperation` calls sent minus the number of replies to them. -/
theorem locks_match_run (valid_bus_name : String → Bool) (es : List Event) :
    ∀ (w : World) (ro ra : Nat), locks_match w ro ra →
      early_calls_answered valid_bus_name w ro ra es →
      (run valid_bus_name w es).crashed = false →
      locks_match (run valid_bus_name w es)
        (ro + es.countP Event.is_observe_channels_reply)
        (ra + es.countP Event.is_add_dispatch_operation_reply) := by
  induction es with
  | nil => intro w ro ra hm _ _; simpa using hm
  | cons e es ih =>
    intro w ro ra hm ha hc
    have hc1 : (step valid_bus_name w e).crashed = false := by
      cases hx : (step valid_bus_name w e).crashed
      · rfl
      · have : run valid_bus_name w (e :: es) = step valid_bus_name w e :=
          run_crashed valid_bus_name _ es hx
        rw [this, hx] at hc; cases hc
    obtain ⟨h1, h2⟩ := locks_match_step valid_bus_name w e es ro ra hm ha hc1
    have := ih _ _ _ h1 h2 hc
    rw [List.countP_cons Event.is_observe_channels_reply,
      List.countP_cons Event.is_add_dispatch_operation_reply]
    simp only [List.countP_cons, List.countP_nil, Nat.zero_add,
      Nat.add_assoc] at this
    rw [Nat.add_comm (es.countP Event.is_observe_channels_reply),
      Nat.add_comm (es.countP Event.is_add_dispatch_operation_reply)]
    exact this

/-- The invariant at work: the observer and the approver are called, the
observer replies, and one `AddDispatchOperation` call is left in flight. -/
theorem locks_match_run_example :
    locks_match
      (run (fun _ => true) example_world_clients
        [Event.run_clients, Event.observe_channels_reply false]) 1 0 ∧
      (run (fun _ => true) example_world_clients
        [Event.run_clients, Event.observe_channels_reply false]).priv.ado_pending
        = 1 :=
  ⟨locks_match_run (fun _ => true)
      [Event.run_clients, Event.observe_channels_reply false]
      example_world_clients 0 0 ⟨rfl, rfl⟩
      ⟨rfl, ⟨by decide, trivial⟩⟩ (by decide),
    by decide⟩

/-! ## HandleWith and Claim, one after the other -/

end MC
